import Mathlib

/-!
# powerd charging logic: battery-presence machine and charging-safety machine

A shallow embedding of `src/powerd/charging/charging_logic.c`,
`src/powerd/charging/batterypoll.c`, the parts of `battery.c` and `charger.c`
they call, and the wait functions of `src/libpowerd/wait.c`.

* Process-wide C variables (`gCurrentChargeState`, `battery_ctia_params`, the
  function-local statics) are the fields of `World`, passed explicitly.
* Calls into the nyx hardware library are answered by a `Hardware` value.  Every
  query is indexed by a call counter (`World.clock`), so successive reads inside
  one dispatch may differ; `Hardware.fixed` is the hardware whose answers do not
  change.
* Outward calls (hardware enable/disable, the shutdown request, status signals)
  and every assignment to `current_state` are appended to `World.log`, so their
  order can be stated.  POWERDLOG output is not modelled.
* The two `do ... while` loops take a step budget; `Outcome.running` is the
  world reached when the budget ran out inside the loop.
* C `int` is `Int`; the counters are far from the 32-bit range in every run
  considered, and the one `int` product that can leave the range (`WaitObjectWait`)
  is wrapped to 32 bits explicitly.
* C `double`/`float` values are rationals, and each `double` operation is the
  exact operation followed by the rounding function of `DoubleArith` (NaN and
  infinities are not modelled).
-/

namespace Powerd

/-! ## Types -/

/-- Modelled from the spec: the event bitmask `nyx_charger_event_t` is declared in
the nyx library header, which is outside the repository.  The spec describes it
as independent signals of which several may be set in one dispatch; each field
is the truth value of `event & NYX_...` for that signal. -/
structure nyx_charger_event_t where
  NYX_CHARGER_CONNECTED : Bool
  NYX_CHARGER_DISCONNECTED : Bool
  NYX_CHARGE_COMPLETE : Bool
  NYX_CHARGE_RESTART : Bool
  NYX_BATTERY_PRESENT : Bool
  NYX_BATTERY_ABSENT : Bool
  NYX_BATTERY_CRITICAL_VOLTAGE : Bool
  NYX_BATTERY_TEMPERATURE_LIMIT : Bool
deriving DecidableEq, Repr

/-- Modelled from the spec: `NYX_NO_NEW_EVENT` (nyx library header), the idle
tick that carries no signal. -/
def NYX_NO_NEW_EVENT : nyx_charger_event_t :=
  { NYX_CHARGER_CONNECTED := false, NYX_CHARGER_DISCONNECTED := false,
    NYX_CHARGE_COMPLETE := false, NYX_CHARGE_RESTART := false,
    NYX_BATTERY_PRESENT := false, NYX_BATTERY_ABSENT := false,
    NYX_BATTERY_CRITICAL_VOLTAGE := false, NYX_BATTERY_TEMPERATURE_LIMIT := false }

/-- Modelled from the spec: `nyx_battery_status_t` (nyx library header), the
battery reading; only the fields the repository reads are kept. -/
structure nyx_battery_status_t where
  present : Bool
  percentage : Int
  temperature : Int
  current : Int
  voltage : Int
  avg_current : Int
  capacity : ℚ
  capacity_raw : ℚ
  capacity_full40 : ℚ
  age : ℚ
deriving DecidableEq, Repr

/-- Modelled from the spec: `nyx_battery_ctia_t` (nyx library header), the CTIA
parameter table; only the fields the repository reads are kept. -/
structure nyx_battery_ctia_t where
  battery_crit_max_temp : Int
  charge_min_temp_c : Int
  charge_max_temp_c : Int
  skip_battery_authentication : Bool
deriving DecidableEq, Repr

/-- Modelled from the spec: `nyx_charger_status_t` (nyx library header), the
charger status held in `currStatus`. -/
structure nyx_charger_status_t where
  connected : Int
  powered : Int
  is_charging : Bool
  charger_max_current : Int
deriving DecidableEq, Repr

/-- The configuration `chargeConfig_t` of `config.h` (fields read by the charging code). -/
structure chargeConfig_t where
  skip_battery_check : Bool
  disable_overcharge_check : Bool
  fake_battery : Bool
  disable_charging : Bool
  skip_battery_authentication : Bool
  maxtemp : Int
deriving DecidableEq, Repr

/-- The enum of `charging_logic.h`; `ChargeState` is `int` there and
`kChargeStateLast` is the pseudo-state meaning "no transition". -/
inductive ChargeState where
  | kChargeStateIdle
  | kChargeStateCharging
  | kChargeStateFault
  | kChargeStateChargeComplete
  | kChargeStateShutdown
  | kChargeStateShutdownWait
  | kChargeStateLast
deriving DecidableEq, Repr

/-- The enum `ChargingEnable` of `charging_logic.c`. -/
inductive ChargingEnable where
  | CHARGING_ENABLED
  | CHARGING_DISABLED
  | CHARGING_NOTSET
deriving DecidableEq, Repr

/-- The enum of `batterypoll.c`; `kBatteryLast` means "no transition". -/
inductive BatteryState where
  | kBatteryRemoved
  | kBatteryDebounce
  | kBatteryInserted
  | kBatteryAuthentic
  | kBatteryNotAuthentic
  | kBatteryLast
deriving DecidableEq, Repr

/-- Observable actions, in the order the code performs them. -/
inductive Effect where
  /-- An assignment `gCurrentChargeState.current_state = s`. -/
  | current_state (s : ChargeState)
  /-- The guard of `_JumpToShutdownState` passed: a force-jump with this reason. -/
  | jump (reason : String)
  /-- `gCurrentChargeState.state_node.function(event)` ran the function of table entry `s`. -/
  | call_state (s : ChargeState)
  /-- The presence machine ran the function of table entry `s`. -/
  | call_battery_state (s : BatteryState)
  /-- The shutdown trigger `MachineShutdown(reason)`. -/
  | MachineShutdown (reason : String)
  | write_console
  /-- The hardware call `nyx_charger_enable_charging`; `ok` is `err == NYX_ERROR_NONE`. -/
  | nyx_charger_enable_charging (ok : Bool)
  | nyx_charger_disable_charging
  | nyx_battery_set_wakeup_percentage (value : Int)
  /-- The status signal, with the reading it was formatted from. -/
  | sendBatteryStatus (status : nyx_battery_status_t)
  | battery_search (search : Bool)
deriving DecidableEq, Repr

/-- C `double` arithmetic: an operation is the exact rational operation followed
by `round`; `c1_2` and `c1_1` are the values of the literals `1.2` and `1.1`. -/
structure DoubleArith where
  round : ℚ → ℚ
  c1_2 : ℚ
  c1_1 : ℚ

/-- Arithmetic without rounding error. -/
def exactArith : DoubleArith :=
  { round := fun q => q, c1_2 := 6 / 5, c1_1 := 11 / 10 }

/-- The hardware behind the nyx calls.  The `Nat` argument is the call counter. -/
structure Hardware where
  /-- Whether `BatteryInit` opened a battery device (`battDev != NULL`). -/
  battDev : Bool
  /-- Result of `nyx_battery_query_battery_status`; `none` is an error return. -/
  nyx_battery_query_battery_status : Nat → Option nyx_battery_status_t
  /-- Content of an uninitialised `nyx_battery_status_t` local. -/
  uninitialized : Nat → nyx_battery_status_t
  nyx_battery_authenticate_battery : Nat → Bool
  /-- Whether `nyx_charger_enable_charging` returns `NYX_ERROR_NONE`. -/
  nyx_charger_enable_charging : Nat → Bool
  /-- Result of `nyx_battery_get_ctia_parameters`; `none` is an error return. -/
  nyx_battery_get_ctia_parameters : Option nyx_battery_ctia_t
  /-- The global `currStatus` of `charger.c`, updated between dispatches only. -/
  currStatus : nyx_charger_status_t
  fpu : DoubleArith

/-- Hardware whose answers are the same at every call. -/
def Hardware.fixed (battDev : Bool) (reading : Option nyx_battery_status_t)
    (garbage : nyx_battery_status_t) (authentic enable_ok : Bool)
    (ctia : Option nyx_battery_ctia_t) (currStatus : nyx_charger_status_t)
    (fpu : DoubleArith) : Hardware :=
  { battDev := battDev
    nyx_battery_query_battery_status := fun _ => reading
    uninitialized := fun _ => garbage
    nyx_battery_authenticate_battery := fun _ => authentic
    nyx_charger_enable_charging := fun _ => enable_ok
    nyx_battery_get_ctia_parameters := ctia
    currStatus := currStatus
    fpu := fpu }

/-- The struct `gCurrentChargeState` of `charging_logic.c`.  `state_node` holds
the index of the `kStateMachine` entry that was copied into it. -/
structure ChargeRuntime where
  charging_enabled : ChargingEnable
  max_charging_mA : Int
  start_charging : Int × Int
  stop_charging_sec : Int
  taper_time_start : List Int
  current_state : ChargeState
  state_node : ChargeState
  shutdown_reason : String
  chargerTimeoutSource : Int
deriving DecidableEq, Repr

/-- All mutable state of the charging code. -/
structure World where
  gCurrentChargeState : ChargeRuntime
  battery_ctia_params : nyx_battery_ctia_t
  /-- Static of `BatteryOverchargeFault`. -/
  overcharge_diag_state : Int
  /-- Static of `BatteryOverchargeFault`. -/
  overcharge_count : Int
  /-- The static `state_node` of `batterypoll.c` (index of the copied table entry). -/
  state_node : BatteryState
  /-- Static of `StateDebounce`. -/
  debounce_bad : Int
  discharge_count : Int
  /-- Static `last` of `sample_is_new`. -/
  last : nyx_battery_status_t
  /-- Call counter: the index at which the hardware oracle is asked next. -/
  clock : Nat
  log : List Effect
deriving DecidableEq, Repr

/-- Result of running code that contains a loop under a step budget. -/
inductive Outcome where
  /-- The call returned in this world. -/
  | returned (w : World)
  /-- The budget ran out inside a loop; this world had been reached. -/
  | running (w : World)
deriving DecidableEq, Repr

open ChargeState ChargingEnable BatteryState

/-- The world in which an outcome stands. -/
def Outcome.world : Outcome → World
  | .returned w => w
  | .running w => w

/-- Sequencing: the continuation runs only if the first part returned. -/
def Outcome.bind (o : Outcome) (f : World → Outcome) : Outcome :=
  match o with
  | .returned w => f w
  | .running w => .running w

/-- Whether the call returned. -/
def Outcome.isReturned : Outcome → Bool
  | .returned _ => true
  | .running _ => false

/-- Record an action. -/
def emit (e : Effect) (w : World) : World :=
  { w with log := w.log ++ [e] }

/-- Advance the call counter of the hardware oracle. -/
def tick (w : World) : World :=
  { w with clock := w.clock + 1 }

/-! ## battery.c -/

/-- The function `battery_read`: without a device, or when the query fails, the caller's
buffer `status` is left as it was.  Every call advances the call counter, so the next
uninitialised buffer is a fresh one. -/
def battery_read (hw : Hardware) (status : nyx_battery_status_t) (w : World) :
    nyx_battery_status_t × World :=
  if !hw.battDev then (status, tick w)
  else
    match hw.nyx_battery_query_battery_status w.clock with
    | some r => (r, tick w)
    | none => (status, tick w)

/-- The function `battery_get_ctia_params`. -/
def battery_get_ctia_params (hw : Hardware) (w : World) : World :=
  if !hw.battDev then w
  else
    match hw.nyx_battery_get_ctia_parameters with
    | some p => { w with battery_ctia_params := p }
    | none => w

/-- The function `battery_authenticate`. -/
def battery_authenticate (hw : Hardware) (w : World) : Bool × World :=
  if w.battery_ctia_params.skip_battery_authentication then (true, w)
  else (hw.nyx_battery_authenticate_battery w.clock, tick w)

/-- The function `sendBatteryStatus`: its own hardware query, then the signal. -/
def sendBatteryStatus (hw : Hardware) (w : World) : World :=
  if !hw.battDev then w
  else
    let status :=
      match hw.nyx_battery_query_battery_status w.clock with
      | some r => r
      | none => hw.uninitialized w.clock
    emit (.sendBatteryStatus status) (tick w)

/-- The array `battlowpercent` of `battery_set_wakeup_percentage`. -/
def battlowpercent : List Int := [20, 13, 11, 9, 6, 5, 4, 3, 2, 1, 0]

/-- The `for` loop of `battery_set_wakeup_percentage` over the rest of the array:
stop at the entry 0, break at the first entry below `percentage`. -/
def wakeup_scan : List Int → Int → Int → Int
  | [], _, nextchk => nextchk
  | x :: rest, percentage, nextchk =>
    if x = 0 then nextchk
    else if percentage > x then x
    else wakeup_scan rest percentage nextchk

/-- The value `nextchk` computed by `battery_set_wakeup_percentage`. -/
def wakeup_nextchk (charging suspend : Bool) (percentage : Int) : Int :=
  if charging then 0
  else if suspend then wakeup_scan battlowpercent percentage 0
  else percentage

/-- The function `battery_set_wakeup_percentage`. -/
def battery_set_wakeup_percentage (hw : Hardware) (charging suspend : Bool) (w : World) : World :=
  if !hw.battDev then w
  else
    let (batt, w) := battery_read hw (hw.uninitialized w.clock) w
    let w := sendBatteryStatus hw w
    emit (.nyx_battery_set_wakeup_percentage (wakeup_nextchk charging suspend batt.percentage)) w

/-- The function `battery_search`. -/
def battery_search (search : Bool) (w : World) : World :=
  emit (.battery_search search) w

/-! ## charger.c -/

/-- The function `ChargerIsConnected`. -/
def ChargerIsConnected (hw : Hardware) : Bool :=
  hw.currStatus.connected != 0

/-- The function `ChargerIsCharging`. -/
def ChargerIsCharging (hw : Hardware) : Bool :=
  hw.currStatus.is_charging

/-- The function `chargerEnableCharging`; the first component is the return value. -/
def chargerEnableCharging (hw : Hardware) (w : World) : Bool × World :=
  let ok := hw.nyx_charger_enable_charging w.clock
  let w := emit (.nyx_charger_enable_charging ok) (tick w)
  if !ok then (false, w)
  else
    let w := { w with gCurrentChargeState :=
      { w.gCurrentChargeState with max_charging_mA := hw.currStatus.charger_max_current } }
    (true, battery_set_wakeup_percentage hw true false w)

/-- The function `chargerDisableCharging` (it returns true always). -/
def chargerDisableCharging (hw : Hardware) (w : World) : World :=
  let w := emit .nyx_charger_disable_charging w
  battery_set_wakeup_percentage hw false false w

/-! ## batterypoll.c -/

/-- The macro `BAD_SAMPLES_THRESHOLD`. -/
def BAD_SAMPLES_THRESHOLD : Int := 3

/-- The macro `MAX_DISCHARGE_COUNT`. -/
def MAX_DISCHARGE_COUNT : Int := 25

/-- The function `BatteryIsAuthentic`. -/
def BatteryIsAuthentic (w : World) : Bool :=
  w.state_node == kBatteryAuthentic

/-- The function `BatteryIsPresent`. -/
def BatteryIsPresent (w : World) : Bool :=
  w.state_node != kBatteryRemoved

/-- The function `sample_is_new`. -/
def sample_is_new (state : nyx_battery_status_t) (w : World) : Bool × World :=
  let percentChange := decide (|state.percentage - w.last.percentage| > 0)
  let tempChange := decide (|state.temperature - w.last.temperature| > 1)
  if percentChange || tempChange then (true, { w with last := state })
  else (false, w)

/-- The function `StateDebounce`. -/
def StateDebounce (hw : Hardware) (w : World) : BatteryState × World :=
  let (battery, w) := battery_read hw (hw.uninitialized w.clock) w
  if battery.present then
    (kBatteryInserted, { w with debounce_bad := 0 })
  else
    let w := { w with debounce_bad := w.debounce_bad + 1 }
    if w.debounce_bad > BAD_SAMPLES_THRESHOLD then
      (kBatteryRemoved, battery_search true w)
    else (kBatteryLast, w)

/-- The function `StateRemoved`. -/
def StateRemoved (hw : Hardware) (w : World) : BatteryState × World :=
  let (battery, w) := battery_read hw (hw.uninitialized w.clock) w
  if battery.present then (kBatteryInserted, w)
  else (kBatteryLast, w)

/-- The function `StateInserted`. -/
def StateInserted (hw : Hardware) (w : World) : BatteryState × World :=
  let w := battery_search false w
  let (ok, w) := battery_authenticate hw w
  if ok then (kBatteryAuthentic, w)
  else (kBatteryNotAuthentic, w)

/-- The function `StateAuthenticOrNot`. -/
def StateAuthenticOrNot (hw : Hardware) (w : World) : BatteryState × World :=
  let (battery, w) := battery_read hw (hw.uninitialized w.clock) w
  let w :=
    if ChargerIsCharging hw && decide (battery.current ≤ 0) then
      { w with discharge_count := w.discharge_count + 1 }
    else { w with discharge_count := 0 }
  let w :=
    if w.discharge_count = MAX_DISCHARGE_COUNT then { w with discharge_count := 0 }
    else w
  if !battery.present then (kBatteryDebounce, w)
  else
    let (isNew, w) := sample_is_new battery w
    let w := if isNew then sendBatteryStatus hw w else w
    (kBatteryLast, w)

/-- The function `StateNotAuthentic`. -/
def StateNotAuthentic (hw : Hardware) (w : World) : BatteryState × World :=
  let (ok, w) := battery_authenticate hw w
  if ok then (kBatteryAuthentic, w)
  else StateAuthenticOrNot hw w

/-- The function `StateAuthentic`. -/
def StateAuthentic (hw : Hardware) (w : World) : BatteryState × World :=
  StateAuthenticOrNot hw w

/-- The table `kStateMachine` of `batterypoll.c`: the function stored in entry `s`.
The table has no entry for `kBatteryLast`, and the node never holds it. -/
def batteryStateProc (s : BatteryState) (hw : Hardware) (w : World) : BatteryState × World :=
  match s with
  | kBatteryRemoved => StateRemoved hw w
  | kBatteryDebounce => StateDebounce hw w
  | kBatteryInserted => StateInserted hw w
  | kBatteryAuthentic => StateAuthentic hw w
  | kBatteryNotAuthentic => StateNotAuthentic hw w
  | kBatteryLast => (kBatteryLast, w)

/-- The function `battery_state_iterate`: the `do ... while` loop, at most `fuel` passes. -/
def battery_state_iterate : Nat → Hardware → World → Outcome
  | 0, _, w => .running w
  | fuel + 1, hw, w =>
    let (next_state, w1) :=
      batteryStateProc w.state_node hw (emit (.call_battery_state w.state_node) w)
    if next_state != kBatteryLast then
      battery_state_iterate fuel hw { w1 with state_node := next_state }
    else .returned w1

/-- The function `battery_state_init`. -/
def battery_state_init (w : World) : World :=
  { w with state_node := kBatteryDebounce }

/-- The function `batterypoll_init`. -/
def batterypoll_init (fuel : Nat) (hw : Hardware) (w : World) : Outcome :=
  (battery_state_iterate fuel hw (battery_state_init w)).bind fun w =>
    .returned { w with discharge_count := 0 }

/-! ## charging_logic.c -/

/-- The macro `OVERCHARGE_RETRIES`. -/
def OVERCHARGE_RETRIES : Int := 3

/-- The macro `BATTERY_MAX_TEMPERATURE_C`. -/
def BATTERY_MAX_TEMPERATURE_C : Int := 60

/-- The enum constant `kTaperEnd`. -/
def kTaperEnd : Nat := 2

/-- A `double` multiplication. -/
def DoubleArith.mul (fa : DoubleArith) (a b : ℚ) : ℚ := fa.round (a * b)

/-- A `double` division. -/
def DoubleArith.div (fa : DoubleArith) (a b : ℚ) : ℚ := fa.round (a / b)

/-- The expression `1.2 * (full_mAh * age / 100)` of `BatteryOverchargeFault`. -/
def overcharge_limit (fa : DoubleArith) (state : nyx_battery_status_t) : ℚ :=
  fa.mul fa.c1_2 (fa.div (fa.mul state.capacity_full40 state.age) 100)

/-- The function `ChargeStateReset`. -/
def ChargeStateReset (w : World) : World :=
  { w with gCurrentChargeState :=
    { w.gCurrentChargeState with
      charging_enabled := CHARGING_NOTSET
      start_charging := (0, 0)
      shutdown_reason := ""
      taper_time_start := List.replicate kTaperEnd (-1) } }

/-- The function `TurnChargingOff`; the reason is used for the log message only. -/
def TurnChargingOff (hw : Hardware) (_reason : String) (w : World) : World :=
  if w.gCurrentChargeState.charging_enabled != CHARGING_DISABLED then
    let w := ChargeStateReset w
    let w := chargerDisableCharging hw w
    { w with gCurrentChargeState :=
      { w.gCurrentChargeState with charging_enabled := CHARGING_DISABLED } }
  else w

/-- The function `TurnChargingON`; the first component is the return value. -/
def TurnChargingON (hw : Hardware) (w : World) : Bool × World :=
  let w := { w with gCurrentChargeState :=
    { w.gCurrentChargeState with charging_enabled := CHARGING_ENABLED } }
  chargerEnableCharging hw w

/-- The function `BatteryOverchargeFault`; the first component is the return value. -/
def BatteryOverchargeFault (fa : DoubleArith) (state : nyx_battery_status_t) (w : World) :
    Bool × World :=
  let raw_mAh := state.capacity_raw
  let full_mAh := state.capacity_full40
  let age := state.age
  let new_diag_state : Int :=
    if raw_mAh ≥ fa.mul fa.c1_2 (fa.div (fa.mul full_mAh age) 100) then 120
    else if raw_mAh ≥ fa.mul fa.c1_1 (fa.div (fa.mul full_mAh age) 100) then 110
    else if raw_mAh ≥ fa.mul 1 (fa.div (fa.mul full_mAh age) 100) then 100
    else 0
  let w :=
    if new_diag_state ≠ w.overcharge_diag_state then
      { w with overcharge_diag_state := new_diag_state }
    else w
  let limit := fa.mul fa.c1_2 (fa.div (fa.mul full_mAh age) 100)
  let overcharge := decide (raw_mAh > limit)
  let w :=
    if overcharge then { w with overcharge_count := w.overcharge_count + 1 }
    else { w with overcharge_count := 0 }
  (overcharge && decide (w.overcharge_count > OVERCHARGE_RETRIES), w)

/-- The function `ChargeStateInit`. -/
def ChargeStateInit (hw : Hardware) (w : World) : World :=
  let w := emit (.current_state kChargeStateIdle)
    { w with gCurrentChargeState :=
      { w.gCurrentChargeState with
        current_state := kChargeStateIdle, state_node := kChargeStateIdle } }
  let w := ChargeStateReset w
  battery_get_ctia_params hw w

/-- The function `_JumpToShutdownState`. -/
def _JumpToShutdownState (reason : String) (w : World) : World :=
  if w.gCurrentChargeState.current_state != kChargeStateShutdown &&
      w.gCurrentChargeState.current_state != kChargeStateShutdownWait then
    let next_state := kChargeStateShutdown
    emit (.current_state next_state) (emit (.jump reason)
      { w with gCurrentChargeState :=
        { w.gCurrentChargeState with
          shutdown_reason := reason, current_state := next_state, state_node := next_state } })
  else w

/-- The function `MachineShutdown`: the request sent on the bus. -/
def MachineShutdown (reason : String) (w : World) : World :=
  emit (.MachineShutdown reason) w

/-- The function `CheckCriticalLevels`; the first component is the return value. -/
def CheckCriticalLevels (cfg : chargeConfig_t) (w : World) : Bool × World :=
  if cfg.skip_battery_check then (false, w)
  else if !BatteryIsPresent w then (true, _JumpToShutdownState "battery removed." w)
  else (false, w)

/-- The function `StateIdle`. -/
def StateIdle (cfg : chargeConfig_t) (hw : Hardware) (event : nyx_charger_event_t) (w : World) :
    ChargeState × World :=
  let w := TurnChargingOff hw "charge state is idle" w
  if !BatteryIsAuthentic w && !cfg.fake_battery then (kChargeStateLast, w)
  else if event.NYX_CHARGER_CONNECTED then (kChargeStateCharging, w)
  else (kChargeStateLast, w)

/-- The function `StateShutdown`.  The test `!shutdown_reason && !strlen(shutdown_reason)`
needs a null pointer to pass; the field holds `""` or a string literal from `ChargeStateReset`
on, so `default_reason` is not substituted. -/
def StateShutdown (hw : Hardware) (w : World) : ChargeState × World :=
  let (_, w) := battery_read hw (hw.uninitialized w.clock) w
  let w := emit .write_console w
  let w := MachineShutdown w.gCurrentChargeState.shutdown_reason w
  (kChargeStateShutdownWait, w)

/-- The function `StateShutdownWait`. -/
def StateShutdownWait (w : World) : ChargeState × World :=
  (kChargeStateLast, w)

/-- The function `StateCharging`. -/
def StateCharging (cfg : chargeConfig_t) (hw : Hardware) (event : nyx_charger_event_t)
    (w : World) : ChargeState × World :=
  if !ChargerIsConnected hw || !BatteryIsAuthentic w then (kChargeStateIdle, w)
  else if event.NYX_CHARGE_COMPLETE then (kChargeStateChargeComplete, w)
  else if event.NYX_CHARGER_DISCONNECTED || event.NYX_CHARGE_RESTART ||
      event.NYX_BATTERY_TEMPERATURE_LIMIT then (kChargeStateIdle, w)
  else
    let (state, w) := battery_read hw (hw.uninitialized w.clock) w
    let (fault, w) :=
      if cfg.disable_overcharge_check then (false, w)
      else BatteryOverchargeFault hw.fpu state w
    if fault then (kChargeStateFault, w)
    else
      let (ok, w) := TurnChargingON hw w
      if !ok then (kChargeStateIdle, w) else (kChargeStateLast, w)

/-- The function `StateChargeComplete`. -/
def StateChargeComplete (hw : Hardware) (event : nyx_charger_event_t) (w : World) :
    ChargeState × World :=
  let w := TurnChargingOff hw "charge complete" w
  if !ChargerIsConnected hw || event.NYX_CHARGER_DISCONNECTED then (kChargeStateIdle, w)
  else if event.NYX_CHARGE_RESTART then (kChargeStateIdle, w)
  else (kChargeStateLast, w)

/-- The function `StateFault`. -/
def StateFault (hw : Hardware) (w : World) : ChargeState × World :=
  let w := TurnChargingOff hw "charging fault (columbs > 120% ACR)." w
  if !ChargerIsConnected hw || !BatteryIsPresent w then (kChargeStateIdle, w)
  else (kChargeStateLast, w)

/-- The table `kStateMachine` of `charging_logic.c`: the function stored in entry `s`.
The table has `kChargeStateLast` entries, none for `kChargeStateLast` itself, and the
node never holds it. -/
def chargeStateProc (s : ChargeState) (cfg : chargeConfig_t) (hw : Hardware)
    (event : nyx_charger_event_t) (w : World) : ChargeState × World :=
  match s with
  | kChargeStateIdle => StateIdle cfg hw event w
  | kChargeStateCharging => StateCharging cfg hw event w
  | kChargeStateFault => StateFault hw w
  | kChargeStateChargeComplete => StateChargeComplete hw event w
  | kChargeStateShutdown => StateShutdown hw w
  | kChargeStateShutdownWait => StateShutdownWait w
  | kChargeStateLast => (kChargeStateLast, w)

/-- The `do ... while` loop of `ChargeStateIterate`, at most `fuel` passes. -/
def ChargeStateIterate_loop : Nat → chargeConfig_t → Hardware → nyx_charger_event_t →
    World → Outcome
  | 0, _, _, _, w => .running w
  | fuel + 1, cfg, hw, event, w =>
    let (next_state, w1) :=
      chargeStateProc w.gCurrentChargeState.state_node cfg hw event
        (emit (.call_state w.gCurrentChargeState.state_node) w)
    if next_state != kChargeStateLast then
      ChargeStateIterate_loop fuel cfg hw event
        (emit (.current_state next_state)
          { w1 with gCurrentChargeState :=
            { w1.gCurrentChargeState with
              current_state := next_state, state_node := next_state } })
    else .returned w1

/-- The function `ChargeStateIterate`. -/
def ChargeStateIterate (fuel : Nat) (cfg : chargeConfig_t) (hw : Hardware)
    (event : nyx_charger_event_t) (w : World) : Outcome :=
  let (_, w) := battery_read hw (hw.uninitialized w.clock) w
  ChargeStateIterate_loop fuel cfg hw event w

/-- The function `ChargingLogicUpdate`. -/
def ChargingLogicUpdate (fuel : Nat) (cfg : chargeConfig_t) (hw : Hardware)
    (event : nyx_charger_event_t) (w : World) : Outcome :=
  if cfg.skip_battery_check then .returned w
  else
    let (_, w) := battery_read hw (hw.uninitialized w.clock) w
    if cfg.disable_charging then .returned w
    else
      (ChargeStateIterate fuel cfg hw event w).bind fun w =>
        let (critical, w) := CheckCriticalLevels cfg w
        if critical then ChargeStateIterate fuel cfg hw event w
        else .returned w

/-- The function `ChargingLogicResetError`. -/
def ChargingLogicResetError (fuel : Nat) (cfg : chargeConfig_t) (hw : Hardware) (w : World) :
    Outcome :=
  let w := ChargeStateInit hw w
  let (_, w) := battery_read hw (hw.uninitialized w.clock) w
  ChargingLogicUpdate fuel cfg hw NYX_NO_NEW_EVENT w

/-- The function `batterycheck_maxtemp`. -/
def batterycheck_maxtemp (cfg : chargeConfig_t) : Int :=
  if cfg.maxtemp != 0 then cfg.maxtemp else BATTERY_MAX_TEMPERATURE_C

/-- The function `BatteryTemperatureCriticalShutdown`. -/
def BatteryTemperatureCriticalShutdown (cfg : chargeConfig_t) (w : World)
    (batt : nyx_battery_status_t) : Bool :=
  if w.battery_ctia_params.battery_crit_max_temp != 0 then
    decide (batt.temperature ≥ w.battery_ctia_params.battery_crit_max_temp)
  else decide (batt.temperature ≥ batterycheck_maxtemp cfg)

/-- The function `BatteryTemperatureLow`. -/
def BatteryTemperatureLow (w : World) (batt : nyx_battery_status_t) : Bool :=
  if w.battery_ctia_params.charge_min_temp_c != 0 then
    decide (batt.temperature ≤ w.battery_ctia_params.charge_min_temp_c)
  else false

/-- The function `BatteryTemperatureHigh`. -/
def BatteryTemperatureHigh (w : World) (batt : nyx_battery_status_t) : Bool :=
  if w.battery_ctia_params.charge_max_temp_c != 0 then
    decide (batt.temperature ≥ w.battery_ctia_params.charge_max_temp_c)
  else false

/-- First block of `handle_charger_event`: on a battery-present or battery-absent bit,
re-run the presence machine and, in Idle, recompute the wakeup percentage. -/
def handle_charger_event_presence (fuel : Nat) (hw : Hardware) (event : nyx_charger_event_t)
    (w : World) : Outcome :=
  if event.NYX_BATTERY_PRESENT || event.NYX_BATTERY_ABSENT then
    (battery_state_iterate fuel hw w).bind fun w =>
      if w.gCurrentChargeState.current_state = kChargeStateIdle then
        .returned (battery_set_wakeup_percentage hw false false w)
      else .returned w
  else .returned w

/-- Second block of `handle_charger_event`: the critical-voltage rule. -/
def handle_charger_event_voltage (hw : Hardware) (event : nyx_charger_event_t) (w : World) :
    World :=
  if event.NYX_BATTERY_CRITICAL_VOLTAGE then
    if !ChargerIsCharging hw then _JumpToShutdownState "battery voltage below threshold" w
    else w
  else w

/-- Third block of `handle_charger_event`: the temperature-limit rule. -/
def handle_charger_event_temperature (cfg : chargeConfig_t) (hw : Hardware)
    (event : nyx_charger_event_t) (w : World) : World :=
  if event.NYX_BATTERY_TEMPERATURE_LIMIT then
    let (batt, w) := battery_read hw (hw.uninitialized w.clock) w
    if BatteryTemperatureCriticalShutdown cfg w batt then
      _JumpToShutdownState "battery temperature above max allowed" w
    else if BatteryTemperatureHigh w batt || BatteryTemperatureLow w batt then
      TurnChargingOff hw "charging temperature is above / below the limits allowed" w
    else w
  else w

/-- The function `handle_charger_event`: its three blocks, then `ChargingLogicUpdate`. -/
def handle_charger_event (fuel : Nat) (cfg : chargeConfig_t) (hw : Hardware)
    (event : nyx_charger_event_t) (w : World) : Outcome :=
  (handle_charger_event_presence fuel hw event w).bind fun w =>
    let w := handle_charger_event_voltage hw event w
    let w := handle_charger_event_temperature cfg hw event w
    ChargingLogicUpdate fuel cfg hw event w

/-- A run of dispatches, each with the hardware it meets. -/
def dispatch_all (fuel : Nat) (cfg : chargeConfig_t) :
    List (Hardware × nyx_charger_event_t) → World → Outcome
  | [], w => .returned w
  | (hw, event) :: rest, w =>
    (handle_charger_event fuel cfg hw event w).bind (dispatch_all fuel cfg rest)

/-- The zero-initialised statics before any init function has run. -/
def World.zero : World :=
  { gCurrentChargeState :=
      { charging_enabled := CHARGING_DISABLED, max_charging_mA := 0, start_charging := (0, 0),
        stop_charging_sec := 0, taper_time_start := [0, 0], current_state := kChargeStateIdle,
        state_node := kChargeStateIdle, shutdown_reason := "", chargerTimeoutSource := 0 }
    battery_ctia_params :=
      { battery_crit_max_temp := 0, charge_min_temp_c := 0, charge_max_temp_c := 0,
        skip_battery_authentication := false }
    overcharge_diag_state := 0
    overcharge_count := 0
    state_node := kBatteryRemoved
    debounce_bad := 0
    discharge_count := 0
    last :=
      { present := false, percentage := 0, temperature := 0, current := 0, voltage := 0,
        avg_current := 0, capacity := 0, capacity_raw := 0, capacity_full40 := 0, age := 0 }
    clock := 0
    log := [] }

/-- The init functions in `INIT_FUNC` order that touch this state: `ChargeStateInit`
(middle), then `batterypoll_init` (end). -/
def boot (fuel : Nat) (hw : Hardware) : Outcome :=
  batterypoll_init fuel hw (ChargeStateInit hw World.zero)

/-! ## Specification-side definitions -/

/-- The overcharge condition of one sample: `raw_mAh > limit`. -/
def over_limit (fa : DoubleArith) (state : nyx_battery_status_t) : Prop :=
  state.capacity_raw > overcharge_limit fa state

instance (fa : DoubleArith) (state : nyx_battery_status_t) : Decidable (over_limit fa state) :=
  inferInstanceAs (Decidable (state.capacity_raw > overcharge_limit fa state))

/-- Length of the run of consecutive over-limit samples that ends the sequence. -/
def over_run (fa : DoubleArith) (samples : List nyx_battery_status_t) : Nat :=
  (samples.reverse.takeWhile fun s => decide (over_limit fa s)).length

/-- Successive calls of `BatteryOverchargeFault`, one per sample. -/
def overcharge_feed (fa : DoubleArith) : List nyx_battery_status_t → World → World
  | [], w => w
  | s :: rest, w => overcharge_feed fa rest (BatteryOverchargeFault fa s w).2

/-- Successive calls of `battery_state_iterate`, each with the hardware it meets. -/
def battery_state_iterate_all (fuel : Nat) : List Hardware → World → Outcome
  | [], w => .returned w
  | hw :: rest, w =>
    (battery_state_iterate fuel hw w).bind (battery_state_iterate_all fuel rest)

/-- A configuration with every flag off and no temperature override (the defaults of `config.c`). -/
def defaultConfig : chargeConfig_t :=
  { skip_battery_check := false, disable_overcharge_check := false, fake_battery := false,
    disable_charging := false, skip_battery_authentication := false, maxtemp := 0 }

/-- A present battery at 50 %, 25 C, with the given raw coulomb count, rated capacity 1000
and age 100. -/
def sampleReading (raw : ℚ) : nyx_battery_status_t :=
  { present := true, percentage := 50, temperature := 25, current := 100, voltage := 3700,
    avg_current := 100, capacity := 500, capacity_raw := raw, capacity_full40 := 1000,
    age := 100 }

/-- A reading of an absent battery. -/
def absentReading : nyx_battery_status_t :=
  { present := false, percentage := 0, temperature := 25, current := 0, voltage := 0,
    avg_current := 0, capacity := 0, capacity_raw := 0, capacity_full40 := 0, age := 0 }

/-- A connected charger that reports charging. -/
def chargerOn : nyx_charger_status_t :=
  { connected := 1, powered := 1, is_charging := true, charger_max_current := 500 }

/-- No charger. -/
def chargerOff : nyx_charger_status_t :=
  { connected := 0, powered := 0, is_charging := false, charger_max_current := 0 }

/-- Steady hardware: a device that answers every query with `reading`, an authentic
battery, no CTIA table, exact arithmetic. -/
def steadyHardware (reading : nyx_battery_status_t) (enable_ok : Bool)
    (currStatus : nyx_charger_status_t) : Hardware :=
  Hardware.fixed true (some reading) reading true enable_ok none currStatus exactArith

/-- The event with only the charger-connected bit. -/
def eventConnected : nyx_charger_event_t :=
  { NYX_NO_NEW_EVENT with NYX_CHARGER_CONNECTED := true }

/-- Whether an action belongs to the charging logic proper (state machine steps, the
shutdown request, the charger enable/disable calls) rather than to battery polling. -/
def Effect.isChargingLogic : Effect → Bool
  | .current_state _ => true
  | .jump _ => true
  | .call_state _ => true
  | .MachineShutdown _ => true
  | .write_console => true
  | .nyx_charger_enable_charging _ => true
  | .nyx_charger_disable_charging => true
  | .call_battery_state _ => false
  | .nyx_battery_set_wakeup_percentage _ => false
  | .sendBatteryStatus _ => false
  | .battery_search _ => false

/-- The charging-logic actions of a log, in order. -/
def chargeLog (l : List Effect) : List Effect :=
  l.filter Effect.isChargingLogic

/-- The values assigned to `current_state`, in order. -/
def stateTrace (l : List Effect) : List ChargeState :=
  l.filterMap fun e => match e with
    | .current_state s => some s
    | _ => none

/-- The state functions executed, in order. -/
def callTrace (l : List Effect) : List ChargeState :=
  l.filterMap fun e => match e with
    | .call_state s => some s
    | _ => none

/-- The reasons handed to `MachineShutdown`, in order. -/
def shutdownTrace (l : List Effect) : List String :=
  l.filterMap fun e => match e with
    | .MachineShutdown r => some r
    | _ => none

/-- The reasons of the force-jumps made, in order. -/
def jumpTrace (l : List Effect) : List String :=
  l.filterMap fun e => match e with
    | .jump r => some r
    | _ => none

/-- The terminal chain: every value that follows a `kChargeStateShutdown` in the
sequence is `kChargeStateShutdownWait`. -/
def TerminalChain (h : List ChargeState) : Prop :=
  ∀ i j : Nat, i < j → h[i]? = some kChargeStateShutdown →
    ∀ s, h[j]? = some s → s = kChargeStateShutdownWait

/-- The states of the shutdown chain. -/
def inShutdown (s : ChargeState) : Bool :=
  s == kChargeStateShutdown || s == kChargeStateShutdownWait

/-- The stored node is the table entry of the current state. -/
def nodeMatches (w : World) : Prop :=
  w.gCurrentChargeState.state_node = w.gCurrentChargeState.current_state

instance (w : World) : Decidable (nodeMatches w) :=
  inferInstanceAs (Decidable (_ = _))

/-- Steady hardware with a present battery and no charger. -/
def hwPresent : Hardware := steadyHardware (sampleReading 500) true chargerOff

/-- Steady hardware with an absent battery and no charger. -/
def hwAbsent : Hardware := steadyHardware absentReading true chargerOff

/-- Steady hardware with a connected charger whose enable call fails. -/
def hwEnableFails : Hardware := steadyHardware (sampleReading 500) false chargerOn

/-- Steady hardware with a connected, working charger and the given raw coulomb count. -/
def hwCharging (raw : ℚ) : Hardware := steadyHardware (sampleReading raw) true chargerOn

/-- A CTIA table: critical at 60 C, charging allowed below 45 C. -/
def hotCtia : nyx_battery_ctia_t :=
  { battery_crit_max_temp := 60, charge_min_temp_c := 0, charge_max_temp_c := 45,
    skip_battery_authentication := false }

/-- A battery at 50 C. -/
def hotReading : nyx_battery_status_t :=
  { sampleReading 500 with temperature := 50 }

/-- Steady hardware: battery at 50 C, the table `hotCtia`, charger not charging. -/
def hwHot : Hardware :=
  Hardware.fixed true (some hotReading) hotReading true true (some hotCtia) chargerOff exactArith

/-- The event with the critical-voltage bit and the temperature-limit bit. -/
def eventVoltageAndTemperature : nyx_charger_event_t :=
  { NYX_NO_NEW_EVENT with
    NYX_BATTERY_CRITICAL_VOLTAGE := true, NYX_BATTERY_TEMPERATURE_LIMIT := true }

/-- Whether an action is a step of the charge-state machine itself: an assignment to
`current_state`, a force-jump, or the execution of a state function. -/
def Effect.isMachineStep : Effect → Bool
  | .current_state _ => true
  | .jump _ => true
  | .call_state _ => true
  | _ => false

/-- The steps of the charge-state machine in a log, in order. -/
def machineLog (l : List Effect) : List Effect :=
  l.filter Effect.isMachineStep

/-- The assignment `current_state = next_state; state_node = kStateMachine[next_state]` of
`ChargeStateIterate`. -/
def assignState (next_state : ChargeState) (w : World) : World :=
  emit (.current_state next_state)
    { w with gCurrentChargeState :=
      { w.gCurrentChargeState with current_state := next_state, state_node := next_state } }

/-- What the terminal-chain argument looks at: `current_state`, the stored node, and the
values assigned to `current_state` so far. -/
def mview (w : World) : ChargeState × ChargeState × List ChargeState :=
  (w.gCurrentChargeState.current_state, w.gCurrentChargeState.state_node,
    stateTrace (machineLog w.log))

/-- The two ways the code changes `current_state`: the guarded force-jump of
`_JumpToShutdownState`, and the assignment of `ChargeStateIterate`, whose value is what the
function of the stored node returned (`StateShutdown` returns `kChargeStateShutdownWait`,
`StateShutdownWait` returns `kChargeStateLast`, which is not assigned). -/
inductive ViewStep : ChargeState × ChargeState × List ChargeState →
    ChargeState × ChargeState × List ChargeState → Prop where
  | jump (c n : ChargeState) (t : List ChargeState) (h : inShutdown c = false) :
      ViewStep (c, n, t) (kChargeStateShutdown, kChargeStateShutdown, t ++ [kChargeStateShutdown])
  | assign (c n s : ChargeState) (t : List ChargeState) (hs : s ≠ kChargeStateLast)
      (h1 : n = kChargeStateShutdown → s = kChargeStateShutdownWait)
      (h2 : n ≠ kChargeStateShutdownWait) :
      ViewStep (c, n, t) (s, s, t ++ [s])

/-- The event with only the critical-voltage bit. -/
def eventCriticalVoltage : nyx_charger_event_t :=
  { NYX_NO_NEW_EVENT with NYX_BATTERY_CRITICAL_VOLTAGE := true }

/-- A world in `kChargeStateShutdownWait`: boot, then a critical-voltage event while the
charger is not charging. -/
def afterShutdown : World :=
  ((boot 4 hwHot).bind (handle_charger_event 4 defaultConfig hwHot eventCriticalVoltage)).world

/-- The reading `battery_read` hands back on fixed hardware: the query result, or the
untouched buffer when there is no device or the query fails. -/
def fixedReading (battDev : Bool) (reading : Option nyx_battery_status_t)
    (garbage : nyx_battery_status_t) : nyx_battery_status_t :=
  if battDev then reading.getD garbage else garbage

/-- Number of state-function executions the presence machine needs at most from a state,
when the sample's presence bit and the authentication result are fixed. -/
def presenceRank (present auth : Bool) : BatteryState → Nat
  | kBatteryRemoved => if present then 3 else 1
  | kBatteryDebounce => if present then 3 else 2
  | kBatteryInserted => if present then 2 else 4
  | kBatteryAuthentic => if present then 1 else 3
  | kBatteryNotAuthentic => if present then (if auth then 2 else 1) else (if auth then 4 else 3)
  | kBatteryLast => 1

/-- The next state a presence-state function returns, as a function of the sample's presence
bit, the authentication result and the debounce counter before the call. -/
def presenceNext (present auth : Bool) (debounce_bad : Int) : BatteryState → BatteryState
  | kBatteryRemoved => if present then kBatteryInserted else kBatteryLast
  | kBatteryDebounce =>
    if present then kBatteryInserted
    else if debounce_bad + 1 > BAD_SAMPLES_THRESHOLD then kBatteryRemoved
    else kBatteryLast
  | kBatteryInserted => if auth then kBatteryAuthentic else kBatteryNotAuthentic
  | kBatteryAuthentic => if present then kBatteryLast else kBatteryDebounce
  | kBatteryNotAuthentic =>
    if auth then kBatteryAuthentic
    else if present then kBatteryLast else kBatteryDebounce
  | kBatteryLast => kBatteryLast

/-- The threshold `BatteryTemperatureCriticalShutdown` compares with: the CTIA critical
maximum when that field is non-zero, else the `maxtemp` override when non-zero, else 60. -/
def criticalThreshold (cfg : chargeConfig_t) (w : World) : Int :=
  if w.battery_ctia_params.battery_crit_max_temp ≠ 0 then
    w.battery_ctia_params.battery_crit_max_temp
  else if cfg.maxtemp ≠ 0 then cfg.maxtemp
  else 60

/-- The event with only the temperature-limit bit. -/
def eventTemperatureLimit : nyx_charger_event_t :=
  { NYX_NO_NEW_EVENT with NYX_BATTERY_TEMPERATURE_LIMIT := true }

/-- Steady hardware with the table `hotCtia`, a connected charger that reports charging, and
a battery at the given temperature. -/
def hwAtTemperature (temperature : Int) : Hardware :=
  Hardware.fixed true (some { sampleReading 500 with temperature := temperature })
    (sampleReading 500) true true (some hotCtia) chargerOn exactArith

/-- Where the table iteration for the temperature-limit event alone leaves the machine:
Idle stays, Charging goes to Idle, ChargeComplete stays while the charger is connected,
Fault stays while the charger is connected and the battery is not Removed, and both go to
Idle otherwise. -/
def temperatureLimitTarget (connected present : Bool) : ChargeState → ChargeState
  | kChargeStateIdle => kChargeStateIdle
  | kChargeStateCharging => kChargeStateIdle
  | kChargeStateChargeComplete =>
    if connected then kChargeStateChargeComplete else kChargeStateIdle
  | kChargeStateFault =>
    if connected && present then kChargeStateFault else kChargeStateIdle
  | s => s

/-- A world in Charging with charging enabled: boot, then the charger-connected event with
the battery at 25 C. -/
def afterConnect : World :=
  ((boot 4 (hwAtTemperature 25)).bind
    (handle_charger_event 4 defaultConfig (hwAtTemperature 25) eventConnected)).world

/-- A world in Charging with a zero overcharge counter: boot, then the charger-connected
event with a raw coulomb count of 1000 (limit 1200). -/
def afterCharging : World :=
  ((boot 4 (hwCharging 1000)).bind
    (handle_charger_event 4 defaultConfig (hwCharging 1000) eventConnected)).world

/-- Idle ticks (`NYX_NO_NEW_EVENT`), one per reading, each on fixed hardware that answers
with that reading and whose enable call succeeds. -/
def idleTicks (g : nyx_battery_status_t) (a : Bool) (c : Option nyx_battery_ctia_t)
    (cs : nyx_charger_status_t) (fpu : DoubleArith) (readings : List nyx_battery_status_t) :
    List (Hardware × nyx_charger_event_t) :=
  readings.map fun r => (Hardware.fixed true (some r) g a true c cs fpu, NYX_NO_NEW_EVENT)

/-! ## libpowerd/wait.c -/

/-- The struct `timespec` of the C library. -/
structure timespec where
  tv_sec : Int
  tv_nsec : Int
deriving DecidableEq, Repr

/-- The value of a C `int` expression whose exact result is `x`: `x` itself when it fits in
32 bits, else the two's-complement wrap-around (the overflow is undefined in C). -/
def int32 (x : Int) : Int := (x + 2 ^ 31) % 2 ^ 32 - 2 ^ 31

/-- The function `WaitObjectWait`: it builds the relative delta `time` from `ms` and returns
what `WaitObjectWaitTimeSpec` returns for it.  The callee is a parameter; the wait object is
passed through unchanged and left out.  `ms % 1000` and `1000000000` are both `int`, so the
product is an `int` product. -/
def WaitObjectWait {α : Type} (WaitObjectWaitTimeSpec : timespec → α) (ms : Int) : α :=
  let time : timespec :=
    if ms < 0 then { tv_sec := -1, tv_nsec := 0 }
    else { tv_sec := Int.tdiv ms 1000, tv_nsec := int32 (Int.tmod ms 1000 * 1000000000) }
  WaitObjectWaitTimeSpec time

/-- The ladder of the wakeup rule, as the specification lists it. -/
def wakeup_ladder : List Int := [20, 13, 11, 9, 6, 5, 4, 3, 2, 1, 0]

/-- The highest ladder value strictly below `p`, or 0 when no ladder value is below `p`. -/
def highest_below (p : Int) : Int :=
  ((wakeup_ladder.filter fun x => decide (x < p)).max?).getD 0

/-- The wakeup percentage the specification asks for: 0 when charging; otherwise, when
suspending, the highest ladder value strictly below `p` (0 when there is none); otherwise
`p` itself. -/
def wakeup_rule (charging suspend : Bool) (p : Int) : Int :=
  if charging then 0
  else if suspend then highest_below p
  else p

/-- The wakeup percentages pushed to the hardware, in order. -/
def wakeupTrace (l : List Effect) : List Int :=
  l.filterMap fun e => match e with
    | .nyx_battery_set_wakeup_percentage v => some v
    | _ => none

/-- A reading with the given percentage. -/
def readingAt (percentage : Int) : nyx_battery_status_t :=
  { sampleReading 500 with percentage := percentage }

/-- Hardware without a battery device (`battDev == NULL`); the uninitialised buffer of every
caller holds `garbage`. -/
def hwNoDevice (garbage : nyx_battery_status_t) : Hardware :=
  Hardware.fixed false none garbage true true none chargerOff exactArith

/-- Hardware whose battery query returns an error; the uninitialised buffer of every caller
holds `garbage`. -/
def hwQueryFails (garbage : nyx_battery_status_t) : Hardware :=
  Hardware.fixed true none garbage true true none chargerOff exactArith

/-- Whether an action is made from inside the charge-state table only: the execution of a
state function, the hardware enable call, the console report and the shutdown request. -/
def Effect.isTableAction : Effect → Bool
  | .call_state _ => true
  | .nyx_charger_enable_charging _ => true
  | .write_console => true
  | .MachineShutdown _ => true
  | _ => false

/-- The actions of a log that only the charge-state table makes, in order. -/
def tableLog (l : List Effect) : List Effect :=
  l.filter Effect.isTableAction

/-- The presence-state functions executed, in order. -/
def presenceCallTrace (l : List Effect) : List BatteryState :=
  l.filterMap fun e => match e with
    | .call_battery_state s => some s
    | _ => none

/-- The part of `handle_charger_event` that precedes the call of `ChargingLogicUpdate`: the
presence block, the critical-voltage rule and the temperature rule. -/
def handle_charger_event_rules (fuel : Nat) (cfg : chargeConfig_t) (hw : Hardware)
    (event : nyx_charger_event_t) (w : World) : Outcome :=
  (handle_charger_event_presence fuel hw event w).bind fun w =>
    .returned (handle_charger_event_temperature cfg hw event
      (handle_charger_event_voltage hw event w))

/-- The default configuration with `skip_battery_check` set. -/
def skipConfig : chargeConfig_t :=
  { defaultConfig with skip_battery_check := true }

/-- The default configuration with `disable_charging` set. -/
def disableConfig : chargeConfig_t :=
  { defaultConfig with disable_charging := true }

/-- The world after the init functions, with an authentic battery at 1000 of 1200 raw
coulombs and a connected charger. -/
def bootCharging : World := (boot 4 (hwCharging 1000)).world

/-- The event with only the battery-present bit. -/
def eventBatteryPresent : nyx_charger_event_t :=
  { NYX_NO_NEW_EVENT with NYX_BATTERY_PRESENT := true }

/-- An event that carries none of the four bits the rules of `handle_charger_event` test. -/
def carriesNoRuleBit (event : nyx_charger_event_t) : Prop :=
  event.NYX_BATTERY_PRESENT = false ∧ event.NYX_BATTERY_ABSENT = false ∧
    event.NYX_BATTERY_CRITICAL_VOLTAGE = false ∧ event.NYX_BATTERY_TEMPERATURE_LIMIT = false

/-- The world after the init functions on the hardware `hwHot`. -/
def bootHot : World := (boot 4 hwHot).world

/-- The event with only the charger-disconnected bit. -/
def eventDisconnected : nyx_charger_event_t :=
  { NYX_NO_NEW_EVENT with NYX_CHARGER_DISCONNECTED := true }

/-- Steady hardware with a present battery at 1000 raw coulombs and no charger. -/
def hwUnplugged : Hardware := steadyHardware (sampleReading 1000) true chargerOff

/-- The world after boot, the charger-connected event and the charger-disconnected event. -/
def afterRoundTrip : World :=
  (handle_charger_event 4 defaultConfig hwUnplugged eventDisconnected afterCharging).world

/-- What the last state-function execution of a dispatch leaves behind when it returned
`kChargeStateLast`, on hardware with charger status `cs`, enable result `e`, arithmetic
`fpu` and battery reading `r`: the charging flag is off in Idle, ChargeComplete and Fault;
the charger is connected in Charging, ChargeComplete and Fault; in Charging the battery is
authentic, the enable call succeeded, and a sample not above the overcharge limit has
cleared the counter; the machine is not in Shutdown. -/
def restFacts (cfg : chargeConfig_t) (cs : nyx_charger_status_t) (e : Bool)
    (fpu : DoubleArith) (r : nyx_battery_status_t) (w : World) : Prop :=
  (w.gCurrentChargeState.current_state = kChargeStateIdle →
    w.gCurrentChargeState.charging_enabled = CHARGING_DISABLED) ∧
  (w.gCurrentChargeState.current_state = kChargeStateChargeComplete →
    w.gCurrentChargeState.charging_enabled = CHARGING_DISABLED ∧ cs.connected ≠ 0) ∧
  (w.gCurrentChargeState.current_state = kChargeStateFault →
    w.gCurrentChargeState.charging_enabled = CHARGING_DISABLED ∧ cs.connected ≠ 0 ∧
      BatteryIsPresent w = true) ∧
  (w.gCurrentChargeState.current_state = kChargeStateCharging →
    cs.connected ≠ 0 ∧ BatteryIsAuthentic w = true ∧ e = true ∧
      (cfg.disable_overcharge_check = false → ¬ over_limit fpu r → w.overcharge_count = 0)) ∧
  w.gCurrentChargeState.current_state ≠ kChargeStateShutdown

/-- A world in Charging after one over-limit sample: boot, then the charger-connected event
with a raw coulomb count of 1300 (limit 1200). -/
def afterOverLimit : World :=
  ((boot 4 (hwCharging 1300)).bind
    (handle_charger_event 4 defaultConfig (hwCharging 1300) eventConnected)).world

/-- The world `afterOverLimit` after two idle ticks with the same reading. -/
def afterOverLimitTicks : World :=
  (dispatch_all 4 defaultConfig
    [(hwCharging 1300, NYX_NO_NEW_EVENT), (hwCharging 1300, NYX_NO_NEW_EVENT)]
    afterOverLimit).world

/-- How the rules of `handle_charger_event` can move the machine from `w` to `w'`: either
`current_state` and the force-jumps made are as before, or the machine was outside the
shutdown chain and one force-jump has put it in Shutdown. -/
def jumpOrKeep (w w' : World) : Prop :=
  (w'.gCurrentChargeState.current_state = w.gCurrentChargeState.current_state ∧
    jumpTrace w'.log = jumpTrace w.log) ∨
  (inShutdown w.gCurrentChargeState.current_state = false ∧
    w'.gCurrentChargeState.current_state = kChargeStateShutdown ∧
    ∃ r, jumpTrace w'.log = jumpTrace w.log ++ [r])

/-- Shutdown accounting between dispatches: the node matches, and either the machine is
outside the shutdown chain with no force-jump made and no shutdown request issued so far, or
it is in ShutdownWait with exactly one force-jump made and exactly one shutdown request
issued so far. -/
def shutdownSettled (w : World) : Prop :=
  nodeMatches w ∧
  ((inShutdown w.gCurrentChargeState.current_state = false ∧ jumpTrace w.log = [] ∧
      shutdownTrace w.log = []) ∨
    (w.gCurrentChargeState.current_state = kChargeStateShutdownWait ∧
      (jumpTrace w.log).length = 1 ∧ (shutdownTrace w.log).length = 1))

/-- The world after boot on `hwHot` and one idle tick: the machine is at rest in Idle. -/
def beforeJump : World :=
  ((boot 4 hwHot).bind (dispatch_all 4 defaultConfig [(hwHot, NYX_NO_NEW_EVENT)])).world

/-- The error number `ETIMEDOUT` of `<errno.h>` (its Linux value; any non-zero value
gives the same results). -/
def ETIMEDOUT : Int := 110

/-- What the C library and the kernel answer during one wait.  `ClockAccum` is the helper of
`clock.c` that adds a delta to a time; only its result is used, as the deadline handed to
`pthread_cond_timedwait`. -/
structure WaitSystem where
  /-- Return code of `pthread_cond_wait`. -/
  pthread_cond_wait : Int
  /-- Return code of `pthread_cond_timedwait` for a deadline. -/
  pthread_cond_timedwait : timespec → Int
  /-- Result of `clock_gettime(CLOCK_MONOTONIC, ..)`; `none` when it fails or when
  `HAVE_PTHREAD_CONDATTR_SETCLOCK` is not defined (`ret` keeps its initial value 1). -/
  clock_gettime : Option timespec
  /-- The time `gettimeofday` reports, already as seconds and nanoseconds. -/
  gettimeofday : timespec
  ClockAccum : timespec → timespec → timespec

/-- What a wait function hands back: the value of its `return` statement, and whether
`g_error` was called on the way (GLib logs the message and aborts the process there). -/
structure WaitReturn where
  ret : Int
  g_error : Bool
deriving DecidableEq, Repr

/-- The function `WaitObjectWaitAbsTime`.  The `g_assert` on the lock is a precondition on
the caller and is left out. -/
def WaitObjectWaitAbsTime (os : WaitSystem) (abstime : timespec) : WaitReturn :=
  let ret := os.pthread_cond_timedwait abstime
  if ETIMEDOUT = ret then { ret := 1, g_error := false }
  else if 0 = ret then { ret := 0, g_error := false }
  else { ret := -1, g_error := true }

/-- The function `WaitObjectWaitTimeSpec`. -/
def WaitObjectWaitTimeSpec (os : WaitSystem) (delta : timespec) : WaitReturn :=
  if -1 = delta.tv_sec then
    let ret := os.pthread_cond_wait
    { ret := if ret != 0 then 1 else 0, g_error := false }
  else
    let time :=
      match os.clock_gettime with
      | some t => t
      | none => os.gettimeofday
    WaitObjectWaitAbsTime os (os.ClockAccum time delta)

/-- The function `getUiPercent` of `battery.c`; `/` on `int` truncates toward zero. -/
def getUiPercent (percent : Int) : Int :=
  let min : Int := 0
  let max : Int := 95
  let x := percent
  let range := max - min
  let x := if x < min then min else if x > max then max else x
  Int.tdiv ((x - min) * 100) range

/-- A wait in which `pthread_cond_wait` returns the error code `code`. -/
def waitFailing (code : Int) : WaitSystem :=
  { pthread_cond_wait := code
    pthread_cond_timedwait := fun _ => code
    clock_gettime := some { tv_sec := 0, tv_nsec := 0 }
    gettimeofday := { tv_sec := 0, tv_nsec := 0 }
    ClockAccum := fun t _ => t }

/-- The bounds of the discharge-while-charging counter. -/
def dischargeBounded (w : World) : Prop :=
  0 ≤ w.discharge_count ∧ w.discharge_count < MAX_DISCHARGE_COUNT

instance (w : World) : Decidable (dischargeBounded w) :=
  inferInstanceAs (Decidable (_ ∧ _))

/-- A reading that differs from `sampleReading 500` in the temperature only. -/
def warmReading : nyx_battery_status_t :=
  { sampleReading 500 with temperature := 30 }

/-- The value of each enumerator of the charge-state enum of `charging_logic.h`. -/
def ChargeState.toNat : ChargeState → Nat
  | kChargeStateIdle => 0
  | kChargeStateCharging => 1
  | kChargeStateFault => 2
  | kChargeStateChargeComplete => 3
  | kChargeStateShutdown => 4
  | kChargeStateShutdownWait => 5
  | kChargeStateLast => 6

/-- The value of each enumerator of the battery-state enum of `batterypoll.c`. -/
def BatteryState.toNat : BatteryState → Nat
  | kBatteryRemoved => 0
  | kBatteryDebounce => 1
  | kBatteryInserted => 2
  | kBatteryAuthentic => 3
  | kBatteryNotAuthentic => 4
  | kBatteryLast => 5

/-- The array `kStateMachine` of `charging_logic.c`, entry by entry in source order: the
`state` field and the function. -/
def charging_logic.kStateMachine :
    List (ChargeState ×
      (chargeConfig_t → Hardware → nyx_charger_event_t → World → ChargeState × World)) :=
  [(kChargeStateIdle, StateIdle),
   (kChargeStateCharging, StateCharging),
   (kChargeStateFault, fun _ hw _ w => StateFault hw w),
   (kChargeStateChargeComplete, fun _ hw event w => StateChargeComplete hw event w),
   (kChargeStateShutdown, fun _ hw _ w => StateShutdown hw w),
   (kChargeStateShutdownWait, fun _ _ _ w => StateShutdownWait w)]

/-- The array `kStateMachine` of `batterypoll.c`, entry by entry in source order. -/
def batterypoll.kStateMachine : List (BatteryState × (Hardware → World → BatteryState × World)) :=
  [(kBatteryRemoved, StateRemoved),
   (kBatteryDebounce, StateDebounce),
   (kBatteryInserted, StateInserted),
   (kBatteryAuthentic, StateAuthentic),
   (kBatteryNotAuthentic, StateNotAuthentic)]

/-- The event with only the battery-absent bit. -/
def eventBatteryAbsent : nyx_charger_event_t :=
  { NYX_NO_NEW_EVENT with NYX_BATTERY_ABSENT := true }

/-- A world in ShutdownWait whose presence machine is in Removed: after the critical-voltage
shutdown of `afterShutdown`, four battery-absent events with the battery gone. -/
def removedAfterShutdown : World :=
  (dispatch_all 4 defaultConfig
    [(hwAbsent, eventBatteryAbsent), (hwAbsent, eventBatteryAbsent),
      (hwAbsent, eventBatteryAbsent), (hwAbsent, eventBatteryAbsent)] afterShutdown).world

/-- The world just before the battery is found removed while the machine is Idle: boot
with the battery gone, two battery-absent events, then the first three blocks of a third
one. -/
def removedInIdle : World :=
  (handle_charger_event_rules 4 defaultConfig hwAbsent eventBatteryAbsent
    (dispatch_all 4 defaultConfig
      [(hwAbsent, eventBatteryAbsent), (hwAbsent, eventBatteryAbsent)]
      (boot 4 hwAbsent).world).world).world

/-- A world in Charging with `charging_enabled` = CHARGING_ENABLED: boot at 25 C with a
working charger, then a charger-connected event. -/
def chargingAt25 : World :=
  ((boot 4 (hwAtTemperature 25)).bind
    (handle_charger_event 4 defaultConfig (hwAtTemperature 25) eventConnected)).world

/-- The results of the hardware enable calls `nyx_charger_enable_charging`, in order; `true`
is `NYX_ERROR_NONE`. -/
def enableTrace (l : List Effect) : List Bool :=
  l.filterMap fun e => match e with
    | .nyx_charger_enable_charging ok => some ok
    | _ => none

/-- Whether the event carries one of the bits that make `StateCharging` leave before the
enable call. -/
def carriesStopBit (event : nyx_charger_event_t) : Bool :=
  event.NYX_CHARGE_COMPLETE || event.NYX_CHARGER_DISCONNECTED || event.NYX_CHARGE_RESTART ||
    event.NYX_BATTERY_TEMPERATURE_LIMIT

/-- The default configuration in fake-battery mode. -/
def fakeBatteryConfig : chargeConfig_t := { defaultConfig with fake_battery := true }

/-! ## Basic facts -/

@[simp] theorem Outcome.world_returned (w : World) : (Outcome.returned w).world = w := rfl

@[simp] theorem Outcome.world_running (w : World) : (Outcome.running w).world = w := rfl

@[simp] theorem Outcome.bind_returned (w : World) (f : World → Outcome) :
    (Outcome.returned w).bind f = f w := rfl

@[simp] theorem Outcome.bind_running (w : World) (f : World → Outcome) :
    (Outcome.running w).bind f = Outcome.running w := rfl

/-! ## Frame facts: the fields a function leaves alone -/

@[simp] theorem tick_frame_gCurrentChargeState (w : World) :
    (tick w).gCurrentChargeState = w.gCurrentChargeState := rfl

@[simp] theorem tick_frame_battery_ctia_params (w : World) :
    (tick w).battery_ctia_params = w.battery_ctia_params := rfl

@[simp] theorem tick_frame_overcharge_diag_state (w : World) :
    (tick w).overcharge_diag_state = w.overcharge_diag_state := rfl

@[simp] theorem tick_frame_overcharge_count (w : World) :
    (tick w).overcharge_count = w.overcharge_count := rfl

@[simp] theorem tick_frame_state_node (w : World) :
    (tick w).state_node = w.state_node := rfl

@[simp] theorem tick_frame_debounce_bad (w : World) :
    (tick w).debounce_bad = w.debounce_bad := rfl

@[simp] theorem tick_frame_discharge_count (w : World) :
    (tick w).discharge_count = w.discharge_count := rfl

@[simp] theorem tick_frame_last (w : World) :
    (tick w).last = w.last := rfl

@[simp] theorem tick_frame_log (w : World) :
    (tick w).log = w.log := rfl

@[simp] theorem emit_frame_gCurrentChargeState (e : Effect) (w : World) :
    (emit e w).gCurrentChargeState = w.gCurrentChargeState := rfl

@[simp] theorem emit_frame_battery_ctia_params (e : Effect) (w : World) :
    (emit e w).battery_ctia_params = w.battery_ctia_params := rfl

@[simp] theorem emit_frame_overcharge_diag_state (e : Effect) (w : World) :
    (emit e w).overcharge_diag_state = w.overcharge_diag_state := rfl

@[simp] theorem emit_frame_overcharge_count (e : Effect) (w : World) :
    (emit e w).overcharge_count = w.overcharge_count := rfl

@[simp] theorem emit_frame_state_node (e : Effect) (w : World) :
    (emit e w).state_node = w.state_node := rfl

@[simp] theorem emit_frame_debounce_bad (e : Effect) (w : World) :
    (emit e w).debounce_bad = w.debounce_bad := rfl

@[simp] theorem emit_frame_discharge_count (e : Effect) (w : World) :
    (emit e w).discharge_count = w.discharge_count := rfl

@[simp] theorem emit_frame_last (e : Effect) (w : World) :
    (emit e w).last = w.last := rfl

@[simp] theorem emit_frame_clock (e : Effect) (w : World) :
    (emit e w).clock = w.clock := rfl

@[simp] theorem battery_read_frame_gCurrentChargeState (hw : Hardware) (s : nyx_battery_status_t) (w : World) :
    ((battery_read hw s w).2).gCurrentChargeState = w.gCurrentChargeState := by
  unfold battery_read
  repeat' split
  all_goals rfl

@[simp] theorem battery_read_frame_battery_ctia_params (hw : Hardware) (s : nyx_battery_status_t) (w : World) :
    ((battery_read hw s w).2).battery_ctia_params = w.battery_ctia_params := by
  unfold battery_read
  repeat' split
  all_goals rfl

@[simp] theorem battery_read_frame_overcharge_diag_state (hw : Hardware) (s : nyx_battery_status_t) (w : World) :
    ((battery_read hw s w).2).overcharge_diag_state = w.overcharge_diag_state := by
  unfold battery_read
  repeat' split
  all_goals rfl

@[simp] theorem battery_read_frame_overcharge_count (hw : Hardware) (s : nyx_battery_status_t) (w : World) :
    ((battery_read hw s w).2).overcharge_count = w.overcharge_count := by
  unfold battery_read
  repeat' split
  all_goals rfl

@[simp] theorem battery_read_frame_state_node (hw : Hardware) (s : nyx_battery_status_t) (w : World) :
    ((battery_read hw s w).2).state_node = w.state_node := by
  unfold battery_read
  repeat' split
  all_goals rfl

@[simp] theorem battery_read_frame_debounce_bad (hw : Hardware) (s : nyx_battery_status_t) (w : World) :
    ((battery_read hw s w).2).debounce_bad = w.debounce_bad := by
  unfold battery_read
  repeat' split
  all_goals rfl

@[simp] theorem battery_read_frame_discharge_count (hw : Hardware) (s : nyx_battery_status_t) (w : World) :
    ((battery_read hw s w).2).discharge_count = w.discharge_count := by
  unfold battery_read
  repeat' split
  all_goals rfl

@[simp] theorem battery_read_frame_last (hw : Hardware) (s : nyx_battery_status_t) (w : World) :
    ((battery_read hw s w).2).last = w.last := by
  unfold battery_read
  repeat' split
  all_goals rfl

@[simp] theorem battery_read_frame_log (hw : Hardware) (s : nyx_battery_status_t) (w : World) :
    ((battery_read hw s w).2).log = w.log := by
  unfold battery_read
  repeat' split
  all_goals rfl

@[simp] theorem battery_authenticate_frame_gCurrentChargeState (hw : Hardware) (w : World) :
    ((battery_authenticate hw w).2).gCurrentChargeState = w.gCurrentChargeState := by
  unfold battery_authenticate
  split <;> rfl

@[simp] theorem battery_authenticate_frame_battery_ctia_params (hw : Hardware) (w : World) :
    ((battery_authenticate hw w).2).battery_ctia_params = w.battery_ctia_params := by
  unfold battery_authenticate
  split <;> rfl

@[simp] theorem battery_authenticate_frame_overcharge_diag_state (hw : Hardware) (w : World) :
    ((battery_authenticate hw w).2).overcharge_diag_state = w.overcharge_diag_state := by
  unfold battery_authenticate
  split <;> rfl

@[simp] theorem battery_authenticate_frame_overcharge_count (hw : Hardware) (w : World) :
    ((battery_authenticate hw w).2).overcharge_count = w.overcharge_count := by
  unfold battery_authenticate
  split <;> rfl

@[simp] theorem battery_authenticate_frame_state_node (hw : Hardware) (w : World) :
    ((battery_authenticate hw w).2).state_node = w.state_node := by
  unfold battery_authenticate
  split <;> rfl

@[simp] theorem battery_authenticate_frame_debounce_bad (hw : Hardware) (w : World) :
    ((battery_authenticate hw w).2).debounce_bad = w.debounce_bad := by
  unfold battery_authenticate
  split <;> rfl

@[simp] theorem battery_authenticate_frame_discharge_count (hw : Hardware) (w : World) :
    ((battery_authenticate hw w).2).discharge_count = w.discharge_count := by
  unfold battery_authenticate
  split <;> rfl

@[simp] theorem battery_authenticate_frame_last (hw : Hardware) (w : World) :
    ((battery_authenticate hw w).2).last = w.last := by
  unfold battery_authenticate
  split <;> rfl

@[simp] theorem battery_authenticate_frame_log (hw : Hardware) (w : World) :
    ((battery_authenticate hw w).2).log = w.log := by
  unfold battery_authenticate
  split <;> rfl

@[simp] theorem battery_get_ctia_params_frame_gCurrentChargeState (hw : Hardware) (w : World) :
    (battery_get_ctia_params hw w).gCurrentChargeState = w.gCurrentChargeState := by
  unfold battery_get_ctia_params
  repeat' split
  all_goals rfl

@[simp] theorem battery_get_ctia_params_frame_overcharge_diag_state (hw : Hardware) (w : World) :
    (battery_get_ctia_params hw w).overcharge_diag_state = w.overcharge_diag_state := by
  unfold battery_get_ctia_params
  repeat' split
  all_goals rfl

@[simp] theorem battery_get_ctia_params_frame_overcharge_count (hw : Hardware) (w : World) :
    (battery_get_ctia_params hw w).overcharge_count = w.overcharge_count := by
  unfold battery_get_ctia_params
  repeat' split
  all_goals rfl

@[simp] theorem battery_get_ctia_params_frame_state_node (hw : Hardware) (w : World) :
    (battery_get_ctia_params hw w).state_node = w.state_node := by
  unfold battery_get_ctia_params
  repeat' split
  all_goals rfl

@[simp] theorem battery_get_ctia_params_frame_debounce_bad (hw : Hardware) (w : World) :
    (battery_get_ctia_params hw w).debounce_bad = w.debounce_bad := by
  unfold battery_get_ctia_params
  repeat' split
  all_goals rfl

@[simp] theorem battery_get_ctia_params_frame_discharge_count (hw : Hardware) (w : World) :
    (battery_get_ctia_params hw w).discharge_count = w.discharge_count := by
  unfold battery_get_ctia_params
  repeat' split
  all_goals rfl

@[simp] theorem battery_get_ctia_params_frame_last (hw : Hardware) (w : World) :
    (battery_get_ctia_params hw w).last = w.last := by
  unfold battery_get_ctia_params
  repeat' split
  all_goals rfl

@[simp] theorem battery_get_ctia_params_frame_clock (hw : Hardware) (w : World) :
    (battery_get_ctia_params hw w).clock = w.clock := by
  unfold battery_get_ctia_params
  repeat' split
  all_goals rfl

@[simp] theorem battery_get_ctia_params_frame_log (hw : Hardware) (w : World) :
    (battery_get_ctia_params hw w).log = w.log := by
  unfold battery_get_ctia_params
  repeat' split
  all_goals rfl

@[simp] theorem sendBatteryStatus_frame_gCurrentChargeState (hw : Hardware) (w : World) :
    (sendBatteryStatus hw w).gCurrentChargeState = w.gCurrentChargeState := by
  unfold sendBatteryStatus
  split <;> rfl

@[simp] theorem sendBatteryStatus_frame_battery_ctia_params (hw : Hardware) (w : World) :
    (sendBatteryStatus hw w).battery_ctia_params = w.battery_ctia_params := by
  unfold sendBatteryStatus
  split <;> rfl

@[simp] theorem sendBatteryStatus_frame_overcharge_diag_state (hw : Hardware) (w : World) :
    (sendBatteryStatus hw w).overcharge_diag_state = w.overcharge_diag_state := by
  unfold sendBatteryStatus
  split <;> rfl

@[simp] theorem sendBatteryStatus_frame_overcharge_count (hw : Hardware) (w : World) :
    (sendBatteryStatus hw w).overcharge_count = w.overcharge_count := by
  unfold sendBatteryStatus
  split <;> rfl

@[simp] theorem sendBatteryStatus_frame_state_node (hw : Hardware) (w : World) :
    (sendBatteryStatus hw w).state_node = w.state_node := by
  unfold sendBatteryStatus
  split <;> rfl

@[simp] theorem sendBatteryStatus_frame_debounce_bad (hw : Hardware) (w : World) :
    (sendBatteryStatus hw w).debounce_bad = w.debounce_bad := by
  unfold sendBatteryStatus
  split <;> rfl

@[simp] theorem sendBatteryStatus_frame_discharge_count (hw : Hardware) (w : World) :
    (sendBatteryStatus hw w).discharge_count = w.discharge_count := by
  unfold sendBatteryStatus
  split <;> rfl

@[simp] theorem sendBatteryStatus_frame_last (hw : Hardware) (w : World) :
    (sendBatteryStatus hw w).last = w.last := by
  unfold sendBatteryStatus
  split <;> rfl

@[simp] theorem battery_set_wakeup_percentage_frame_gCurrentChargeState (hw : Hardware) (c s : Bool) (w : World) :
    (battery_set_wakeup_percentage hw c s w).gCurrentChargeState = w.gCurrentChargeState := by
  unfold battery_set_wakeup_percentage
  split <;> simp

@[simp] theorem battery_set_wakeup_percentage_frame_battery_ctia_params (hw : Hardware) (c s : Bool) (w : World) :
    (battery_set_wakeup_percentage hw c s w).battery_ctia_params = w.battery_ctia_params := by
  unfold battery_set_wakeup_percentage
  split <;> simp

@[simp] theorem battery_set_wakeup_percentage_frame_overcharge_diag_state (hw : Hardware) (c s : Bool) (w : World) :
    (battery_set_wakeup_percentage hw c s w).overcharge_diag_state = w.overcharge_diag_state := by
  unfold battery_set_wakeup_percentage
  split <;> simp

@[simp] theorem battery_set_wakeup_percentage_frame_overcharge_count (hw : Hardware) (c s : Bool) (w : World) :
    (battery_set_wakeup_percentage hw c s w).overcharge_count = w.overcharge_count := by
  unfold battery_set_wakeup_percentage
  split <;> simp

@[simp] theorem battery_set_wakeup_percentage_frame_state_node (hw : Hardware) (c s : Bool) (w : World) :
    (battery_set_wakeup_percentage hw c s w).state_node = w.state_node := by
  unfold battery_set_wakeup_percentage
  split <;> simp

@[simp] theorem battery_set_wakeup_percentage_frame_debounce_bad (hw : Hardware) (c s : Bool) (w : World) :
    (battery_set_wakeup_percentage hw c s w).debounce_bad = w.debounce_bad := by
  unfold battery_set_wakeup_percentage
  split <;> simp

@[simp] theorem battery_set_wakeup_percentage_frame_discharge_count (hw : Hardware) (c s : Bool) (w : World) :
    (battery_set_wakeup_percentage hw c s w).discharge_count = w.discharge_count := by
  unfold battery_set_wakeup_percentage
  split <;> simp

@[simp] theorem battery_set_wakeup_percentage_frame_last (hw : Hardware) (c s : Bool) (w : World) :
    (battery_set_wakeup_percentage hw c s w).last = w.last := by
  unfold battery_set_wakeup_percentage
  split <;> simp

@[simp] theorem battery_search_frame_gCurrentChargeState (b : Bool) (w : World) :
    (battery_search b w).gCurrentChargeState = w.gCurrentChargeState := rfl

@[simp] theorem battery_search_frame_battery_ctia_params (b : Bool) (w : World) :
    (battery_search b w).battery_ctia_params = w.battery_ctia_params := rfl

@[simp] theorem battery_search_frame_overcharge_diag_state (b : Bool) (w : World) :
    (battery_search b w).overcharge_diag_state = w.overcharge_diag_state := rfl

@[simp] theorem battery_search_frame_overcharge_count (b : Bool) (w : World) :
    (battery_search b w).overcharge_count = w.overcharge_count := rfl

@[simp] theorem battery_search_frame_state_node (b : Bool) (w : World) :
    (battery_search b w).state_node = w.state_node := rfl

@[simp] theorem battery_search_frame_debounce_bad (b : Bool) (w : World) :
    (battery_search b w).debounce_bad = w.debounce_bad := rfl

@[simp] theorem battery_search_frame_discharge_count (b : Bool) (w : World) :
    (battery_search b w).discharge_count = w.discharge_count := rfl

@[simp] theorem battery_search_frame_last (b : Bool) (w : World) :
    (battery_search b w).last = w.last := rfl

@[simp] theorem battery_search_frame_clock (b : Bool) (w : World) :
    (battery_search b w).clock = w.clock := rfl

@[simp] theorem MachineShutdown_frame_gCurrentChargeState (r : String) (w : World) :
    (MachineShutdown r w).gCurrentChargeState = w.gCurrentChargeState := rfl

@[simp] theorem MachineShutdown_frame_battery_ctia_params (r : String) (w : World) :
    (MachineShutdown r w).battery_ctia_params = w.battery_ctia_params := rfl

@[simp] theorem MachineShutdown_frame_overcharge_diag_state (r : String) (w : World) :
    (MachineShutdown r w).overcharge_diag_state = w.overcharge_diag_state := rfl

@[simp] theorem MachineShutdown_frame_overcharge_count (r : String) (w : World) :
    (MachineShutdown r w).overcharge_count = w.overcharge_count := rfl

@[simp] theorem MachineShutdown_frame_state_node (r : String) (w : World) :
    (MachineShutdown r w).state_node = w.state_node := rfl

@[simp] theorem MachineShutdown_frame_debounce_bad (r : String) (w : World) :
    (MachineShutdown r w).debounce_bad = w.debounce_bad := rfl

@[simp] theorem MachineShutdown_frame_discharge_count (r : String) (w : World) :
    (MachineShutdown r w).discharge_count = w.discharge_count := rfl

@[simp] theorem MachineShutdown_frame_last (r : String) (w : World) :
    (MachineShutdown r w).last = w.last := rfl

@[simp] theorem MachineShutdown_frame_clock (r : String) (w : World) :
    (MachineShutdown r w).clock = w.clock := rfl

@[simp] theorem chargerDisableCharging_frame_gCurrentChargeState (hw : Hardware) (w : World) :
    (chargerDisableCharging hw w).gCurrentChargeState = w.gCurrentChargeState := by
  simp [chargerDisableCharging]

@[simp] theorem chargerDisableCharging_frame_battery_ctia_params (hw : Hardware) (w : World) :
    (chargerDisableCharging hw w).battery_ctia_params = w.battery_ctia_params := by
  simp [chargerDisableCharging]

@[simp] theorem chargerDisableCharging_frame_overcharge_diag_state (hw : Hardware) (w : World) :
    (chargerDisableCharging hw w).overcharge_diag_state = w.overcharge_diag_state := by
  simp [chargerDisableCharging]

@[simp] theorem chargerDisableCharging_frame_overcharge_count (hw : Hardware) (w : World) :
    (chargerDisableCharging hw w).overcharge_count = w.overcharge_count := by
  simp [chargerDisableCharging]

@[simp] theorem chargerDisableCharging_frame_state_node (hw : Hardware) (w : World) :
    (chargerDisableCharging hw w).state_node = w.state_node := by
  simp [chargerDisableCharging]

@[simp] theorem chargerDisableCharging_frame_debounce_bad (hw : Hardware) (w : World) :
    (chargerDisableCharging hw w).debounce_bad = w.debounce_bad := by
  simp [chargerDisableCharging]

@[simp] theorem chargerDisableCharging_frame_discharge_count (hw : Hardware) (w : World) :
    (chargerDisableCharging hw w).discharge_count = w.discharge_count := by
  simp [chargerDisableCharging]

@[simp] theorem chargerDisableCharging_frame_last (hw : Hardware) (w : World) :
    (chargerDisableCharging hw w).last = w.last := by
  simp [chargerDisableCharging]

@[simp] theorem chargerEnableCharging_frame_battery_ctia_params (hw : Hardware) (w : World) :
    ((chargerEnableCharging hw w).2).battery_ctia_params = w.battery_ctia_params := by
  simp only [chargerEnableCharging]
  split <;> simp

@[simp] theorem chargerEnableCharging_frame_overcharge_diag_state (hw : Hardware) (w : World) :
    ((chargerEnableCharging hw w).2).overcharge_diag_state = w.overcharge_diag_state := by
  simp only [chargerEnableCharging]
  split <;> simp

@[simp] theorem chargerEnableCharging_frame_overcharge_count (hw : Hardware) (w : World) :
    ((chargerEnableCharging hw w).2).overcharge_count = w.overcharge_count := by
  simp only [chargerEnableCharging]
  split <;> simp

@[simp] theorem chargerEnableCharging_frame_state_node (hw : Hardware) (w : World) :
    ((chargerEnableCharging hw w).2).state_node = w.state_node := by
  simp only [chargerEnableCharging]
  split <;> simp

@[simp] theorem chargerEnableCharging_frame_debounce_bad (hw : Hardware) (w : World) :
    ((chargerEnableCharging hw w).2).debounce_bad = w.debounce_bad := by
  simp only [chargerEnableCharging]
  split <;> simp

@[simp] theorem chargerEnableCharging_frame_discharge_count (hw : Hardware) (w : World) :
    ((chargerEnableCharging hw w).2).discharge_count = w.discharge_count := by
  simp only [chargerEnableCharging]
  split <;> simp

@[simp] theorem chargerEnableCharging_frame_last (hw : Hardware) (w : World) :
    ((chargerEnableCharging hw w).2).last = w.last := by
  simp only [chargerEnableCharging]
  split <;> simp

@[simp] theorem chargerEnableCharging_frame_g_charging_enabled (hw : Hardware) (w : World) :
    ((chargerEnableCharging hw w).2).gCurrentChargeState.charging_enabled = w.gCurrentChargeState.charging_enabled := by
  simp only [chargerEnableCharging]
  split <;> simp

@[simp] theorem chargerEnableCharging_frame_g_start_charging (hw : Hardware) (w : World) :
    ((chargerEnableCharging hw w).2).gCurrentChargeState.start_charging = w.gCurrentChargeState.start_charging := by
  simp only [chargerEnableCharging]
  split <;> simp

@[simp] theorem chargerEnableCharging_frame_g_stop_charging_sec (hw : Hardware) (w : World) :
    ((chargerEnableCharging hw w).2).gCurrentChargeState.stop_charging_sec = w.gCurrentChargeState.stop_charging_sec := by
  simp only [chargerEnableCharging]
  split <;> simp

@[simp] theorem chargerEnableCharging_frame_g_taper_time_start (hw : Hardware) (w : World) :
    ((chargerEnableCharging hw w).2).gCurrentChargeState.taper_time_start = w.gCurrentChargeState.taper_time_start := by
  simp only [chargerEnableCharging]
  split <;> simp

@[simp] theorem chargerEnableCharging_frame_g_current_state (hw : Hardware) (w : World) :
    ((chargerEnableCharging hw w).2).gCurrentChargeState.current_state = w.gCurrentChargeState.current_state := by
  simp only [chargerEnableCharging]
  split <;> simp

@[simp] theorem chargerEnableCharging_frame_g_state_node (hw : Hardware) (w : World) :
    ((chargerEnableCharging hw w).2).gCurrentChargeState.state_node = w.gCurrentChargeState.state_node := by
  simp only [chargerEnableCharging]
  split <;> simp

@[simp] theorem chargerEnableCharging_frame_g_shutdown_reason (hw : Hardware) (w : World) :
    ((chargerEnableCharging hw w).2).gCurrentChargeState.shutdown_reason = w.gCurrentChargeState.shutdown_reason := by
  simp only [chargerEnableCharging]
  split <;> simp

@[simp] theorem chargerEnableCharging_frame_g_chargerTimeoutSource (hw : Hardware) (w : World) :
    ((chargerEnableCharging hw w).2).gCurrentChargeState.chargerTimeoutSource = w.gCurrentChargeState.chargerTimeoutSource := by
  simp only [chargerEnableCharging]
  split <;> simp

@[simp] theorem ChargeStateReset_frame_battery_ctia_params (w : World) :
    (ChargeStateReset w).battery_ctia_params = w.battery_ctia_params := rfl

@[simp] theorem ChargeStateReset_frame_overcharge_diag_state (w : World) :
    (ChargeStateReset w).overcharge_diag_state = w.overcharge_diag_state := rfl

@[simp] theorem ChargeStateReset_frame_overcharge_count (w : World) :
    (ChargeStateReset w).overcharge_count = w.overcharge_count := rfl

@[simp] theorem ChargeStateReset_frame_state_node (w : World) :
    (ChargeStateReset w).state_node = w.state_node := rfl

@[simp] theorem ChargeStateReset_frame_debounce_bad (w : World) :
    (ChargeStateReset w).debounce_bad = w.debounce_bad := rfl

@[simp] theorem ChargeStateReset_frame_discharge_count (w : World) :
    (ChargeStateReset w).discharge_count = w.discharge_count := rfl

@[simp] theorem ChargeStateReset_frame_last (w : World) :
    (ChargeStateReset w).last = w.last := rfl

@[simp] theorem ChargeStateReset_frame_clock (w : World) :
    (ChargeStateReset w).clock = w.clock := rfl

@[simp] theorem ChargeStateReset_frame_log (w : World) :
    (ChargeStateReset w).log = w.log := rfl

@[simp] theorem ChargeStateReset_frame_g_max_charging_mA (w : World) :
    (ChargeStateReset w).gCurrentChargeState.max_charging_mA = w.gCurrentChargeState.max_charging_mA := rfl

@[simp] theorem ChargeStateReset_frame_g_stop_charging_sec (w : World) :
    (ChargeStateReset w).gCurrentChargeState.stop_charging_sec = w.gCurrentChargeState.stop_charging_sec := rfl

@[simp] theorem ChargeStateReset_frame_g_current_state (w : World) :
    (ChargeStateReset w).gCurrentChargeState.current_state = w.gCurrentChargeState.current_state := rfl

@[simp] theorem ChargeStateReset_frame_g_state_node (w : World) :
    (ChargeStateReset w).gCurrentChargeState.state_node = w.gCurrentChargeState.state_node := rfl

@[simp] theorem ChargeStateReset_frame_g_chargerTimeoutSource (w : World) :
    (ChargeStateReset w).gCurrentChargeState.chargerTimeoutSource = w.gCurrentChargeState.chargerTimeoutSource := rfl

@[simp] theorem TurnChargingOff_frame_battery_ctia_params (hw : Hardware) (r : String) (w : World) :
    (TurnChargingOff hw r w).battery_ctia_params = w.battery_ctia_params := by
  unfold TurnChargingOff
  split <;> simp

@[simp] theorem TurnChargingOff_frame_overcharge_diag_state (hw : Hardware) (r : String) (w : World) :
    (TurnChargingOff hw r w).overcharge_diag_state = w.overcharge_diag_state := by
  unfold TurnChargingOff
  split <;> simp

@[simp] theorem TurnChargingOff_frame_overcharge_count (hw : Hardware) (r : String) (w : World) :
    (TurnChargingOff hw r w).overcharge_count = w.overcharge_count := by
  unfold TurnChargingOff
  split <;> simp

@[simp] theorem TurnChargingOff_frame_state_node (hw : Hardware) (r : String) (w : World) :
    (TurnChargingOff hw r w).state_node = w.state_node := by
  unfold TurnChargingOff
  split <;> simp

@[simp] theorem TurnChargingOff_frame_debounce_bad (hw : Hardware) (r : String) (w : World) :
    (TurnChargingOff hw r w).debounce_bad = w.debounce_bad := by
  unfold TurnChargingOff
  split <;> simp

@[simp] theorem TurnChargingOff_frame_discharge_count (hw : Hardware) (r : String) (w : World) :
    (TurnChargingOff hw r w).discharge_count = w.discharge_count := by
  unfold TurnChargingOff
  split <;> simp

@[simp] theorem TurnChargingOff_frame_last (hw : Hardware) (r : String) (w : World) :
    (TurnChargingOff hw r w).last = w.last := by
  unfold TurnChargingOff
  split <;> simp

@[simp] theorem TurnChargingOff_frame_g_max_charging_mA (hw : Hardware) (r : String) (w : World) :
    (TurnChargingOff hw r w).gCurrentChargeState.max_charging_mA = w.gCurrentChargeState.max_charging_mA := by
  unfold TurnChargingOff
  split <;> simp

@[simp] theorem TurnChargingOff_frame_g_stop_charging_sec (hw : Hardware) (r : String) (w : World) :
    (TurnChargingOff hw r w).gCurrentChargeState.stop_charging_sec = w.gCurrentChargeState.stop_charging_sec := by
  unfold TurnChargingOff
  split <;> simp

@[simp] theorem TurnChargingOff_frame_g_current_state (hw : Hardware) (r : String) (w : World) :
    (TurnChargingOff hw r w).gCurrentChargeState.current_state = w.gCurrentChargeState.current_state := by
  unfold TurnChargingOff
  split <;> simp

@[simp] theorem TurnChargingOff_frame_g_state_node (hw : Hardware) (r : String) (w : World) :
    (TurnChargingOff hw r w).gCurrentChargeState.state_node = w.gCurrentChargeState.state_node := by
  unfold TurnChargingOff
  split <;> simp

@[simp] theorem TurnChargingOff_frame_g_chargerTimeoutSource (hw : Hardware) (r : String) (w : World) :
    (TurnChargingOff hw r w).gCurrentChargeState.chargerTimeoutSource = w.gCurrentChargeState.chargerTimeoutSource := by
  unfold TurnChargingOff
  split <;> simp

@[simp] theorem TurnChargingON_frame_battery_ctia_params (hw : Hardware) (w : World) :
    ((TurnChargingON hw w).2).battery_ctia_params = w.battery_ctia_params := by
  simp [TurnChargingON]

@[simp] theorem TurnChargingON_frame_overcharge_diag_state (hw : Hardware) (w : World) :
    ((TurnChargingON hw w).2).overcharge_diag_state = w.overcharge_diag_state := by
  simp [TurnChargingON]

@[simp] theorem TurnChargingON_frame_overcharge_count (hw : Hardware) (w : World) :
    ((TurnChargingON hw w).2).overcharge_count = w.overcharge_count := by
  simp [TurnChargingON]

@[simp] theorem TurnChargingON_frame_state_node (hw : Hardware) (w : World) :
    ((TurnChargingON hw w).2).state_node = w.state_node := by
  simp [TurnChargingON]

@[simp] theorem TurnChargingON_frame_debounce_bad (hw : Hardware) (w : World) :
    ((TurnChargingON hw w).2).debounce_bad = w.debounce_bad := by
  simp [TurnChargingON]

@[simp] theorem TurnChargingON_frame_discharge_count (hw : Hardware) (w : World) :
    ((TurnChargingON hw w).2).discharge_count = w.discharge_count := by
  simp [TurnChargingON]

@[simp] theorem TurnChargingON_frame_last (hw : Hardware) (w : World) :
    ((TurnChargingON hw w).2).last = w.last := by
  simp [TurnChargingON]

@[simp] theorem TurnChargingON_frame_g_start_charging (hw : Hardware) (w : World) :
    ((TurnChargingON hw w).2).gCurrentChargeState.start_charging = w.gCurrentChargeState.start_charging := by
  simp [TurnChargingON]

@[simp] theorem TurnChargingON_frame_g_stop_charging_sec (hw : Hardware) (w : World) :
    ((TurnChargingON hw w).2).gCurrentChargeState.stop_charging_sec = w.gCurrentChargeState.stop_charging_sec := by
  simp [TurnChargingON]

@[simp] theorem TurnChargingON_frame_g_taper_time_start (hw : Hardware) (w : World) :
    ((TurnChargingON hw w).2).gCurrentChargeState.taper_time_start = w.gCurrentChargeState.taper_time_start := by
  simp [TurnChargingON]

@[simp] theorem TurnChargingON_frame_g_current_state (hw : Hardware) (w : World) :
    ((TurnChargingON hw w).2).gCurrentChargeState.current_state = w.gCurrentChargeState.current_state := by
  simp [TurnChargingON]

@[simp] theorem TurnChargingON_frame_g_state_node (hw : Hardware) (w : World) :
    ((TurnChargingON hw w).2).gCurrentChargeState.state_node = w.gCurrentChargeState.state_node := by
  simp [TurnChargingON]

@[simp] theorem TurnChargingON_frame_g_shutdown_reason (hw : Hardware) (w : World) :
    ((TurnChargingON hw w).2).gCurrentChargeState.shutdown_reason = w.gCurrentChargeState.shutdown_reason := by
  simp [TurnChargingON]

@[simp] theorem TurnChargingON_frame_g_chargerTimeoutSource (hw : Hardware) (w : World) :
    ((TurnChargingON hw w).2).gCurrentChargeState.chargerTimeoutSource = w.gCurrentChargeState.chargerTimeoutSource := by
  simp [TurnChargingON]

@[simp] theorem BatteryOverchargeFault_frame_gCurrentChargeState (fa : DoubleArith) (s : nyx_battery_status_t) (w : World) :
    ((BatteryOverchargeFault fa s w).2).gCurrentChargeState = w.gCurrentChargeState := by
  simp only [BatteryOverchargeFault]
  split_ifs <;> rfl

@[simp] theorem BatteryOverchargeFault_frame_battery_ctia_params (fa : DoubleArith) (s : nyx_battery_status_t) (w : World) :
    ((BatteryOverchargeFault fa s w).2).battery_ctia_params = w.battery_ctia_params := by
  simp only [BatteryOverchargeFault]
  split_ifs <;> rfl

@[simp] theorem BatteryOverchargeFault_frame_state_node (fa : DoubleArith) (s : nyx_battery_status_t) (w : World) :
    ((BatteryOverchargeFault fa s w).2).state_node = w.state_node := by
  simp only [BatteryOverchargeFault]
  split_ifs <;> rfl

@[simp] theorem BatteryOverchargeFault_frame_debounce_bad (fa : DoubleArith) (s : nyx_battery_status_t) (w : World) :
    ((BatteryOverchargeFault fa s w).2).debounce_bad = w.debounce_bad := by
  simp only [BatteryOverchargeFault]
  split_ifs <;> rfl

@[simp] theorem BatteryOverchargeFault_frame_discharge_count (fa : DoubleArith) (s : nyx_battery_status_t) (w : World) :
    ((BatteryOverchargeFault fa s w).2).discharge_count = w.discharge_count := by
  simp only [BatteryOverchargeFault]
  split_ifs <;> rfl

@[simp] theorem BatteryOverchargeFault_frame_last (fa : DoubleArith) (s : nyx_battery_status_t) (w : World) :
    ((BatteryOverchargeFault fa s w).2).last = w.last := by
  simp only [BatteryOverchargeFault]
  split_ifs <;> rfl

@[simp] theorem BatteryOverchargeFault_frame_clock (fa : DoubleArith) (s : nyx_battery_status_t) (w : World) :
    ((BatteryOverchargeFault fa s w).2).clock = w.clock := by
  simp only [BatteryOverchargeFault]
  split_ifs <;> rfl

@[simp] theorem BatteryOverchargeFault_frame_log (fa : DoubleArith) (s : nyx_battery_status_t) (w : World) :
    ((BatteryOverchargeFault fa s w).2).log = w.log := by
  simp only [BatteryOverchargeFault]
  split_ifs <;> rfl

@[simp] theorem _JumpToShutdownState_frame_battery_ctia_params (r : String) (w : World) :
    (_JumpToShutdownState r w).battery_ctia_params = w.battery_ctia_params := by
  unfold _JumpToShutdownState
  split <;> rfl

@[simp] theorem _JumpToShutdownState_frame_overcharge_diag_state (r : String) (w : World) :
    (_JumpToShutdownState r w).overcharge_diag_state = w.overcharge_diag_state := by
  unfold _JumpToShutdownState
  split <;> rfl

@[simp] theorem _JumpToShutdownState_frame_overcharge_count (r : String) (w : World) :
    (_JumpToShutdownState r w).overcharge_count = w.overcharge_count := by
  unfold _JumpToShutdownState
  split <;> rfl

@[simp] theorem _JumpToShutdownState_frame_state_node (r : String) (w : World) :
    (_JumpToShutdownState r w).state_node = w.state_node := by
  unfold _JumpToShutdownState
  split <;> rfl

@[simp] theorem _JumpToShutdownState_frame_debounce_bad (r : String) (w : World) :
    (_JumpToShutdownState r w).debounce_bad = w.debounce_bad := by
  unfold _JumpToShutdownState
  split <;> rfl

@[simp] theorem _JumpToShutdownState_frame_discharge_count (r : String) (w : World) :
    (_JumpToShutdownState r w).discharge_count = w.discharge_count := by
  unfold _JumpToShutdownState
  split <;> rfl

@[simp] theorem _JumpToShutdownState_frame_last (r : String) (w : World) :
    (_JumpToShutdownState r w).last = w.last := by
  unfold _JumpToShutdownState
  split <;> rfl

@[simp] theorem _JumpToShutdownState_frame_clock (r : String) (w : World) :
    (_JumpToShutdownState r w).clock = w.clock := by
  unfold _JumpToShutdownState
  split <;> rfl

@[simp] theorem _JumpToShutdownState_frame_g_charging_enabled (r : String) (w : World) :
    (_JumpToShutdownState r w).gCurrentChargeState.charging_enabled = w.gCurrentChargeState.charging_enabled := by
  unfold _JumpToShutdownState
  split <;> rfl

@[simp] theorem _JumpToShutdownState_frame_g_max_charging_mA (r : String) (w : World) :
    (_JumpToShutdownState r w).gCurrentChargeState.max_charging_mA = w.gCurrentChargeState.max_charging_mA := by
  unfold _JumpToShutdownState
  split <;> rfl

@[simp] theorem _JumpToShutdownState_frame_g_start_charging (r : String) (w : World) :
    (_JumpToShutdownState r w).gCurrentChargeState.start_charging = w.gCurrentChargeState.start_charging := by
  unfold _JumpToShutdownState
  split <;> rfl

@[simp] theorem _JumpToShutdownState_frame_g_stop_charging_sec (r : String) (w : World) :
    (_JumpToShutdownState r w).gCurrentChargeState.stop_charging_sec = w.gCurrentChargeState.stop_charging_sec := by
  unfold _JumpToShutdownState
  split <;> rfl

@[simp] theorem _JumpToShutdownState_frame_g_taper_time_start (r : String) (w : World) :
    (_JumpToShutdownState r w).gCurrentChargeState.taper_time_start = w.gCurrentChargeState.taper_time_start := by
  unfold _JumpToShutdownState
  split <;> rfl

@[simp] theorem _JumpToShutdownState_frame_g_chargerTimeoutSource (r : String) (w : World) :
    (_JumpToShutdownState r w).gCurrentChargeState.chargerTimeoutSource = w.gCurrentChargeState.chargerTimeoutSource := by
  unfold _JumpToShutdownState
  split <;> rfl

@[simp] theorem sample_is_new_frame_gCurrentChargeState (s : nyx_battery_status_t) (w : World) :
    ((sample_is_new s w).2).gCurrentChargeState = w.gCurrentChargeState := by
  simp only [sample_is_new]
  split <;> rfl

@[simp] theorem sample_is_new_frame_battery_ctia_params (s : nyx_battery_status_t) (w : World) :
    ((sample_is_new s w).2).battery_ctia_params = w.battery_ctia_params := by
  simp only [sample_is_new]
  split <;> rfl

@[simp] theorem sample_is_new_frame_overcharge_diag_state (s : nyx_battery_status_t) (w : World) :
    ((sample_is_new s w).2).overcharge_diag_state = w.overcharge_diag_state := by
  simp only [sample_is_new]
  split <;> rfl

@[simp] theorem sample_is_new_frame_overcharge_count (s : nyx_battery_status_t) (w : World) :
    ((sample_is_new s w).2).overcharge_count = w.overcharge_count := by
  simp only [sample_is_new]
  split <;> rfl

@[simp] theorem sample_is_new_frame_state_node (s : nyx_battery_status_t) (w : World) :
    ((sample_is_new s w).2).state_node = w.state_node := by
  simp only [sample_is_new]
  split <;> rfl

@[simp] theorem sample_is_new_frame_debounce_bad (s : nyx_battery_status_t) (w : World) :
    ((sample_is_new s w).2).debounce_bad = w.debounce_bad := by
  simp only [sample_is_new]
  split <;> rfl

@[simp] theorem sample_is_new_frame_discharge_count (s : nyx_battery_status_t) (w : World) :
    ((sample_is_new s w).2).discharge_count = w.discharge_count := by
  simp only [sample_is_new]
  split <;> rfl

@[simp] theorem sample_is_new_frame_clock (s : nyx_battery_status_t) (w : World) :
    ((sample_is_new s w).2).clock = w.clock := by
  simp only [sample_is_new]
  split <;> rfl

@[simp] theorem sample_is_new_frame_log (s : nyx_battery_status_t) (w : World) :
    ((sample_is_new s w).2).log = w.log := by
  simp only [sample_is_new]
  split <;> rfl

@[simp] theorem ChargeStateInit_frame_overcharge_diag_state (hw : Hardware) (w : World) :
    (ChargeStateInit hw w).overcharge_diag_state = w.overcharge_diag_state := by
  simp [ChargeStateInit]

@[simp] theorem ChargeStateInit_frame_overcharge_count (hw : Hardware) (w : World) :
    (ChargeStateInit hw w).overcharge_count = w.overcharge_count := by
  simp [ChargeStateInit]

@[simp] theorem ChargeStateInit_frame_state_node (hw : Hardware) (w : World) :
    (ChargeStateInit hw w).state_node = w.state_node := by
  simp [ChargeStateInit]

@[simp] theorem ChargeStateInit_frame_debounce_bad (hw : Hardware) (w : World) :
    (ChargeStateInit hw w).debounce_bad = w.debounce_bad := by
  simp [ChargeStateInit]

@[simp] theorem ChargeStateInit_frame_discharge_count (hw : Hardware) (w : World) :
    (ChargeStateInit hw w).discharge_count = w.discharge_count := by
  simp [ChargeStateInit]

@[simp] theorem ChargeStateInit_frame_last (hw : Hardware) (w : World) :
    (ChargeStateInit hw w).last = w.last := by
  simp [ChargeStateInit]

@[simp] theorem ChargeStateInit_frame_clock (hw : Hardware) (w : World) :
    (ChargeStateInit hw w).clock = w.clock := by
  simp [ChargeStateInit]

@[simp] theorem ChargeStateInit_frame_g_max_charging_mA (hw : Hardware) (w : World) :
    (ChargeStateInit hw w).gCurrentChargeState.max_charging_mA = w.gCurrentChargeState.max_charging_mA := by
  simp [ChargeStateInit]

@[simp] theorem ChargeStateInit_frame_g_stop_charging_sec (hw : Hardware) (w : World) :
    (ChargeStateInit hw w).gCurrentChargeState.stop_charging_sec = w.gCurrentChargeState.stop_charging_sec := by
  simp [ChargeStateInit]

@[simp] theorem ChargeStateInit_frame_g_chargerTimeoutSource (hw : Hardware) (w : World) :
    (ChargeStateInit hw w).gCurrentChargeState.chargerTimeoutSource = w.gCurrentChargeState.chargerTimeoutSource := by
  simp [ChargeStateInit]

@[simp] theorem CheckCriticalLevels_frame_battery_ctia_params (cfg : chargeConfig_t) (w : World) :
    ((CheckCriticalLevels cfg w).2).battery_ctia_params = w.battery_ctia_params := by
  unfold CheckCriticalLevels
  repeat' split
  all_goals simp

@[simp] theorem CheckCriticalLevels_frame_overcharge_diag_state (cfg : chargeConfig_t) (w : World) :
    ((CheckCriticalLevels cfg w).2).overcharge_diag_state = w.overcharge_diag_state := by
  unfold CheckCriticalLevels
  repeat' split
  all_goals simp

@[simp] theorem CheckCriticalLevels_frame_overcharge_count (cfg : chargeConfig_t) (w : World) :
    ((CheckCriticalLevels cfg w).2).overcharge_count = w.overcharge_count := by
  unfold CheckCriticalLevels
  repeat' split
  all_goals simp

@[simp] theorem CheckCriticalLevels_frame_state_node (cfg : chargeConfig_t) (w : World) :
    ((CheckCriticalLevels cfg w).2).state_node = w.state_node := by
  unfold CheckCriticalLevels
  repeat' split
  all_goals simp

@[simp] theorem CheckCriticalLevels_frame_debounce_bad (cfg : chargeConfig_t) (w : World) :
    ((CheckCriticalLevels cfg w).2).debounce_bad = w.debounce_bad := by
  unfold CheckCriticalLevels
  repeat' split
  all_goals simp

@[simp] theorem CheckCriticalLevels_frame_discharge_count (cfg : chargeConfig_t) (w : World) :
    ((CheckCriticalLevels cfg w).2).discharge_count = w.discharge_count := by
  unfold CheckCriticalLevels
  repeat' split
  all_goals simp

@[simp] theorem CheckCriticalLevels_frame_last (cfg : chargeConfig_t) (w : World) :
    ((CheckCriticalLevels cfg w).2).last = w.last := by
  unfold CheckCriticalLevels
  repeat' split
  all_goals simp

@[simp] theorem CheckCriticalLevels_frame_clock (cfg : chargeConfig_t) (w : World) :
    ((CheckCriticalLevels cfg w).2).clock = w.clock := by
  unfold CheckCriticalLevels
  repeat' split
  all_goals simp

@[simp] theorem CheckCriticalLevels_frame_g_charging_enabled (cfg : chargeConfig_t) (w : World) :
    ((CheckCriticalLevels cfg w).2).gCurrentChargeState.charging_enabled = w.gCurrentChargeState.charging_enabled := by
  unfold CheckCriticalLevels
  repeat' split
  all_goals simp

@[simp] theorem CheckCriticalLevels_frame_g_max_charging_mA (cfg : chargeConfig_t) (w : World) :
    ((CheckCriticalLevels cfg w).2).gCurrentChargeState.max_charging_mA = w.gCurrentChargeState.max_charging_mA := by
  unfold CheckCriticalLevels
  repeat' split
  all_goals simp

@[simp] theorem CheckCriticalLevels_frame_g_start_charging (cfg : chargeConfig_t) (w : World) :
    ((CheckCriticalLevels cfg w).2).gCurrentChargeState.start_charging = w.gCurrentChargeState.start_charging := by
  unfold CheckCriticalLevels
  repeat' split
  all_goals simp

@[simp] theorem CheckCriticalLevels_frame_g_stop_charging_sec (cfg : chargeConfig_t) (w : World) :
    ((CheckCriticalLevels cfg w).2).gCurrentChargeState.stop_charging_sec = w.gCurrentChargeState.stop_charging_sec := by
  unfold CheckCriticalLevels
  repeat' split
  all_goals simp

@[simp] theorem CheckCriticalLevels_frame_g_taper_time_start (cfg : chargeConfig_t) (w : World) :
    ((CheckCriticalLevels cfg w).2).gCurrentChargeState.taper_time_start = w.gCurrentChargeState.taper_time_start := by
  unfold CheckCriticalLevels
  repeat' split
  all_goals simp

@[simp] theorem CheckCriticalLevels_frame_g_chargerTimeoutSource (cfg : chargeConfig_t) (w : World) :
    ((CheckCriticalLevels cfg w).2).gCurrentChargeState.chargerTimeoutSource = w.gCurrentChargeState.chargerTimeoutSource := by
  unfold CheckCriticalLevels
  repeat' split
  all_goals simp

@[simp] theorem StateIdle_frame_battery_ctia_params (cfg : chargeConfig_t) (hw : Hardware) (ev : nyx_charger_event_t) (w : World) :
    ((StateIdle cfg hw ev w).2).battery_ctia_params = w.battery_ctia_params := by
  simp only [StateIdle]
  repeat' split
  all_goals simp

@[simp] theorem StateIdle_frame_overcharge_diag_state (cfg : chargeConfig_t) (hw : Hardware) (ev : nyx_charger_event_t) (w : World) :
    ((StateIdle cfg hw ev w).2).overcharge_diag_state = w.overcharge_diag_state := by
  simp only [StateIdle]
  repeat' split
  all_goals simp

@[simp] theorem StateIdle_frame_overcharge_count (cfg : chargeConfig_t) (hw : Hardware) (ev : nyx_charger_event_t) (w : World) :
    ((StateIdle cfg hw ev w).2).overcharge_count = w.overcharge_count := by
  simp only [StateIdle]
  repeat' split
  all_goals simp

@[simp] theorem StateIdle_frame_state_node (cfg : chargeConfig_t) (hw : Hardware) (ev : nyx_charger_event_t) (w : World) :
    ((StateIdle cfg hw ev w).2).state_node = w.state_node := by
  simp only [StateIdle]
  repeat' split
  all_goals simp

@[simp] theorem StateIdle_frame_debounce_bad (cfg : chargeConfig_t) (hw : Hardware) (ev : nyx_charger_event_t) (w : World) :
    ((StateIdle cfg hw ev w).2).debounce_bad = w.debounce_bad := by
  simp only [StateIdle]
  repeat' split
  all_goals simp

@[simp] theorem StateIdle_frame_discharge_count (cfg : chargeConfig_t) (hw : Hardware) (ev : nyx_charger_event_t) (w : World) :
    ((StateIdle cfg hw ev w).2).discharge_count = w.discharge_count := by
  simp only [StateIdle]
  repeat' split
  all_goals simp

@[simp] theorem StateIdle_frame_last (cfg : chargeConfig_t) (hw : Hardware) (ev : nyx_charger_event_t) (w : World) :
    ((StateIdle cfg hw ev w).2).last = w.last := by
  simp only [StateIdle]
  repeat' split
  all_goals simp

@[simp] theorem StateIdle_frame_g_max_charging_mA (cfg : chargeConfig_t) (hw : Hardware) (ev : nyx_charger_event_t) (w : World) :
    ((StateIdle cfg hw ev w).2).gCurrentChargeState.max_charging_mA = w.gCurrentChargeState.max_charging_mA := by
  simp only [StateIdle]
  repeat' split
  all_goals simp

@[simp] theorem StateIdle_frame_g_stop_charging_sec (cfg : chargeConfig_t) (hw : Hardware) (ev : nyx_charger_event_t) (w : World) :
    ((StateIdle cfg hw ev w).2).gCurrentChargeState.stop_charging_sec = w.gCurrentChargeState.stop_charging_sec := by
  simp only [StateIdle]
  repeat' split
  all_goals simp

@[simp] theorem StateIdle_frame_g_current_state (cfg : chargeConfig_t) (hw : Hardware) (ev : nyx_charger_event_t) (w : World) :
    ((StateIdle cfg hw ev w).2).gCurrentChargeState.current_state = w.gCurrentChargeState.current_state := by
  simp only [StateIdle]
  repeat' split
  all_goals simp

@[simp] theorem StateIdle_frame_g_state_node (cfg : chargeConfig_t) (hw : Hardware) (ev : nyx_charger_event_t) (w : World) :
    ((StateIdle cfg hw ev w).2).gCurrentChargeState.state_node = w.gCurrentChargeState.state_node := by
  simp only [StateIdle]
  repeat' split
  all_goals simp

@[simp] theorem StateIdle_frame_g_chargerTimeoutSource (cfg : chargeConfig_t) (hw : Hardware) (ev : nyx_charger_event_t) (w : World) :
    ((StateIdle cfg hw ev w).2).gCurrentChargeState.chargerTimeoutSource = w.gCurrentChargeState.chargerTimeoutSource := by
  simp only [StateIdle]
  repeat' split
  all_goals simp

@[simp] theorem StateChargeComplete_frame_battery_ctia_params (hw : Hardware) (ev : nyx_charger_event_t) (w : World) :
    ((StateChargeComplete hw ev w).2).battery_ctia_params = w.battery_ctia_params := by
  simp only [StateChargeComplete]
  repeat' split
  all_goals simp

@[simp] theorem StateChargeComplete_frame_overcharge_diag_state (hw : Hardware) (ev : nyx_charger_event_t) (w : World) :
    ((StateChargeComplete hw ev w).2).overcharge_diag_state = w.overcharge_diag_state := by
  simp only [StateChargeComplete]
  repeat' split
  all_goals simp

@[simp] theorem StateChargeComplete_frame_overcharge_count (hw : Hardware) (ev : nyx_charger_event_t) (w : World) :
    ((StateChargeComplete hw ev w).2).overcharge_count = w.overcharge_count := by
  simp only [StateChargeComplete]
  repeat' split
  all_goals simp

@[simp] theorem StateChargeComplete_frame_state_node (hw : Hardware) (ev : nyx_charger_event_t) (w : World) :
    ((StateChargeComplete hw ev w).2).state_node = w.state_node := by
  simp only [StateChargeComplete]
  repeat' split
  all_goals simp

@[simp] theorem StateChargeComplete_frame_debounce_bad (hw : Hardware) (ev : nyx_charger_event_t) (w : World) :
    ((StateChargeComplete hw ev w).2).debounce_bad = w.debounce_bad := by
  simp only [StateChargeComplete]
  repeat' split
  all_goals simp

@[simp] theorem StateChargeComplete_frame_discharge_count (hw : Hardware) (ev : nyx_charger_event_t) (w : World) :
    ((StateChargeComplete hw ev w).2).discharge_count = w.discharge_count := by
  simp only [StateChargeComplete]
  repeat' split
  all_goals simp

@[simp] theorem StateChargeComplete_frame_last (hw : Hardware) (ev : nyx_charger_event_t) (w : World) :
    ((StateChargeComplete hw ev w).2).last = w.last := by
  simp only [StateChargeComplete]
  repeat' split
  all_goals simp

@[simp] theorem StateChargeComplete_frame_g_max_charging_mA (hw : Hardware) (ev : nyx_charger_event_t) (w : World) :
    ((StateChargeComplete hw ev w).2).gCurrentChargeState.max_charging_mA = w.gCurrentChargeState.max_charging_mA := by
  simp only [StateChargeComplete]
  repeat' split
  all_goals simp

@[simp] theorem StateChargeComplete_frame_g_stop_charging_sec (hw : Hardware) (ev : nyx_charger_event_t) (w : World) :
    ((StateChargeComplete hw ev w).2).gCurrentChargeState.stop_charging_sec = w.gCurrentChargeState.stop_charging_sec := by
  simp only [StateChargeComplete]
  repeat' split
  all_goals simp

@[simp] theorem StateChargeComplete_frame_g_current_state (hw : Hardware) (ev : nyx_charger_event_t) (w : World) :
    ((StateChargeComplete hw ev w).2).gCurrentChargeState.current_state = w.gCurrentChargeState.current_state := by
  simp only [StateChargeComplete]
  repeat' split
  all_goals simp

@[simp] theorem StateChargeComplete_frame_g_state_node (hw : Hardware) (ev : nyx_charger_event_t) (w : World) :
    ((StateChargeComplete hw ev w).2).gCurrentChargeState.state_node = w.gCurrentChargeState.state_node := by
  simp only [StateChargeComplete]
  repeat' split
  all_goals simp

@[simp] theorem StateChargeComplete_frame_g_chargerTimeoutSource (hw : Hardware) (ev : nyx_charger_event_t) (w : World) :
    ((StateChargeComplete hw ev w).2).gCurrentChargeState.chargerTimeoutSource = w.gCurrentChargeState.chargerTimeoutSource := by
  simp only [StateChargeComplete]
  repeat' split
  all_goals simp

@[simp] theorem StateFault_frame_battery_ctia_params (hw : Hardware) (w : World) :
    ((StateFault hw w).2).battery_ctia_params = w.battery_ctia_params := by
  simp only [StateFault]
  repeat' split
  all_goals simp

@[simp] theorem StateFault_frame_overcharge_diag_state (hw : Hardware) (w : World) :
    ((StateFault hw w).2).overcharge_diag_state = w.overcharge_diag_state := by
  simp only [StateFault]
  repeat' split
  all_goals simp

@[simp] theorem StateFault_frame_overcharge_count (hw : Hardware) (w : World) :
    ((StateFault hw w).2).overcharge_count = w.overcharge_count := by
  simp only [StateFault]
  repeat' split
  all_goals simp

@[simp] theorem StateFault_frame_state_node (hw : Hardware) (w : World) :
    ((StateFault hw w).2).state_node = w.state_node := by
  simp only [StateFault]
  repeat' split
  all_goals simp

@[simp] theorem StateFault_frame_debounce_bad (hw : Hardware) (w : World) :
    ((StateFault hw w).2).debounce_bad = w.debounce_bad := by
  simp only [StateFault]
  repeat' split
  all_goals simp

@[simp] theorem StateFault_frame_discharge_count (hw : Hardware) (w : World) :
    ((StateFault hw w).2).discharge_count = w.discharge_count := by
  simp only [StateFault]
  repeat' split
  all_goals simp

@[simp] theorem StateFault_frame_last (hw : Hardware) (w : World) :
    ((StateFault hw w).2).last = w.last := by
  simp only [StateFault]
  repeat' split
  all_goals simp

@[simp] theorem StateFault_frame_g_max_charging_mA (hw : Hardware) (w : World) :
    ((StateFault hw w).2).gCurrentChargeState.max_charging_mA = w.gCurrentChargeState.max_charging_mA := by
  simp only [StateFault]
  repeat' split
  all_goals simp

@[simp] theorem StateFault_frame_g_stop_charging_sec (hw : Hardware) (w : World) :
    ((StateFault hw w).2).gCurrentChargeState.stop_charging_sec = w.gCurrentChargeState.stop_charging_sec := by
  simp only [StateFault]
  repeat' split
  all_goals simp

@[simp] theorem StateFault_frame_g_current_state (hw : Hardware) (w : World) :
    ((StateFault hw w).2).gCurrentChargeState.current_state = w.gCurrentChargeState.current_state := by
  simp only [StateFault]
  repeat' split
  all_goals simp

@[simp] theorem StateFault_frame_g_state_node (hw : Hardware) (w : World) :
    ((StateFault hw w).2).gCurrentChargeState.state_node = w.gCurrentChargeState.state_node := by
  simp only [StateFault]
  repeat' split
  all_goals simp

@[simp] theorem StateFault_frame_g_chargerTimeoutSource (hw : Hardware) (w : World) :
    ((StateFault hw w).2).gCurrentChargeState.chargerTimeoutSource = w.gCurrentChargeState.chargerTimeoutSource := by
  simp only [StateFault]
  repeat' split
  all_goals simp

@[simp] theorem StateShutdown_frame_gCurrentChargeState (hw : Hardware) (w : World) :
    ((StateShutdown hw w).2).gCurrentChargeState = w.gCurrentChargeState := by
  simp [StateShutdown]

@[simp] theorem StateShutdown_frame_battery_ctia_params (hw : Hardware) (w : World) :
    ((StateShutdown hw w).2).battery_ctia_params = w.battery_ctia_params := by
  simp [StateShutdown]

@[simp] theorem StateShutdown_frame_overcharge_diag_state (hw : Hardware) (w : World) :
    ((StateShutdown hw w).2).overcharge_diag_state = w.overcharge_diag_state := by
  simp [StateShutdown]

@[simp] theorem StateShutdown_frame_overcharge_count (hw : Hardware) (w : World) :
    ((StateShutdown hw w).2).overcharge_count = w.overcharge_count := by
  simp [StateShutdown]

@[simp] theorem StateShutdown_frame_state_node (hw : Hardware) (w : World) :
    ((StateShutdown hw w).2).state_node = w.state_node := by
  simp [StateShutdown]

@[simp] theorem StateShutdown_frame_debounce_bad (hw : Hardware) (w : World) :
    ((StateShutdown hw w).2).debounce_bad = w.debounce_bad := by
  simp [StateShutdown]

@[simp] theorem StateShutdown_frame_discharge_count (hw : Hardware) (w : World) :
    ((StateShutdown hw w).2).discharge_count = w.discharge_count := by
  simp [StateShutdown]

@[simp] theorem StateShutdown_frame_last (hw : Hardware) (w : World) :
    ((StateShutdown hw w).2).last = w.last := by
  simp [StateShutdown]

@[simp] theorem StateShutdownWait_frame_gCurrentChargeState (w : World) :
    ((StateShutdownWait w).2).gCurrentChargeState = w.gCurrentChargeState := rfl

@[simp] theorem StateShutdownWait_frame_battery_ctia_params (w : World) :
    ((StateShutdownWait w).2).battery_ctia_params = w.battery_ctia_params := rfl

@[simp] theorem StateShutdownWait_frame_overcharge_diag_state (w : World) :
    ((StateShutdownWait w).2).overcharge_diag_state = w.overcharge_diag_state := rfl

@[simp] theorem StateShutdownWait_frame_overcharge_count (w : World) :
    ((StateShutdownWait w).2).overcharge_count = w.overcharge_count := rfl

@[simp] theorem StateShutdownWait_frame_state_node (w : World) :
    ((StateShutdownWait w).2).state_node = w.state_node := rfl

@[simp] theorem StateShutdownWait_frame_debounce_bad (w : World) :
    ((StateShutdownWait w).2).debounce_bad = w.debounce_bad := rfl

@[simp] theorem StateShutdownWait_frame_discharge_count (w : World) :
    ((StateShutdownWait w).2).discharge_count = w.discharge_count := rfl

@[simp] theorem StateShutdownWait_frame_last (w : World) :
    ((StateShutdownWait w).2).last = w.last := rfl

@[simp] theorem StateShutdownWait_frame_clock (w : World) :
    ((StateShutdownWait w).2).clock = w.clock := rfl

@[simp] theorem StateShutdownWait_frame_log (w : World) :
    ((StateShutdownWait w).2).log = w.log := rfl

@[simp] theorem StateCharging_frame_battery_ctia_params (cfg : chargeConfig_t) (hw : Hardware) (ev : nyx_charger_event_t) (w : World) :
    ((StateCharging cfg hw ev w).2).battery_ctia_params = w.battery_ctia_params := by
  simp only [StateCharging]
  repeat' split
  all_goals simp

@[simp] theorem StateCharging_frame_state_node (cfg : chargeConfig_t) (hw : Hardware) (ev : nyx_charger_event_t) (w : World) :
    ((StateCharging cfg hw ev w).2).state_node = w.state_node := by
  simp only [StateCharging]
  repeat' split
  all_goals simp

@[simp] theorem StateCharging_frame_debounce_bad (cfg : chargeConfig_t) (hw : Hardware) (ev : nyx_charger_event_t) (w : World) :
    ((StateCharging cfg hw ev w).2).debounce_bad = w.debounce_bad := by
  simp only [StateCharging]
  repeat' split
  all_goals simp

@[simp] theorem StateCharging_frame_discharge_count (cfg : chargeConfig_t) (hw : Hardware) (ev : nyx_charger_event_t) (w : World) :
    ((StateCharging cfg hw ev w).2).discharge_count = w.discharge_count := by
  simp only [StateCharging]
  repeat' split
  all_goals simp

@[simp] theorem StateCharging_frame_last (cfg : chargeConfig_t) (hw : Hardware) (ev : nyx_charger_event_t) (w : World) :
    ((StateCharging cfg hw ev w).2).last = w.last := by
  simp only [StateCharging]
  repeat' split
  all_goals simp

@[simp] theorem StateCharging_frame_g_start_charging (cfg : chargeConfig_t) (hw : Hardware) (ev : nyx_charger_event_t) (w : World) :
    ((StateCharging cfg hw ev w).2).gCurrentChargeState.start_charging = w.gCurrentChargeState.start_charging := by
  simp only [StateCharging]
  repeat' split
  all_goals simp

@[simp] theorem StateCharging_frame_g_stop_charging_sec (cfg : chargeConfig_t) (hw : Hardware) (ev : nyx_charger_event_t) (w : World) :
    ((StateCharging cfg hw ev w).2).gCurrentChargeState.stop_charging_sec = w.gCurrentChargeState.stop_charging_sec := by
  simp only [StateCharging]
  repeat' split
  all_goals simp

@[simp] theorem StateCharging_frame_g_taper_time_start (cfg : chargeConfig_t) (hw : Hardware) (ev : nyx_charger_event_t) (w : World) :
    ((StateCharging cfg hw ev w).2).gCurrentChargeState.taper_time_start = w.gCurrentChargeState.taper_time_start := by
  simp only [StateCharging]
  repeat' split
  all_goals simp

@[simp] theorem StateCharging_frame_g_current_state (cfg : chargeConfig_t) (hw : Hardware) (ev : nyx_charger_event_t) (w : World) :
    ((StateCharging cfg hw ev w).2).gCurrentChargeState.current_state = w.gCurrentChargeState.current_state := by
  simp only [StateCharging]
  repeat' split
  all_goals simp

@[simp] theorem StateCharging_frame_g_state_node (cfg : chargeConfig_t) (hw : Hardware) (ev : nyx_charger_event_t) (w : World) :
    ((StateCharging cfg hw ev w).2).gCurrentChargeState.state_node = w.gCurrentChargeState.state_node := by
  simp only [StateCharging]
  repeat' split
  all_goals simp

@[simp] theorem StateCharging_frame_g_shutdown_reason (cfg : chargeConfig_t) (hw : Hardware) (ev : nyx_charger_event_t) (w : World) :
    ((StateCharging cfg hw ev w).2).gCurrentChargeState.shutdown_reason = w.gCurrentChargeState.shutdown_reason := by
  simp only [StateCharging]
  repeat' split
  all_goals simp

@[simp] theorem StateCharging_frame_g_chargerTimeoutSource (cfg : chargeConfig_t) (hw : Hardware) (ev : nyx_charger_event_t) (w : World) :
    ((StateCharging cfg hw ev w).2).gCurrentChargeState.chargerTimeoutSource = w.gCurrentChargeState.chargerTimeoutSource := by
  simp only [StateCharging]
  repeat' split
  all_goals simp

@[simp] theorem chargeStateProc_frame_battery_ctia_params (s : ChargeState) (cfg : chargeConfig_t) (hw : Hardware) (ev : nyx_charger_event_t) (w : World) :
    ((chargeStateProc s cfg hw ev w).2).battery_ctia_params = w.battery_ctia_params := by
  cases s <;> simp [chargeStateProc]

@[simp] theorem chargeStateProc_frame_state_node (s : ChargeState) (cfg : chargeConfig_t) (hw : Hardware) (ev : nyx_charger_event_t) (w : World) :
    ((chargeStateProc s cfg hw ev w).2).state_node = w.state_node := by
  cases s <;> simp [chargeStateProc]

@[simp] theorem chargeStateProc_frame_debounce_bad (s : ChargeState) (cfg : chargeConfig_t) (hw : Hardware) (ev : nyx_charger_event_t) (w : World) :
    ((chargeStateProc s cfg hw ev w).2).debounce_bad = w.debounce_bad := by
  cases s <;> simp [chargeStateProc]

@[simp] theorem chargeStateProc_frame_discharge_count (s : ChargeState) (cfg : chargeConfig_t) (hw : Hardware) (ev : nyx_charger_event_t) (w : World) :
    ((chargeStateProc s cfg hw ev w).2).discharge_count = w.discharge_count := by
  cases s <;> simp [chargeStateProc]

@[simp] theorem chargeStateProc_frame_last (s : ChargeState) (cfg : chargeConfig_t) (hw : Hardware) (ev : nyx_charger_event_t) (w : World) :
    ((chargeStateProc s cfg hw ev w).2).last = w.last := by
  cases s <;> simp [chargeStateProc]

@[simp] theorem chargeStateProc_frame_g_stop_charging_sec (s : ChargeState) (cfg : chargeConfig_t) (hw : Hardware) (ev : nyx_charger_event_t) (w : World) :
    ((chargeStateProc s cfg hw ev w).2).gCurrentChargeState.stop_charging_sec = w.gCurrentChargeState.stop_charging_sec := by
  cases s <;> simp [chargeStateProc]

@[simp] theorem chargeStateProc_frame_g_current_state (s : ChargeState) (cfg : chargeConfig_t) (hw : Hardware) (ev : nyx_charger_event_t) (w : World) :
    ((chargeStateProc s cfg hw ev w).2).gCurrentChargeState.current_state = w.gCurrentChargeState.current_state := by
  cases s <;> simp [chargeStateProc]

@[simp] theorem chargeStateProc_frame_g_state_node (s : ChargeState) (cfg : chargeConfig_t) (hw : Hardware) (ev : nyx_charger_event_t) (w : World) :
    ((chargeStateProc s cfg hw ev w).2).gCurrentChargeState.state_node = w.gCurrentChargeState.state_node := by
  cases s <;> simp [chargeStateProc]

@[simp] theorem chargeStateProc_frame_g_chargerTimeoutSource (s : ChargeState) (cfg : chargeConfig_t) (hw : Hardware) (ev : nyx_charger_event_t) (w : World) :
    ((chargeStateProc s cfg hw ev w).2).gCurrentChargeState.chargerTimeoutSource = w.gCurrentChargeState.chargerTimeoutSource := by
  cases s <;> simp [chargeStateProc]

@[simp] theorem StateDebounce_frame_gCurrentChargeState (hw : Hardware) (w : World) :
    ((StateDebounce hw w).2).gCurrentChargeState = w.gCurrentChargeState := by
  simp only [StateDebounce]
  repeat' split
  all_goals simp

@[simp] theorem StateDebounce_frame_battery_ctia_params (hw : Hardware) (w : World) :
    ((StateDebounce hw w).2).battery_ctia_params = w.battery_ctia_params := by
  simp only [StateDebounce]
  repeat' split
  all_goals simp

@[simp] theorem StateDebounce_frame_overcharge_diag_state (hw : Hardware) (w : World) :
    ((StateDebounce hw w).2).overcharge_diag_state = w.overcharge_diag_state := by
  simp only [StateDebounce]
  repeat' split
  all_goals simp

@[simp] theorem StateDebounce_frame_overcharge_count (hw : Hardware) (w : World) :
    ((StateDebounce hw w).2).overcharge_count = w.overcharge_count := by
  simp only [StateDebounce]
  repeat' split
  all_goals simp

@[simp] theorem StateDebounce_frame_state_node (hw : Hardware) (w : World) :
    ((StateDebounce hw w).2).state_node = w.state_node := by
  simp only [StateDebounce]
  repeat' split
  all_goals simp

@[simp] theorem StateDebounce_frame_discharge_count (hw : Hardware) (w : World) :
    ((StateDebounce hw w).2).discharge_count = w.discharge_count := by
  simp only [StateDebounce]
  repeat' split
  all_goals simp

@[simp] theorem StateDebounce_frame_last (hw : Hardware) (w : World) :
    ((StateDebounce hw w).2).last = w.last := by
  simp only [StateDebounce]
  repeat' split
  all_goals simp

@[simp] theorem StateRemoved_frame_gCurrentChargeState (hw : Hardware) (w : World) :
    ((StateRemoved hw w).2).gCurrentChargeState = w.gCurrentChargeState := by
  simp only [StateRemoved]
  repeat' split
  all_goals simp

@[simp] theorem StateRemoved_frame_battery_ctia_params (hw : Hardware) (w : World) :
    ((StateRemoved hw w).2).battery_ctia_params = w.battery_ctia_params := by
  simp only [StateRemoved]
  repeat' split
  all_goals simp

@[simp] theorem StateRemoved_frame_overcharge_diag_state (hw : Hardware) (w : World) :
    ((StateRemoved hw w).2).overcharge_diag_state = w.overcharge_diag_state := by
  simp only [StateRemoved]
  repeat' split
  all_goals simp

@[simp] theorem StateRemoved_frame_overcharge_count (hw : Hardware) (w : World) :
    ((StateRemoved hw w).2).overcharge_count = w.overcharge_count := by
  simp only [StateRemoved]
  repeat' split
  all_goals simp

@[simp] theorem StateRemoved_frame_state_node (hw : Hardware) (w : World) :
    ((StateRemoved hw w).2).state_node = w.state_node := by
  simp only [StateRemoved]
  repeat' split
  all_goals simp

@[simp] theorem StateRemoved_frame_debounce_bad (hw : Hardware) (w : World) :
    ((StateRemoved hw w).2).debounce_bad = w.debounce_bad := by
  simp only [StateRemoved]
  repeat' split
  all_goals simp

@[simp] theorem StateRemoved_frame_discharge_count (hw : Hardware) (w : World) :
    ((StateRemoved hw w).2).discharge_count = w.discharge_count := by
  simp only [StateRemoved]
  repeat' split
  all_goals simp

@[simp] theorem StateRemoved_frame_last (hw : Hardware) (w : World) :
    ((StateRemoved hw w).2).last = w.last := by
  simp only [StateRemoved]
  repeat' split
  all_goals simp

@[simp] theorem StateRemoved_frame_log (hw : Hardware) (w : World) :
    ((StateRemoved hw w).2).log = w.log := by
  simp only [StateRemoved]
  repeat' split
  all_goals simp

@[simp] theorem StateInserted_frame_gCurrentChargeState (hw : Hardware) (w : World) :
    ((StateInserted hw w).2).gCurrentChargeState = w.gCurrentChargeState := by
  simp only [StateInserted]
  repeat' split
  all_goals simp

@[simp] theorem StateInserted_frame_battery_ctia_params (hw : Hardware) (w : World) :
    ((StateInserted hw w).2).battery_ctia_params = w.battery_ctia_params := by
  simp only [StateInserted]
  repeat' split
  all_goals simp

@[simp] theorem StateInserted_frame_overcharge_diag_state (hw : Hardware) (w : World) :
    ((StateInserted hw w).2).overcharge_diag_state = w.overcharge_diag_state := by
  simp only [StateInserted]
  repeat' split
  all_goals simp

@[simp] theorem StateInserted_frame_overcharge_count (hw : Hardware) (w : World) :
    ((StateInserted hw w).2).overcharge_count = w.overcharge_count := by
  simp only [StateInserted]
  repeat' split
  all_goals simp

@[simp] theorem StateInserted_frame_state_node (hw : Hardware) (w : World) :
    ((StateInserted hw w).2).state_node = w.state_node := by
  simp only [StateInserted]
  repeat' split
  all_goals simp

@[simp] theorem StateInserted_frame_debounce_bad (hw : Hardware) (w : World) :
    ((StateInserted hw w).2).debounce_bad = w.debounce_bad := by
  simp only [StateInserted]
  repeat' split
  all_goals simp

@[simp] theorem StateInserted_frame_discharge_count (hw : Hardware) (w : World) :
    ((StateInserted hw w).2).discharge_count = w.discharge_count := by
  simp only [StateInserted]
  repeat' split
  all_goals simp

@[simp] theorem StateInserted_frame_last (hw : Hardware) (w : World) :
    ((StateInserted hw w).2).last = w.last := by
  simp only [StateInserted]
  repeat' split
  all_goals simp

@[simp] theorem StateAuthenticOrNot_frame_gCurrentChargeState (hw : Hardware) (w : World) :
    ((StateAuthenticOrNot hw w).2).gCurrentChargeState = w.gCurrentChargeState := by
  simp only [StateAuthenticOrNot]
  repeat' split
  all_goals simp

@[simp] theorem StateAuthenticOrNot_frame_battery_ctia_params (hw : Hardware) (w : World) :
    ((StateAuthenticOrNot hw w).2).battery_ctia_params = w.battery_ctia_params := by
  simp only [StateAuthenticOrNot]
  repeat' split
  all_goals simp

@[simp] theorem StateAuthenticOrNot_frame_overcharge_diag_state (hw : Hardware) (w : World) :
    ((StateAuthenticOrNot hw w).2).overcharge_diag_state = w.overcharge_diag_state := by
  simp only [StateAuthenticOrNot]
  repeat' split
  all_goals simp

@[simp] theorem StateAuthenticOrNot_frame_overcharge_count (hw : Hardware) (w : World) :
    ((StateAuthenticOrNot hw w).2).overcharge_count = w.overcharge_count := by
  simp only [StateAuthenticOrNot]
  repeat' split
  all_goals simp

@[simp] theorem StateAuthenticOrNot_frame_state_node (hw : Hardware) (w : World) :
    ((StateAuthenticOrNot hw w).2).state_node = w.state_node := by
  simp only [StateAuthenticOrNot]
  repeat' split
  all_goals simp

@[simp] theorem StateAuthenticOrNot_frame_debounce_bad (hw : Hardware) (w : World) :
    ((StateAuthenticOrNot hw w).2).debounce_bad = w.debounce_bad := by
  simp only [StateAuthenticOrNot]
  repeat' split
  all_goals simp

@[simp] theorem StateNotAuthentic_frame_gCurrentChargeState (hw : Hardware) (w : World) :
    ((StateNotAuthentic hw w).2).gCurrentChargeState = w.gCurrentChargeState := by
  simp only [StateNotAuthentic]
  repeat' split
  all_goals simp

@[simp] theorem StateNotAuthentic_frame_battery_ctia_params (hw : Hardware) (w : World) :
    ((StateNotAuthentic hw w).2).battery_ctia_params = w.battery_ctia_params := by
  simp only [StateNotAuthentic]
  repeat' split
  all_goals simp

@[simp] theorem StateNotAuthentic_frame_overcharge_diag_state (hw : Hardware) (w : World) :
    ((StateNotAuthentic hw w).2).overcharge_diag_state = w.overcharge_diag_state := by
  simp only [StateNotAuthentic]
  repeat' split
  all_goals simp

@[simp] theorem StateNotAuthentic_frame_overcharge_count (hw : Hardware) (w : World) :
    ((StateNotAuthentic hw w).2).overcharge_count = w.overcharge_count := by
  simp only [StateNotAuthentic]
  repeat' split
  all_goals simp

@[simp] theorem StateNotAuthentic_frame_state_node (hw : Hardware) (w : World) :
    ((StateNotAuthentic hw w).2).state_node = w.state_node := by
  simp only [StateNotAuthentic]
  repeat' split
  all_goals simp

@[simp] theorem StateNotAuthentic_frame_debounce_bad (hw : Hardware) (w : World) :
    ((StateNotAuthentic hw w).2).debounce_bad = w.debounce_bad := by
  simp only [StateNotAuthentic]
  repeat' split
  all_goals simp

@[simp] theorem StateAuthentic_frame_gCurrentChargeState (hw : Hardware) (w : World) :
    ((StateAuthentic hw w).2).gCurrentChargeState = w.gCurrentChargeState := by
  simp [StateAuthentic]

@[simp] theorem StateAuthentic_frame_battery_ctia_params (hw : Hardware) (w : World) :
    ((StateAuthentic hw w).2).battery_ctia_params = w.battery_ctia_params := by
  simp [StateAuthentic]

@[simp] theorem StateAuthentic_frame_overcharge_diag_state (hw : Hardware) (w : World) :
    ((StateAuthentic hw w).2).overcharge_diag_state = w.overcharge_diag_state := by
  simp [StateAuthentic]

@[simp] theorem StateAuthentic_frame_overcharge_count (hw : Hardware) (w : World) :
    ((StateAuthentic hw w).2).overcharge_count = w.overcharge_count := by
  simp [StateAuthentic]

@[simp] theorem StateAuthentic_frame_state_node (hw : Hardware) (w : World) :
    ((StateAuthentic hw w).2).state_node = w.state_node := by
  simp [StateAuthentic]

@[simp] theorem StateAuthentic_frame_debounce_bad (hw : Hardware) (w : World) :
    ((StateAuthentic hw w).2).debounce_bad = w.debounce_bad := by
  simp [StateAuthentic]

@[simp] theorem batteryStateProc_frame_gCurrentChargeState (s : BatteryState) (hw : Hardware) (w : World) :
    ((batteryStateProc s hw w).2).gCurrentChargeState = w.gCurrentChargeState := by
  cases s <;> simp [batteryStateProc]

@[simp] theorem batteryStateProc_frame_battery_ctia_params (s : BatteryState) (hw : Hardware) (w : World) :
    ((batteryStateProc s hw w).2).battery_ctia_params = w.battery_ctia_params := by
  cases s <;> simp [batteryStateProc]

@[simp] theorem batteryStateProc_frame_overcharge_diag_state (s : BatteryState) (hw : Hardware) (w : World) :
    ((batteryStateProc s hw w).2).overcharge_diag_state = w.overcharge_diag_state := by
  cases s <;> simp [batteryStateProc]

@[simp] theorem batteryStateProc_frame_overcharge_count (s : BatteryState) (hw : Hardware) (w : World) :
    ((batteryStateProc s hw w).2).overcharge_count = w.overcharge_count := by
  cases s <;> simp [batteryStateProc]

@[simp] theorem batteryStateProc_frame_state_node (s : BatteryState) (hw : Hardware) (w : World) :
    ((batteryStateProc s hw w).2).state_node = w.state_node := by
  cases s <;> simp [batteryStateProc]

/-! ## The charging-logic log -/

@[simp] theorem emit_log (e : Effect) (w : World) : (emit e w).log = w.log ++ [e] := rfl

@[simp] theorem tick_clock (w : World) : (tick w).clock = w.clock + 1 := rfl

@[simp] theorem chargeLog_nil : chargeLog [] = [] := rfl

@[simp] theorem chargeLog_append (l₁ l₂ : List Effect) :
    chargeLog (l₁ ++ l₂) = chargeLog l₁ ++ chargeLog l₂ := by
  simp [chargeLog]

@[simp] theorem chargeLog_cons_current_state (s : ChargeState) (l : List Effect) :
    chargeLog ((Effect.current_state s) :: l) = (Effect.current_state s) :: chargeLog l := rfl

@[simp] theorem chargeLog_cons_jump (r : String) (l : List Effect) :
    chargeLog ((Effect.jump r) :: l) = (Effect.jump r) :: chargeLog l := rfl

@[simp] theorem chargeLog_cons_call_state (s : ChargeState) (l : List Effect) :
    chargeLog ((Effect.call_state s) :: l) = (Effect.call_state s) :: chargeLog l := rfl

@[simp] theorem chargeLog_cons_MachineShutdown (r : String) (l : List Effect) :
    chargeLog ((Effect.MachineShutdown r) :: l) = (Effect.MachineShutdown r) :: chargeLog l := rfl

@[simp] theorem chargeLog_cons_write_console (l : List Effect) :
    chargeLog (Effect.write_console :: l) = Effect.write_console :: chargeLog l := rfl

@[simp] theorem chargeLog_cons_nyx_charger_enable_charging (b : Bool) (l : List Effect) :
    chargeLog ((Effect.nyx_charger_enable_charging b) :: l) = (Effect.nyx_charger_enable_charging b) :: chargeLog l := rfl

@[simp] theorem chargeLog_cons_nyx_charger_disable_charging (l : List Effect) :
    chargeLog (Effect.nyx_charger_disable_charging :: l) = Effect.nyx_charger_disable_charging :: chargeLog l := rfl

@[simp] theorem chargeLog_cons_call_battery_state (s : BatteryState) (l : List Effect) :
    chargeLog ((Effect.call_battery_state s) :: l) = chargeLog l := rfl

@[simp] theorem chargeLog_cons_nyx_battery_set_wakeup_percentage (v : Int) (l : List Effect) :
    chargeLog ((Effect.nyx_battery_set_wakeup_percentage v) :: l) = chargeLog l := rfl

@[simp] theorem chargeLog_cons_sendBatteryStatus (st : nyx_battery_status_t) (l : List Effect) :
    chargeLog ((Effect.sendBatteryStatus st) :: l) = chargeLog l := rfl

@[simp] theorem chargeLog_cons_battery_search (b : Bool) (l : List Effect) :
    chargeLog ((Effect.battery_search b) :: l) = chargeLog l := rfl

@[simp] theorem sendBatteryStatus_chargeLog (hw : Hardware) (w : World) :
    chargeLog (sendBatteryStatus hw w).log = chargeLog w.log := by
  unfold sendBatteryStatus
  split <;> simp

@[simp] theorem battery_set_wakeup_percentage_chargeLog (hw : Hardware) (c s : Bool)
    (w : World) : chargeLog (battery_set_wakeup_percentage hw c s w).log = chargeLog w.log := by
  simp only [battery_set_wakeup_percentage]
  split <;> simp

@[simp] theorem battery_search_chargeLog (b : Bool) (w : World) :
    chargeLog (battery_search b w).log = chargeLog w.log := by
  simp [battery_search]

@[simp] theorem MachineShutdown_log (r : String) (w : World) :
    (MachineShutdown r w).log = w.log ++ [.MachineShutdown r] := rfl

@[simp] theorem chargerDisableCharging_chargeLog (hw : Hardware) (w : World) :
    chargeLog (chargerDisableCharging hw w).log =
      chargeLog w.log ++ [.nyx_charger_disable_charging] := by
  simp [chargerDisableCharging]

@[simp] theorem chargerEnableCharging_chargeLog (hw : Hardware) (w : World) :
    chargeLog (chargerEnableCharging hw w).2.log =
      chargeLog w.log ++
        [.nyx_charger_enable_charging (hw.nyx_charger_enable_charging w.clock)] := by
  simp only [chargerEnableCharging]
  split <;> simp

@[simp] theorem chargerEnableCharging_fst (hw : Hardware) (w : World) :
    (chargerEnableCharging hw w).1 = hw.nyx_charger_enable_charging w.clock := by
  simp only [chargerEnableCharging]
  split <;> simp_all

@[simp] theorem TurnChargingOff_chargeLog (hw : Hardware) (r : String) (w : World) :
    chargeLog (TurnChargingOff hw r w).log =
      if w.gCurrentChargeState.charging_enabled = CHARGING_DISABLED then chargeLog w.log
      else chargeLog w.log ++ [.nyx_charger_disable_charging] := by
  unfold TurnChargingOff
  by_cases h : w.gCurrentChargeState.charging_enabled = CHARGING_DISABLED <;> simp [h]

@[simp] theorem TurnChargingOff_charging_enabled (hw : Hardware) (r : String) (w : World) :
    (TurnChargingOff hw r w).gCurrentChargeState.charging_enabled = CHARGING_DISABLED := by
  unfold TurnChargingOff
  by_cases h : w.gCurrentChargeState.charging_enabled = CHARGING_DISABLED <;> simp [h]

theorem TurnChargingOff_of_disabled (hw : Hardware) (r : String) (w : World)
    (h : w.gCurrentChargeState.charging_enabled = CHARGING_DISABLED) :
    TurnChargingOff hw r w = w := by
  simp [TurnChargingOff, h]

@[simp] theorem TurnChargingON_chargeLog (hw : Hardware) (w : World) :
    chargeLog (TurnChargingON hw w).2.log =
      chargeLog w.log ++
        [.nyx_charger_enable_charging (hw.nyx_charger_enable_charging w.clock)] := by
  simp [TurnChargingON]

@[simp] theorem TurnChargingON_fst (hw : Hardware) (w : World) :
    (TurnChargingON hw w).1 = hw.nyx_charger_enable_charging w.clock := by
  simp [TurnChargingON]

@[simp] theorem TurnChargingON_charging_enabled (hw : Hardware) (w : World) :
    (TurnChargingON hw w).2.gCurrentChargeState.charging_enabled = CHARGING_ENABLED := by
  simp only [TurnChargingON, chargerEnableCharging]
  split <;> simp

theorem JumpToShutdownState_of_inShutdown (r : String) (w : World)
    (h : inShutdown w.gCurrentChargeState.current_state = true) :
    _JumpToShutdownState r w = w := by
  unfold _JumpToShutdownState
  cases hc : w.gCurrentChargeState.current_state <;> simp_all [inShutdown]

theorem JumpToShutdownState_of_not_inShutdown (r : String) (w : World)
    (h : inShutdown w.gCurrentChargeState.current_state = false) :
    _JumpToShutdownState r w =
      emit (.current_state kChargeStateShutdown) (emit (.jump r)
        { w with gCurrentChargeState :=
          { w.gCurrentChargeState with
            shutdown_reason := r, current_state := kChargeStateShutdown,
            state_node := kChargeStateShutdown } }) := by
  unfold _JumpToShutdownState
  cases hc : w.gCurrentChargeState.current_state <;> simp_all [inShutdown]

@[simp] theorem StateShutdown_fst (hw : Hardware) (w : World) :
    (StateShutdown hw w).1 = kChargeStateShutdownWait := by
  simp [StateShutdown]

@[simp] theorem StateShutdown_chargeLog (hw : Hardware) (w : World) :
    chargeLog (StateShutdown hw w).2.log =
      chargeLog w.log ++
        [.write_console, .MachineShutdown w.gCurrentChargeState.shutdown_reason] := by
  simp [StateShutdown]

@[simp] theorem StateShutdown_gCurrentChargeState (hw : Hardware) (w : World) :
    (StateShutdown hw w).2.gCurrentChargeState = w.gCurrentChargeState := by
  simp [StateShutdown, MachineShutdown]

@[simp] theorem StateShutdownWait_eq (w : World) :
    StateShutdownWait w = (kChargeStateLast, w) := rfl

/-! ## The presence machine leaves the charging side alone -/

@[simp] theorem batteryStateProc_chargeLog (s : BatteryState) (hw : Hardware) (w : World) :
    chargeLog (batteryStateProc s hw w).2.log = chargeLog w.log := by
  cases s <;>
    simp only [batteryStateProc, StateRemoved, StateDebounce, StateInserted, StateAuthentic,
      StateNotAuthentic, StateAuthenticOrNot] <;>
    (repeat' split) <;> simp

theorem battery_state_iterate_frame (fuel : Nat) (hw : Hardware) (w : World) :
    (battery_state_iterate fuel hw w).world.gCurrentChargeState = w.gCurrentChargeState ∧
    (battery_state_iterate fuel hw w).world.battery_ctia_params = w.battery_ctia_params ∧
    (battery_state_iterate fuel hw w).world.overcharge_count = w.overcharge_count ∧
    (battery_state_iterate fuel hw w).world.overcharge_diag_state = w.overcharge_diag_state ∧
    chargeLog (battery_state_iterate fuel hw w).world.log = chargeLog w.log := by
  induction fuel generalizing w with
  | zero => simp [battery_state_iterate]
  | succ n ih =>
    simp only [battery_state_iterate]
    split
    · obtain ⟨h1, h2, h3, h4, h5⟩ := ih
        { (batteryStateProc w.state_node hw (emit (.call_battery_state w.state_node) w)).2 with
          state_node :=
            (batteryStateProc w.state_node hw (emit (.call_battery_state w.state_node) w)).1 }
      refine ⟨?_, ?_, ?_, ?_, ?_⟩
      · rw [h1]; simp
      · rw [h2]; simp
      · rw [h3]; simp
      · rw [h4]; simp
      · rw [h5]; simp
    · simp

/-! ## The machine-step log -/

@[simp] theorem machineLog_nil : machineLog [] = [] := rfl

@[simp] theorem machineLog_append (l₁ l₂ : List Effect) :
    machineLog (l₁ ++ l₂) = machineLog l₁ ++ machineLog l₂ := by
  simp [machineLog]

@[simp] theorem machineLog_cons_current_state (s : ChargeState) (l : List Effect) :
    machineLog ((Effect.current_state s) :: l) = (Effect.current_state s) :: machineLog l := rfl

@[simp] theorem machineLog_cons_jump (r : String) (l : List Effect) :
    machineLog ((Effect.jump r) :: l) = (Effect.jump r) :: machineLog l := rfl

@[simp] theorem machineLog_cons_call_state (s : ChargeState) (l : List Effect) :
    machineLog ((Effect.call_state s) :: l) = (Effect.call_state s) :: machineLog l := rfl

@[simp] theorem machineLog_cons_MachineShutdown (r : String) (l : List Effect) :
    machineLog ((Effect.MachineShutdown r) :: l) = machineLog l := rfl

@[simp] theorem machineLog_cons_write_console (l : List Effect) :
    machineLog (Effect.write_console :: l) = machineLog l := rfl

@[simp] theorem machineLog_cons_nyx_charger_enable_charging (b : Bool) (l : List Effect) :
    machineLog ((Effect.nyx_charger_enable_charging b) :: l) = machineLog l := rfl

@[simp] theorem machineLog_cons_nyx_charger_disable_charging (l : List Effect) :
    machineLog (Effect.nyx_charger_disable_charging :: l) = machineLog l := rfl

@[simp] theorem machineLog_cons_call_battery_state (s : BatteryState) (l : List Effect) :
    machineLog ((Effect.call_battery_state s) :: l) = machineLog l := rfl

@[simp] theorem machineLog_cons_nyx_battery_set_wakeup_percentage (v : Int) (l : List Effect) :
    machineLog ((Effect.nyx_battery_set_wakeup_percentage v) :: l) = machineLog l := rfl

@[simp] theorem machineLog_cons_sendBatteryStatus (st : nyx_battery_status_t) (l : List Effect) :
    machineLog ((Effect.sendBatteryStatus st) :: l) = machineLog l := rfl

@[simp] theorem machineLog_cons_battery_search (b : Bool) (l : List Effect) :
    machineLog ((Effect.battery_search b) :: l) = machineLog l := rfl

@[simp] theorem sendBatteryStatus_machineLog (hw : Hardware) (w : World) :
    machineLog (sendBatteryStatus hw w).log = machineLog w.log := by
  unfold sendBatteryStatus
  split <;> simp

@[simp] theorem battery_set_wakeup_percentage_machineLog (hw : Hardware) (c s : Bool) (w : World) :
    machineLog (battery_set_wakeup_percentage hw c s w).log = machineLog w.log := by
  simp only [battery_set_wakeup_percentage]
  split <;> simp

@[simp] theorem battery_search_machineLog (b : Bool) (w : World) :
    machineLog (battery_search b w).log = machineLog w.log := by
  simp [battery_search]

@[simp] theorem chargerDisableCharging_machineLog (hw : Hardware) (w : World) :
    machineLog (chargerDisableCharging hw w).log = machineLog w.log := by
  simp [chargerDisableCharging]

@[simp] theorem chargerEnableCharging_machineLog (hw : Hardware) (w : World) :
    machineLog ((chargerEnableCharging hw w).2).log = machineLog w.log := by
  simp only [chargerEnableCharging]
  split <;> simp

@[simp] theorem TurnChargingOff_machineLog (hw : Hardware) (r : String) (w : World) :
    machineLog (TurnChargingOff hw r w).log = machineLog w.log := by
  unfold TurnChargingOff
  split <;> simp

@[simp] theorem TurnChargingON_machineLog (hw : Hardware) (w : World) :
    machineLog ((TurnChargingON hw w).2).log = machineLog w.log := by
  simp [TurnChargingON]

@[simp] theorem StateIdle_machineLog (cfg : chargeConfig_t) (hw : Hardware) (ev : nyx_charger_event_t) (w : World) :
    machineLog ((StateIdle cfg hw ev w).2).log = machineLog w.log := by
  simp only [StateIdle]
  repeat' split
  all_goals simp

@[simp] theorem StateChargeComplete_machineLog (hw : Hardware) (ev : nyx_charger_event_t) (w : World) :
    machineLog ((StateChargeComplete hw ev w).2).log = machineLog w.log := by
  simp only [StateChargeComplete]
  repeat' split
  all_goals simp

@[simp] theorem StateFault_machineLog (hw : Hardware) (w : World) :
    machineLog ((StateFault hw w).2).log = machineLog w.log := by
  simp only [StateFault]
  repeat' split
  all_goals simp

@[simp] theorem StateShutdown_machineLog (hw : Hardware) (w : World) :
    machineLog ((StateShutdown hw w).2).log = machineLog w.log := by
  simp [StateShutdown]

@[simp] theorem StateCharging_machineLog (cfg : chargeConfig_t) (hw : Hardware) (ev : nyx_charger_event_t) (w : World) :
    machineLog ((StateCharging cfg hw ev w).2).log = machineLog w.log := by
  simp only [StateCharging]
  repeat' split
  all_goals simp

@[simp] theorem chargeStateProc_machineLog (s : ChargeState) (cfg : chargeConfig_t) (hw : Hardware) (ev : nyx_charger_event_t) (w : World) :
    machineLog ((chargeStateProc s cfg hw ev w).2).log = machineLog w.log := by
  cases s <;> simp [chargeStateProc]

@[simp] theorem batteryStateProc_machineLog (s : BatteryState) (hw : Hardware) (w : World) :
    machineLog ((batteryStateProc s hw w).2).log = machineLog w.log := by
  cases s <;>
    simp only [batteryStateProc, StateRemoved, StateDebounce, StateInserted, StateAuthentic,
      StateNotAuthentic, StateAuthenticOrNot] <;>
    (repeat' split) <;> simp

theorem battery_state_iterate_machineLog (fuel : Nat) (hw : Hardware) (w : World) :
    machineLog (battery_state_iterate fuel hw w).world.log = machineLog w.log := by
  induction fuel generalizing w with
  | zero => simp [battery_state_iterate]
  | succ n ih =>
    simp only [battery_state_iterate]
    split
    · rw [ih]; simp
    · simp

theorem stateTrace_machineLog (l : List Effect) : stateTrace (machineLog l) = stateTrace l := by
  induction l with
  | nil => rfl
  | cons e rest ih => cases e <;> simp_all [stateTrace, machineLog, Effect.isMachineStep]

theorem callTrace_machineLog (l : List Effect) : callTrace (machineLog l) = callTrace l := by
  induction l with
  | nil => rfl
  | cons e rest ih => cases e <;> simp_all [callTrace, machineLog, Effect.isMachineStep]

theorem jumpTrace_machineLog (l : List Effect) : jumpTrace (machineLog l) = jumpTrace l := by
  induction l with
  | nil => rfl
  | cons e rest ih => cases e <;> simp_all [jumpTrace, machineLog, Effect.isMachineStep]

@[simp] theorem assignState_current_state (s : ChargeState) (w : World) :
    (assignState s w).gCurrentChargeState.current_state = s := rfl

@[simp] theorem assignState_state_node (s : ChargeState) (w : World) :
    (assignState s w).gCurrentChargeState.state_node = s := rfl

@[simp] theorem assignState_log (s : ChargeState) (w : World) :
    (assignState s w).log = w.log ++ [.current_state s] := rfl

@[simp] theorem assignState_frame_battery_ctia_params (s : ChargeState) (w : World) :
    (assignState s w).battery_ctia_params = w.battery_ctia_params := rfl

@[simp] theorem assignState_frame_overcharge_diag_state (s : ChargeState) (w : World) :
    (assignState s w).overcharge_diag_state = w.overcharge_diag_state := rfl

@[simp] theorem assignState_frame_overcharge_count (s : ChargeState) (w : World) :
    (assignState s w).overcharge_count = w.overcharge_count := rfl

@[simp] theorem assignState_frame_state_node (s : ChargeState) (w : World) :
    (assignState s w).state_node = w.state_node := rfl

@[simp] theorem assignState_frame_debounce_bad (s : ChargeState) (w : World) :
    (assignState s w).debounce_bad = w.debounce_bad := rfl

@[simp] theorem assignState_frame_discharge_count (s : ChargeState) (w : World) :
    (assignState s w).discharge_count = w.discharge_count := rfl

@[simp] theorem assignState_frame_last (s : ChargeState) (w : World) :
    (assignState s w).last = w.last := rfl

@[simp] theorem assignState_frame_clock (s : ChargeState) (w : World) :
    (assignState s w).clock = w.clock := rfl

@[simp] theorem assignState_frame_g_charging_enabled (s : ChargeState) (w : World) :
    (assignState s w).gCurrentChargeState.charging_enabled = w.gCurrentChargeState.charging_enabled := rfl

@[simp] theorem assignState_frame_g_max_charging_mA (s : ChargeState) (w : World) :
    (assignState s w).gCurrentChargeState.max_charging_mA = w.gCurrentChargeState.max_charging_mA := rfl

@[simp] theorem assignState_frame_g_start_charging (s : ChargeState) (w : World) :
    (assignState s w).gCurrentChargeState.start_charging = w.gCurrentChargeState.start_charging := rfl

@[simp] theorem assignState_frame_g_stop_charging_sec (s : ChargeState) (w : World) :
    (assignState s w).gCurrentChargeState.stop_charging_sec = w.gCurrentChargeState.stop_charging_sec := rfl

@[simp] theorem assignState_frame_g_taper_time_start (s : ChargeState) (w : World) :
    (assignState s w).gCurrentChargeState.taper_time_start = w.gCurrentChargeState.taper_time_start := rfl

@[simp] theorem assignState_frame_g_shutdown_reason (s : ChargeState) (w : World) :
    (assignState s w).gCurrentChargeState.shutdown_reason = w.gCurrentChargeState.shutdown_reason := rfl

@[simp] theorem assignState_frame_g_chargerTimeoutSource (s : ChargeState) (w : World) :
    (assignState s w).gCurrentChargeState.chargerTimeoutSource = w.gCurrentChargeState.chargerTimeoutSource := rfl

theorem ChargeStateIterate_loop_succ (fuel : Nat) (cfg : chargeConfig_t) (hw : Hardware)
    (ev : nyx_charger_event_t) (w : World) :
    ChargeStateIterate_loop (fuel + 1) cfg hw ev w =
      if (chargeStateProc w.gCurrentChargeState.state_node cfg hw ev
          (emit (.call_state w.gCurrentChargeState.state_node) w)).1 = kChargeStateLast then
        .returned (chargeStateProc w.gCurrentChargeState.state_node cfg hw ev
          (emit (.call_state w.gCurrentChargeState.state_node) w)).2
      else
        ChargeStateIterate_loop fuel cfg hw ev
          (assignState (chargeStateProc w.gCurrentChargeState.state_node cfg hw ev
              (emit (.call_state w.gCurrentChargeState.state_node) w)).1
            (chargeStateProc w.gCurrentChargeState.state_node cfg hw ev
              (emit (.call_state w.gCurrentChargeState.state_node) w)).2) := by
  simp only [ChargeStateIterate_loop, assignState]
  split <;> simp_all

/-! ## Overcharge counting -/

theorem BatteryOverchargeFault_count (fa : DoubleArith) (s : nyx_battery_status_t) (w : World) :
    (BatteryOverchargeFault fa s w).2.overcharge_count =
      if over_limit fa s then w.overcharge_count + 1 else 0 := by
  unfold BatteryOverchargeFault over_limit overcharge_limit
  by_cases h : s.capacity_raw >
      fa.mul fa.c1_2 (fa.div (fa.mul s.capacity_full40 s.age) 100)
  · simp only [h, decide_True, if_true]
    split_ifs <;> rfl
  · simp [h]

theorem BatteryOverchargeFault_result (fa : DoubleArith) (s : nyx_battery_status_t) (w : World) :
    (BatteryOverchargeFault fa s w).1 =
      (decide (over_limit fa s) && decide (w.overcharge_count + 1 > OVERCHARGE_RETRIES)) := by
  unfold BatteryOverchargeFault over_limit overcharge_limit
  by_cases h : s.capacity_raw >
      fa.mul fa.c1_2 (fa.div (fa.mul s.capacity_full40 s.age) 100)
  · simp only [h, decide_True, if_true, Bool.true_and]
    split_ifs <;> rfl
  · simp [h]

theorem overcharge_feed_append (fa : DoubleArith) (pre : List nyx_battery_status_t)
    (s : nyx_battery_status_t) (w : World) :
    overcharge_feed fa (pre ++ [s]) w =
      (BatteryOverchargeFault fa s (overcharge_feed fa pre w)).2 := by
  induction pre generalizing w with
  | nil => rfl
  | cons a rest ih => simp [overcharge_feed, ih]

theorem over_run_append (fa : DoubleArith) (pre : List nyx_battery_status_t)
    (s : nyx_battery_status_t) :
    over_run fa (pre ++ [s]) = if over_limit fa s then over_run fa pre + 1 else 0 := by
  unfold over_run
  by_cases h : over_limit fa s <;> simp [List.takeWhile_cons, h]

theorem overcharge_feed_count (fa : DoubleArith) (samples : List nyx_battery_status_t)
    (w : World) (h0 : w.overcharge_count = 0) :
    (overcharge_feed fa samples w).overcharge_count = (over_run fa samples : Int) := by
  induction samples using List.reverseRecOn with
  | nil => simpa [overcharge_feed, over_run] using h0
  | append_singleton pre s ih =>
    rw [overcharge_feed_append, BatteryOverchargeFault_count, over_run_append, ih]
    split <;> simp

/-- C5: starting from a zero counter, the call of `BatteryOverchargeFault` on a sample returns
true iff the sample is strictly above the computed limit and ends a run of more than 3
consecutive over-limit samples; a sample not above the limit (equal to it included) resets
the counter to 0.  With exact arithmetic the limit is 1.2 x capacity_full40 x age / 100. -/
theorem C5_overcharge_after_more_than_three (fa : DoubleArith)
    (pre : List nyx_battery_status_t) (s : nyx_battery_status_t) (w : World)
    (h0 : w.overcharge_count = 0) :
    ((BatteryOverchargeFault fa s (overcharge_feed fa pre w)).1 = true ↔
        (s.capacity_raw > overcharge_limit fa s ∧ 3 < over_run fa (pre ++ [s]))) ∧
      (s.capacity_raw ≤ overcharge_limit fa s →
        (BatteryOverchargeFault fa s (overcharge_feed fa pre w)).2.overcharge_count = 0) ∧
      overcharge_limit exactArith s = 12 / 10 * s.capacity_full40 * s.age / 100 := by
  refine ⟨?_, ?_, ?_⟩
  · rw [BatteryOverchargeFault_result, overcharge_feed_count fa pre w h0, over_run_append]
    by_cases h : over_limit fa s
    · have h' : s.capacity_raw > overcharge_limit fa s := h
      simp only [h, h', decide_True, Bool.true_and, decide_eq_true_eq, if_true, true_and,
        OVERCHARGE_RETRIES]
      omega
    · have h' : ¬ s.capacity_raw > overcharge_limit fa s := h
      simp [h, h']
  · intro hle
    rw [BatteryOverchargeFault_count]
    have h : ¬ over_limit fa s := not_lt.mpr hle
    simp [h]
  · simp only [overcharge_limit, exactArith, DoubleArith.mul, DoubleArith.div]
    ring

theorem C5_overcharge_after_more_than_three_witness :
    World.zero.overcharge_count = 0 ∧
    (BatteryOverchargeFault exactArith (sampleReading 1210)
        (overcharge_feed exactArith
          [sampleReading 1210, sampleReading 1210, sampleReading 1210] World.zero)).1 = true :=
  ⟨rfl, ((C5_overcharge_after_more_than_three exactArith
      [sampleReading 1210, sampleReading 1210, sampleReading 1210] (sampleReading 1210)
      World.zero rfl).1.mpr (by decide!))⟩

/-! ## Return values of the state functions -/

theorem StateIdle_fst (cfg : chargeConfig_t) (hw : Hardware) (ev : nyx_charger_event_t)
    (w : World) :
    (StateIdle cfg hw ev w).1 =
      if (!BatteryIsAuthentic w && !cfg.fake_battery) = true then kChargeStateLast
      else if ev.NYX_CHARGER_CONNECTED = true then kChargeStateCharging
      else kChargeStateLast := by
  simp only [StateIdle, BatteryIsAuthentic, TurnChargingOff_frame_state_node]
  repeat' split
  all_goals rfl

theorem StateCharging_fst (cfg : chargeConfig_t) (hw : Hardware) (ev : nyx_charger_event_t)
    (w : World) :
    (StateCharging cfg hw ev w).1 =
      if (!ChargerIsConnected hw || !BatteryIsAuthentic w) = true then kChargeStateIdle
      else if ev.NYX_CHARGE_COMPLETE = true then kChargeStateChargeComplete
      else if (ev.NYX_CHARGER_DISCONNECTED || ev.NYX_CHARGE_RESTART ||
          ev.NYX_BATTERY_TEMPERATURE_LIMIT) = true then kChargeStateIdle
      else if (!cfg.disable_overcharge_check &&
          (BatteryOverchargeFault hw.fpu (battery_read hw (hw.uninitialized w.clock) w).1
            (battery_read hw (hw.uninitialized w.clock) w).2).1) = true then kChargeStateFault
      else if hw.nyx_charger_enable_charging
          (battery_read hw (hw.uninitialized w.clock) w).2.clock = true then kChargeStateLast
      else kChargeStateIdle := by
  simp only [StateCharging]
  split
  · rfl
  split
  · rfl
  split
  · rfl
  cases hc : cfg.disable_overcharge_check <;>
    cases hf : (BatteryOverchargeFault hw.fpu (battery_read hw (hw.uninitialized w.clock) w).1
      (battery_read hw (hw.uninitialized w.clock) w).2).1 <;>
    cases he : hw.nyx_charger_enable_charging
      (battery_read hw (hw.uninitialized w.clock) w).2.clock <;>
    simp [hf, he]

theorem StateChargeComplete_fst (hw : Hardware) (ev : nyx_charger_event_t) (w : World) :
    (StateChargeComplete hw ev w).1 =
      if (!ChargerIsConnected hw || ev.NYX_CHARGER_DISCONNECTED) = true then kChargeStateIdle
      else if ev.NYX_CHARGE_RESTART = true then kChargeStateIdle
      else kChargeStateLast := by
  simp only [StateChargeComplete]
  repeat' split
  all_goals rfl

theorem StateFault_fst (hw : Hardware) (w : World) :
    (StateFault hw w).1 =
      if (!ChargerIsConnected hw || !BatteryIsPresent w) = true then kChargeStateIdle
      else kChargeStateLast := by
  simp only [StateFault, BatteryIsPresent, TurnChargingOff_frame_state_node]
  repeat' split
  all_goals rfl

/-! ## C3: a dispatch that never reaches a fixed point -/

theorem sampleReading_500_not_over (w : World) :
    (BatteryOverchargeFault exactArith (sampleReading 500) w).1 = false := by
  rw [BatteryOverchargeFault_result]
  have : ¬ over_limit exactArith (sampleReading 500) := by decide!
  simp [this]

theorem ChargeStateIterate_loop_spins (fuel : Nat) (w : World)
    (hn : w.gCurrentChargeState.state_node = kChargeStateIdle ∨
      w.gCurrentChargeState.state_node = kChargeStateCharging)
    (hp : w.state_node = kBatteryAuthentic) :
    (ChargeStateIterate_loop fuel defaultConfig hwEnableFails eventConnected w).isReturned
      = false := by
  induction fuel generalizing w with
  | zero => rfl
  | succ n ih =>
    rcases hn with hn | hn
    · have h1 : (StateIdle defaultConfig hwEnableFails eventConnected
          (emit (.call_state kChargeStateIdle) w)).1 = kChargeStateCharging := by
        rw [StateIdle_fst]
        simp [BatteryIsAuthentic, hp, eventConnected, NYX_NO_NEW_EVENT]
      simp only [ChargeStateIterate_loop, hn, chargeStateProc, h1]
      exact ih _ (Or.inr rfl) (by simp [hp])
    · have h1 : (StateCharging defaultConfig hwEnableFails eventConnected
          (emit (.call_state kChargeStateCharging) w)).1 = kChargeStateIdle := by
        rw [StateCharging_fst]
        have hr : ∀ x v, (battery_read hwEnableFails x v).1 = sampleReading 500 := by
          intro x v
          simp [battery_read, hwEnableFails, steadyHardware, Hardware.fixed]
        have hc : ChargerIsConnected hwEnableFails = true := by decide
        have hf : hwEnableFails.fpu = exactArith := rfl
        have he : ∀ n, hwEnableFails.nyx_charger_enable_charging n = false := fun _ => rfl
        simp [hr, hc, hf, he, BatteryIsAuthentic, hp, eventConnected, NYX_NO_NEW_EVENT,
          defaultConfig, sampleReading_500_not_over]
      simp only [ChargeStateIterate_loop, hn, chargeStateProc, h1]
      exact ih _ (Or.inl rfl) (by simp [hp])

/-- C3 (failing input): in Idle with an authentic battery, a connected charger whose enable
call fails, and the charger-connected event, all held fixed, `ChargeStateIterate` alternates
between `StateIdle` and `StateCharging` and has not returned after any number of
state-function executions; the same holds for the whole dispatch. -/
theorem C3_iterate_never_returns_when_enable_fails (fuel : Nat) :
    (boot 4 hwEnableFails).isReturned = true ∧
    (boot 4 hwEnableFails).world.gCurrentChargeState.current_state = kChargeStateIdle ∧
    (boot 4 hwEnableFails).world.state_node = kBatteryAuthentic ∧
    (ChargeStateIterate fuel defaultConfig hwEnableFails eventConnected
      (boot 4 hwEnableFails).world).isReturned = false ∧
    (handle_charger_event fuel defaultConfig hwEnableFails eventConnected
      (boot 4 hwEnableFails).world).isReturned = false := by
  have hb1 : (boot 4 hwEnableFails).world.gCurrentChargeState.state_node = kChargeStateIdle := by
    decide!
  have hb2 : (boot 4 hwEnableFails).world.state_node = kBatteryAuthentic := by decide!
  have key : ∀ v : World, v.gCurrentChargeState.state_node = kChargeStateIdle →
      v.state_node = kBatteryAuthentic →
      (ChargeStateIterate fuel defaultConfig hwEnableFails eventConnected v).isReturned
        = false := by
    intro v h1 h2
    simp only [ChargeStateIterate]
    exact ChargeStateIterate_loop_spins fuel _ (Or.inl (by simp [h1])) (by simp [h2])
  refine ⟨by decide!, by decide!, hb2, key _ hb1 hb2, ?_⟩
  simp only [handle_charger_event, handle_charger_event_presence,
    handle_charger_event_voltage, handle_charger_event_temperature, eventConnected,
    NYX_NO_NEW_EVENT, Bool.or_self, Bool.false_eq_true, if_false, Outcome.bind_returned,
    ChargingLogicUpdate, defaultConfig]
  have := key (battery_read hwEnableFails
      (hwEnableFails.uninitialized (boot 4 hwEnableFails).world.clock)
      (boot 4 hwEnableFails).world).2 (by simp [hb1]) (by simp [hb2])
  simp only [eventConnected, NYX_NO_NEW_EVENT, defaultConfig] at this
  revert this
  cases ChargeStateIterate fuel _ hwEnableFails _ _ <;> simp [Outcome.bind, Outcome.isReturned]

/-! ## C6: the debounce counter on a later visit -/

/-- C6 (failing input): after boot with a present battery, four polls with the battery absent
take the machine through Debounce (three polls stay there, the fourth moves to Removed);
after a poll that sees the battery again (Authentic), one poll with the battery absent goes
Authentic, Debounce, Removed at once: a single absent sample read in Debounce, because
`debounce_bad` still holds 4. -/
theorem C6_later_visit_removed_after_one_sample :
    ((boot 4 hwPresent).bind
      (battery_state_iterate_all 4 [hwAbsent, hwAbsent, hwAbsent])).world.state_node
        = kBatteryDebounce ∧
    ((boot 4 hwPresent).bind
      (battery_state_iterate_all 4 [hwAbsent, hwAbsent, hwAbsent, hwAbsent])).world.state_node
        = kBatteryRemoved ∧
    ((boot 4 hwPresent).bind
      (battery_state_iterate_all 4
        [hwAbsent, hwAbsent, hwAbsent, hwAbsent, hwPresent])).world.state_node
        = kBatteryAuthentic ∧
    ((boot 4 hwPresent).bind
      (battery_state_iterate_all 4
        [hwAbsent, hwAbsent, hwAbsent, hwAbsent, hwPresent])).world.debounce_bad = 4 ∧
    (battery_state_iterate 4 hwAbsent ((boot 4 hwPresent).bind
      (battery_state_iterate_all 4
        [hwAbsent, hwAbsent, hwAbsent, hwAbsent, hwPresent])).world).world.state_node
        = kBatteryRemoved ∧
    ((battery_state_iterate 4 hwAbsent { ((boot 4 hwPresent).bind
      (battery_state_iterate_all 4
        [hwAbsent, hwAbsent, hwAbsent, hwAbsent, hwPresent])).world with log := [] }).world.log.count
        (.call_battery_state kBatteryDebounce)) = 1 := by
  decide!

/-! ## C8: the shutdown reason after a voltage jump -/

/-- C8 (failing input): the first dispatch after boot carries the critical-voltage and the
temperature-limit bits, the charger is not charging and the battery is at 50 C (charge
maximum 45 C, critical 60 C).  The voltage rule force-jumps with its reason, the temperature
rule then turns charging off, which resets `shutdown_reason`, and `MachineShutdown` receives
the empty string. -/
theorem C8_voltage_jump_reason_lost :
    jumpTrace ((boot 4 hwHot).bind
      (handle_charger_event 4 defaultConfig hwHot eventVoltageAndTemperature)).world.log
        = ["battery voltage below threshold"] ∧
    shutdownTrace ((boot 4 hwHot).bind
      (handle_charger_event 4 defaultConfig hwHot eventVoltageAndTemperature)).world.log
        = [""] ∧
    ((boot 4 hwHot).bind
      (handle_charger_event 4 defaultConfig hwHot
        eventVoltageAndTemperature)).world.gCurrentChargeState.current_state
        = kChargeStateShutdownWait := by
  decide!


/-! ## Every dispatch is a sequence of jumps and table assignments -/

@[simp] theorem stateTrace_nil : stateTrace [] = [] := rfl

@[simp] theorem stateTrace_append (l₁ l₂ : List Effect) :
    stateTrace (l₁ ++ l₂) = stateTrace l₁ ++ stateTrace l₂ := by
  simp [stateTrace]

@[simp] theorem stateTrace_cons_current_state (s : ChargeState) (l : List Effect) :
    stateTrace (.current_state s :: l) = s :: stateTrace l := rfl

@[simp] theorem stateTrace_cons_jump (r : String) (l : List Effect) :
    stateTrace (.jump r :: l) = stateTrace l := rfl

@[simp] theorem stateTrace_cons_call_state (s : ChargeState) (l : List Effect) :
    stateTrace (.call_state s :: l) = stateTrace l := rfl

theorem mview_eq_of (w w' : World)
    (h1 : w'.gCurrentChargeState.current_state = w.gCurrentChargeState.current_state)
    (h2 : w'.gCurrentChargeState.state_node = w.gCurrentChargeState.state_node)
    (h3 : machineLog w'.log = machineLog w.log) : mview w' = mview w := by
  simp [mview, h1, h2, h3]

theorem mview_battery_read (hw : Hardware) (x : nyx_battery_status_t) (w : World) :
    mview (battery_read hw x w).2 = mview w :=
  mview_eq_of _ _ (by simp) (by simp) (by simp)

theorem mview_TurnChargingOff (hw : Hardware) (r : String) (w : World) :
    mview (TurnChargingOff hw r w) = mview w :=
  mview_eq_of _ _ (by simp) (by simp) (by simp)

theorem mview_battery_set_wakeup_percentage (hw : Hardware) (c s : Bool) (w : World) :
    mview (battery_set_wakeup_percentage hw c s w) = mview w :=
  mview_eq_of _ _ (by simp) (by simp) (by simp)

theorem mview_battery_state_iterate (fuel : Nat) (hw : Hardware) (w : World) :
    mview (battery_state_iterate fuel hw w).world = mview w :=
  mview_eq_of _ _ (by rw [(battery_state_iterate_frame fuel hw w).1])
    (by rw [(battery_state_iterate_frame fuel hw w).1])
    (battery_state_iterate_machineLog fuel hw w)

theorem mview_chargeStateProc (s : ChargeState) (cfg : chargeConfig_t) (hw : Hardware)
    (ev : nyx_charger_event_t) (w : World) :
    mview (chargeStateProc s cfg hw ev (emit (.call_state s) w)).2 = mview w := by
  simp [mview, stateTrace_machineLog]

theorem steps_JumpToShutdownState (r : String) (w : World) :
    Relation.ReflTransGen ViewStep (mview w) (mview (_JumpToShutdownState r w)) := by
  cases h : inShutdown w.gCurrentChargeState.current_state
  · rw [JumpToShutdownState_of_not_inShutdown r w h]
    apply Relation.ReflTransGen.single
    have := ViewStep.jump w.gCurrentChargeState.current_state w.gCurrentChargeState.state_node
      (stateTrace (machineLog w.log)) h
    simpa [mview] using this
  · rw [JumpToShutdownState_of_inShutdown r w h]

theorem chargeStateProc_next (s : ChargeState) (cfg : chargeConfig_t) (hw : Hardware)
    (ev : nyx_charger_event_t) (w : World)
    (hne : (chargeStateProc s cfg hw ev w).1 ≠ kChargeStateLast) :
    (s = kChargeStateShutdown → (chargeStateProc s cfg hw ev w).1 = kChargeStateShutdownWait) ∧
      s ≠ kChargeStateShutdownWait := by
  constructor
  · intro h
    subst h
    simp [chargeStateProc]
  · intro h
    subst h
    simp [chargeStateProc] at hne

theorem steps_ChargeStateIterate_loop (fuel : Nat) (cfg : chargeConfig_t) (hw : Hardware)
    (ev : nyx_charger_event_t) (w : World) :
    Relation.ReflTransGen ViewStep (mview w)
      (mview (ChargeStateIterate_loop fuel cfg hw ev w).world) := by
  induction fuel generalizing w with
  | zero => exact Relation.ReflTransGen.refl
  | succ n ih =>
    rw [ChargeStateIterate_loop_succ]
    split
    · rw [Outcome.world_returned, mview_chargeStateProc]
    · rename_i hne
      refine Relation.ReflTransGen.trans ?_ (ih _)
      apply Relation.ReflTransGen.single
      obtain ⟨h1, h2⟩ := chargeStateProc_next _ cfg hw ev _ hne
      have hv := mview_chargeStateProc w.gCurrentChargeState.state_node cfg hw ev w
      have := ViewStep.assign w.gCurrentChargeState.current_state
        w.gCurrentChargeState.state_node _ (stateTrace (machineLog w.log)) hne h1 h2
      simp only [mview, Prod.mk.injEq] at hv
      simpa [mview, hv.2.2] using this

theorem steps_ChargeStateIterate (fuel : Nat) (cfg : chargeConfig_t) (hw : Hardware)
    (ev : nyx_charger_event_t) (w : World) :
    Relation.ReflTransGen ViewStep (mview w)
      (mview (ChargeStateIterate fuel cfg hw ev w).world) := by
  simp only [ChargeStateIterate]
  have := steps_ChargeStateIterate_loop fuel cfg hw ev
    (battery_read hw (hw.uninitialized w.clock) w).2
  rwa [mview_battery_read] at this

theorem steps_CheckCriticalLevels (cfg : chargeConfig_t) (w : World) :
    Relation.ReflTransGen ViewStep (mview w) (mview (CheckCriticalLevels cfg w).2) := by
  unfold CheckCriticalLevels
  split
  · exact Relation.ReflTransGen.refl
  · split
    · exact steps_JumpToShutdownState _ w
    · exact Relation.ReflTransGen.refl

theorem steps_ChargingLogicUpdate (fuel : Nat) (cfg : chargeConfig_t) (hw : Hardware)
    (ev : nyx_charger_event_t) (w : World) :
    Relation.ReflTransGen ViewStep (mview w)
      (mview (ChargingLogicUpdate fuel cfg hw ev w).world) := by
  simp only [ChargingLogicUpdate]
  split
  · exact Relation.ReflTransGen.refl
  · split
    · rw [Outcome.world_returned, mview_battery_read]
    · have h1 := steps_ChargeStateIterate fuel cfg hw ev
        (battery_read hw (hw.uninitialized w.clock) w).2
      rw [mview_battery_read] at h1
      cases hi : ChargeStateIterate fuel cfg hw ev
          (battery_read hw (hw.uninitialized w.clock) w).2 with
      | running v => rw [hi] at h1; simpa using h1
      | returned v =>
        rw [hi] at h1
        simp only [Outcome.bind_returned, Outcome.world_returned] at h1 ⊢
        refine Relation.ReflTransGen.trans h1 ?_
        refine Relation.ReflTransGen.trans (steps_CheckCriticalLevels cfg v) ?_
        split
        · exact steps_ChargeStateIterate fuel cfg hw ev _
        · exact Relation.ReflTransGen.refl

theorem steps_handle_charger_event_presence (fuel : Nat) (hw : Hardware)
    (ev : nyx_charger_event_t) (w : World) :
    mview (handle_charger_event_presence fuel hw ev w).world = mview w := by
  unfold handle_charger_event_presence
  split
  · have := mview_battery_state_iterate fuel hw w
    cases hi : battery_state_iterate fuel hw w with
    | running v => rw [hi] at this; simpa using this
    | returned v =>
      rw [hi] at this
      simp only [Outcome.bind_returned, Outcome.world_returned] at this ⊢
      split
      · rw [Outcome.world_returned, mview_battery_set_wakeup_percentage, this]
      · rw [Outcome.world_returned, this]
  · rfl

theorem steps_handle_charger_event_voltage (hw : Hardware) (ev : nyx_charger_event_t)
    (w : World) :
    Relation.ReflTransGen ViewStep (mview w) (mview (handle_charger_event_voltage hw ev w)) := by
  unfold handle_charger_event_voltage
  split
  · split
    · exact steps_JumpToShutdownState _ w
    · exact Relation.ReflTransGen.refl
  · exact Relation.ReflTransGen.refl

theorem steps_handle_charger_event_temperature (cfg : chargeConfig_t) (hw : Hardware)
    (ev : nyx_charger_event_t) (w : World) :
    Relation.ReflTransGen ViewStep (mview w)
      (mview (handle_charger_event_temperature cfg hw ev w)) := by
  simp only [handle_charger_event_temperature]
  split
  · split
    · have := steps_JumpToShutdownState "battery temperature above max allowed"
        (battery_read hw (hw.uninitialized w.clock) w).2
      rwa [mview_battery_read] at this
    · split
      · rw [mview_TurnChargingOff, mview_battery_read]
      · rw [mview_battery_read]
  · exact Relation.ReflTransGen.refl

theorem steps_handle_charger_event (fuel : Nat) (cfg : chargeConfig_t) (hw : Hardware)
    (ev : nyx_charger_event_t) (w : World) :
    Relation.ReflTransGen ViewStep (mview w)
      (mview (handle_charger_event fuel cfg hw ev w).world) := by
  unfold handle_charger_event
  have h1 := steps_handle_charger_event_presence fuel hw ev w
  cases hc : handle_charger_event_presence fuel hw ev w with
  | running v =>
    rw [hc] at h1
    simp only [Outcome.bind_running, Outcome.world_running] at h1 ⊢
    rw [h1]
  | returned v =>
    rw [hc] at h1
    simp only [Outcome.bind_returned, Outcome.world_returned] at h1 ⊢
    rw [← h1]
    exact Relation.ReflTransGen.trans (steps_handle_charger_event_voltage hw ev v)
      (Relation.ReflTransGen.trans (steps_handle_charger_event_temperature cfg hw ev _)
        (steps_ChargingLogicUpdate fuel cfg hw ev _))

theorem steps_dispatch_all (fuel : Nat) (cfg : chargeConfig_t)
    (inputs : List (Hardware × nyx_charger_event_t)) (w : World) :
    Relation.ReflTransGen ViewStep (mview w)
      (mview (dispatch_all fuel cfg inputs w).world) := by
  induction inputs generalizing w with
  | nil => exact Relation.ReflTransGen.refl
  | cons x rest ih =>
    obtain ⟨hw, ev⟩ := x
    simp only [dispatch_all]
    have h1 := steps_handle_charger_event fuel cfg hw ev w
    cases hc : handle_charger_event fuel cfg hw ev w with
    | running v => rw [hc] at h1; simpa using h1
    | returned v =>
      rw [hc] at h1
      simp only [Outcome.bind_returned, Outcome.world_returned] at h1 ⊢
      exact Relation.ReflTransGen.trans h1 (ih v)


/-! ## C1 and C2: the shutdown chain -/

theorem TerminalChain_append_singleton (h : List ChargeState) (s : ChargeState)
    (hc : TerminalChain h)
    (hs : kChargeStateShutdown ∈ h → s = kChargeStateShutdownWait) :
    TerminalChain (h ++ [s]) := by
  intro i j hij hi x hj
  by_cases hjl : j < h.length
  · rw [List.getElem?_append_left hjl] at hj
    rw [List.getElem?_append_left (by omega)] at hi
    exact hc i j hij hi x hj
  · rw [List.getElem?_append_right (by omega)] at hj
    by_cases hil : i < h.length
    · rw [List.getElem?_append_left hil] at hi
      have hx : x = s := by
        cases hk : j - h.length with
        | zero => rw [hk] at hj; simpa using hj.symm
        | succ k => rw [hk] at hj; simp at hj
      rw [hx]
      exact hs (List.getElem?_mem hi)
    · exfalso
      have : j - h.length = (j - h.length - 1) + 1 := by omega
      rw [this] at hj
      simp at hj

theorem ViewStep_lift (I : ChargeState × ChargeState × List ChargeState → Prop)
    (hI : ∀ v v', ViewStep v v' → I v → I v')
    (v v' : ChargeState × ChargeState × List ChargeState)
    (h : Relation.ReflTransGen ViewStep v v') (hv : I v) : I v' := by
  induction h with
  | refl => exact hv
  | tail _ hbc ih => exact hI _ _ hbc ih

theorem ViewStep_chain (c₀ : ChargeState) (t₀ : List ChargeState)
    (v v' : ChargeState × ChargeState × List ChargeState) (h : ViewStep v v')
    (hv : v.2.1 = v.1 ∧ ∃ t, v.2.2 = t₀ ++ t ∧ TerminalChain (c₀ :: t) ∧
      (kChargeStateShutdown ∈ c₀ :: t → inShutdown v.1 = true)) :
    v'.2.1 = v'.1 ∧ ∃ t, v'.2.2 = t₀ ++ t ∧ TerminalChain (c₀ :: t) ∧
      (kChargeStateShutdown ∈ c₀ :: t → inShutdown v'.1 = true) := by
  obtain ⟨hn, t, ht, hc, hin⟩ := hv
  cases h with
  | jump c n t' hns =>
    simp only at hn ht hin ⊢
    refine ⟨trivial, t ++ [kChargeStateShutdown], by rw [ht, List.append_assoc], ?_, ?_⟩
    · have := TerminalChain_append_singleton (c₀ :: t) kChargeStateShutdown hc
        (fun hm => by rw [hin hm] at hns; exact absurd hns (by decide))
      simpa using this
    · intro _; rfl
  | assign c n s t' hs h1 h2 =>
    simp only at hn ht hin ⊢
    have key : kChargeStateShutdown ∈ c₀ :: t → s = kChargeStateShutdownWait := by
      intro hm
      have hc' := hin hm
      subst hn
      cases n <;> simp_all [inShutdown]
    refine ⟨trivial, t ++ [s], by rw [ht, List.append_assoc], ?_, ?_⟩
    · have := TerminalChain_append_singleton (c₀ :: t) s hc key
      simpa using this
    · intro hm
      rw [← List.cons_append, List.mem_append] at hm
      rcases hm with hm | hm
      · rw [key hm]; rfl
      · simp only [List.mem_singleton] at hm
        rw [← hm]; rfl

theorem ViewStep_stays_in_shutdown
    (v v' : ChargeState × ChargeState × List ChargeState) (h : ViewStep v v')
    (hv : v.2.1 = v.1 ∧ inShutdown v.1 = true) :
    v'.2.1 = v'.1 ∧ inShutdown v'.1 = true := by
  obtain ⟨hn, hin⟩ := hv
  cases h with
  | jump c n t hns =>
    simp only at hin
    rw [hin] at hns
    exact absurd hns (by decide)
  | assign c n s t hs h1 h2 =>
    simp only at hn hin ⊢
    subst hn
    cases n <;> simp_all [inShutdown]

theorem ViewStep_trace_grows
    (v v' : ChargeState × ChargeState × List ChargeState)
    (h : Relation.ReflTransGen ViewStep v v') : ∃ t, v'.2.2 = v.2.2 ++ t := by
  induction h with
  | refl => exact ⟨[], by simp⟩
  | tail _ hbc ih =>
    obtain ⟨t, ht⟩ := ih
    cases hbc with
    | jump c n t' hns =>
      simp only at ht
      exact ⟨t ++ [kChargeStateShutdown], by simp [ht]⟩
    | assign c n s t' hs h1 h2 =>
      simp only at ht
      exact ⟨t ++ [s], by simp [ht]⟩

/-- C1: over every run of dispatches through `handle_charger_event` (any events, any
hardware answers, any configuration, any step budget, whether or not the last dispatch
returned), the values assigned to `current_state` after the start value form a terminal
chain: every value that follows a `kChargeStateShutdown` is `kChargeStateShutdownWait`. -/
theorem C1_shutdown_then_only_shutdownwait (fuel : Nat) (cfg : chargeConfig_t)
    (inputs : List (Hardware × nyx_charger_event_t)) (w : World) (hnode : nodeMatches w) :
    ∃ t, stateTrace (dispatch_all fuel cfg inputs w).world.log = stateTrace w.log ++ t ∧
      TerminalChain (w.gCurrentChargeState.current_state :: t) := by
  have h := ViewStep_lift _ (ViewStep_chain w.gCurrentChargeState.current_state
      (stateTrace (machineLog w.log))) _ _ (steps_dispatch_all fuel cfg inputs w)
    ⟨hnode, [], by simp [mview], by
      intro i j hij _ x hj
      cases j with
      | zero => omega
      | succ k => simp at hj, by
      intro hm
      simp only [List.mem_singleton] at hm
      simp [mview, ← hm, inShutdown]⟩
  obtain ⟨_, t, ht, hc, _⟩ := h
  refine ⟨t, ?_, hc⟩
  simpa [mview, stateTrace_machineLog] using ht

theorem C1_shutdown_then_only_shutdownwait_witness :
    nodeMatches World.zero ∧
    ∃ t, stateTrace (dispatch_all 4 defaultConfig
        [(hwHot, eventCriticalVoltage), (hwHot, eventConnected)] World.zero).world.log
          = stateTrace World.zero.log ++ t ∧
      TerminalChain (World.zero.gCurrentChargeState.current_state :: t) :=
  ⟨rfl, C1_shutdown_then_only_shutdownwait 4 defaultConfig
    [(hwHot, eventCriticalVoltage), (hwHot, eventConnected)] World.zero rfl⟩

/-- C2 (counterexample): from `kChargeStateShutdownWait`, `ChargingLogicResetError` puts
`current_state` back to `kChargeStateIdle`. -/
theorem C2_reset_leaves_shutdown :
    afterShutdown.gCurrentChargeState.current_state = kChargeStateShutdownWait ∧
    (ChargingLogicResetError 4 defaultConfig hwHot
      afterShutdown).world.gCurrentChargeState.current_state = kChargeStateIdle ∧
    (ChargingLogicResetError 4 defaultConfig hwHot afterShutdown).isReturned = true := by
  decide!

/-- C2 (amended): `handle_charger_event`, `ChargingLogicUpdate`, `TurnChargingOff` and
`TurnChargingON` never move `current_state` out of Shutdown / ShutdownWait, for any event,
hardware, configuration and step budget; `ChargingLogicResetError` re-initialises the
machine: the first value it assigns to `current_state` is `kChargeStateIdle`. -/
theorem C2_shutdown_kept_except_by_reset (fuel : Nat) (cfg : chargeConfig_t) (hw : Hardware)
    (ev : nyx_charger_event_t) (reason : String) (w : World) (hnode : nodeMatches w)
    (hsd : inShutdown w.gCurrentChargeState.current_state = true) :
    inShutdown (handle_charger_event fuel cfg hw ev w).world.gCurrentChargeState.current_state
        = true ∧
    inShutdown (ChargingLogicUpdate fuel cfg hw ev w).world.gCurrentChargeState.current_state
        = true ∧
    (TurnChargingOff hw reason w).gCurrentChargeState.current_state
        = w.gCurrentChargeState.current_state ∧
    (TurnChargingON hw w).2.gCurrentChargeState.current_state
        = w.gCurrentChargeState.current_state ∧
    ∃ t, stateTrace (ChargingLogicResetError fuel cfg hw w).world.log
        = stateTrace w.log ++ kChargeStateIdle :: t := by
  refine ⟨?_, ?_, by simp, by simp, ?_⟩
  · exact (ViewStep_lift _ ViewStep_stays_in_shutdown _ _
      (steps_handle_charger_event fuel cfg hw ev w) ⟨hnode, hsd⟩).2
  · exact (ViewStep_lift _ ViewStep_stays_in_shutdown _ _
      (steps_ChargingLogicUpdate fuel cfg hw ev w) ⟨hnode, hsd⟩).2
  · simp only [ChargingLogicResetError]
    obtain ⟨t, ht⟩ := ViewStep_trace_grows _ _ (steps_ChargingLogicUpdate fuel cfg hw
      NYX_NO_NEW_EVENT (battery_read hw (hw.uninitialized (ChargeStateInit hw w).clock)
        (ChargeStateInit hw w)).2)
    refine ⟨t, ?_⟩
    simp only [mview, stateTrace_machineLog] at ht
    rw [ht]
    simp [ChargeStateInit]

theorem C2_shutdown_kept_except_by_reset_witness :
    nodeMatches afterShutdown ∧
    inShutdown afterShutdown.gCurrentChargeState.current_state = true ∧
    inShutdown (handle_charger_event 4 defaultConfig hwHot eventConnected
      afterShutdown).world.gCurrentChargeState.current_state = true :=
  ⟨by decide!, by decide!,
    (C2_shutdown_kept_except_by_reset 4 defaultConfig hwHot eventConnected "" afterShutdown
      (by decide!) (by decide!)).1⟩


/-! ## The presence machine on fixed hardware -/

@[simp] theorem fixed_uninitialized (bd : Bool) (rd : Option nyx_battery_status_t)
    (g : nyx_battery_status_t) (a e : Bool) (c : Option nyx_battery_ctia_t)
    (cs : nyx_charger_status_t) (fpu : DoubleArith) (n : Nat) :
    (Hardware.fixed bd rd g a e c cs fpu).uninitialized n = g := rfl

@[simp] theorem fixed_authenticate (bd : Bool) (rd : Option nyx_battery_status_t)
    (g : nyx_battery_status_t) (a e : Bool) (c : Option nyx_battery_ctia_t)
    (cs : nyx_charger_status_t) (fpu : DoubleArith) (n : Nat) :
    (Hardware.fixed bd rd g a e c cs fpu).nyx_battery_authenticate_battery n = a := rfl

@[simp] theorem fixed_enable (bd : Bool) (rd : Option nyx_battery_status_t)
    (g : nyx_battery_status_t) (a e : Bool) (c : Option nyx_battery_ctia_t)
    (cs : nyx_charger_status_t) (fpu : DoubleArith) (n : Nat) :
    (Hardware.fixed bd rd g a e c cs fpu).nyx_charger_enable_charging n = e := rfl

@[simp] theorem fixed_currStatus (bd : Bool) (rd : Option nyx_battery_status_t)
    (g : nyx_battery_status_t) (a e : Bool) (c : Option nyx_battery_ctia_t)
    (cs : nyx_charger_status_t) (fpu : DoubleArith) :
    (Hardware.fixed bd rd g a e c cs fpu).currStatus = cs := rfl

@[simp] theorem fixed_fpu (bd : Bool) (rd : Option nyx_battery_status_t)
    (g : nyx_battery_status_t) (a e : Bool) (c : Option nyx_battery_ctia_t)
    (cs : nyx_charger_status_t) (fpu : DoubleArith) :
    (Hardware.fixed bd rd g a e c cs fpu).fpu = fpu := rfl

@[simp] theorem battery_read_fixed (bd : Bool) (rd : Option nyx_battery_status_t)
    (g : nyx_battery_status_t) (a e : Bool) (c : Option nyx_battery_ctia_t)
    (cs : nyx_charger_status_t) (fpu : DoubleArith) (w : World) :
    (battery_read (Hardware.fixed bd rd g a e c cs fpu) g w).1 = fixedReading bd rd g := by
  unfold battery_read fixedReading Hardware.fixed
  cases bd <;> cases rd <;> simp

theorem battery_authenticate_fst (hw : Hardware) (w : World) :
    (battery_authenticate hw w).1 =
      (w.battery_ctia_params.skip_battery_authentication ||
        hw.nyx_battery_authenticate_battery w.clock) := by
  unfold battery_authenticate
  cases h : w.battery_ctia_params.skip_battery_authentication <;> simp

theorem batteryStateProc_fixed_fst (bd : Bool) (rd : Option nyx_battery_status_t)
    (g : nyx_battery_status_t) (a e : Bool) (c : Option nyx_battery_ctia_t)
    (cs : nyx_charger_status_t) (fpu : DoubleArith) (s : BatteryState) (w : World) :
    (batteryStateProc s (Hardware.fixed bd rd g a e c cs fpu) w).1 =
      presenceNext (fixedReading bd rd g).present
        (w.battery_ctia_params.skip_battery_authentication || a) w.debounce_bad s := by
  cases s
  · simp only [batteryStateProc, StateRemoved, fixed_uninitialized, battery_read_fixed,
      presenceNext]
    split <;> rfl
  · simp only [batteryStateProc, StateDebounce, fixed_uninitialized, battery_read_fixed,
      battery_read_frame_debounce_bad, presenceNext]
    split
    · rfl
    · split <;> rfl
  · simp only [batteryStateProc, StateInserted, battery_authenticate_fst, fixed_authenticate,
      battery_search_frame_battery_ctia_params, presenceNext]
    split <;> rfl
  · simp only [batteryStateProc, StateAuthentic, StateAuthenticOrNot, fixed_uninitialized,
      battery_read_fixed, presenceNext]
    cases (fixedReading bd rd g).present <;> simp
  · simp only [batteryStateProc, StateNotAuthentic, StateAuthenticOrNot, fixed_uninitialized,
      battery_read_fixed, battery_authenticate_fst, fixed_authenticate, presenceNext]
    cases (w.battery_ctia_params.skip_battery_authentication || a) <;>
      cases (fixedReading bd rd g).present <;> simp
  · rfl

theorem presenceRank_pos (p au : Bool) (s : BatteryState) : 0 < presenceRank p au s := by
  cases s <;> cases p <;> cases au <;> decide

theorem presenceRank_decreases (p au : Bool) (bad : Int) (s : BatteryState)
    (hne : presenceNext p au bad s ≠ kBatteryLast) :
    presenceRank p au (presenceNext p au bad s) < presenceRank p au s := by
  cases s <;> cases p <;> cases au <;>
    simp only [presenceNext, presenceRank, if_true, if_false, Bool.false_eq_true] at hne ⊢ <;>
    (try split_ifs at hne ⊢) <;> simp_all

theorem battery_state_iterate_fixed_returns (bd : Bool) (rd : Option nyx_battery_status_t)
    (g : nyx_battery_status_t) (a e : Bool) (c : Option nyx_battery_ctia_t)
    (cs : nyx_charger_status_t) (fpu : DoubleArith) (fuel : Nat) (w : World)
    (hr : presenceRank (fixedReading bd rd g).present
      (w.battery_ctia_params.skip_battery_authentication || a) w.state_node ≤ fuel) :
    (battery_state_iterate fuel (Hardware.fixed bd rd g a e c cs fpu) w).isReturned = true := by
  induction fuel generalizing w with
  | zero =>
    have := presenceRank_pos (fixedReading bd rd g).present
      (w.battery_ctia_params.skip_battery_authentication || a) w.state_node
    omega
  | succ n ih =>
    simp only [battery_state_iterate]
    split
    · rename_i hne
      apply ih
      simp only [batteryStateProc_frame_battery_ctia_params, emit_frame_battery_ctia_params]
      have hf := batteryStateProc_fixed_fst bd rd g a e c cs fpu w.state_node
        (emit (.call_battery_state w.state_node) w)
      simp only [emit_frame_debounce_bad, emit_frame_battery_ctia_params] at hf
      rw [hf] at hne ⊢
      have := presenceRank_decreases _ _ _ _ (by simpa using hne)
      omega
    · rfl

theorem presenceRank_le_four (p a : Bool) (s : BatteryState) : presenceRank p a s ≤ 4 := by
  cases s <;> cases p <;> cases a <;> decide


/-! ## The run from Shutdown -/

theorem ChargeStateIterate_loop_ShutdownWait (n : Nat) (cfg : chargeConfig_t) (hw : Hardware)
    (ev : nyx_charger_event_t) (w : World)
    (h : w.gCurrentChargeState.state_node = kChargeStateShutdownWait) :
    ChargeStateIterate_loop (n + 1) cfg hw ev w =
      .returned (emit (.call_state kChargeStateShutdownWait) w) := by
  rw [ChargeStateIterate_loop_succ]
  simp [h, chargeStateProc]

theorem ChargeStateIterate_loop_Shutdown (n : Nat) (cfg : chargeConfig_t) (hw : Hardware)
    (ev : nyx_charger_event_t) (w : World)
    (h : w.gCurrentChargeState.state_node = kChargeStateShutdown) :
    ChargeStateIterate_loop (n + 2) cfg hw ev w =
      .returned (emit (.call_state kChargeStateShutdownWait)
        (assignState kChargeStateShutdownWait
          (StateShutdown hw (emit (.call_state kChargeStateShutdown) w)).2)) := by
  rw [ChargeStateIterate_loop_succ]
  simp only [h, chargeStateProc, StateShutdown_fst]
  rw [if_neg (by decide), ChargeStateIterate_loop_ShutdownWait _ _ _ _ _ (by simp)]

/-- From the Shutdown node, with both guards off, `ChargingLogicUpdate` returns in ShutdownWait after
running exactly `StateShutdown` and `StateShutdownWait` (the latter once more when the
battery is Removed), issuing one shutdown request with the stored reason. -/
theorem ChargingLogicUpdate_from_Shutdown (n : Nat) (cfg : chargeConfig_t) (hw : Hardware)
    (ev : nyx_charger_event_t) (w : World)
    (hn : w.gCurrentChargeState.state_node = kChargeStateShutdown)
    (h1 : cfg.skip_battery_check = false) (h2 : cfg.disable_charging = false) :
    ∃ w', ChargingLogicUpdate (n + 2) cfg hw ev w = .returned w' ∧
      w'.gCurrentChargeState.current_state = kChargeStateShutdownWait ∧
      w'.gCurrentChargeState.state_node = kChargeStateShutdownWait ∧
      w'.gCurrentChargeState.charging_enabled = w.gCurrentChargeState.charging_enabled ∧
      w'.gCurrentChargeState.shutdown_reason = w.gCurrentChargeState.shutdown_reason ∧
      w'.state_node = w.state_node ∧
      chargeLog w'.log = chargeLog w.log ++
        ([.call_state kChargeStateShutdown, .write_console,
          .MachineShutdown w.gCurrentChargeState.shutdown_reason,
          .current_state kChargeStateShutdownWait, .call_state kChargeStateShutdownWait] ++
          if BatteryIsPresent w then [] else [.call_state kChargeStateShutdownWait]) ∧
      machineLog w'.log = machineLog w.log ++
        ([.call_state kChargeStateShutdown,
          .current_state kChargeStateShutdownWait, .call_state kChargeStateShutdownWait] ++
          if BatteryIsPresent w then [] else [.call_state kChargeStateShutdownWait]) := by
  simp only [ChargingLogicUpdate, h1, h2, Bool.false_eq_true, if_false, ChargeStateIterate]
  rw [ChargeStateIterate_loop_Shutdown _ _ _ _ _ (by simp [hn])]
  simp only [Outcome.bind_returned, CheckCriticalLevels, h1, Bool.false_eq_true, if_false]
  by_cases hp : BatteryIsPresent w = true
  · have hp' : BatteryIsPresent (emit (.call_state kChargeStateShutdownWait)
        (assignState kChargeStateShutdownWait
          (StateShutdown hw (emit (.call_state kChargeStateShutdown)
            (battery_read hw (hw.uninitialized
              (battery_read hw (hw.uninitialized w.clock) w).2.clock)
              (battery_read hw (hw.uninitialized w.clock) w).2).2)).2)) = true := by
      simpa [BatteryIsPresent] using hp
    simp only [hp', Bool.not_true, Bool.false_eq_true, if_false]
    refine ⟨_, rfl, ?_, ?_, ?_, ?_, ?_, ?_, ?_⟩ <;> simp [hp]
  · have hp' : BatteryIsPresent (emit (.call_state kChargeStateShutdownWait)
        (assignState kChargeStateShutdownWait
          (StateShutdown hw (emit (.call_state kChargeStateShutdown)
            (battery_read hw (hw.uninitialized
              (battery_read hw (hw.uninitialized w.clock) w).2.clock)
              (battery_read hw (hw.uninitialized w.clock) w).2).2)).2)) = false := by
      simpa [BatteryIsPresent] using hp
    simp only [hp', Bool.not_false, if_true]
    rw [JumpToShutdownState_of_inShutdown _ _ (by simp [inShutdown])]
    rw [ChargeStateIterate_loop_ShutdownWait _ _ _ _ _ (by simp)]
    refine ⟨_, rfl, ?_, ?_, ?_, ?_, ?_, ?_, ?_⟩ <;> simp [hp]


/-! ## The blocks of `handle_charger_event` -/

theorem handle_charger_event_presence_fixed (bd : Bool) (rd : Option nyx_battery_status_t)
    (g : nyx_battery_status_t) (a e : Bool) (c : Option nyx_battery_ctia_t)
    (cs : nyx_charger_status_t) (fpu : DoubleArith) (n : Nat) (ev : nyx_charger_event_t)
    (w : World) :
    ∃ v, handle_charger_event_presence (n + 4) (Hardware.fixed bd rd g a e c cs fpu) ev w
        = .returned v ∧
      v.gCurrentChargeState = w.gCurrentChargeState ∧
      v.battery_ctia_params = w.battery_ctia_params ∧
      chargeLog v.log = chargeLog w.log ∧
      machineLog v.log = machineLog w.log ∧
      ((ev.NYX_BATTERY_PRESENT || ev.NYX_BATTERY_ABSENT) = false → v = w) := by
  unfold handle_charger_event_presence
  by_cases hb : (ev.NYX_BATTERY_PRESENT || ev.NYX_BATTERY_ABSENT) = true
  · rw [if_pos hb]
    have hret := battery_state_iterate_fixed_returns bd rd g a e c cs fpu (n + 4) w
      (le_trans (presenceRank_le_four _ _ _) (by omega))
    obtain ⟨f1, f2, _, _, f5⟩ :=
      battery_state_iterate_frame (n + 4) (Hardware.fixed bd rd g a e c cs fpu) w
    have f6 := battery_state_iterate_machineLog (n + 4) (Hardware.fixed bd rd g a e c cs fpu) w
    cases hi : battery_state_iterate (n + 4) (Hardware.fixed bd rd g a e c cs fpu) w with
    | running v => rw [hi] at hret; simp [Outcome.isReturned] at hret
    | returned v =>
      rw [hi] at f1 f2 f5 f6
      simp only [Outcome.world_returned] at f1 f2 f5 f6
      simp only [Outcome.bind_returned]
      split
      · exact ⟨_, rfl, by simp [f1], by simp [f2], by simp [f5], by simp [f6], by simp [hb]⟩
      · exact ⟨_, rfl, f1, f2, f5, f6, by simp [hb]⟩
  · rw [if_neg hb]
    exact ⟨w, rfl, rfl, rfl, rfl, rfl, fun _ => rfl⟩

theorem BatteryTemperatureCriticalShutdown_iff (cfg : chargeConfig_t) (w : World)
    (batt : nyx_battery_status_t) :
    BatteryTemperatureCriticalShutdown cfg w batt = true ↔
      batt.temperature ≥ criticalThreshold cfg w := by
  unfold BatteryTemperatureCriticalShutdown criticalThreshold batterycheck_maxtemp
    BATTERY_MAX_TEMPERATURE_C
  by_cases h1 : w.battery_ctia_params.battery_crit_max_temp = 0 <;>
    by_cases h2 : cfg.maxtemp = 0 <;> simp [h1, h2]

theorem BatteryTemperatureCriticalShutdown_congr (cfg : chargeConfig_t) (w w' : World)
    (batt : nyx_battery_status_t) (h : w'.battery_ctia_params = w.battery_ctia_params) :
    BatteryTemperatureCriticalShutdown cfg w' batt =
      BatteryTemperatureCriticalShutdown cfg w batt := by
  unfold BatteryTemperatureCriticalShutdown
  rw [h]

theorem BatteryTemperatureHigh_congr (w w' : World) (batt : nyx_battery_status_t)
    (h : w'.battery_ctia_params = w.battery_ctia_params) :
    BatteryTemperatureHigh w' batt = BatteryTemperatureHigh w batt := by
  unfold BatteryTemperatureHigh
  rw [h]

theorem BatteryTemperatureLow_congr (w w' : World) (batt : nyx_battery_status_t)
    (h : w'.battery_ctia_params = w.battery_ctia_params) :
    BatteryTemperatureLow w' batt = BatteryTemperatureLow w batt := by
  unfold BatteryTemperatureLow
  rw [h]

@[simp] theorem jumpTrace_nil : jumpTrace [] = [] := rfl

@[simp] theorem jumpTrace_append (l₁ l₂ : List Effect) :
    jumpTrace (l₁ ++ l₂) = jumpTrace l₁ ++ jumpTrace l₂ := by
  simp [jumpTrace]

@[simp] theorem jumpTrace_cons_current_state (s : ChargeState) (l : List Effect) :
    jumpTrace (.current_state s :: l) = jumpTrace l := rfl

@[simp] theorem jumpTrace_cons_jump (r : String) (l : List Effect) :
    jumpTrace (.jump r :: l) = r :: jumpTrace l := rfl

@[simp] theorem jumpTrace_cons_call_state (s : ChargeState) (l : List Effect) :
    jumpTrace (.call_state s :: l) = jumpTrace l := rfl

/-- What the temperature-limit block does, for any hardware: with `batt` the reading it
takes, a critical reading force-jumps (when the state is not in the shutdown chain),
otherwise the state is kept. -/
theorem handle_charger_event_temperature_spec (cfg : chargeConfig_t) (hw : Hardware)
    (ev : nyx_charger_event_t) (w : World)
    (hns : inShutdown w.gCurrentChargeState.current_state = false)
    (hev : ev.NYX_BATTERY_TEMPERATURE_LIMIT = true) :
    (handle_charger_event_temperature cfg hw ev w).gCurrentChargeState.current_state =
      (if BatteryTemperatureCriticalShutdown cfg w
          (battery_read hw (hw.uninitialized w.clock) w).1 then kChargeStateShutdown
        else w.gCurrentChargeState.current_state) ∧
    (handle_charger_event_temperature cfg hw ev w).gCurrentChargeState.state_node =
      (if BatteryTemperatureCriticalShutdown cfg w
          (battery_read hw (hw.uninitialized w.clock) w).1 then kChargeStateShutdown
        else w.gCurrentChargeState.state_node) ∧
    machineLog (handle_charger_event_temperature cfg hw ev w).log =
      machineLog w.log ++
        (if BatteryTemperatureCriticalShutdown cfg w
            (battery_read hw (hw.uninitialized w.clock) w).1 then
          [.jump "battery temperature above max allowed", .current_state kChargeStateShutdown]
        else []) := by
  simp only [handle_charger_event_temperature, hev, if_true]
  rw [BatteryTemperatureCriticalShutdown_congr cfg w _ _ (by simp)]
  by_cases hc : BatteryTemperatureCriticalShutdown cfg w
      (battery_read hw (hw.uninitialized w.clock) w).1 = true
  · simp only [hc, if_true]
    rw [JumpToShutdownState_of_not_inShutdown _ _ (by simpa using hns)]
    simp
  · simp only [hc, Bool.false_eq_true, if_false]
    split <;> simp


/-! ## Force-jumps made by a dispatch -/

theorem jumpTrace_eq_of_machineLog (l l' : List Effect) (h : machineLog l' = machineLog l) :
    jumpTrace l' = jumpTrace l := by
  rw [← jumpTrace_machineLog l', h, jumpTrace_machineLog]

theorem ChargeStateIterate_loop_jumpTrace (fuel : Nat) (cfg : chargeConfig_t) (hw : Hardware)
    (ev : nyx_charger_event_t) (w : World) :
    jumpTrace (ChargeStateIterate_loop fuel cfg hw ev w).world.log = jumpTrace w.log := by
  induction fuel generalizing w with
  | zero => rfl
  | succ n ih =>
    rw [ChargeStateIterate_loop_succ]
    split
    · rw [Outcome.world_returned]
      rw [jumpTrace_eq_of_machineLog _ _ (chargeStateProc_machineLog _ cfg hw ev _)]
      simp
    · rw [ih]
      simp only [assignState_log, jumpTrace_append]
      rw [jumpTrace_eq_of_machineLog _ _ (chargeStateProc_machineLog _ cfg hw ev _)]
      simp

theorem ChargeStateIterate_jumpTrace (fuel : Nat) (cfg : chargeConfig_t) (hw : Hardware)
    (ev : nyx_charger_event_t) (w : World) :
    jumpTrace (ChargeStateIterate fuel cfg hw ev w).world.log = jumpTrace w.log := by
  simp only [ChargeStateIterate]
  rw [ChargeStateIterate_loop_jumpTrace]
  simp

theorem JumpToShutdownState_jumpTrace (r : String) (w : World) :
    jumpTrace (_JumpToShutdownState r w).log =
      jumpTrace w.log ++
        (if inShutdown w.gCurrentChargeState.current_state = true then [] else [r]) := by
  cases h : inShutdown w.gCurrentChargeState.current_state
  · rw [JumpToShutdownState_of_not_inShutdown r w h]
    simp
  · rw [JumpToShutdownState_of_inShutdown r w h]
    simp

theorem ChargingLogicUpdate_jumpTrace (fuel : Nat) (cfg : chargeConfig_t) (hw : Hardware)
    (ev : nyx_charger_event_t) (w : World) :
    ∃ extra, jumpTrace (ChargingLogicUpdate fuel cfg hw ev w).world.log =
        jumpTrace w.log ++ extra ∧ ∀ r ∈ extra, r = "battery removed." := by
  simp only [ChargingLogicUpdate]
  split
  · exact ⟨[], by simp, by simp⟩
  · split
    · exact ⟨[], by simp, by simp⟩
    · have h1 := ChargeStateIterate_jumpTrace fuel cfg hw ev
        (battery_read hw (hw.uninitialized w.clock) w).2
      cases hi : ChargeStateIterate fuel cfg hw ev
          (battery_read hw (hw.uninitialized w.clock) w).2 with
      | running v =>
        rw [hi] at h1
        exact ⟨[], by simpa using h1, by simp⟩
      | returned v =>
        rw [hi] at h1
        simp only [Outcome.world_returned, battery_read_frame_log] at h1
        simp only [Outcome.bind_returned, CheckCriticalLevels]
        split
        · exact ⟨[], by simp [h1], by simp⟩
        · split
          · simp only [if_true]
            rw [ChargeStateIterate_jumpTrace, JumpToShutdownState_jumpTrace, h1]
            refine ⟨_, rfl, ?_⟩
            intro r hr
            split at hr <;> simp_all
          · exact ⟨[], by simp [h1], by simp⟩


theorem handle_charger_event_voltage_idle (hw : Hardware) (ev : nyx_charger_event_t) (w : World)
    (hv : ev.NYX_BATTERY_CRITICAL_VOLTAGE = false ∨ ChargerIsCharging hw = true) :
    handle_charger_event_voltage hw ev w = w := by
  unfold handle_charger_event_voltage
  rcases hv with hv | hv <;> simp [hv]

/-! ## C9: the critical-temperature rule -/

/-- C9: `BatteryTemperatureCriticalShutdown` holds iff temperature >= T, with T the CTIA
critical maximum when that is provided (non-zero), else the `maxtemp` override when set
(non-zero), else 60.  In a state outside the shutdown chain, the temperature-limit block
force-jumps to Shutdown exactly when it holds for the reading taken; and a dispatch of an
event with the temperature-limit bit (on which the critical-voltage rule does not fire, so
that the state is still outside the chain when the rule is evaluated) makes a force-jump
with reason "battery temperature above max allowed" exactly when it holds. -/
theorem C9_critical_temperature_rule (bd : Bool) (rd : Option nyx_battery_status_t)
    (g : nyx_battery_status_t) (a e : Bool) (c : Option nyx_battery_ctia_t)
    (cs : nyx_charger_status_t) (fpu : DoubleArith) (n : Nat) (cfg : chargeConfig_t)
    (ev : nyx_charger_event_t) (w : World)
    (hns : inShutdown w.gCurrentChargeState.current_state = false)
    (hev : ev.NYX_BATTERY_TEMPERATURE_LIMIT = true) :
    (∀ batt : nyx_battery_status_t,
      BatteryTemperatureCriticalShutdown cfg w batt = true ↔
        batt.temperature ≥
          (if w.battery_ctia_params.battery_crit_max_temp ≠ 0 then
            w.battery_ctia_params.battery_crit_max_temp
          else if cfg.maxtemp ≠ 0 then cfg.maxtemp
          else 60)) ∧
    ((handle_charger_event_temperature cfg (Hardware.fixed bd rd g a e c cs fpu) ev
        w).gCurrentChargeState.current_state = kChargeStateShutdown ↔
      BatteryTemperatureCriticalShutdown cfg w (fixedReading bd rd g) = true) ∧
    ((ev.NYX_BATTERY_CRITICAL_VOLTAGE = false ∨ cs.is_charging = true) →
      ∃ extra,
        jumpTrace (handle_charger_event (n + 4) cfg (Hardware.fixed bd rd g a e c cs fpu) ev
          w).world.log = jumpTrace w.log ++ extra ∧
        ("battery temperature above max allowed" ∈ extra ↔
          BatteryTemperatureCriticalShutdown cfg w (fixedReading bd rd g) = true)) := by
  refine ⟨fun batt => BatteryTemperatureCriticalShutdown_iff cfg w batt, ?_, ?_⟩
  · have h := (handle_charger_event_temperature_spec cfg (Hardware.fixed bd rd g a e c cs fpu)
      ev w hns hev).1
    rw [h]
    simp only [fixed_uninitialized, battery_read_fixed]
    by_cases hc : BatteryTemperatureCriticalShutdown cfg w (fixedReading bd rd g) = true
    · simp [hc]
    · simp only [hc, Bool.false_eq_true, if_false, iff_false]
      intro hcur
      rw [hcur] at hns
      exact absurd hns (by decide)
  · intro hv
    obtain ⟨v, hv1, hv2, hv3, _, hv5, _⟩ :=
      handle_charger_event_presence_fixed bd rd g a e c cs fpu n ev w
    unfold handle_charger_event
    rw [hv1]
    simp only [Outcome.bind_returned]
    rw [handle_charger_event_voltage_idle _ ev v (by simpa [ChargerIsCharging] using hv)]
    obtain ⟨extra, hx1, hx2⟩ := ChargingLogicUpdate_jumpTrace (n + 4) cfg
      (Hardware.fixed bd rd g a e c cs fpu) ev
      (handle_charger_event_temperature cfg (Hardware.fixed bd rd g a e c cs fpu) ev v)
    have ht := (handle_charger_event_temperature_spec cfg
      (Hardware.fixed bd rd g a e c cs fpu) ev v (by rw [hv2]; exact hns) hev).2.2
    simp only [fixed_uninitialized, battery_read_fixed] at ht
    rw [BatteryTemperatureCriticalShutdown_congr cfg w v _ hv3] at ht
    have hj : jumpTrace (handle_charger_event_temperature cfg
        (Hardware.fixed bd rd g a e c cs fpu) ev v).log =
        jumpTrace w.log ++
          (if BatteryTemperatureCriticalShutdown cfg w (fixedReading bd rd g) = true then
            ["battery temperature above max allowed"] else []) := by
      rw [← jumpTrace_machineLog, ht, jumpTrace_append, jumpTrace_machineLog,
        jumpTrace_eq_of_machineLog _ _ hv5]
      split <;> simp
    rw [hx1, hj, List.append_assoc]
    refine ⟨_, rfl, ?_⟩
    by_cases hc : BatteryTemperatureCriticalShutdown cfg w (fixedReading bd rd g) = true
    · simp [hc]
    · simp only [hc, Bool.false_eq_true, if_false, List.nil_append, iff_false]
      intro hm
      have := hx2 _ hm
      exact absurd this (by decide)

theorem C9_critical_temperature_rule_witness :
    inShutdown World.zero.gCurrentChargeState.current_state = false ∧
    eventTemperatureLimit.NYX_BATTERY_TEMPERATURE_LIMIT = true ∧
    ((handle_charger_event_temperature defaultConfig
        (Hardware.fixed true (some hotReading) hotReading true true none chargerOn exactArith)
        eventTemperatureLimit World.zero).gCurrentChargeState.current_state
          = kChargeStateShutdown ↔
      BatteryTemperatureCriticalShutdown defaultConfig World.zero
        (fixedReading true (some hotReading) hotReading) = true) :=
  ⟨by decide, by decide,
    (C9_critical_temperature_rule true (some hotReading) hotReading true true none chargerOn
      exactArith 0 defaultConfig eventTemperatureLimit World.zero (by decide)
      (by decide)).2.1⟩


/-! ## C7: the critical-voltage shortcut -/

@[simp] theorem callTrace_nil : callTrace [] = [] := rfl

@[simp] theorem callTrace_append (l₁ l₂ : List Effect) :
    callTrace (l₁ ++ l₂) = callTrace l₁ ++ callTrace l₂ := by
  simp [callTrace]

@[simp] theorem callTrace_cons_current_state (s : ChargeState) (l : List Effect) :
    callTrace (.current_state s :: l) = callTrace l := rfl

@[simp] theorem callTrace_cons_jump (r : String) (l : List Effect) :
    callTrace (.jump r :: l) = callTrace l := rfl

@[simp] theorem callTrace_cons_call_state (s : ChargeState) (l : List Effect) :
    callTrace (.call_state s :: l) = s :: callTrace l := rfl

theorem ChargeStateIterate_loop_machineLog_grows (fuel : Nat) (cfg : chargeConfig_t)
    (hw : Hardware) (ev : nyx_charger_event_t) (w : World) :
    ∃ t, machineLog (ChargeStateIterate_loop fuel cfg hw ev w).world.log =
      machineLog w.log ++ t := by
  induction fuel generalizing w with
  | zero => exact ⟨[], by simp [ChargeStateIterate_loop]⟩
  | succ n ih =>
    rw [ChargeStateIterate_loop_succ]
    split
    · refine ⟨[.call_state w.gCurrentChargeState.state_node], ?_⟩
      simp
    · obtain ⟨t, ht⟩ := ih (assignState (chargeStateProc w.gCurrentChargeState.state_node cfg
          hw ev (emit (.call_state w.gCurrentChargeState.state_node) w)).1
        (chargeStateProc w.gCurrentChargeState.state_node cfg hw ev
          (emit (.call_state w.gCurrentChargeState.state_node) w)).2)
      rw [ht]
      refine ⟨.call_state w.gCurrentChargeState.state_node ::
        .current_state (chargeStateProc w.gCurrentChargeState.state_node cfg
          hw ev (emit (.call_state w.gCurrentChargeState.state_node) w)).1 :: t, ?_⟩
      simp [List.append_assoc]

theorem ChargeStateIterate_loop_first_call (n : Nat) (cfg : chargeConfig_t)
    (hw : Hardware) (ev : nyx_charger_event_t) (w : World) :
    ∃ t, machineLog (ChargeStateIterate_loop (n + 1) cfg hw ev w).world.log =
      machineLog w.log ++ .call_state w.gCurrentChargeState.state_node :: t := by
  rw [ChargeStateIterate_loop_succ]
  split
  · exact ⟨[], by simp⟩
  · obtain ⟨t, ht⟩ := ChargeStateIterate_loop_machineLog_grows n cfg hw ev
      (assignState (chargeStateProc w.gCurrentChargeState.state_node cfg
          hw ev (emit (.call_state w.gCurrentChargeState.state_node) w)).1
        (chargeStateProc w.gCurrentChargeState.state_node cfg hw ev
          (emit (.call_state w.gCurrentChargeState.state_node) w)).2)
    rw [ht]
    refine ⟨.current_state (chargeStateProc w.gCurrentChargeState.state_node cfg
          hw ev (emit (.call_state w.gCurrentChargeState.state_node) w)).1 :: t, ?_⟩
    simp [List.append_assoc]

theorem JumpToShutdownState_machineLog_grows (r : String) (w : World) :
    ∃ t, machineLog (_JumpToShutdownState r w).log = machineLog w.log ++ t := by
  cases h : inShutdown w.gCurrentChargeState.current_state
  · rw [JumpToShutdownState_of_not_inShutdown r w h]
    refine ⟨[.jump r, .current_state kChargeStateShutdown], ?_⟩
    simp
  · rw [JumpToShutdownState_of_inShutdown r w h]
    exact ⟨[], by simp⟩

theorem ChargingLogicUpdate_first_call (n : Nat) (cfg : chargeConfig_t)
    (hw : Hardware) (ev : nyx_charger_event_t) (w : World)
    (h1 : cfg.skip_battery_check = false) (h2 : cfg.disable_charging = false) :
    ∃ t, machineLog (ChargingLogicUpdate (n + 1) cfg hw ev w).world.log =
      machineLog w.log ++ .call_state w.gCurrentChargeState.state_node :: t := by
  simp only [ChargingLogicUpdate, h1, h2, Bool.false_eq_true, if_false, ChargeStateIterate]
  obtain ⟨t, ht⟩ := ChargeStateIterate_loop_first_call n cfg hw ev
    (battery_read hw (hw.uninitialized (battery_read hw (hw.uninitialized w.clock) w).2.clock)
      (battery_read hw (hw.uninitialized w.clock) w).2).2
  simp only [battery_read_frame_log, battery_read_frame_gCurrentChargeState] at ht
  cases hi : ChargeStateIterate_loop (n + 1) cfg hw ev
      (battery_read hw (hw.uninitialized (battery_read hw (hw.uninitialized w.clock) w).2.clock)
        (battery_read hw (hw.uninitialized w.clock) w).2).2 with
  | running v =>
    rw [hi] at ht
    exact ⟨t, by simpa using ht⟩
  | returned v =>
    rw [hi] at ht
    simp only [Outcome.world_returned] at ht
    simp only [Outcome.bind_returned, CheckCriticalLevels, h1, Bool.false_eq_true, if_false]
    split
    · simp only [if_true]
      obtain ⟨t2, ht2⟩ := ChargeStateIterate_loop_machineLog_grows (n + 1) cfg hw ev
        (battery_read hw (hw.uninitialized
          (_JumpToShutdownState "battery removed." v).clock)
          (_JumpToShutdownState "battery removed." v)).2
      obtain ⟨t3, ht3⟩ := JumpToShutdownState_machineLog_grows "battery removed." v
      simp only [battery_read_frame_log] at ht2
      rw [ht2, ht3, ht]
      refine ⟨t ++ t3 ++ t2, ?_⟩
      simp [List.append_assoc]
    · exact ⟨t, by simpa using ht⟩

theorem handle_charger_event_temperature_inShutdown (cfg : chargeConfig_t) (hw : Hardware)
    (ev : nyx_charger_event_t) (w : World)
    (hs : inShutdown w.gCurrentChargeState.current_state = true) :
    (handle_charger_event_temperature cfg hw ev w).gCurrentChargeState.current_state =
        w.gCurrentChargeState.current_state ∧
    (handle_charger_event_temperature cfg hw ev w).gCurrentChargeState.state_node =
        w.gCurrentChargeState.state_node ∧
    machineLog (handle_charger_event_temperature cfg hw ev w).log = machineLog w.log := by
  simp only [handle_charger_event_temperature]
  split
  · split
    · rw [JumpToShutdownState_of_inShutdown _ _ (by simpa using hs)]
      simp
    · split <;> simp
  · simp

theorem handle_charger_event_temperature_idle (cfg : chargeConfig_t) (hw : Hardware)
    (ev : nyx_charger_event_t) (w : World)
    (hev : ev.NYX_BATTERY_TEMPERATURE_LIMIT = false) :
    handle_charger_event_temperature cfg hw ev w = w := by
  simp [handle_charger_event_temperature, hev]

/-- The world after the voltage and temperature blocks when one of them force-jumps. -/
theorem escalation_jumps (bd : Bool) (rd : Option nyx_battery_status_t)
    (g : nyx_battery_status_t) (a e : Bool) (c : Option nyx_battery_ctia_t)
    (cs : nyx_charger_status_t) (fpu : DoubleArith) (cfg : chargeConfig_t)
    (ev : nyx_charger_event_t) (v : World)
    (hns : inShutdown v.gCurrentChargeState.current_state = false)
    (hev : ev.NYX_BATTERY_CRITICAL_VOLTAGE = true)
    (hj : (!cs.is_charging || (ev.NYX_BATTERY_TEMPERATURE_LIMIT &&
      BatteryTemperatureCriticalShutdown cfg v (fixedReading bd rd g))) = true) :
    (handle_charger_event_temperature cfg (Hardware.fixed bd rd g a e c cs fpu) ev
      (handle_charger_event_voltage (Hardware.fixed bd rd g a e c cs fpu) ev
        v)).gCurrentChargeState.current_state = kChargeStateShutdown ∧
    (handle_charger_event_temperature cfg (Hardware.fixed bd rd g a e c cs fpu) ev
      (handle_charger_event_voltage (Hardware.fixed bd rd g a e c cs fpu) ev
        v)).gCurrentChargeState.state_node = kChargeStateShutdown ∧
    ∃ r, machineLog (handle_charger_event_temperature cfg (Hardware.fixed bd rd g a e c cs fpu)
      ev (handle_charger_event_voltage (Hardware.fixed bd rd g a e c cs fpu) ev v)).log =
        machineLog v.log ++ [.jump r, .current_state kChargeStateShutdown] := by
  by_cases hch : cs.is_charging = true
  · rw [handle_charger_event_voltage_idle _ ev v (Or.inr (by simpa [ChargerIsCharging] using hch))]
    simp only [hch, Bool.not_true, Bool.false_or, Bool.and_eq_true] at hj
    obtain ⟨h1, h2, h3⟩ := handle_charger_event_temperature_spec cfg
      (Hardware.fixed bd rd g a e c cs fpu) ev v hns hj.1
    simp only [fixed_uninitialized, battery_read_fixed, hj.2, if_true] at h1 h2 h3
    exact ⟨h1, h2, _, h3⟩
  · have hvolt : handle_charger_event_voltage (Hardware.fixed bd rd g a e c cs fpu) ev v =
        _JumpToShutdownState "battery voltage below threshold" v := by
      simp [handle_charger_event_voltage, hev, ChargerIsCharging, hch]
    rw [hvolt, JumpToShutdownState_of_not_inShutdown _ _ hns]
    obtain ⟨h1, h2, h3⟩ := handle_charger_event_temperature_inShutdown cfg
      (Hardware.fixed bd rd g a e c cs fpu) ev
      (emit (.current_state kChargeStateShutdown) (emit (.jump "battery voltage below threshold")
        { v with gCurrentChargeState :=
          { v.gCurrentChargeState with
            shutdown_reason := "battery voltage below threshold",
            current_state := kChargeStateShutdown,
            state_node := kChargeStateShutdown } })) (by simp [inShutdown])
    refine ⟨by rw [h1]; simp, by rw [h2]; simp, "battery voltage below threshold", ?_⟩
    rw [h3]
    simp


/-- C7 (counterexample): after boot the state is Idle; the event carries the critical-voltage
and the temperature-limit bits, the charger reports charging, the battery is at 65 C with a
critical maximum of 60 C.  The dispatch force-jumps to Shutdown before any state function
runs although the charger reports charging. -/
theorem C7_jump_while_charger_reports_charging :
    ChargerIsCharging (hwAtTemperature 65) = true ∧
    (boot 4 (hwAtTemperature 65)).world.gCurrentChargeState.current_state = kChargeStateIdle ∧
    machineLog (handle_charger_event 4 defaultConfig (hwAtTemperature 65)
      eventVoltageAndTemperature (boot 4 (hwAtTemperature 65)).world).world.log =
      machineLog (boot 4 (hwAtTemperature 65)).world.log ++
        [.jump "battery temperature above max allowed", .current_state kChargeStateShutdown,
          .call_state kChargeStateShutdown, .current_state kChargeStateShutdownWait,
          .call_state kChargeStateShutdownWait] := by
  decide!

/-- C7 (amended): from a state outside the shutdown chain, with fixed hardware and an event
that carries the critical-voltage bit, `handle_charger_event` force-jumps to Shutdown before
any state function runs iff the charger reports not charging, or the event also carries the
temperature-limit bit and the reading is at or above the critical temperature.  When it
jumps (both guards off) the dispatch returns in ShutdownWait and the only state functions
executed are `StateShutdown` and `StateShutdownWait`; when it does not, the first step of
the machine is the execution of the current state's function. -/
theorem C7_critical_voltage_shortcut (bd : Bool) (rd : Option nyx_battery_status_t)
    (g : nyx_battery_status_t) (a e : Bool) (c : Option nyx_battery_ctia_t)
    (cs : nyx_charger_status_t) (fpu : DoubleArith) (n : Nat) (cfg : chargeConfig_t)
    (ev : nyx_charger_event_t) (w : World) (hnode : nodeMatches w)
    (hns : inShutdown w.gCurrentChargeState.current_state = false)
    (hev : ev.NYX_BATTERY_CRITICAL_VOLTAGE = true)
    (h1 : cfg.skip_battery_check = false) (h2 : cfg.disable_charging = false) :
    ((!cs.is_charging || (ev.NYX_BATTERY_TEMPERATURE_LIMIT &&
        BatteryTemperatureCriticalShutdown cfg w (fixedReading bd rd g))) = true →
      ∃ w' r tail,
        handle_charger_event (n + 4) cfg (Hardware.fixed bd rd g a e c cs fpu) ev w
          = .returned w' ∧
        w'.gCurrentChargeState.current_state = kChargeStateShutdownWait ∧
        machineLog w'.log =
          machineLog w.log ++ .jump r :: .current_state kChargeStateShutdown :: tail ∧
        ∀ s ∈ callTrace tail, s = kChargeStateShutdown ∨ s = kChargeStateShutdownWait) ∧
    ((!cs.is_charging || (ev.NYX_BATTERY_TEMPERATURE_LIMIT &&
        BatteryTemperatureCriticalShutdown cfg w (fixedReading bd rd g))) = false →
      ∃ tail,
        machineLog (handle_charger_event (n + 4) cfg (Hardware.fixed bd rd g a e c cs fpu) ev
          w).world.log =
          machineLog w.log ++ .call_state w.gCurrentChargeState.current_state :: tail) := by
  obtain ⟨v, hv1, hv2, hv3, _, hv5, _⟩ :=
    handle_charger_event_presence_fixed bd rd g a e c cs fpu n ev w
  have hcrit := BatteryTemperatureCriticalShutdown_congr cfg w v (fixedReading bd rd g) hv3
  constructor
  · intro hj
    rw [← hcrit] at hj
    obtain ⟨e1, e2, r, e3⟩ := escalation_jumps bd rd g a e c cs fpu cfg ev v
      (by rw [hv2]; exact hns) hev hj
    have hd : handle_charger_event (n + 4) cfg (Hardware.fixed bd rd g a e c cs fpu) ev w =
        ChargingLogicUpdate (n + 4) cfg (Hardware.fixed bd rd g a e c cs fpu) ev
          (handle_charger_event_temperature cfg (Hardware.fixed bd rd g a e c cs fpu) ev
            (handle_charger_event_voltage (Hardware.fixed bd rd g a e c cs fpu) ev v)) := by
      unfold handle_charger_event
      rw [hv1]
      rfl
    rw [hd]
    generalize handle_charger_event_temperature cfg (Hardware.fixed bd rd g a e c cs fpu) ev
      (handle_charger_event_voltage (Hardware.fixed bd rd g a e c cs fpu) ev v) = X
      at e1 e2 e3
    obtain ⟨w', hw1, hw2, _, _, _, _, _, hw8⟩ := ChargingLogicUpdate_from_Shutdown (n + 2) cfg
      (Hardware.fixed bd rd g a e c cs fpu) ev X e2 h1 h2
    refine ⟨w', r, [.call_state kChargeStateShutdown,
        .current_state kChargeStateShutdownWait, .call_state kChargeStateShutdownWait] ++
        (if BatteryIsPresent X then [] else [.call_state kChargeStateShutdownWait]),
      hw1, hw2, ?_, ?_⟩
    · rw [hw8, e3, hv5]
      simp only [List.append_assoc, List.cons_append, List.nil_append]
    · intro s hs
      split at hs <;> simp at hs <;> rcases hs with hs | hs <;> simp [hs]
  · intro hj
    simp only [Bool.or_eq_false_iff, Bool.not_eq_false', Bool.and_eq_false_imp] at hj
    obtain ⟨hch, htemp⟩ := hj
    have hX : (handle_charger_event_temperature cfg (Hardware.fixed bd rd g a e c cs fpu) ev
          v).gCurrentChargeState.state_node = w.gCurrentChargeState.current_state ∧
        machineLog (handle_charger_event_temperature cfg (Hardware.fixed bd rd g a e c cs fpu)
          ev v).log = machineLog w.log := by
      cases hT : ev.NYX_BATTERY_TEMPERATURE_LIMIT
      · rw [handle_charger_event_temperature_idle _ _ _ _ hT, hv2, hv5]
        exact ⟨hnode, rfl⟩
      · obtain ⟨_, t2, t3⟩ := handle_charger_event_temperature_spec cfg
          (Hardware.fixed bd rd g a e c cs fpu) ev v (by rw [hv2]; exact hns) hT
        simp only [fixed_uninitialized, battery_read_fixed, hcrit, htemp hT,
          Bool.false_eq_true, if_false, List.append_nil] at t2 t3
        rw [t2, t3, hv2, hv5]
        exact ⟨hnode, rfl⟩
    obtain ⟨t, ht⟩ := ChargingLogicUpdate_first_call (n + 3) cfg
      (Hardware.fixed bd rd g a e c cs fpu) ev
      (handle_charger_event_temperature cfg (Hardware.fixed bd rd g a e c cs fpu) ev v) h1 h2
    refine ⟨t, ?_⟩
    unfold handle_charger_event
    rw [hv1]
    simp only [Outcome.bind_returned]
    rw [handle_charger_event_voltage_idle _ ev v (Or.inr (by simpa [ChargerIsCharging] using hch))]
    rw [ht, hX.1, hX.2]

theorem C7_critical_voltage_shortcut_witness :
    nodeMatches World.zero ∧
    inShutdown World.zero.gCurrentChargeState.current_state = false ∧
    eventCriticalVoltage.NYX_BATTERY_CRITICAL_VOLTAGE = true ∧
    defaultConfig.skip_battery_check = false ∧ defaultConfig.disable_charging = false ∧
    ∃ w' r tail,
      handle_charger_event 4 defaultConfig
        (Hardware.fixed true (some hotReading) hotReading true true none chargerOff exactArith)
        eventCriticalVoltage World.zero = .returned w' ∧
      w'.gCurrentChargeState.current_state = kChargeStateShutdownWait ∧
      machineLog w'.log =
        machineLog World.zero.log ++ .jump r :: .current_state kChargeStateShutdown :: tail ∧
      ∀ s ∈ callTrace tail, s = kChargeStateShutdown ∨ s = kChargeStateShutdownWait :=
  ⟨rfl, rfl, rfl, rfl, rfl,
    (C7_critical_voltage_shortcut true (some hotReading) hotReading true true none chargerOff
      exactArith 0 defaultConfig eventCriticalVoltage World.zero rfl rfl rfl rfl rfl).1
      (by decide)⟩


/-! ## C10: a temperature-limit event outside the charge bounds -/

theorem StateIdle_of_disabled (cfg : chargeConfig_t) (hw : Hardware) (ev : nyx_charger_event_t)
    (w : World) (h : w.gCurrentChargeState.charging_enabled = CHARGING_DISABLED) :
    (StateIdle cfg hw ev w).2 = w := by
  simp only [StateIdle, TurnChargingOff_of_disabled hw _ w h]
  repeat' split
  all_goals rfl

theorem StateChargeComplete_of_disabled (hw : Hardware) (ev : nyx_charger_event_t)
    (w : World) (h : w.gCurrentChargeState.charging_enabled = CHARGING_DISABLED) :
    (StateChargeComplete hw ev w).2 = w := by
  simp only [StateChargeComplete, TurnChargingOff_of_disabled hw _ w h]
  repeat' split
  all_goals rfl

theorem StateFault_of_disabled (hw : Hardware) (w : World)
    (h : w.gCurrentChargeState.charging_enabled = CHARGING_DISABLED) :
    (StateFault hw w).2 = w := by
  simp only [StateFault, TurnChargingOff_of_disabled hw _ w h]
  repeat' split
  all_goals rfl

theorem StateCharging_of_temperature (cfg : chargeConfig_t) (hw : Hardware)
    (ev : nyx_charger_event_t) (w : World)
    (h1 : ev.NYX_BATTERY_TEMPERATURE_LIMIT = true) (h2 : ev.NYX_CHARGE_COMPLETE = false) :
    StateCharging cfg hw ev w = (kChargeStateIdle, w) := by
  simp only [StateCharging, h1, h2, Bool.or_true, Bool.false_eq_true, if_false, if_true]
  split <;> rfl

theorem ChargeStateIterate_loop_Idle_no_connect (n : Nat) (cfg : chargeConfig_t)
    (hw : Hardware) (ev : nyx_charger_event_t) (w : World)
    (hn : w.gCurrentChargeState.state_node = kChargeStateIdle)
    (hd : w.gCurrentChargeState.charging_enabled = CHARGING_DISABLED)
    (hev : ev.NYX_CHARGER_CONNECTED = false) :
    ChargeStateIterate_loop (n + 1) cfg hw ev w =
      .returned (emit (.call_state kChargeStateIdle) w) := by
  rw [ChargeStateIterate_loop_succ]
  simp only [hn, chargeStateProc]
  rw [StateIdle_fst, StateIdle_of_disabled _ _ _ _ (by simpa using hd)]
  simp [hev]

/-- The table iteration for the temperature-limit event alone, from a world whose charging
flag is already CHARGING_DISABLED. -/
theorem ChargeStateIterate_loop_temperature (n : Nat) (cfg : chargeConfig_t) (hw : Hardware)
    (w : World) (hnode : nodeMatches w)
    (hcur : w.gCurrentChargeState.current_state = kChargeStateIdle ∨
      w.gCurrentChargeState.current_state = kChargeStateCharging ∨
      w.gCurrentChargeState.current_state = kChargeStateChargeComplete ∨
      w.gCurrentChargeState.current_state = kChargeStateFault)
    (hd : w.gCurrentChargeState.charging_enabled = CHARGING_DISABLED) :
    ∃ w', ChargeStateIterate_loop (n + 2) cfg hw eventTemperatureLimit w = .returned w' ∧
      w'.gCurrentChargeState.charging_enabled = CHARGING_DISABLED ∧
      w'.gCurrentChargeState.current_state =
        temperatureLimitTarget (ChargerIsConnected hw) (BatteryIsPresent w)
          w.gCurrentChargeState.current_state ∧
      w'.gCurrentChargeState.state_node =
        temperatureLimitTarget (ChargerIsConnected hw) (BatteryIsPresent w)
          w.gCurrentChargeState.current_state ∧
      w'.state_node = w.state_node := by
  unfold nodeMatches at hnode
  rcases hcur with hc | hc | hc | hc
  · rw [ChargeStateIterate_loop_Idle_no_connect _ _ _ _ _ (by rw [hnode, hc]) hd rfl]
    exact ⟨_, rfl, by simpa using hd, by simp [hc, temperatureLimitTarget],
      by simp [hnode, hc, temperatureLimitTarget], by simp⟩
  · rw [ChargeStateIterate_loop_succ]
    simp only [hnode, hc, chargeStateProc,
      StateCharging_of_temperature cfg hw eventTemperatureLimit _ rfl rfl]
    rw [if_neg (by decide),
      ChargeStateIterate_loop_Idle_no_connect _ _ _ _ _ (by simp) (by simpa using hd) rfl]
    exact ⟨_, rfl, by simpa using hd, by simp [temperatureLimitTarget],
      by simp [temperatureLimitTarget], by simp⟩
  · rw [ChargeStateIterate_loop_succ]
    simp only [hnode, hc, chargeStateProc]
    rw [StateChargeComplete_fst, StateChargeComplete_of_disabled _ _ _ (by simpa using hd)]
    by_cases hcon : ChargerIsConnected hw = true
    · simp only [hcon, eventTemperatureLimit, NYX_NO_NEW_EVENT, Bool.not_true, Bool.or_self,
        Bool.false_eq_true, if_false, if_true]
      exact ⟨_, rfl, by simpa using hd, by simp [hc, temperatureLimitTarget],
        by simp [hnode, hc, temperatureLimitTarget], by simp⟩
    · simp only [hcon, Bool.not_false, Bool.true_or, if_true]
      rw [if_neg (by decide),
        ChargeStateIterate_loop_Idle_no_connect _ _ _ _ _ (by simp) (by simpa using hd) rfl]
      exact ⟨_, rfl, by simpa using hd, by simp [temperatureLimitTarget, hcon],
        by simp [temperatureLimitTarget, hcon], by simp⟩
  · rw [ChargeStateIterate_loop_succ]
    simp only [hnode, hc, chargeStateProc]
    rw [StateFault_fst, StateFault_of_disabled _ _ (by simpa using hd)]
    have hp' : BatteryIsPresent (emit (.call_state kChargeStateFault) w) =
        BatteryIsPresent w := by
      simp [BatteryIsPresent]
    rw [hp']
    by_cases hcp : (ChargerIsConnected hw && BatteryIsPresent w) = true
    · have hcp' := hcp
      simp only [Bool.and_eq_true] at hcp'
      simp only [hcp'.1, hcp'.2, Bool.not_true, Bool.or_self, Bool.false_eq_true, if_false,
        if_true]
      exact ⟨_, rfl, by simpa using hd, by simp [hc, temperatureLimitTarget],
        by simp [hnode, hc, temperatureLimitTarget], by simp⟩
    · have hor : (!ChargerIsConnected hw || !BatteryIsPresent w) = true := by
        revert hcp
        cases ChargerIsConnected hw <;> cases BatteryIsPresent w <;> simp
      simp only [hor, if_true]
      rw [if_neg (by decide),
        ChargeStateIterate_loop_Idle_no_connect _ _ _ _ _ (by simp) (by simpa using hd) rfl]
      exact ⟨_, rfl, by simpa using hd, by simp [temperatureLimitTarget, hcp],
        by simp [temperatureLimitTarget, hcp], by simp⟩

/-- C10 (counterexample): in Charging with charging enabled, a dispatch of the
temperature-limit event alone, with the battery at 50 C (charge maximum 45 C, critical
60 C), ends in Idle: `current_state` does not keep its value. -/
theorem C10_charging_goes_to_idle :
    afterConnect.gCurrentChargeState.current_state = kChargeStateCharging ∧
    afterConnect.gCurrentChargeState.charging_enabled = CHARGING_ENABLED ∧
    BatteryTemperatureCriticalShutdown defaultConfig afterConnect
      (fixedReading true (some { sampleReading 500 with temperature := 50 })
        (sampleReading 500)) = false ∧
    BatteryTemperatureHigh afterConnect
      (fixedReading true (some { sampleReading 500 with temperature := 50 })
        (sampleReading 500)) = true ∧
    (handle_charger_event 4 defaultConfig (hwAtTemperature 50) eventTemperatureLimit
      afterConnect).world.gCurrentChargeState.current_state = kChargeStateIdle ∧
    (handle_charger_event 4 defaultConfig (hwAtTemperature 50) eventTemperatureLimit
      afterConnect).world.gCurrentChargeState.charging_enabled = CHARGING_DISABLED := by
  decide!

/-- C10 (amended): for a dispatch of the temperature-limit event alone, on fixed hardware,
with a reading below the critical threshold but outside the charge-temperature bounds and
both guards off, from Idle, Charging, ChargeComplete or Fault: the dispatch returns with
`charging_enabled = CHARGING_DISABLED`; when the battery is not Removed, `current_state`
ends at Idle from Idle and from Charging, and keeps its value from ChargeComplete and Fault
while the charger is connected (Idle otherwise); when the battery is Removed the dispatch
ends in ShutdownWait. -/
theorem C10_temperature_limit_disables_charging (bd : Bool)
    (rd : Option nyx_battery_status_t) (g : nyx_battery_status_t) (a e : Bool)
    (c : Option nyx_battery_ctia_t) (cs : nyx_charger_status_t) (fpu : DoubleArith) (n : Nat)
    (cfg : chargeConfig_t) (w : World) (hnode : nodeMatches w)
    (hcur : w.gCurrentChargeState.current_state = kChargeStateIdle ∨
      w.gCurrentChargeState.current_state = kChargeStateCharging ∨
      w.gCurrentChargeState.current_state = kChargeStateChargeComplete ∨
      w.gCurrentChargeState.current_state = kChargeStateFault)
    (h1 : cfg.skip_battery_check = false) (h2 : cfg.disable_charging = false)
    (hnc : BatteryTemperatureCriticalShutdown cfg w (fixedReading bd rd g) = false)
    (hb : (BatteryTemperatureHigh w (fixedReading bd rd g) ||
      BatteryTemperatureLow w (fixedReading bd rd g)) = true) :
    ∃ w', handle_charger_event (n + 4) cfg (Hardware.fixed bd rd g a e c cs fpu)
        eventTemperatureLimit w = .returned w' ∧
      w'.gCurrentChargeState.charging_enabled = CHARGING_DISABLED ∧
      w'.gCurrentChargeState.current_state =
        if BatteryIsPresent w then
          temperatureLimitTarget (ChargerIsConnected (Hardware.fixed bd rd g a e c cs fpu)) true
            w.gCurrentChargeState.current_state
        else kChargeStateShutdownWait := by
  have hT : handle_charger_event_temperature cfg (Hardware.fixed bd rd g a e c cs fpu)
      eventTemperatureLimit w =
      TurnChargingOff (Hardware.fixed bd rd g a e c cs fpu)
        "charging temperature is above / below the limits allowed"
        (battery_read (Hardware.fixed bd rd g a e c cs fpu) g w).2 := by
    simp only [handle_charger_event_temperature, eventTemperatureLimit, NYX_NO_NEW_EVENT,
      if_true, fixed_uninitialized, battery_read_fixed]
    rw [BatteryTemperatureCriticalShutdown_congr cfg w _ _ (by simp),
      BatteryTemperatureHigh_congr w _ _ (by simp), BatteryTemperatureLow_congr w _ _ (by simp)]
    simp [hnc, hb]
  have hd : handle_charger_event (n + 4) cfg (Hardware.fixed bd rd g a e c cs fpu)
      eventTemperatureLimit w =
      ChargingLogicUpdate (n + 4) cfg (Hardware.fixed bd rd g a e c cs fpu)
        eventTemperatureLimit
        (TurnChargingOff (Hardware.fixed bd rd g a e c cs fpu)
          "charging temperature is above / below the limits allowed"
          (battery_read (Hardware.fixed bd rd g a e c cs fpu) g w).2) := by
    rw [← hT]
    simp [handle_charger_event, handle_charger_event_presence, handle_charger_event_voltage,
      eventTemperatureLimit, NYX_NO_NEW_EVENT]
  rw [hd]
  generalize hX : TurnChargingOff (Hardware.fixed bd rd g a e c cs fpu)
    "charging temperature is above / below the limits allowed"
    (battery_read (Hardware.fixed bd rd g a e c cs fpu) g w).2 = X
  have x1 : X.gCurrentChargeState.charging_enabled = CHARGING_DISABLED := by
    rw [← hX]; simp
  have x2 : X.gCurrentChargeState.current_state = w.gCurrentChargeState.current_state := by
    rw [← hX]; simp
  have x3 : X.gCurrentChargeState.state_node = w.gCurrentChargeState.state_node := by
    rw [← hX]; simp
  have x4 : X.state_node = w.state_node := by
    rw [← hX]; simp
  simp only [ChargingLogicUpdate, h1, h2, Bool.false_eq_true, if_false, ChargeStateIterate]
  obtain ⟨L, l1, l2, l3, l4, l5⟩ := ChargeStateIterate_loop_temperature (n + 2) cfg
    (Hardware.fixed bd rd g a e c cs fpu)
    (battery_read (Hardware.fixed bd rd g a e c cs fpu)
      ((Hardware.fixed bd rd g a e c cs fpu).uninitialized
        (battery_read (Hardware.fixed bd rd g a e c cs fpu)
          ((Hardware.fixed bd rd g a e c cs fpu).uninitialized X.clock) X).2.clock)
      (battery_read (Hardware.fixed bd rd g a e c cs fpu)
        ((Hardware.fixed bd rd g a e c cs fpu).uninitialized X.clock) X).2).2
    (by simp only [nodeMatches, battery_read_frame_gCurrentChargeState]; rw [x2, x3]; exact hnode)
    (by simp only [battery_read_frame_gCurrentChargeState]; rw [x2]; exact hcur)
    (by simp only [battery_read_frame_gCurrentChargeState]; exact x1)
  simp only [battery_read_frame_gCurrentChargeState, battery_read_frame_state_node,
    BatteryIsPresent] at l3 l4 l5
  rw [x2, x4] at l3 l4
  rw [x4] at l5
  rw [l1]
  simp only [Outcome.bind_returned, CheckCriticalLevels, h1, Bool.false_eq_true, if_false]
  have hpL : BatteryIsPresent L = BatteryIsPresent w := by
    simp [BatteryIsPresent, l5]
  rw [hpL]
  by_cases hp : BatteryIsPresent w = true
  · simp only [hp, Bool.not_true, Bool.false_eq_true, if_false, if_true]
    refine ⟨L, rfl, l2, ?_⟩
    rw [l3]
    simp only [BatteryIsPresent] at hp
    simp [hp]
  · simp only [hp, Bool.not_false, if_true, Bool.false_eq_true, if_false]
    have hLns : inShutdown L.gCurrentChargeState.current_state = false := by
      rw [l3]
      rcases hcur with hc | hc | hc | hc <;> rw [hc] <;>
        simp only [temperatureLimitTarget] <;> (try split) <;> rfl
    rw [JumpToShutdownState_of_not_inShutdown _ _ hLns]
    rw [ChargeStateIterate_loop_Shutdown _ _ _ _ _ (by simp)]
    exact ⟨_, rfl, by simpa using l2, by simp⟩

theorem C10_temperature_limit_disables_charging_witness :
    nodeMatches afterConnect ∧
    (afterConnect.gCurrentChargeState.current_state = kChargeStateIdle ∨
      afterConnect.gCurrentChargeState.current_state = kChargeStateCharging ∨
      afterConnect.gCurrentChargeState.current_state = kChargeStateChargeComplete ∨
      afterConnect.gCurrentChargeState.current_state = kChargeStateFault) ∧
    defaultConfig.skip_battery_check = false ∧ defaultConfig.disable_charging = false ∧
    BatteryTemperatureCriticalShutdown defaultConfig afterConnect
      (fixedReading true (some { sampleReading 500 with temperature := 50 })
        (sampleReading 500)) = false ∧
    (BatteryTemperatureHigh afterConnect
        (fixedReading true (some { sampleReading 500 with temperature := 50 })
          (sampleReading 500)) ||
      BatteryTemperatureLow afterConnect
        (fixedReading true (some { sampleReading 500 with temperature := 50 })
          (sampleReading 500))) = true ∧
    ∃ w', handle_charger_event 4 defaultConfig
        (Hardware.fixed true (some { sampleReading 500 with temperature := 50 })
          (sampleReading 500) true true (some hotCtia) chargerOn exactArith)
        eventTemperatureLimit afterConnect = .returned w' ∧
      w'.gCurrentChargeState.charging_enabled = CHARGING_DISABLED ∧
      w'.gCurrentChargeState.current_state =
        if BatteryIsPresent afterConnect then
          temperatureLimitTarget (ChargerIsConnected
            (Hardware.fixed true (some { sampleReading 500 with temperature := 50 })
              (sampleReading 500) true true (some hotCtia) chargerOn exactArith)) true
            afterConnect.gCurrentChargeState.current_state
        else kChargeStateShutdownWait :=
  ⟨by decide!, by decide!, rfl, rfl, by decide!, by decide!,
    C10_temperature_limit_disables_charging true
      (some { sampleReading 500 with temperature := 50 }) (sampleReading 500) true true
      (some hotCtia) chargerOn exactArith 0 defaultConfig afterConnect (by decide!)
      (by decide!) rfl rfl (by decide!) (by decide!)⟩

/-! ## C4: how many over-limit samples it takes to fault -/

theorem StateCharging_overcharge_count (cfg : chargeConfig_t) (hw : Hardware)
    (w : World) (hcon : ChargerIsConnected hw = true) (hauth : BatteryIsAuthentic w = true)
    (hchk : cfg.disable_overcharge_check = false) :
    (StateCharging cfg hw NYX_NO_NEW_EVENT w).2.overcharge_count =
      if over_limit hw.fpu (battery_read hw (hw.uninitialized w.clock) w).1 then
        w.overcharge_count + 1
      else 0 := by
  have key : (StateCharging cfg hw NYX_NO_NEW_EVENT w).2.overcharge_count =
      (BatteryOverchargeFault hw.fpu (battery_read hw (hw.uninitialized w.clock) w).1
        (battery_read hw (hw.uninitialized w.clock) w).2).2.overcharge_count := by
    simp only [StateCharging, hcon, hauth, hchk, NYX_NO_NEW_EVENT, Bool.not_true,
      Bool.or_self, Bool.false_eq_true, if_false]
    repeat' split
    all_goals simp
  rw [key, BatteryOverchargeFault_count, battery_read_frame_overcharge_count]

/-- One idle tick in Charging (authentic battery, connected charger, enable call succeeding,
overcharge check on, both guards off, fixed hardware with reading `r`): the counter
follows the sample, and the machine ends in Fault exactly when the sample is over the limit
and the counter passes `OVERCHARGE_RETRIES`. -/
theorem charging_tick (r g : nyx_battery_status_t) (a : Bool)
    (c : Option nyx_battery_ctia_t) (cs : nyx_charger_status_t) (fpu : DoubleArith) (n : Nat)
    (cfg : chargeConfig_t) (w : World) (hnode : nodeMatches w)
    (hcur : w.gCurrentChargeState.current_state = kChargeStateCharging)
    (hauth : w.state_node = kBatteryAuthentic) (hcon : cs.connected ≠ 0)
    (h1 : cfg.skip_battery_check = false) (h2 : cfg.disable_charging = false)
    (h3 : cfg.disable_overcharge_check = false) :
    ∃ w', handle_charger_event (n + 2) cfg (Hardware.fixed true (some r) g a true c cs fpu)
        NYX_NO_NEW_EVENT w = .returned w' ∧
      nodeMatches w' ∧ w'.state_node = kBatteryAuthentic ∧
      w'.overcharge_count = (if over_limit fpu r then w.overcharge_count + 1 else 0) ∧
      w'.gCurrentChargeState.current_state =
        (if over_limit fpu r ∧ w.overcharge_count + 1 > OVERCHARGE_RETRIES then
          kChargeStateFault
        else kChargeStateCharging) := by
  have hd : handle_charger_event (n + 2) cfg (Hardware.fixed true (some r) g a true c cs fpu)
      NYX_NO_NEW_EVENT w =
      ChargingLogicUpdate (n + 2) cfg (Hardware.fixed true (some r) g a true c cs fpu)
        NYX_NO_NEW_EVENT w := by
    simp [handle_charger_event, handle_charger_event_presence, handle_charger_event_voltage,
      handle_charger_event_temperature, NYX_NO_NEW_EVENT]
  rw [hd]
  simp only [ChargingLogicUpdate, h1, h2, Bool.false_eq_true, if_false, ChargeStateIterate]
  generalize hX : (battery_read (Hardware.fixed true (some r) g a true c cs fpu)
      ((Hardware.fixed true (some r) g a true c cs fpu).uninitialized
        (battery_read (Hardware.fixed true (some r) g a true c cs fpu)
          ((Hardware.fixed true (some r) g a true c cs fpu).uninitialized w.clock) w).2.clock)
      (battery_read (Hardware.fixed true (some r) g a true c cs fpu)
        ((Hardware.fixed true (some r) g a true c cs fpu).uninitialized w.clock) w).2).2 = X
  have x1 : X.gCurrentChargeState = w.gCurrentChargeState := by rw [← hX]; simp
  have x2 : X.state_node = w.state_node := by rw [← hX]; simp
  have x3 : X.overcharge_count = w.overcharge_count := by rw [← hX]; simp
  have hconn : ChargerIsConnected (Hardware.fixed true (some r) g a true c cs fpu) = true := by
    simp [ChargerIsConnected, hcon]
  have hautX : BatteryIsAuthentic (emit (.call_state kChargeStateCharging) X) = true := by
    simp [BatteryIsAuthentic, x2, hauth]
  have hrd : fixedReading true (some r) g = r := rfl
  rw [ChargeStateIterate_loop_succ]
  have hnX : X.gCurrentChargeState.state_node = kChargeStateCharging := by
    rw [x1, hnode, hcur]
  simp only [hnX, chargeStateProc]
  have e1 : NYX_NO_NEW_EVENT.NYX_CHARGE_COMPLETE = false := rfl
  have e2 : NYX_NO_NEW_EVENT.NYX_CHARGER_DISCONNECTED = false := rfl
  have e3 : NYX_NO_NEW_EVENT.NYX_CHARGE_RESTART = false := rfl
  have e4 : NYX_NO_NEW_EVENT.NYX_BATTERY_TEMPERATURE_LIMIT = false := rfl
  have hfst := StateCharging_fst cfg (Hardware.fixed true (some r) g a true c cs fpu)
    NYX_NO_NEW_EVENT (emit (.call_state kChargeStateCharging) X)
  simp only [hconn, hautX, h3, e1, e2, e3, e4, Bool.not_true, Bool.or_self,
    Bool.false_eq_true, if_false, Bool.not_false, Bool.true_and, fixed_uninitialized,
    battery_read_fixed, hrd, fixed_fpu, fixed_enable, if_true, BatteryOverchargeFault_result,
    battery_read_frame_overcharge_count, emit_frame_overcharge_count, x3] at hfst
  have hcnt := StateCharging_overcharge_count cfg
    (Hardware.fixed true (some r) g a true c cs fpu)
    (emit (.call_state kChargeStateCharging) X) hconn hautX h3
  simp only [fixed_uninitialized, battery_read_fixed, hrd, fixed_fpu,
    emit_frame_overcharge_count, x3] at hcnt
  generalize hS : StateCharging cfg (Hardware.fixed true (some r) g a true c cs fpu)
    NYX_NO_NEW_EVENT (emit (.call_state kChargeStateCharging) X) = S at hfst hcnt ⊢
  have s1 : S.2.state_node = w.state_node := by rw [← hS]; simp [x2]
  have s2 : S.2.gCurrentChargeState.current_state = kChargeStateCharging := by
    rw [← hS]; simp [x1, hcur]
  have s3 : S.2.gCurrentChargeState.state_node = kChargeStateCharging := by
    rw [← hS]; simp only [StateCharging_frame_g_state_node, emit_frame_gCurrentChargeState]
    exact hnX
  by_cases hf : (decide (over_limit fpu r) &&
      decide (w.overcharge_count + 1 > OVERCHARGE_RETRIES)) = true
  · rw [if_pos hf] at hfst
    have hf' : over_limit fpu r ∧ w.overcharge_count + 1 > OVERCHARGE_RETRIES := by
      simpa using hf
    simp only [hfst]
    rw [if_neg (by decide), ChargeStateIterate_loop_succ]
    simp only [assignState_state_node, chargeStateProc]
    rw [StateFault_fst]
    have hpr : BatteryIsPresent (emit (.call_state kChargeStateFault)
        (assignState kChargeStateFault S.2)) = true := by
      simp [BatteryIsPresent, s1, hauth]
    simp only [hconn, hpr, Bool.not_true, Bool.or_self, Bool.false_eq_true, if_false, if_true,
      Outcome.bind_returned, CheckCriticalLevels, h1]
    have hpr2 : BatteryIsPresent (StateFault (Hardware.fixed true (some r) g a true c cs fpu)
        (emit (.call_state kChargeStateFault) (assignState kChargeStateFault S.2))).2
          = true := by
      simp [BatteryIsPresent, s1, hauth]
    simp only [hpr2, Bool.not_true, Bool.false_eq_true, if_false]
    refine ⟨_, rfl, ?_, ?_, ?_, ?_⟩
    · simp [nodeMatches]
    · simp [s1, hauth]
    · simp [hcnt]
    · simp [hf']
  · rw [if_neg hf] at hfst
    have hf' : ¬ (over_limit fpu r ∧ w.overcharge_count + 1 > OVERCHARGE_RETRIES) := by
      simpa using hf
    simp only [hfst, if_true, Outcome.bind_returned, CheckCriticalLevels, h1,
      Bool.false_eq_true, if_false]
    have hpr : BatteryIsPresent S.2 = true := by
      simp [BatteryIsPresent, s1, hauth]
    simp only [hpr, Bool.not_true, Bool.false_eq_true, if_false]
    refine ⟨_, rfl, ?_, ?_, ?_, ?_⟩
    · simp [nodeMatches, s2, s3]
    · simp [s1, hauth]
    · simp [hcnt]
    · simp [hf', s2]


/-- C4 (counterexample): in Charging with a zero counter, rated capacity 1000 and age 100
(limit 1200; `double` arithmetic gives the same limit, 1.2 * 1000.0 rounds to 1200.0), the
samples 1150, 1210, 1210, 1210 leave the machine in Charging with the counter at 3: three
consecutive over-limit samples do not fault. -/
theorem C4_three_over_limit_samples_do_not_fault :
    afterCharging.gCurrentChargeState.current_state = kChargeStateCharging ∧
    afterCharging.overcharge_count = 0 ∧
    (dispatch_all 4 defaultConfig
      (idleTicks (sampleReading 0) true none chargerOn exactArith
        [sampleReading 1150, sampleReading 1210, sampleReading 1210, sampleReading 1210])
      afterCharging).world.gCurrentChargeState.current_state = kChargeStateCharging ∧
    (dispatch_all 4 defaultConfig
      (idleTicks (sampleReading 0) true none chargerOn exactArith
        [sampleReading 1150, sampleReading 1210, sampleReading 1210, sampleReading 1210])
      afterCharging).world.overcharge_count = 3 := by
  decide!

/-- C4 (amended): in Charging (authentic battery, connected charger, enable call succeeding,
overcharge check on, both guards off; the counter at zero or at any other value, since the
first sample resets it), for every sample sequence of one sample not above the limit
followed by four samples above it, one sample per idle tick, the machine is still in
Charging after each of the first four samples (three consecutive over-limit samples
included) and enters Fault on the fourth consecutive over-limit sample. -/
theorem C4_fault_on_fourth_over_limit_sample (r₀ r₁ r₂ r₃ r₄ g : nyx_battery_status_t)
    (a : Bool) (c : Option nyx_battery_ctia_t) (cs : nyx_charger_status_t) (fpu : DoubleArith)
    (n : Nat) (cfg : chargeConfig_t) (w : World) (hnode : nodeMatches w)
    (hcur : w.gCurrentChargeState.current_state = kChargeStateCharging)
    (hauth : w.state_node = kBatteryAuthentic) (hcon : cs.connected ≠ 0)
    (h1 : cfg.skip_battery_check = false) (h2 : cfg.disable_charging = false)
    (h3 : cfg.disable_overcharge_check = false)
    (o₀ : r₀.capacity_raw ≤ overcharge_limit fpu r₀)
    (o₁ : r₁.capacity_raw > overcharge_limit fpu r₁)
    (o₂ : r₂.capacity_raw > overcharge_limit fpu r₂)
    (o₃ : r₃.capacity_raw > overcharge_limit fpu r₃)
    (o₄ : r₄.capacity_raw > overcharge_limit fpu r₄) :
    (dispatch_all (n + 2) cfg (idleTicks g a c cs fpu [r₀])
      w).world.gCurrentChargeState.current_state = kChargeStateCharging ∧
    (dispatch_all (n + 2) cfg (idleTicks g a c cs fpu [r₀, r₁])
      w).world.gCurrentChargeState.current_state = kChargeStateCharging ∧
    (dispatch_all (n + 2) cfg (idleTicks g a c cs fpu [r₀, r₁, r₂])
      w).world.gCurrentChargeState.current_state = kChargeStateCharging ∧
    (dispatch_all (n + 2) cfg (idleTicks g a c cs fpu [r₀, r₁, r₂, r₃])
      w).world.gCurrentChargeState.current_state = kChargeStateCharging ∧
    (dispatch_all (n + 2) cfg (idleTicks g a c cs fpu [r₀, r₁, r₂, r₃, r₄])
      w).world.gCurrentChargeState.current_state = kChargeStateFault ∧
    (dispatch_all (n + 2) cfg (idleTicks g a c cs fpu [r₀, r₁, r₂, r₃, r₄])
      w).isReturned = true := by
  have p₀ : ¬ over_limit fpu r₀ := not_lt.mpr o₀
  have p₁ : over_limit fpu r₁ := o₁
  have p₂ : over_limit fpu r₂ := o₂
  have p₃ : over_limit fpu r₃ := o₃
  have p₄ : over_limit fpu r₄ := o₄
  obtain ⟨w₁, e₁, n₁, a₁, c₁, s₁⟩ :=
    charging_tick r₀ g a c cs fpu n cfg w hnode hcur hauth hcon h1 h2 h3
  simp only [p₀, if_false, false_and] at c₁ s₁
  obtain ⟨w₂, e₂, n₂, a₂, c₂, s₂⟩ :=
    charging_tick r₁ g a c cs fpu n cfg w₁ n₁ s₁ a₁ hcon h1 h2 h3
  simp only [p₁, if_true, true_and, c₁, OVERCHARGE_RETRIES] at c₂ s₂
  norm_num at c₂ s₂
  obtain ⟨w₃, e₃, n₃, a₃, c₃, s₃⟩ :=
    charging_tick r₂ g a c cs fpu n cfg w₂ n₂ s₂ a₂ hcon h1 h2 h3
  simp only [p₂, if_true, true_and, c₂, OVERCHARGE_RETRIES] at c₃ s₃
  norm_num at c₃ s₃
  obtain ⟨w₄, e₄, n₄, a₄, c₄, s₄⟩ :=
    charging_tick r₃ g a c cs fpu n cfg w₃ n₃ s₃ a₃ hcon h1 h2 h3
  simp only [p₃, if_true, true_and, c₃, OVERCHARGE_RETRIES] at c₄ s₄
  norm_num at c₄ s₄
  obtain ⟨w₅, e₅, _, _, _, s₅⟩ :=
    charging_tick r₄ g a c cs fpu n cfg w₄ n₄ s₄ a₄ hcon h1 h2 h3
  simp only [p₄, if_true, true_and, c₄, OVERCHARGE_RETRIES] at s₅
  norm_num at s₅
  simp only [idleTicks, List.map, dispatch_all, e₁, e₂, e₃, e₄, e₅, Outcome.bind_returned,
    Outcome.world_returned, Outcome.isReturned]
  exact ⟨s₁, s₂, s₃, s₄, s₅, trivial⟩

theorem C4_fault_on_fourth_over_limit_sample_witness :
    nodeMatches afterCharging ∧
    afterCharging.gCurrentChargeState.current_state = kChargeStateCharging ∧
    afterCharging.state_node = kBatteryAuthentic ∧ chargerOn.connected ≠ 0 ∧
    defaultConfig.skip_battery_check = false ∧ defaultConfig.disable_charging = false ∧
    defaultConfig.disable_overcharge_check = false ∧
    (sampleReading 1150).capacity_raw ≤ overcharge_limit exactArith (sampleReading 1150) ∧
    (sampleReading 1210).capacity_raw > overcharge_limit exactArith (sampleReading 1210) ∧
    (dispatch_all 4 defaultConfig
      (idleTicks (sampleReading 0) true none chargerOn exactArith
        [sampleReading 1150, sampleReading 1210, sampleReading 1210, sampleReading 1210,
          sampleReading 1210])
      afterCharging).world.gCurrentChargeState.current_state = kChargeStateFault :=
  ⟨by decide!, by decide!, by decide!, by decide, rfl, rfl, rfl, by decide!, by decide!,
    (C4_fault_on_fourth_over_limit_sample (sampleReading 1150) (sampleReading 1210)
      (sampleReading 1210) (sampleReading 1210) (sampleReading 1210) (sampleReading 0) true
      none chargerOn exactArith 2 defaultConfig afterCharging (by decide!) (by decide!)
      (by decide!) (by decide) rfl rfl rfl (by decide!) (by decide!) (by decide!) (by decide!)
      (by decide!)).2.2.2.2.1⟩

/-! ## C16: the wakeup ladder -/

theorem wakeup_scan_ladder (p : Int) :
    wakeup_scan battlowpercent p 0 = highest_below p := by
  rcases lt_or_ge 20 p with h | h
  · have h13 : (13 : Int) < p := by omega
    have h11 : (11 : Int) < p := by omega
    have h9 : (9 : Int) < p := by omega
    have h6 : (6 : Int) < p := by omega
    have h5 : (5 : Int) < p := by omega
    have h4 : (4 : Int) < p := by omega
    have h3 : (3 : Int) < p := by omega
    have h2 : (2 : Int) < p := by omega
    have h1 : (1 : Int) < p := by omega
    have h0 : (0 : Int) < p := by omega
    simp [wakeup_scan, battlowpercent, highest_below, wakeup_ladder, List.filter, *]
  · rcases le_or_lt p 0 with h' | h'
    · have h20 : ¬ (20 : Int) < p := by omega
      have h13 : ¬ (13 : Int) < p := by omega
      have h11 : ¬ (11 : Int) < p := by omega
      have h9 : ¬ (9 : Int) < p := by omega
      have h6 : ¬ (6 : Int) < p := by omega
      have h5 : ¬ (5 : Int) < p := by omega
      have h4 : ¬ (4 : Int) < p := by omega
      have h3 : ¬ (3 : Int) < p := by omega
      have h2 : ¬ (2 : Int) < p := by omega
      have h1 : ¬ (1 : Int) < p := by omega
      have h0 : ¬ (0 : Int) < p := by omega
      simp [wakeup_scan, battlowpercent, highest_below, wakeup_ladder, List.filter, *]
    · interval_cases p <;> decide

theorem wakeup_nextchk_rule (charging suspend : Bool) (p : Int) :
    wakeup_nextchk charging suspend p = wakeup_rule charging suspend p := by
  unfold wakeup_nextchk wakeup_rule
  rw [wakeup_scan_ladder]

@[simp] theorem wakeupTrace_append (l₁ l₂ : List Effect) :
    wakeupTrace (l₁ ++ l₂) = wakeupTrace l₁ ++ wakeupTrace l₂ := by
  simp [wakeupTrace]

theorem sendBatteryStatus_wakeupTrace (hw : Hardware) (w : World) :
    wakeupTrace (sendBatteryStatus hw w).log = wakeupTrace w.log := by
  unfold sendBatteryStatus
  split
  · rfl
  · simp [emit, tick, wakeupTrace]

/-- C16: with a battery device, `battery_set_wakeup_percentage` pushes exactly one wakeup
percentage to the hardware, and for the percentage p it read and the flags (charging,
suspend) that value is: 0 when charging; otherwise, when suspending, the highest value of
the ladder 20, 13, 11, 9, 6, 5, 4, 3, 2, 1, 0 strictly below p, or 0 when no ladder value is
below p; otherwise p itself.  The value the code computes agrees with that rule for every
integer p; suspending with p = 15 gives 13 and with p = 0 gives 0. -/
theorem C16_wakeup_percentage (hw : Hardware) (charging suspend : Bool) (w : World)
    (hdev : hw.battDev = true) :
    wakeupTrace (battery_set_wakeup_percentage hw charging suspend w).log =
      wakeupTrace w.log ++ [wakeup_rule charging suspend
        (battery_read hw (hw.uninitialized w.clock) w).1.percentage] ∧
    (∀ p : Int, wakeup_nextchk charging suspend p = wakeup_rule charging suspend p) ∧
    (∀ p : Int, wakeup_nextchk true suspend p = 0) ∧
    wakeup_nextchk false true 15 = 13 ∧ wakeup_nextchk false true 0 = 0 := by
  refine ⟨?_, fun p => wakeup_nextchk_rule charging suspend p, fun p => by simp [wakeup_nextchk],
    by decide, by decide⟩
  simp only [battery_set_wakeup_percentage, hdev, Bool.not_true, Bool.false_eq_true, if_false]
  have h := sendBatteryStatus_wakeupTrace hw (battery_read hw (hw.uninitialized w.clock) w).2
  rw [battery_read_frame_log] at h
  simp only [emit, wakeupTrace_append, h, wakeup_nextchk_rule]
  rfl

theorem C16_wakeup_percentage_witness :
    (steadyHardware (readingAt 15) true chargerOff).battDev = true ∧
    (wakeupTrace (battery_set_wakeup_percentage (steadyHardware (readingAt 15) true chargerOff)
        false true World.zero).log =
      wakeupTrace World.zero.log ++ [wakeup_rule false true
        (battery_read (steadyHardware (readingAt 15) true chargerOff)
          ((steadyHardware (readingAt 15) true chargerOff).uninitialized World.zero.clock)
          World.zero).1.percentage] ∧
    (∀ p : Int, wakeup_nextchk false true p = wakeup_rule false true p) ∧
    (∀ p : Int, wakeup_nextchk true true p = 0) ∧
    wakeup_nextchk false true 15 = 13 ∧ wakeup_nextchk false true 0 = 0) :=
  ⟨rfl, C16_wakeup_percentage (steadyHardware (readingAt 15) true chargerOff) false true
    World.zero rfl⟩

/-! ## C20: the delta of a relative wait -/

/-- C20 (the code at ms = 1 and ms = 1002): `WaitObjectWait` hands on tv_sec = 0,
tv_nsec = 1 000 000 000 for one millisecond and tv_sec = 1, tv_nsec = 2 000 000 000 for
1002 milliseconds: the factor in the source is 1000000000 where a millisecond is 1 000 000
nanoseconds, so the delta is not `ms` milliseconds and tv_nsec is not below 1 000 000 000.
Neither product leaves the range of `int`. -/
theorem C20_one_millisecond_becomes_one_second :
    (∀ k : timespec → Int, WaitObjectWait k 1 = k { tv_sec := 0, tv_nsec := 1000000000 }) ∧
    (WaitObjectWait id 1).tv_nsec ≠ (1 % 1000) * 1000000 ∧
    ¬ (WaitObjectWait id 1).tv_nsec < 1000000000 ∧
    WaitObjectWait id 1002 = { tv_sec := 1, tv_nsec := 2000000000 } ∧
    (1 % 1000 : Int) * 1000000000 < 2 ^ 31 ∧ (1002 % 1000 : Int) * 1000000000 < 2 ^ 31 := by
  refine ⟨fun k => ?_, ?_, ?_, ?_, ?_, ?_⟩
  · have h : (if (1 : Int) < 0 then ({ tv_sec := -1, tv_nsec := 0 } : timespec)
        else { tv_sec := Int.tdiv 1 1000, tv_nsec := int32 (Int.tmod 1 1000 * 1000000000) }) =
        { tv_sec := 0, tv_nsec := 1000000000 } := by decide
    simp only [WaitObjectWait, h]
  all_goals decide

/-! ## C11: the charge-temperature bounds -/

/-- C11 (counterexample): with the table `hotCtia` (charge maximum 45, charge minimum 0,
critical at 60) and charging enabled, a temperature-limit dispatch at exactly 45 C, which is
neither above the maximum nor below the minimum, turns charging off; and at -5 C, which is
below the minimum 0, charging stays enabled. -/
theorem C11_off_at_the_bound_and_on_below_zero_bound :
    afterConnect.gCurrentChargeState.charging_enabled = CHARGING_ENABLED ∧
    afterConnect.battery_ctia_params = hotCtia ∧
    BatteryTemperatureCriticalShutdown defaultConfig afterConnect
      { sampleReading 500 with temperature := 45 } = false ∧
    ¬ ((45 : Int) > hotCtia.charge_max_temp_c ∨ (45 : Int) < hotCtia.charge_min_temp_c) ∧
    (handle_charger_event_temperature defaultConfig (hwAtTemperature 45) eventTemperatureLimit
      afterConnect).gCurrentChargeState.charging_enabled = CHARGING_DISABLED ∧
    BatteryTemperatureCriticalShutdown defaultConfig afterConnect
      { sampleReading 500 with temperature := -5 } = false ∧
    (-5 : Int) < hotCtia.charge_min_temp_c ∧
    (handle_charger_event_temperature defaultConfig (hwAtTemperature (-5)) eventTemperatureLimit
      afterConnect).gCurrentChargeState.charging_enabled = CHARGING_ENABLED := by
  refine ⟨?_, ?_, ?_, ?_, ?_, ?_, ?_, ?_⟩ <;> decide!

theorem BatteryTemperatureHigh_iff (w : World) (batt : nyx_battery_status_t) :
    BatteryTemperatureHigh w batt = true ↔
      w.battery_ctia_params.charge_max_temp_c ≠ 0 ∧
        batt.temperature ≥ w.battery_ctia_params.charge_max_temp_c := by
  unfold BatteryTemperatureHigh
  by_cases h : w.battery_ctia_params.charge_max_temp_c = 0 <;> simp [h]

theorem BatteryTemperatureLow_iff (w : World) (batt : nyx_battery_status_t) :
    BatteryTemperatureLow w batt = true ↔
      w.battery_ctia_params.charge_min_temp_c ≠ 0 ∧
        batt.temperature ≤ w.battery_ctia_params.charge_min_temp_c := by
  unfold BatteryTemperatureLow
  by_cases h : w.battery_ctia_params.charge_min_temp_c = 0 <;> simp [h]

/-- C11 (amended): in a temperature-limit dispatch whose reading (temperature t) is below the
critical threshold, with charging not yet disabled, the temperature block turns charging off
(one hardware disable call, `charging_enabled` = CHARGING_DISABLED) iff the configured charge
maximum is non-zero and t is at or above it, or the configured charge minimum is non-zero
and t is at or below it; a bound of 0 counts as not configured.  `current_state` is kept
either way. -/
theorem C11_charge_bounds_inclusive_zero_unset (cfg : chargeConfig_t) (hw : Hardware)
    (ev : nyx_charger_event_t) (w : World)
    (hev : ev.NYX_BATTERY_TEMPERATURE_LIMIT = true)
    (hcrit : BatteryTemperatureCriticalShutdown cfg w
      (battery_read hw (hw.uninitialized w.clock) w).1 = false)
    (hen : w.gCurrentChargeState.charging_enabled ≠ CHARGING_DISABLED) :
    ((handle_charger_event_temperature cfg hw ev w).gCurrentChargeState.charging_enabled =
        CHARGING_DISABLED ↔
      (w.battery_ctia_params.charge_max_temp_c ≠ 0 ∧
        (battery_read hw (hw.uninitialized w.clock) w).1.temperature ≥
          w.battery_ctia_params.charge_max_temp_c) ∨
      (w.battery_ctia_params.charge_min_temp_c ≠ 0 ∧
        (battery_read hw (hw.uninitialized w.clock) w).1.temperature ≤
          w.battery_ctia_params.charge_min_temp_c)) ∧
    (chargeLog (handle_charger_event_temperature cfg hw ev w).log =
      chargeLog w.log ++
        if (handle_charger_event_temperature cfg hw ev w).gCurrentChargeState.charging_enabled =
          CHARGING_DISABLED then [.nyx_charger_disable_charging] else []) ∧
    (handle_charger_event_temperature cfg hw ev w).gCurrentChargeState.current_state =
      w.gCurrentChargeState.current_state := by
  have hc := BatteryTemperatureCriticalShutdown_congr cfg w
    (battery_read hw (hw.uninitialized w.clock) w).2
    (battery_read hw (hw.uninitialized w.clock) w).1 (by simp)
  have hh := BatteryTemperatureHigh_congr w (battery_read hw (hw.uninitialized w.clock) w).2
    (battery_read hw (hw.uninitialized w.clock) w).1 (by simp)
  have hl := BatteryTemperatureLow_congr w (battery_read hw (hw.uninitialized w.clock) w).2
    (battery_read hw (hw.uninitialized w.clock) w).1 (by simp)
  simp only [handle_charger_event_temperature, hev, if_true, hc, hcrit, hh, hl,
    Bool.false_eq_true, if_false]
  rw [← BatteryTemperatureHigh_iff, ← BatteryTemperatureLow_iff]
  by_cases hb : (BatteryTemperatureHigh w (battery_read hw (hw.uninitialized w.clock) w).1 ||
      BatteryTemperatureLow w (battery_read hw (hw.uninitialized w.clock) w).1) = true
  · rw [if_pos hb]
    have hb' := hb
    rw [Bool.or_eq_true] at hb'
    simp [hb', hen]
  · rw [if_neg hb]
    have hb' := hb
    rw [Bool.or_eq_true] at hb'
    simp [hb', hen]

theorem C11_charge_bounds_inclusive_zero_unset_witness :
    eventTemperatureLimit.NYX_BATTERY_TEMPERATURE_LIMIT = true ∧
    BatteryTemperatureCriticalShutdown defaultConfig afterConnect
      (battery_read (hwAtTemperature 45) ((hwAtTemperature 45).uninitialized afterConnect.clock)
        afterConnect).1 = false ∧
    afterConnect.gCurrentChargeState.charging_enabled ≠ CHARGING_DISABLED ∧
    (((handle_charger_event_temperature defaultConfig (hwAtTemperature 45) eventTemperatureLimit
        afterConnect).gCurrentChargeState.charging_enabled = CHARGING_DISABLED ↔
      (afterConnect.battery_ctia_params.charge_max_temp_c ≠ 0 ∧
        (battery_read (hwAtTemperature 45)
          ((hwAtTemperature 45).uninitialized afterConnect.clock) afterConnect).1.temperature ≥
          afterConnect.battery_ctia_params.charge_max_temp_c) ∨
      (afterConnect.battery_ctia_params.charge_min_temp_c ≠ 0 ∧
        (battery_read (hwAtTemperature 45)
          ((hwAtTemperature 45).uninitialized afterConnect.clock) afterConnect).1.temperature ≤
          afterConnect.battery_ctia_params.charge_min_temp_c)) ∧
    (chargeLog (handle_charger_event_temperature defaultConfig (hwAtTemperature 45)
        eventTemperatureLimit afterConnect).log =
      chargeLog afterConnect.log ++
        if (handle_charger_event_temperature defaultConfig (hwAtTemperature 45)
          eventTemperatureLimit afterConnect).gCurrentChargeState.charging_enabled =
          CHARGING_DISABLED then [.nyx_charger_disable_charging] else []) ∧
    (handle_charger_event_temperature defaultConfig (hwAtTemperature 45) eventTemperatureLimit
      afterConnect).gCurrentChargeState.current_state =
        afterConnect.gCurrentChargeState.current_state) :=
  ⟨rfl, by decide!, by decide!,
    C11_charge_bounds_inclusive_zero_unset defaultConfig (hwAtTemperature 45)
      eventTemperatureLimit afterConnect rfl (by decide!) (by decide!)⟩

/-! ## C19: a failed battery read -/

/-- C19 (the code when the read fails): `battery_read` returns without writing the caller's
buffer, and the state functions go on to test `battery.present` in that uninitialised
buffer.  When the buffer happens to hold a non-zero `present` (here the bytes of
`sampleReading 500`), then both without a battery device and with a query that returns an
error, in every world: `StateDebounce` clears the bad-sample counter and goes to Inserted,
`StateRemoved` goes to Inserted, and `StateAuthenticOrNot` stays (it returns
`kBatteryLast`, not Debounce); and booting with a query that returns an error (and an
authentication call that succeeds) ends with the presence machine in Authentic. -/
theorem C19_failed_read_uses_uninitialised_buffer (w : World) :
    (StateDebounce (hwNoDevice (sampleReading 500)) w).1 = kBatteryInserted ∧
    (StateDebounce (hwNoDevice (sampleReading 500)) w).2.debounce_bad = 0 ∧
    (StateRemoved (hwNoDevice (sampleReading 500)) w).1 = kBatteryInserted ∧
    (StateAuthenticOrNot (hwNoDevice (sampleReading 500)) w).1 = kBatteryLast ∧
    (StateDebounce (hwQueryFails (sampleReading 500)) w).1 = kBatteryInserted ∧
    (StateDebounce (hwQueryFails (sampleReading 500)) w).2.debounce_bad = 0 ∧
    (StateRemoved (hwQueryFails (sampleReading 500)) w).1 = kBatteryInserted ∧
    (StateAuthenticOrNot (hwQueryFails (sampleReading 500)) w).1 = kBatteryLast ∧
    (boot 4 (hwQueryFails (sampleReading 500))).world.state_node = kBatteryAuthentic := by
  refine ⟨?_, ?_, ?_, ?_, ?_, ?_, ?_, ?_, by decide!⟩ <;>
    simp [StateDebounce, StateRemoved, StateAuthenticOrNot, battery_read, hwNoDevice,
      hwQueryFails, Hardware.fixed, sampleReading]

/-! ## C12, C13: the two global guards -/

@[simp] theorem tableLog_nil : tableLog [] = [] := rfl

@[simp] theorem tableLog_append (l₁ l₂ : List Effect) :
    tableLog (l₁ ++ l₂) = tableLog l₁ ++ tableLog l₂ := by
  simp [tableLog]

theorem tableLog_chargeLog (l : List Effect) : tableLog (chargeLog l) = tableLog l := by
  induction l with
  | nil => rfl
  | cons e l ih =>
    cases e <;> simp_all [tableLog, chargeLog, List.filter_cons, Effect.isTableAction,
      Effect.isChargingLogic]

theorem tableLog_eq_of_chargeLog (l l' : List Effect) (h : chargeLog l' = chargeLog l) :
    tableLog l' = tableLog l := by
  rw [← tableLog_chargeLog l', h, tableLog_chargeLog]

theorem callTrace_tableLog (l : List Effect) : callTrace (tableLog l) = callTrace l := by
  induction l with
  | nil => rfl
  | cons e l ih =>
    cases e <;> simp_all [tableLog, callTrace, List.filter_cons, Effect.isTableAction]

theorem shutdownTrace_tableLog (l : List Effect) :
    shutdownTrace (tableLog l) = shutdownTrace l := by
  induction l with
  | nil => rfl
  | cons e l ih =>
    cases e <;> simp_all [tableLog, shutdownTrace, List.filter_cons, Effect.isTableAction]

theorem JumpToShutdownState_tableLog (r : String) (w : World) :
    tableLog (_JumpToShutdownState r w).log = tableLog w.log := by
  unfold _JumpToShutdownState
  split
  · simp [emit, tableLog, Effect.isTableAction]
  · rfl

theorem TurnChargingOff_tableLog (hw : Hardware) (r : String) (w : World) :
    tableLog (TurnChargingOff hw r w).log = tableLog w.log := by
  rw [← tableLog_chargeLog, TurnChargingOff_chargeLog]
  split
  · exact tableLog_chargeLog _
  · rw [tableLog_append, tableLog_chargeLog]
    simp [tableLog, Effect.isTableAction]

theorem handle_charger_event_voltage_tableLog (hw : Hardware) (ev : nyx_charger_event_t)
    (w : World) :
    tableLog (handle_charger_event_voltage hw ev w).log = tableLog w.log := by
  unfold handle_charger_event_voltage
  repeat' split
  all_goals simp [JumpToShutdownState_tableLog]

theorem handle_charger_event_temperature_tableLog (cfg : chargeConfig_t) (hw : Hardware)
    (ev : nyx_charger_event_t) (w : World) :
    tableLog (handle_charger_event_temperature cfg hw ev w).log = tableLog w.log := by
  simp only [handle_charger_event_temperature]
  repeat' split
  all_goals simp [JumpToShutdownState_tableLog, TurnChargingOff_tableLog]

theorem handle_charger_event_presence_tableLog (fuel : Nat) (hw : Hardware)
    (ev : nyx_charger_event_t) (w : World) :
    tableLog (handle_charger_event_presence fuel hw ev w).world.log = tableLog w.log := by
  have h := (battery_state_iterate_frame fuel hw w).2.2.2.2
  unfold handle_charger_event_presence
  split
  · cases hb : battery_state_iterate fuel hw w with
    | returned v =>
      rw [hb] at h
      simp only [Outcome.world_returned] at h
      simp only [Outcome.bind_returned]
      split
      · simp only [Outcome.world_returned]
        exact tableLog_eq_of_chargeLog _ _ (by simp [h])
      · simp only [Outcome.world_returned]
        exact tableLog_eq_of_chargeLog _ _ h
    | running v =>
      rw [hb] at h
      simp only [Outcome.world_running] at h
      simp only [Outcome.bind_running, Outcome.world_running]
      exact tableLog_eq_of_chargeLog _ _ h
  · rfl

theorem handle_charger_event_rules_tableLog (fuel : Nat) (cfg : chargeConfig_t) (hw : Hardware)
    (ev : nyx_charger_event_t) (w : World) :
    tableLog (handle_charger_event_rules fuel cfg hw ev w).world.log = tableLog w.log := by
  have h := handle_charger_event_presence_tableLog fuel hw ev w
  unfold handle_charger_event_rules
  cases hb : handle_charger_event_presence fuel hw ev w with
  | returned v =>
    rw [hb] at h
    simp only [Outcome.world_returned] at h
    simp [handle_charger_event_temperature_tableLog, handle_charger_event_voltage_tableLog, h]
  | running v =>
    rw [hb] at h
    simpa using h

theorem handle_charger_event_eq_rules (fuel : Nat) (cfg : chargeConfig_t) (hw : Hardware)
    (ev : nyx_charger_event_t) (w : World) :
    handle_charger_event fuel cfg hw ev w =
      (handle_charger_event_rules fuel cfg hw ev w).bind (ChargingLogicUpdate fuel cfg hw ev) := by
  unfold handle_charger_event handle_charger_event_rules
  cases handle_charger_event_presence fuel hw ev w <;> simp

theorem handle_charger_event_rules_congr (fuel : Nat) (cfg cfg' : chargeConfig_t)
    (hw : Hardware) (ev : nyx_charger_event_t) (w : World) (h : cfg'.maxtemp = cfg.maxtemp) :
    handle_charger_event_rules fuel cfg' hw ev w = handle_charger_event_rules fuel cfg hw ev w := by
  unfold handle_charger_event_rules handle_charger_event_temperature
    BatteryTemperatureCriticalShutdown batterycheck_maxtemp
  rw [h]

theorem ChargingLogicUpdate_guarded (fuel : Nat) (cfg : chargeConfig_t) (hw : Hardware)
    (ev : nyx_charger_event_t) (w : World)
    (h : cfg.skip_battery_check = true ∨ cfg.disable_charging = true) :
    ChargingLogicUpdate fuel cfg hw ev w =
      .returned (if cfg.skip_battery_check then w
        else (battery_read hw (hw.uninitialized w.clock) w).2) := by
  unfold ChargingLogicUpdate
  cases hs : cfg.skip_battery_check
  · rcases h with h | h
    · simp [hs] at h
    · simp [h]
  · simp

theorem handle_charger_event_guarded_tableLog (fuel : Nat) (cfg : chargeConfig_t)
    (hw : Hardware) (ev : nyx_charger_event_t) (w : World)
    (h : cfg.skip_battery_check = true ∨ cfg.disable_charging = true) :
    tableLog (handle_charger_event fuel cfg hw ev w).world.log = tableLog w.log := by
  have hr := handle_charger_event_rules_tableLog fuel cfg hw ev w
  rw [handle_charger_event_eq_rules]
  cases hb : handle_charger_event_rules fuel cfg hw ev w with
  | returned v =>
    rw [hb] at hr
    simp only [Outcome.world_returned] at hr
    simp only [Outcome.bind_returned, ChargingLogicUpdate_guarded fuel cfg hw ev v h,
      Outcome.world_returned]
    split <;> simp [hr]
  | running v =>
    rw [hb] at hr
    simpa using hr

/-- C12 (counterexample): after boot with an authentic battery and a connected charger, in
Idle, the charger-connected event ends in Charging with charging enabled when the guard is
clear; with `skip_battery_check` set (and `disable_charging` clear) the same dispatch returns
the world it was given: still Idle, charging not enabled, no state function run. -/
theorem C12_skip_guard_stops_the_table :
    skipConfig.skip_battery_check = true ∧ skipConfig.disable_charging = false ∧
    bootCharging.gCurrentChargeState.current_state = kChargeStateIdle ∧
    bootCharging.gCurrentChargeState.charging_enabled = CHARGING_NOTSET ∧
    BatteryIsAuthentic bootCharging = true ∧ ChargerIsConnected (hwCharging 1000) = true ∧
    eventConnected.NYX_CHARGER_CONNECTED = true ∧
    (handle_charger_event 4 defaultConfig (hwCharging 1000) eventConnected
      bootCharging).world.gCurrentChargeState.current_state = kChargeStateCharging ∧
    (handle_charger_event 4 defaultConfig (hwCharging 1000) eventConnected
      bootCharging).world.gCurrentChargeState.charging_enabled = CHARGING_ENABLED ∧
    handle_charger_event 4 skipConfig (hwCharging 1000) eventConnected bootCharging =
      .returned bootCharging := by
  refine ⟨?_, ?_, ?_, ?_, ?_, ?_, ?_, ?_, ?_, ?_⟩ <;> decide!

/-- C12 (amended): with `skip_battery_check` set, `handle_charger_event` is exactly the part
that precedes `ChargingLogicUpdate` (the presence block, the critical-voltage rule and the
temperature rule), which is also what the guard-clear dispatch starts with before it calls
`ChargingLogicUpdate`; `ChargingLogicUpdate` itself returns at once, so no function of the
charge-state table is executed, no hardware enable call is made, and the battery-removed
check is not reached. -/
theorem C12_skip_guard_runs_rules_only (fuel : Nat) (cfg : chargeConfig_t) (hw : Hardware)
    (ev : nyx_charger_event_t) (w : World) (hskip : cfg.skip_battery_check = true) :
    handle_charger_event fuel cfg hw ev w = handle_charger_event_rules fuel cfg hw ev w ∧
    handle_charger_event fuel { cfg with skip_battery_check := false } hw ev w =
      (handle_charger_event_rules fuel cfg hw ev w).bind
        (ChargingLogicUpdate fuel { cfg with skip_battery_check := false } hw ev) ∧
    (∀ v, ChargingLogicUpdate fuel cfg hw ev v = .returned v) ∧
    tableLog (handle_charger_event fuel cfg hw ev w).world.log = tableLog w.log ∧
    callTrace (handle_charger_event fuel cfg hw ev w).world.log = callTrace w.log := by
  have ht := handle_charger_event_guarded_tableLog fuel cfg hw ev w (Or.inl hskip)
  refine ⟨?_, ?_, fun v => by simp [ChargingLogicUpdate, hskip], ht, ?_⟩
  · rw [handle_charger_event_eq_rules]
    cases handle_charger_event_rules fuel cfg hw ev w <;>
      simp [ChargingLogicUpdate, hskip]
  · rw [handle_charger_event_eq_rules,
      handle_charger_event_rules_congr fuel cfg { cfg with skip_battery_check := false } hw ev
        w rfl]
  · rw [← callTrace_tableLog, ht, callTrace_tableLog]

theorem C12_skip_guard_runs_rules_only_witness :
    skipConfig.skip_battery_check = true ∧
    (handle_charger_event 4 skipConfig (hwCharging 1000) eventConnected bootCharging =
      handle_charger_event_rules 4 skipConfig (hwCharging 1000) eventConnected bootCharging ∧
    handle_charger_event 4 { skipConfig with skip_battery_check := false } (hwCharging 1000)
        eventConnected bootCharging =
      (handle_charger_event_rules 4 skipConfig (hwCharging 1000) eventConnected
        bootCharging).bind
        (ChargingLogicUpdate 4 { skipConfig with skip_battery_check := false } (hwCharging 1000)
          eventConnected) ∧
    (∀ v, ChargingLogicUpdate 4 skipConfig (hwCharging 1000) eventConnected v = .returned v) ∧
    tableLog (handle_charger_event 4 skipConfig (hwCharging 1000) eventConnected
      bootCharging).world.log = tableLog bootCharging.log ∧
    callTrace (handle_charger_event 4 skipConfig (hwCharging 1000) eventConnected
      bootCharging).world.log = callTrace bootCharging.log) :=
  ⟨rfl, C12_skip_guard_runs_rules_only 4 skipConfig (hwCharging 1000) eventConnected
    bootCharging rfl⟩

/-- C13 (counterexample): with `disable_charging` set, (1) a critical-voltage event while the
charger is not charging takes `current_state` from Idle to Shutdown and sets
`shutdown_reason`; (2) a temperature-limit event at 50 C (charge maximum 45) with charging
enabled makes the hardware disable call and sets `charging_enabled` to CHARGING_DISABLED;
(3) a battery-present event runs the presence machine. -/
theorem C13_rules_run_with_charging_disabled :
    disableConfig.disable_charging = true ∧
    bootHot.gCurrentChargeState.current_state = kChargeStateIdle ∧
    bootHot.gCurrentChargeState.shutdown_reason = "" ∧
    (handle_charger_event 4 disableConfig hwHot eventCriticalVoltage
      bootHot).world.gCurrentChargeState.current_state = kChargeStateShutdown ∧
    (handle_charger_event 4 disableConfig hwHot eventCriticalVoltage
      bootHot).world.gCurrentChargeState.shutdown_reason = "battery voltage below threshold" ∧
    afterConnect.gCurrentChargeState.charging_enabled = CHARGING_ENABLED ∧
    (handle_charger_event 4 disableConfig (hwAtTemperature 50) eventTemperatureLimit
      afterConnect).world.gCurrentChargeState.charging_enabled = CHARGING_DISABLED ∧
    chargeLog (handle_charger_event 4 disableConfig (hwAtTemperature 50) eventTemperatureLimit
      afterConnect).world.log = chargeLog afterConnect.log ++ [.nyx_charger_disable_charging] ∧
    presenceCallTrace (handle_charger_event 4 disableConfig hwHot eventBatteryPresent
      bootHot).world.log = presenceCallTrace bootHot.log ++ [kBatteryAuthentic] := by
  refine ⟨?_, ?_, ?_, ?_, ?_, ?_, ?_, ?_, ?_⟩ <;> decide!

/-- C13 (amended): with `disable_charging` set, `handle_charger_event` executes no function of
the charge-state table and makes no hardware enable call and no shutdown request, for every
event and every prior state; and for every event that carries none of the battery-present,
battery-absent, critical-voltage and temperature-limit bits it returns with the whole
charge state (`current_state`, `charging_enabled`, `shutdown_reason`, ...), the presence
state, the counters and the log of actions unchanged: no hardware enable or disable call and
no presence-machine iteration is made. -/
theorem C13_disable_guard_skips_the_table (fuel : Nat) (cfg : chargeConfig_t)
    (hw : Hardware) (ev : nyx_charger_event_t) (w : World)
    (hdis : cfg.disable_charging = true) :
    tableLog (handle_charger_event fuel cfg hw ev w).world.log = tableLog w.log ∧
    (carriesNoRuleBit ev →
      ∃ w', handle_charger_event fuel cfg hw ev w = .returned w' ∧
        w'.gCurrentChargeState = w.gCurrentChargeState ∧
        w'.state_node = w.state_node ∧
        w'.debounce_bad = w.debounce_bad ∧
        w'.discharge_count = w.discharge_count ∧
        w'.overcharge_count = w.overcharge_count ∧
        w'.log = w.log) := by
  refine ⟨handle_charger_event_guarded_tableLog fuel cfg hw ev w (Or.inr hdis), ?_⟩
  rintro ⟨h1, h2, h3, h4⟩
  have hr : handle_charger_event_rules fuel cfg hw ev w = .returned w := by
    simp [handle_charger_event_rules, handle_charger_event_presence,
      handle_charger_event_voltage, handle_charger_event_temperature, h1, h2, h3, h4]
  rw [handle_charger_event_eq_rules, hr, Outcome.bind_returned,
    ChargingLogicUpdate_guarded fuel cfg hw ev w (Or.inr hdis)]
  refine ⟨_, rfl, ?_, ?_, ?_, ?_, ?_, ?_⟩ <;> split <;> simp

theorem C13_disable_guard_skips_the_table_witness :
    disableConfig.disable_charging = true ∧
    (tableLog (handle_charger_event 4 disableConfig hwHot eventConnected bootHot).world.log =
      tableLog bootHot.log ∧
    (carriesNoRuleBit eventConnected →
      ∃ w', handle_charger_event 4 disableConfig hwHot eventConnected bootHot = .returned w' ∧
        w'.gCurrentChargeState = bootHot.gCurrentChargeState ∧
        w'.state_node = bootHot.state_node ∧
        w'.debounce_bad = bootHot.debounce_bad ∧
        w'.discharge_count = bootHot.discharge_count ∧
        w'.overcharge_count = bootHot.overcharge_count ∧
        w'.log = bootHot.log)) ∧
    carriesNoRuleBit eventConnected :=
  ⟨rfl, C13_disable_guard_skips_the_table 4 disableConfig hwHot eventConnected bootHot rfl,
    ⟨rfl, rfl, rfl, rfl⟩⟩

/-! ## The world a dispatch returns in -/

theorem nodeMatches_assignState (s : ChargeState) (w : World) : nodeMatches (assignState s w) :=
  rfl

theorem nodeMatches_of_eq (w w' : World)
    (h : w'.gCurrentChargeState = w.gCurrentChargeState) (hn : nodeMatches w) :
    nodeMatches w' := by
  unfold nodeMatches at *
  rw [h]
  exact hn

theorem nodeMatches_chargeStateProc (s : ChargeState) (cfg : chargeConfig_t) (hw : Hardware)
    (ev : nyx_charger_event_t) (w : World) (hn : nodeMatches w) :
    nodeMatches (chargeStateProc s cfg hw ev w).2 := by
  unfold nodeMatches at *
  simpa using hn

/-- Post-condition rule for the loop of `ChargeStateIterate`: what holds after every
state-function execution that returns `kChargeStateLast` holds in the world the loop
returns in. -/
theorem ChargeStateIterate_loop_post (Q : World → Prop) (cfg : chargeConfig_t) (hw : Hardware)
    (ev : nyx_charger_event_t)
    (hQ : ∀ v : World, nodeMatches v →
      (chargeStateProc v.gCurrentChargeState.state_node cfg hw ev
        (emit (.call_state v.gCurrentChargeState.state_node) v)).1 = kChargeStateLast →
      Q (chargeStateProc v.gCurrentChargeState.state_node cfg hw ev
        (emit (.call_state v.gCurrentChargeState.state_node) v)).2)
    (fuel : Nat) (w w' : World) (hn : nodeMatches w)
    (h : ChargeStateIterate_loop fuel cfg hw ev w = .returned w') :
    Q w' ∧ nodeMatches w' := by
  induction fuel generalizing w with
  | zero => simp [ChargeStateIterate_loop] at h
  | succ n ih =>
    rw [ChargeStateIterate_loop_succ] at h
    split at h
    · next hl =>
      injection h with h
      subst h
      exact ⟨hQ w hn hl, nodeMatches_chargeStateProc _ _ _ _ _ (by simpa [nodeMatches] using hn)⟩
    · exact ih _ (nodeMatches_assignState _ _) h

theorem ChargeStateIterate_loop_presence (fuel : Nat) (cfg : chargeConfig_t) (hw : Hardware)
    (ev : nyx_charger_event_t) (w : World) :
    (ChargeStateIterate_loop fuel cfg hw ev w).world.state_node = w.state_node ∧
    (ChargeStateIterate_loop fuel cfg hw ev w).world.debounce_bad = w.debounce_bad ∧
    (ChargeStateIterate_loop fuel cfg hw ev w).world.discharge_count = w.discharge_count := by
  induction fuel generalizing w with
  | zero => simp [ChargeStateIterate_loop]
  | succ n ih =>
    rw [ChargeStateIterate_loop_succ]
    split
    · simp
    · obtain ⟨h1, h2, h3⟩ := ih (assignState
        (chargeStateProc w.gCurrentChargeState.state_node cfg hw ev
          (emit (.call_state w.gCurrentChargeState.state_node) w)).1
        (chargeStateProc w.gCurrentChargeState.state_node cfg hw ev
          (emit (.call_state w.gCurrentChargeState.state_node) w)).2)
      refine ⟨?_, ?_, ?_⟩
      · rw [h1]; simp
      · rw [h2]; simp
      · rw [h3]; simp

theorem nodeMatches_JumpToShutdownState (r : String) (w : World) (hn : nodeMatches w) :
    nodeMatches (_JumpToShutdownState r w) := by
  unfold _JumpToShutdownState
  split
  · rfl
  · exact hn

theorem inShutdown_JumpToShutdownState (r : String) (w : World) :
    inShutdown (_JumpToShutdownState r w).gCurrentChargeState.current_state = true := by
  by_cases h : inShutdown w.gCurrentChargeState.current_state = true
  · rw [JumpToShutdownState_of_inShutdown r w h]
    exact h
  · rw [JumpToShutdownState_of_not_inShutdown r w (by simpa using h)]
    rfl

theorem nodeMatches_handle_charger_event_voltage (hw : Hardware) (ev : nyx_charger_event_t)
    (w : World) (hn : nodeMatches w) : nodeMatches (handle_charger_event_voltage hw ev w) := by
  unfold handle_charger_event_voltage
  repeat' split
  all_goals first | exact nodeMatches_JumpToShutdownState _ _ hn | exact hn

theorem nodeMatches_handle_charger_event_temperature (cfg : chargeConfig_t) (hw : Hardware)
    (ev : nyx_charger_event_t) (w : World) (hn : nodeMatches w) :
    nodeMatches (handle_charger_event_temperature cfg hw ev w) := by
  have hr : nodeMatches (battery_read hw (hw.uninitialized w.clock) w).2 :=
    nodeMatches_of_eq w _ (by simp) hn
  simp only [handle_charger_event_temperature]
  repeat' split
  · exact nodeMatches_JumpToShutdownState _ _ hr
  · unfold nodeMatches at *
    simpa using hn
  · exact hr
  · exact hn

theorem handle_charger_event_presence_gCurrentChargeState (fuel : Nat) (hw : Hardware)
    (ev : nyx_charger_event_t) (w : World) :
    (handle_charger_event_presence fuel hw ev w).world.gCurrentChargeState =
      w.gCurrentChargeState := by
  have h := (battery_state_iterate_frame fuel hw w).1
  unfold handle_charger_event_presence
  split
  · cases hb : battery_state_iterate fuel hw w with
    | returned v =>
      rw [hb] at h
      simp only [Outcome.world_returned] at h
      simp only [Outcome.bind_returned]
      split <;> simp [h]
    | running v =>
      rw [hb] at h
      simpa using h
  · rfl

theorem nodeMatches_handle_charger_event_rules (fuel : Nat) (cfg : chargeConfig_t)
    (hw : Hardware) (ev : nyx_charger_event_t) (w : World) (hn : nodeMatches w) :
    nodeMatches (handle_charger_event_rules fuel cfg hw ev w).world := by
  have h := handle_charger_event_presence_gCurrentChargeState fuel hw ev w
  unfold handle_charger_event_rules
  cases hb : handle_charger_event_presence fuel hw ev w with
  | returned v =>
    rw [hb] at h
    simp only [Outcome.world_returned] at h
    simp only [Outcome.bind_returned, Outcome.world_returned]
    exact nodeMatches_handle_charger_event_temperature _ _ _ _
      (nodeMatches_handle_charger_event_voltage _ _ _ (nodeMatches_of_eq w v h hn))
  | running v =>
    rw [hb] at h
    simp only [Outcome.world_running] at h
    simpa using nodeMatches_of_eq w v h hn

/-- With both guards off, the world a dispatch returns in is the world in which a run of the
table loop returned, started from a world whose node matches; and either the presence
machine is not in Removed, or that run started inside the shutdown chain. -/
theorem handle_charger_event_returned (fuel : Nat) (cfg : chargeConfig_t) (hw : Hardware)
    (ev : nyx_charger_event_t) (w w' : World)
    (hs : cfg.skip_battery_check = false) (hd : cfg.disable_charging = false)
    (hn : nodeMatches w) (h : handle_charger_event fuel cfg hw ev w = .returned w') :
    ∃ v, nodeMatches v ∧ ChargeStateIterate_loop fuel cfg hw ev v = .returned w' ∧
      (BatteryIsPresent w' = true ∨ inShutdown v.gCurrentChargeState.current_state = true) := by
  rw [handle_charger_event_eq_rules] at h
  have hnr := nodeMatches_handle_charger_event_rules fuel cfg hw ev w hn
  cases hb : handle_charger_event_rules fuel cfg hw ev w with
  | running u => simp [hb] at h
  | returned u =>
    rw [hb] at h hnr
    simp only [Outcome.world_returned] at hnr
    simp only [Outcome.bind_returned, ChargingLogicUpdate, hs, hd, Bool.false_eq_true, if_false,
      ChargeStateIterate] at h
    have hn1 : nodeMatches (battery_read hw (hw.uninitialized
        (battery_read hw (hw.uninitialized u.clock) u).2.clock)
        (battery_read hw (hw.uninitialized u.clock) u).2).2 :=
      nodeMatches_of_eq u _ (by simp) hnr
    cases hl : ChargeStateIterate_loop fuel cfg hw ev (battery_read hw (hw.uninitialized
        (battery_read hw (hw.uninitialized u.clock) u).2.clock)
        (battery_read hw (hw.uninitialized u.clock) u).2).2 with
    | running x => simp [hl] at h
    | returned x =>
      rw [hl] at h
      simp only [Outcome.bind_returned, CheckCriticalLevels, hs, Bool.false_eq_true,
        if_false] at h
      have hnx := (ChargeStateIterate_loop_post (fun _ => True) cfg hw ev
        (fun _ _ _ => trivial) fuel _ x hn1 hl).2
      by_cases hp : BatteryIsPresent x = true
      · simp only [hp, Bool.not_true, Bool.false_eq_true, if_false] at h
        injection h with h
        subst h
        exact ⟨_, hn1, hl, Or.inl hp⟩
      · simp only [hp, Bool.not_false, if_true] at h
        refine ⟨_, ?_, h, Or.inr ?_⟩
        · exact nodeMatches_of_eq (_JumpToShutdownState "battery removed." x) _ (by simp)
            (nodeMatches_JumpToShutdownState _ _ hnx)
        · simpa using inShutdown_JumpToShutdownState "battery removed." x

theorem StateIdle_snd (cfg : chargeConfig_t) (hw : Hardware) (ev : nyx_charger_event_t)
    (w : World) : (StateIdle cfg hw ev w).2 = TurnChargingOff hw "charge state is idle" w := by
  simp only [StateIdle]
  repeat' split
  all_goals rfl

theorem StateChargeComplete_snd (hw : Hardware) (ev : nyx_charger_event_t) (w : World) :
    (StateChargeComplete hw ev w).2 = TurnChargingOff hw "charge complete" w := by
  simp only [StateChargeComplete]
  repeat' split
  all_goals rfl

theorem StateFault_snd (hw : Hardware) (w : World) :
    (StateFault hw w).2 = TurnChargingOff hw "charging fault (columbs > 120% ACR)." w := by
  simp only [StateFault]
  repeat' split
  all_goals rfl

/-- When `StateCharging` returns `kChargeStateLast`, it has just made a successful
`TurnChargingON` call. -/
theorem StateCharging_last (cfg : chargeConfig_t) (hw : Hardware) (ev : nyx_charger_event_t)
    (w : World) (h : (StateCharging cfg hw ev w).1 = kChargeStateLast) :
    (StateCharging cfg hw ev w).2.gCurrentChargeState.charging_enabled = CHARGING_ENABLED := by
  simp only [StateCharging] at h ⊢
  repeat' split at h
  all_goals simp_all

theorem chargeStateProc_last_flag (cfg : chargeConfig_t) (hw : Hardware)
    (ev : nyx_charger_event_t) (v : World) (hn : nodeMatches v)
    (hl : (chargeStateProc v.gCurrentChargeState.state_node cfg hw ev
      (emit (.call_state v.gCurrentChargeState.state_node) v)).1 = kChargeStateLast) :
    ((chargeStateProc v.gCurrentChargeState.state_node cfg hw ev
        (emit (.call_state v.gCurrentChargeState.state_node) v)).2.gCurrentChargeState.current_state
        ∈ [kChargeStateIdle, kChargeStateChargeComplete, kChargeStateFault] →
      (chargeStateProc v.gCurrentChargeState.state_node cfg hw ev
        (emit (.call_state v.gCurrentChargeState.state_node)
          v)).2.gCurrentChargeState.charging_enabled = CHARGING_DISABLED) ∧
    ((chargeStateProc v.gCurrentChargeState.state_node cfg hw ev
        (emit (.call_state v.gCurrentChargeState.state_node) v)).2.gCurrentChargeState.current_state
        = kChargeStateCharging →
      (chargeStateProc v.gCurrentChargeState.state_node cfg hw ev
        (emit (.call_state v.gCurrentChargeState.state_node)
          v)).2.gCurrentChargeState.charging_enabled = CHARGING_ENABLED) := by
  have hc : (chargeStateProc v.gCurrentChargeState.state_node cfg hw ev
      (emit (.call_state v.gCurrentChargeState.state_node)
        v)).2.gCurrentChargeState.current_state = v.gCurrentChargeState.state_node := by
    simpa using hn.symm
  rw [hc]
  cases hsn : v.gCurrentChargeState.state_node <;> rw [hsn] at hl <;>
    simp only [chargeStateProc] at hl ⊢
  · simp [StateIdle_snd]
  · exact ⟨by simp, fun _ => StateCharging_last _ _ _ _ hl⟩
  · simp [StateFault_snd]
  · simp [StateChargeComplete_snd]
  · simp
  · simp
  · simp

/-- With both guards off, a dispatch that returns ends with the charging flag that belongs
to the state: CHARGING_DISABLED in Idle, ChargeComplete and Fault, CHARGING_ENABLED in
Charging. -/
theorem handle_charger_event_flag (fuel : Nat) (cfg : chargeConfig_t) (hw : Hardware)
    (ev : nyx_charger_event_t) (w w' : World)
    (hs : cfg.skip_battery_check = false) (hd : cfg.disable_charging = false)
    (hn : nodeMatches w) (h : handle_charger_event fuel cfg hw ev w = .returned w') :
    (w'.gCurrentChargeState.current_state
        ∈ [kChargeStateIdle, kChargeStateChargeComplete, kChargeStateFault] →
      w'.gCurrentChargeState.charging_enabled = CHARGING_DISABLED) ∧
    (w'.gCurrentChargeState.current_state = kChargeStateCharging →
      w'.gCurrentChargeState.charging_enabled = CHARGING_ENABLED) ∧
    nodeMatches w' := by
  obtain ⟨v, hv, hl, _⟩ := handle_charger_event_returned fuel cfg hw ev w w' hs hd hn h
  obtain ⟨⟨h1, h2⟩, h3⟩ := ChargeStateIterate_loop_post
    (fun x => (x.gCurrentChargeState.current_state
        ∈ [kChargeStateIdle, kChargeStateChargeComplete, kChargeStateFault] →
      x.gCurrentChargeState.charging_enabled = CHARGING_DISABLED) ∧
    (x.gCurrentChargeState.current_state = kChargeStateCharging →
      x.gCurrentChargeState.charging_enabled = CHARGING_ENABLED)) cfg hw ev
    (fun u hu hl => chargeStateProc_last_flag cfg hw ev u hu hl) fuel v w' hv hl
  exact ⟨h1, h2, h3⟩

theorem nodeMatches_dispatch_all (fuel : Nat) (cfg : chargeConfig_t)
    (inputs : List (Hardware × nyx_charger_event_t)) (w : World) (hn : nodeMatches w) :
    nodeMatches (dispatch_all fuel cfg inputs w).world :=
  ViewStep_lift (fun v => v.2.1 = v.1)
    (fun v v' h _ => by cases h <;> rfl) _ _ (steps_dispatch_all fuel cfg inputs w) hn

theorem boot_gCurrentChargeState (fuel : Nat) (hw : Hardware) :
    (boot fuel hw).world.gCurrentChargeState =
      { charging_enabled := CHARGING_NOTSET, max_charging_mA := 0, start_charging := (0, 0),
        stop_charging_sec := 0, taper_time_start := [-1, -1],
        current_state := kChargeStateIdle, state_node := kChargeStateIdle,
        shutdown_reason := "", chargerTimeoutSource := 0 } := by
  have h := (battery_state_iterate_frame fuel hw
    (battery_state_init (ChargeStateInit hw World.zero))).1
  unfold boot batterypoll_init
  cases hb : battery_state_iterate fuel hw (battery_state_init (ChargeStateInit hw World.zero)) with
  | returned v =>
    rw [hb] at h
    simp only [Outcome.world_returned] at h
    simp only [Outcome.bind_returned, Outcome.world_returned, h]
    simp [battery_state_init, ChargeStateInit, battery_get_ctia_params, ChargeStateReset, emit,
      World.zero, kTaperEnd]
    repeat' split
    all_goals rfl
  | running v =>
    rw [hb] at h
    simp only [Outcome.world_running] at h
    simp only [Outcome.bind_running, Outcome.world_running, h]
    simp [battery_state_init, ChargeStateInit, battery_get_ctia_params, ChargeStateReset, emit,
      World.zero, kTaperEnd]
    repeat' split
    all_goals rfl

theorem nodeMatches_boot (fuel : Nat) (hw : Hardware) : nodeMatches (boot fuel hw).world := by
  unfold nodeMatches
  rw [boot_gCurrentChargeState]

theorem nodeMatches_reachable (fuel : Nat) (cfg : chargeConfig_t) (hw₀ : Hardware)
    (inputs : List (Hardware × nyx_charger_event_t)) :
    nodeMatches ((boot fuel hw₀).bind (dispatch_all fuel cfg inputs)).world := by
  have hb := nodeMatches_boot fuel hw₀
  cases h : boot fuel hw₀ with
  | returned b =>
    rw [h] at hb
    simpa using nodeMatches_dispatch_all fuel cfg inputs b hb
  | running b =>
    rw [h] at hb
    simpa using hb

/-! ## C17: the states that never drive current -/

/-- C17: with both global guards off, in every world reached from boot by dispatches through
`handle_charger_event` (any events, any hardware answers), a further dispatch that returns
ends with `charging_enabled` = CHARGING_DISABLED whenever it ends with `current_state` Idle,
ChargeComplete or Fault. -/
theorem C17_idle_complete_fault_have_charging_disabled (fuel : Nat) (cfg : chargeConfig_t)
    (hw₀ : Hardware) (inputs : List (Hardware × nyx_charger_event_t)) (hw : Hardware)
    (ev : nyx_charger_event_t) (w w' : World)
    (hs : cfg.skip_battery_check = false) (hd : cfg.disable_charging = false)
    (hrun : (boot fuel hw₀).bind (dispatch_all fuel cfg inputs) = .returned w)
    (hlast : handle_charger_event fuel cfg hw ev w = .returned w') :
    w'.gCurrentChargeState.current_state = kChargeStateIdle ∨
      w'.gCurrentChargeState.current_state = kChargeStateChargeComplete ∨
      w'.gCurrentChargeState.current_state = kChargeStateFault →
    w'.gCurrentChargeState.charging_enabled = CHARGING_DISABLED := by
  have hn := nodeMatches_reachable fuel cfg hw₀ inputs
  rw [hrun] at hn
  intro hst
  exact (handle_charger_event_flag fuel cfg hw ev w w' hs hd hn hlast).1 (by simpa using hst)

theorem C17_idle_complete_fault_have_charging_disabled_witness :
    defaultConfig.skip_battery_check = false ∧ defaultConfig.disable_charging = false ∧
    (boot 4 (hwCharging 1000)).bind
      (dispatch_all 4 defaultConfig [(hwCharging 1000, eventConnected)]) =
        .returned afterCharging ∧
    handle_charger_event 4 defaultConfig hwUnplugged eventDisconnected afterCharging =
      .returned afterRoundTrip ∧
    afterRoundTrip.gCurrentChargeState.current_state = kChargeStateIdle ∧
    afterRoundTrip.gCurrentChargeState.charging_enabled = CHARGING_DISABLED :=
  ⟨rfl, rfl, by decide!, by decide!, by decide!,
    C17_idle_complete_fault_have_charging_disabled 4 defaultConfig (hwCharging 1000)
      [(hwCharging 1000, eventConnected)] hwUnplugged eventDisconnected afterCharging
      afterRoundTrip rfl rfl (by decide!) (by decide!) (Or.inl (by decide!))⟩

/-! ## C15: connect, then disconnect -/

theorem StateCharging_last_authentic (cfg : chargeConfig_t) (hw : Hardware)
    (ev : nyx_charger_event_t) (w : World)
    (h : (StateCharging cfg hw ev w).1 = kChargeStateLast) :
    ChargerIsConnected hw = true ∧ BatteryIsAuthentic w = true := by
  rw [StateCharging_fst] at h
  split at h
  · exact absurd h (by decide)
  · next hc =>
    simpa using hc

theorem chargeStateProc_last_charging (cfg : chargeConfig_t) (hw : Hardware)
    (ev : nyx_charger_event_t) (v : World) (hn : nodeMatches v)
    (hl : (chargeStateProc v.gCurrentChargeState.state_node cfg hw ev
      (emit (.call_state v.gCurrentChargeState.state_node) v)).1 = kChargeStateLast) :
    (chargeStateProc v.gCurrentChargeState.state_node cfg hw ev
        (emit (.call_state v.gCurrentChargeState.state_node) v)).2.gCurrentChargeState.current_state
        = kChargeStateCharging →
      ChargerIsConnected hw = true ∧
      BatteryIsAuthentic (chargeStateProc v.gCurrentChargeState.state_node cfg hw ev
        (emit (.call_state v.gCurrentChargeState.state_node) v)).2 = true := by
  have hc : (chargeStateProc v.gCurrentChargeState.state_node cfg hw ev
      (emit (.call_state v.gCurrentChargeState.state_node)
        v)).2.gCurrentChargeState.current_state = v.gCurrentChargeState.state_node := by
    simpa using hn.symm
  rw [hc]
  intro hsn
  rw [hsn] at hl ⊢
  simp only [chargeStateProc] at hl ⊢
  have := StateCharging_last_authentic _ _ _ _ hl
  simpa [BatteryIsAuthentic] using this

/-- With both guards off, a dispatch that returns in Charging ran with a connected charger
and leaves the presence machine in Authentic. -/
theorem handle_charger_event_charging_rest (fuel : Nat) (cfg : chargeConfig_t) (hw : Hardware)
    (ev : nyx_charger_event_t) (w w' : World)
    (hs : cfg.skip_battery_check = false) (hd : cfg.disable_charging = false)
    (hn : nodeMatches w) (h : handle_charger_event fuel cfg hw ev w = .returned w')
    (hc : w'.gCurrentChargeState.current_state = kChargeStateCharging) :
    ChargerIsConnected hw = true ∧ BatteryIsAuthentic w' = true := by
  obtain ⟨v, hv, hl, _⟩ := handle_charger_event_returned fuel cfg hw ev w w' hs hd hn h
  exact (ChargeStateIterate_loop_post
    (fun x => x.gCurrentChargeState.current_state = kChargeStateCharging →
      ChargerIsConnected hw = true ∧ BatteryIsAuthentic x = true) cfg hw ev
    (fun u hu hl => chargeStateProc_last_charging cfg hw ev u hu hl) fuel v w' hv hl).1 hc

theorem StateCharging_of_disconnected (cfg : chargeConfig_t) (hw : Hardware)
    (ev : nyx_charger_event_t) (w : World)
    (h1 : ev.NYX_CHARGER_DISCONNECTED = true) (h2 : ev.NYX_CHARGE_COMPLETE = false) :
    StateCharging cfg hw ev w = (kChargeStateIdle, w) := by
  simp only [StateCharging, h1, h2, Bool.true_or, Bool.false_eq_true, if_false, if_true]
  split <;> rfl

theorem StateIdle_of_no_connect (cfg : chargeConfig_t) (hw : Hardware)
    (ev : nyx_charger_event_t) (w : World) (h : ev.NYX_CHARGER_CONNECTED = false) :
    StateIdle cfg hw ev w = (kChargeStateLast, TurnChargingOff hw "charge state is idle" w) := by
  simp only [StateIdle, h, Bool.false_eq_true, if_false]
  split <;> rfl

/-- The charger-disconnected dispatch from Charging with charging enabled and the battery
not Removed: `StateCharging` hands over to Idle, and `StateIdle` turns charging off. -/
theorem handle_charger_event_disconnect (n : Nat) (cfg : chargeConfig_t) (hw : Hardware)
    (w : World) (hs : cfg.skip_battery_check = false) (hd : cfg.disable_charging = false)
    (hn : w.gCurrentChargeState.state_node = kChargeStateCharging)
    (hen : w.gCurrentChargeState.charging_enabled = CHARGING_ENABLED)
    (hp : BatteryIsPresent w = true) :
    ∃ w', handle_charger_event (n + 2) cfg hw eventDisconnected w = .returned w' ∧
      w'.gCurrentChargeState.current_state = kChargeStateIdle ∧
      w'.gCurrentChargeState.charging_enabled = CHARGING_DISABLED ∧
      w'.gCurrentChargeState.start_charging = (0, 0) ∧
      w'.gCurrentChargeState.taper_time_start = [-1, -1] ∧
      w'.gCurrentChargeState.shutdown_reason = "" ∧
      chargeLog w'.log = chargeLog w.log ++
        [.call_state kChargeStateCharging, .current_state kChargeStateIdle,
          .call_state kChargeStateIdle, .nyx_charger_disable_charging] := by
  have hr : handle_charger_event_rules (n + 2) cfg hw eventDisconnected w = .returned w := by
    simp [handle_charger_event_rules, handle_charger_event_presence,
      handle_charger_event_voltage, handle_charger_event_temperature, eventDisconnected,
      NYX_NO_NEW_EVENT]
  rw [handle_charger_event_eq_rules, hr, Outcome.bind_returned]
  simp only [ChargingLogicUpdate, hs, hd, Bool.false_eq_true, if_false, ChargeStateIterate]
  rw [ChargeStateIterate_loop_succ]
  simp only [battery_read_frame_gCurrentChargeState, hn, chargeStateProc]
  rw [StateCharging_of_disconnected _ _ _ _ rfl rfl]
  rw [if_neg (by simp), ChargeStateIterate_loop_succ]
  simp only [assignState, emit, chargeStateProc]
  rw [StateIdle_of_no_connect _ _ _ _ rfl]
  simp only [if_true, Outcome.bind_returned, CheckCriticalLevels, hs, Bool.false_eq_true,
    if_false]
  have hp' : ∀ x : World, x.state_node = w.state_node → BatteryIsPresent x = true := by
    intro x hx
    unfold BatteryIsPresent at hp ⊢
    rw [hx]
    exact hp
  rw [hp' _ (by simp)]
  simp only [Bool.not_true, Bool.false_eq_true, if_false]
  refine ⟨_, rfl, ?_, ?_, ?_, ?_, ?_, ?_⟩
  · simp
  · simp
  · simp [TurnChargingOff, hen, chargerDisableCharging, ChargeStateReset]
  · simp [TurnChargingOff, hen, chargerDisableCharging, ChargeStateReset, kTaperEnd]
  · simp [TurnChargingOff, hen, chargerDisableCharging, ChargeStateReset]
  · simp [hen]

/-- C15 (counterexample): after boot (authentic battery, Idle) the charger-connected event
reaches Charging and the charger-disconnected event returns to Idle with `charging_enabled`
= CHARGING_DISABLED; in the world the run started from, the one the init functions leave,
`charging_enabled` is CHARGING_NOTSET, so the flag does not have its boot-time value. -/
theorem C15_boot_leaves_the_flag_notset :
    bootCharging.gCurrentChargeState.current_state = kChargeStateIdle ∧
    BatteryIsAuthentic bootCharging = true ∧
    handle_charger_event 4 defaultConfig (hwCharging 1000) eventConnected bootCharging =
      .returned afterCharging ∧
    afterCharging.gCurrentChargeState.current_state = kChargeStateCharging ∧
    handle_charger_event 4 defaultConfig hwUnplugged eventDisconnected afterCharging =
      .returned afterRoundTrip ∧
    afterRoundTrip.gCurrentChargeState.current_state = kChargeStateIdle ∧
    afterRoundTrip.gCurrentChargeState.charging_enabled = CHARGING_DISABLED ∧
    bootCharging.gCurrentChargeState.charging_enabled = CHARGING_NOTSET ∧
    afterRoundTrip.gCurrentChargeState.charging_enabled ≠
      bootCharging.gCurrentChargeState.charging_enabled := by
  refine ⟨?_, ?_, ?_, ?_, ?_, ?_, ?_, ?_, ?_⟩ <;> decide!

/-- C15 (amended): with both guards off, from the world the init functions leave (Idle,
`charging_enabled` = CHARGING_NOTSET), whenever the charger-connected dispatch returns in
Charging, the charger-disconnected dispatch returns in Idle with `charging_enabled` =
CHARGING_DISABLED, after exactly `StateCharging`, the assignment of Idle, `StateIdle` and one
hardware disable call; the charge-start timestamp, the taper timestamps and
`shutdown_reason` then equal their boot-time values.  The flag and these three values are
the ones any execution of `StateIdle` in the boot world leaves, by the same
`TurnChargingOff` call with one hardware disable call. -/
theorem C15_round_trip_restores_idle (n : Nat) (cfg : chargeConfig_t)
    (hw₀ hw₁ hw₂ : Hardware) (w₀ w₁ : World)
    (hs : cfg.skip_battery_check = false) (hd : cfg.disable_charging = false)
    (hboot : boot (n + 2) hw₀ = .returned w₀)
    (hconn : handle_charger_event (n + 2) cfg hw₁ eventConnected w₀ = .returned w₁)
    (hch : w₁.gCurrentChargeState.current_state = kChargeStateCharging) :
    ∃ w₂, handle_charger_event (n + 2) cfg hw₂ eventDisconnected w₁ = .returned w₂ ∧
      w₂.gCurrentChargeState.current_state = kChargeStateIdle ∧
      w₂.gCurrentChargeState.charging_enabled = CHARGING_DISABLED ∧
      w₀.gCurrentChargeState.charging_enabled = CHARGING_NOTSET ∧
      w₂.gCurrentChargeState.start_charging = w₀.gCurrentChargeState.start_charging ∧
      w₂.gCurrentChargeState.taper_time_start = w₀.gCurrentChargeState.taper_time_start ∧
      w₂.gCurrentChargeState.shutdown_reason = w₀.gCurrentChargeState.shutdown_reason ∧
      chargeLog w₂.log = chargeLog w₁.log ++
        [.call_state kChargeStateCharging, .current_state kChargeStateIdle,
          .call_state kChargeStateIdle, .nyx_charger_disable_charging] ∧
      ∀ (hw : Hardware) (ev : nyx_charger_event_t),
        (StateIdle cfg hw ev w₀).2.gCurrentChargeState.charging_enabled =
          w₂.gCurrentChargeState.charging_enabled ∧
        (StateIdle cfg hw ev w₀).2.gCurrentChargeState.start_charging =
          w₂.gCurrentChargeState.start_charging ∧
        (StateIdle cfg hw ev w₀).2.gCurrentChargeState.taper_time_start =
          w₂.gCurrentChargeState.taper_time_start ∧
        (StateIdle cfg hw ev w₀).2.gCurrentChargeState.shutdown_reason =
          w₂.gCurrentChargeState.shutdown_reason ∧
        chargeLog (StateIdle cfg hw ev w₀).2.log =
          chargeLog w₀.log ++ [.nyx_charger_disable_charging] := by
  have hb := boot_gCurrentChargeState (n + 2) hw₀
  rw [hboot] at hb
  simp only [Outcome.world_returned] at hb
  have hn0 : nodeMatches w₀ := by
    unfold nodeMatches
    rw [hb]
  obtain ⟨_, hen, hn1⟩ := handle_charger_event_flag (n + 2) cfg hw₁ eventConnected w₀ w₁ hs hd
    hn0 hconn
  obtain ⟨_, hauth⟩ := handle_charger_event_charging_rest (n + 2) cfg hw₁ eventConnected w₀ w₁
    hs hd hn0 hconn hch
  have hp : BatteryIsPresent w₁ = true := by
    unfold BatteryIsAuthentic at hauth
    unfold BatteryIsPresent
    cases hsn : w₁.state_node <;> simp_all
  obtain ⟨w₂, h1, h2, h3, h4, h5, h6, h7⟩ := handle_charger_event_disconnect n cfg hw₂ w₁ hs hd
    (by rw [hn1]; exact hch) (hen hch) hp
  refine ⟨w₂, h1, h2, h3, by rw [hb], by rw [hb, h4], by rw [hb, h5], by rw [hb, h6], h7, ?_⟩
  intro hw ev
  have hne : w₀.gCurrentChargeState.charging_enabled ≠ CHARGING_DISABLED := by
    rw [hb]
    decide
  rw [StateIdle_snd, h3, h4, h5, h6]
  refine ⟨by simp, ?_, ?_, ?_, ?_⟩
  · simp [TurnChargingOff, hne, chargerDisableCharging, ChargeStateReset]
  · simp [TurnChargingOff, hne, chargerDisableCharging, ChargeStateReset, kTaperEnd]
  · simp [TurnChargingOff, hne, chargerDisableCharging, ChargeStateReset]
  · simp [hne]

theorem C15_round_trip_restores_idle_witness :
    defaultConfig.skip_battery_check = false ∧ defaultConfig.disable_charging = false ∧
    boot (2 + 2) (hwCharging 1000) = .returned bootCharging ∧
    handle_charger_event (2 + 2) defaultConfig (hwCharging 1000) eventConnected bootCharging =
      .returned afterCharging ∧
    afterCharging.gCurrentChargeState.current_state = kChargeStateCharging ∧
    ∃ w₂, handle_charger_event (2 + 2) defaultConfig hwUnplugged eventDisconnected
        afterCharging = .returned w₂ ∧
      w₂.gCurrentChargeState.current_state = kChargeStateIdle ∧
      w₂.gCurrentChargeState.charging_enabled = CHARGING_DISABLED ∧
      bootCharging.gCurrentChargeState.charging_enabled = CHARGING_NOTSET ∧
      w₂.gCurrentChargeState.start_charging =
        bootCharging.gCurrentChargeState.start_charging ∧
      w₂.gCurrentChargeState.taper_time_start =
        bootCharging.gCurrentChargeState.taper_time_start ∧
      w₂.gCurrentChargeState.shutdown_reason =
        bootCharging.gCurrentChargeState.shutdown_reason ∧
      chargeLog w₂.log = chargeLog afterCharging.log ++
        [.call_state kChargeStateCharging, .current_state kChargeStateIdle,
          .call_state kChargeStateIdle, .nyx_charger_disable_charging] ∧
      ∀ (hw : Hardware) (ev : nyx_charger_event_t),
        (StateIdle defaultConfig hw ev bootCharging).2.gCurrentChargeState.charging_enabled =
          w₂.gCurrentChargeState.charging_enabled ∧
        (StateIdle defaultConfig hw ev bootCharging).2.gCurrentChargeState.start_charging =
          w₂.gCurrentChargeState.start_charging ∧
        (StateIdle defaultConfig hw ev bootCharging).2.gCurrentChargeState.taper_time_start =
          w₂.gCurrentChargeState.taper_time_start ∧
        (StateIdle defaultConfig hw ev bootCharging).2.gCurrentChargeState.shutdown_reason =
          w₂.gCurrentChargeState.shutdown_reason ∧
        chargeLog (StateIdle defaultConfig hw ev bootCharging).2.log =
          chargeLog bootCharging.log ++ [.nyx_charger_disable_charging] :=
  ⟨rfl, rfl, by decide!, by decide!, by decide!,
    C15_round_trip_restores_idle 2 defaultConfig (hwCharging 1000) (hwCharging 1000) hwUnplugged
      bootCharging afterCharging rfl rfl (by decide!) (by decide!) (by decide!)⟩

/-! ## C14: an idle tick at rest -/

theorem StateCharging_last_count (cfg : chargeConfig_t) (hw : Hardware)
    (ev : nyx_charger_event_t) (w : World)
    (h : (StateCharging cfg hw ev w).1 = kChargeStateLast)
    (hchk : cfg.disable_overcharge_check = false) :
    (StateCharging cfg hw ev w).2.overcharge_count =
      if over_limit hw.fpu (battery_read hw (hw.uninitialized w.clock) w).1 then
        w.overcharge_count + 1
      else 0 := by
  have key : (StateCharging cfg hw ev w).2.overcharge_count =
      (BatteryOverchargeFault hw.fpu (battery_read hw (hw.uninitialized w.clock) w).1
        (battery_read hw (hw.uninitialized w.clock) w).2).2.overcharge_count := by
    simp only [StateCharging, hchk] at h ⊢
    repeat' split at h
    all_goals simp_all
  rw [key, BatteryOverchargeFault_count, battery_read_frame_overcharge_count]

theorem StateCharging_last_enable (cfg : chargeConfig_t) (hw : Hardware)
    (ev : nyx_charger_event_t) (w : World)
    (h : (StateCharging cfg hw ev w).1 = kChargeStateLast) :
    hw.nyx_charger_enable_charging
      (battery_read hw (hw.uninitialized w.clock) w).2.clock = true := by
  rw [StateCharging_fst] at h
  repeat' split at h
  all_goals first
    | exact absurd h (by decide)
    | assumption

theorem chargeStateProc_last_restFacts (bd : Bool) (rd : Option nyx_battery_status_t)
    (g : nyx_battery_status_t) (a e : Bool) (c : Option nyx_battery_ctia_t)
    (cs : nyx_charger_status_t) (fpu : DoubleArith) (cfg : chargeConfig_t)
    (ev : nyx_charger_event_t) (v : World) (hn : nodeMatches v)
    (hl : (chargeStateProc v.gCurrentChargeState.state_node cfg
      (Hardware.fixed bd rd g a e c cs fpu) ev
      (emit (.call_state v.gCurrentChargeState.state_node) v)).1 = kChargeStateLast) :
    restFacts cfg cs e fpu (fixedReading bd rd g)
      (chargeStateProc v.gCurrentChargeState.state_node cfg
        (Hardware.fixed bd rd g a e c cs fpu) ev
        (emit (.call_state v.gCurrentChargeState.state_node) v)).2 := by
  have hc : (chargeStateProc v.gCurrentChargeState.state_node cfg
      (Hardware.fixed bd rd g a e c cs fpu) ev
      (emit (.call_state v.gCurrentChargeState.state_node)
        v)).2.gCurrentChargeState.current_state = v.gCurrentChargeState.state_node := by
    simpa using hn.symm
  unfold restFacts
  rw [hc]
  cases hsn : v.gCurrentChargeState.state_node <;> rw [hsn] at hl <;>
    simp only [chargeStateProc] at hl ⊢
  · simp [StateIdle_snd]
  · have h1 := StateCharging_last_authentic _ _ _ _ hl
    have h2 := StateCharging_last_enable _ _ _ _ hl
    refine ⟨by simp, by simp, by simp, fun _ => ⟨?_, ?_, ?_, ?_⟩, by simp⟩
    · simpa [ChargerIsConnected] using h1.1
    · simpa [BatteryIsAuthentic] using h1.2
    · simpa using h2
    · intro hchk hno
      rw [StateCharging_last_count _ _ _ _ hl hchk]
      simp only [fixed_uninitialized, battery_read_fixed, fixed_fpu]
      rw [if_neg hno]
  · rw [StateFault_fst] at hl
    split at hl
    · exact absurd hl (by decide)
    · next hcond =>
      simp only [Bool.or_eq_true, Bool.not_eq_true', not_or, Bool.not_eq_false] at hcond
      refine ⟨by simp, by simp, fun _ => ⟨by simp [StateFault_snd], ?_, ?_⟩, by simp, by simp⟩
      · simpa [ChargerIsConnected] using hcond.1
      · simpa [BatteryIsPresent, StateFault_snd] using hcond.2
  · rw [StateChargeComplete_fst] at hl
    split at hl
    · exact absurd hl (by decide)
    · next hcond =>
      simp only [Bool.or_eq_true, Bool.not_eq_true', not_or, Bool.not_eq_false] at hcond
      refine ⟨by simp, fun _ => ⟨by simp [StateChargeComplete_snd], ?_⟩, by simp, by simp,
        by simp⟩
      simpa [ChargerIsConnected] using hcond.1
  · simp at hl
  · simp
  · simp

theorem restFacts_congr (cfg : chargeConfig_t) (cs : nyx_charger_status_t) (e : Bool)
    (fpu : DoubleArith) (r : nyx_battery_status_t) (w w' : World)
    (h1 : w'.gCurrentChargeState = w.gCurrentChargeState) (h2 : w'.state_node = w.state_node)
    (h3 : w'.overcharge_count = w.overcharge_count) (h : restFacts cfg cs e fpu r w) :
    restFacts cfg cs e fpu r w' := by
  unfold restFacts BatteryIsPresent BatteryIsAuthentic at *
  rw [h1, h2, h3]
  exact h

theorem StateCharging_count_unchecked (cfg : chargeConfig_t) (hw : Hardware)
    (ev : nyx_charger_event_t) (w : World) (hchk : cfg.disable_overcharge_check = true) :
    (StateCharging cfg hw ev w).2.overcharge_count = w.overcharge_count := by
  simp only [StateCharging, hchk]
  repeat' split
  all_goals simp_all

/-- The table loop on an idle tick, started at rest on unchanged hardware: one state-function
execution, which returns `kChargeStateLast` and leaves the state and the counters as they
were, provided that in Charging the reading is not above the overcharge limit or the
overcharge check is off. -/
theorem ChargeStateIterate_loop_at_rest (bd : Bool) (rd : Option nyx_battery_status_t)
    (g : nyx_battery_status_t) (a e : Bool) (c : Option nyx_battery_ctia_t)
    (cs : nyx_charger_status_t) (fpu : DoubleArith) (n : Nat) (cfg : chargeConfig_t)
    (x : World) (hn : nodeMatches x)
    (hR : restFacts cfg cs e fpu (fixedReading bd rd g) x)
    (hover : x.gCurrentChargeState.current_state = kChargeStateCharging →
      cfg.disable_overcharge_check = true ∨ ¬ over_limit fpu (fixedReading bd rd g)) :
    ∃ y, ChargeStateIterate_loop (n + 1) cfg (Hardware.fixed bd rd g a e c cs fpu)
        NYX_NO_NEW_EVENT x = .returned y ∧
      y.gCurrentChargeState.current_state = x.gCurrentChargeState.current_state ∧
      y.gCurrentChargeState.state_node = x.gCurrentChargeState.state_node ∧
      y.state_node = x.state_node ∧ y.debounce_bad = x.debounce_bad ∧
      y.discharge_count = x.discharge_count ∧ y.overcharge_count = x.overcharge_count := by
  obtain ⟨rI, rC, rF, rCh, rS⟩ := hR
  have hnode : x.gCurrentChargeState.state_node = x.gCurrentChargeState.current_state := hn
  rw [ChargeStateIterate_loop_succ]
  cases hst : x.gCurrentChargeState.current_state <;> rw [hst] at hnode <;>
    simp only [hnode, chargeStateProc]
  · -- Idle
    rw [StateIdle_fst, StateIdle_of_disabled _ _ _ _ (by simpa using rI hst)]
    simp [NYX_NO_NEW_EVENT, hst, hnode]
  · -- Charging
    obtain ⟨hcon, hauth, he, hcnt⟩ := rCh hst
    subst he
    have hconn : ChargerIsConnected (Hardware.fixed bd rd g a true c cs fpu) = true := by
      simp [ChargerIsConnected, hcon]
    have hautX : BatteryIsAuthentic (emit (.call_state kChargeStateCharging) x) = true := by
      simpa [BatteryIsAuthentic] using hauth
    have hfst := StateCharging_fst cfg (Hardware.fixed bd rd g a true c cs fpu)
      NYX_NO_NEW_EVENT (emit (.call_state kChargeStateCharging) x)
    have e1 : NYX_NO_NEW_EVENT.NYX_CHARGE_COMPLETE = false := rfl
    have e2 : NYX_NO_NEW_EVENT.NYX_CHARGER_DISCONNECTED = false := rfl
    have e3 : NYX_NO_NEW_EVENT.NYX_CHARGE_RESTART = false := rfl
    have e4 : NYX_NO_NEW_EVENT.NYX_BATTERY_TEMPERATURE_LIMIT = false := rfl
    have hnf : (!cfg.disable_overcharge_check &&
        (decide (over_limit fpu (fixedReading bd rd g)) &&
          decide (x.overcharge_count + 1 > OVERCHARGE_RETRIES))) = false := by
      rcases hover hst with h | h
      · simp [h]
      · simp [h]
    simp only [hconn, hautX, e1, e2, e3, e4, Bool.not_true, Bool.or_self,
      Bool.false_eq_true, if_false, fixed_uninitialized,
      battery_read_fixed, fixed_fpu, fixed_enable, BatteryOverchargeFault_result,
      battery_read_frame_overcharge_count, emit_frame_overcharge_count, hnf,
      if_true] at hfst
    have hcount : (StateCharging cfg (Hardware.fixed bd rd g a true c cs fpu) NYX_NO_NEW_EVENT
        (emit (.call_state kChargeStateCharging) x)).2.overcharge_count =
        x.overcharge_count := by
      cases hchk : cfg.disable_overcharge_check
      · rw [StateCharging_last_count _ _ _ _ hfst hchk]
        simp only [fixed_uninitialized, battery_read_fixed, fixed_fpu,
          emit_frame_overcharge_count]
        have hno : ¬ over_limit fpu (fixedReading bd rd g) := by
          rcases hover hst with h | h
          · simp [hchk] at h
          · exact h
        rw [if_neg hno, hcnt hchk hno]
      · rw [StateCharging_count_unchecked _ _ _ _ hchk]
        rfl
    rw [if_pos hfst]
    exact ⟨_, rfl, by simp [hst], by simp [hnode], by simp, by simp, by simp, hcount⟩
  · -- Fault
    obtain ⟨hdis, hcon, hp⟩ := rF hst
    have hconn : ChargerIsConnected (Hardware.fixed bd rd g a e c cs fpu) = true := by
      simp [ChargerIsConnected, hcon]
    have hpX : BatteryIsPresent (emit (.call_state kChargeStateFault) x) = true := by
      simpa [BatteryIsPresent] using hp
    rw [StateFault_fst, StateFault_of_disabled _ _ (by simpa using hdis)]
    simp [hconn, hpX, hst, hnode]
  · -- ChargeComplete
    obtain ⟨hdis, hcon⟩ := rC hst
    have hconn : ChargerIsConnected (Hardware.fixed bd rd g a e c cs fpu) = true := by
      simp [ChargerIsConnected, hcon]
    rw [StateChargeComplete_fst, StateChargeComplete_of_disabled _ _ _ (by simpa using hdis)]
    simp [hconn, NYX_NO_NEW_EVENT, hst, hnode]
  · exact absurd hst rS
  · simp [hst, hnode]
  · simp [hst, hnode]

theorem ChargeStateIterate_loop_stays_in_shutdown (fuel : Nat) (cfg : chargeConfig_t)
    (hw : Hardware) (ev : nyx_charger_event_t) (w : World) (hn : nodeMatches w)
    (h : inShutdown w.gCurrentChargeState.current_state = true) :
    inShutdown (ChargeStateIterate_loop fuel cfg hw ev w).world.gCurrentChargeState.current_state
      = true :=
  (ViewStep_lift (fun v => v.2.1 = v.1 ∧ inShutdown v.1 = true)
    (fun v v' hs hv => ViewStep_stays_in_shutdown v v' hs hv) _ _
    (steps_ChargeStateIterate_loop fuel cfg hw ev w) ⟨hn, h⟩).2

/-- With both guards off, the world a dispatch on fixed hardware returns in carries the
rest facts, its node matches, and either the presence machine is not in Removed or the
machine is in ShutdownWait. -/
theorem handle_charger_event_restFacts (bd : Bool) (rd : Option nyx_battery_status_t)
    (g : nyx_battery_status_t) (a e : Bool) (c : Option nyx_battery_ctia_t)
    (cs : nyx_charger_status_t) (fpu : DoubleArith) (fuel : Nat) (cfg : chargeConfig_t)
    (ev : nyx_charger_event_t) (w w' : World)
    (hs : cfg.skip_battery_check = false) (hd : cfg.disable_charging = false)
    (hn : nodeMatches w)
    (h : handle_charger_event fuel cfg (Hardware.fixed bd rd g a e c cs fpu) ev w =
      .returned w') :
    restFacts cfg cs e fpu (fixedReading bd rd g) w' ∧ nodeMatches w' ∧
      (BatteryIsPresent w' = true ∨
        w'.gCurrentChargeState.current_state = kChargeStateShutdownWait) := by
  obtain ⟨v, hv, hl, hp⟩ := handle_charger_event_returned fuel cfg _ ev w w' hs hd hn h
  obtain ⟨hR, hn'⟩ := ChargeStateIterate_loop_post
    (restFacts cfg cs e fpu (fixedReading bd rd g)) cfg _ ev
    (fun u hu hl => chargeStateProc_last_restFacts bd rd g a e c cs fpu cfg ev u hu hl)
    fuel v w' hv hl
  refine ⟨hR, hn', ?_⟩
  rcases hp with hp | hp
  · exact Or.inl hp
  · right
    have := ChargeStateIterate_loop_stays_in_shutdown fuel cfg
      (Hardware.fixed bd rd g a e c cs fpu) ev v hv hp
    rw [hl] at this
    simp only [Outcome.world_returned] at this
    have hns := hR.2.2.2.2
    cases hst : w'.gCurrentChargeState.current_state <;> simp_all [inShutdown]

/-- An idle tick on unchanged hardware, from a world at rest: the dispatch returns with
`current_state`, the presence state and the three counters as they were, provided that in
Charging the reading is not above the overcharge limit or the overcharge check is off. -/
theorem handle_charger_event_at_rest (bd : Bool) (rd : Option nyx_battery_status_t)
    (g : nyx_battery_status_t) (a e : Bool) (c : Option nyx_battery_ctia_t)
    (cs : nyx_charger_status_t) (fpu : DoubleArith) (n : Nat) (cfg : chargeConfig_t)
    (x : World) (hs : cfg.skip_battery_check = false) (hd : cfg.disable_charging = false)
    (hn : nodeMatches x)
    (hR : restFacts cfg cs e fpu (fixedReading bd rd g) x)
    (hp : BatteryIsPresent x = true ∨
      x.gCurrentChargeState.current_state = kChargeStateShutdownWait)
    (hover : x.gCurrentChargeState.current_state = kChargeStateCharging →
      cfg.disable_overcharge_check = true ∨ ¬ over_limit fpu (fixedReading bd rd g)) :
    ∃ y, handle_charger_event (n + 1) cfg (Hardware.fixed bd rd g a e c cs fpu)
        NYX_NO_NEW_EVENT x = .returned y ∧
      y.gCurrentChargeState.current_state = x.gCurrentChargeState.current_state ∧
      y.state_node = x.state_node ∧ y.debounce_bad = x.debounce_bad ∧
      y.discharge_count = x.discharge_count ∧ y.overcharge_count = x.overcharge_count := by
  have hr : handle_charger_event_rules (n + 1) cfg (Hardware.fixed bd rd g a e c cs fpu)
      NYX_NO_NEW_EVENT x = .returned x := by
    simp [handle_charger_event_rules, handle_charger_event_presence,
      handle_charger_event_voltage, handle_charger_event_temperature, NYX_NO_NEW_EVENT]
  rw [handle_charger_event_eq_rules, hr, Outcome.bind_returned]
  simp only [ChargingLogicUpdate, hs, hd, Bool.false_eq_true, if_false, ChargeStateIterate]
  generalize hX : (battery_read (Hardware.fixed bd rd g a e c cs fpu)
      ((Hardware.fixed bd rd g a e c cs fpu).uninitialized
        (battery_read (Hardware.fixed bd rd g a e c cs fpu)
          ((Hardware.fixed bd rd g a e c cs fpu).uninitialized x.clock) x).2.clock)
      (battery_read (Hardware.fixed bd rd g a e c cs fpu)
        ((Hardware.fixed bd rd g a e c cs fpu).uninitialized x.clock) x).2).2 = X
  have x1 : X.gCurrentChargeState = x.gCurrentChargeState := by rw [← hX]; simp
  have x2 : X.state_node = x.state_node := by rw [← hX]; simp
  have x3 : X.overcharge_count = x.overcharge_count := by rw [← hX]; simp
  have x4 : X.debounce_bad = x.debounce_bad := by rw [← hX]; simp
  have x5 : X.discharge_count = x.discharge_count := by rw [← hX]; simp
  obtain ⟨y, hy, y1, y2, y3, y4, y5, y6⟩ := ChargeStateIterate_loop_at_rest bd rd g a e c cs fpu
    n cfg X (nodeMatches_of_eq x X x1 hn) (restFacts_congr cfg cs e fpu _ x X x1 x2 x3 hR)
    (by rw [x1]; exact hover)
  rw [hy]
  simp only [Outcome.bind_returned, CheckCriticalLevels, hs, Bool.false_eq_true, if_false]
  by_cases hpy : BatteryIsPresent y = true
  · simp only [hpy, Bool.not_true, Bool.false_eq_true, if_false]
    exact ⟨y, rfl, by rw [y1, x1], by rw [y3, x2], by rw [y4, x4], by rw [y5, x5],
      by rw [y6, x3]⟩
  · simp only [hpy, Bool.not_false, if_true]
    have hsw : x.gCurrentChargeState.current_state = kChargeStateShutdownWait := by
      rcases hp with hp | hp
      · exfalso
        apply hpy
        unfold BatteryIsPresent at hp ⊢
        rw [y3, x2]
        exact hp
      · exact hp
    have hyw : y.gCurrentChargeState.current_state = kChargeStateShutdownWait := by
      rw [y1, x1, hsw]
    rw [JumpToShutdownState_of_inShutdown _ _ (by rw [hyw]; rfl)]
    rw [ChargeStateIterate_loop_ShutdownWait _ _ _ _ _ (by
      simp only [battery_read_frame_gCurrentChargeState]
      rw [y2, x1, hn, hsw])]
    exact ⟨_, rfl, by simp [y1, x1], by simp [y3, x2], by simp [y4, x4], by simp [y5, x5],
      by simp [y6, x3]⟩

/-- C14 (counterexample): the charger-connected dispatch with a reading of 1300 raw coulombs
(limit 1200) returns in Charging with `overcharge_count` = 1, `debounce_bad` = 0 and
`discharge_count` = 0, no counter past its threshold.  An idle tick with the same reading and
charger status returns with `overcharge_count` = 2.  After two such ticks the counter is 3,
still not past the threshold, and the next idle tick leaves Charging for Fault. -/
theorem C14_idle_tick_counts_over_limit_samples :
    handle_charger_event 4 defaultConfig (hwCharging 1300) eventConnected
      (boot 4 (hwCharging 1300)).world = .returned afterOverLimit ∧
    afterOverLimit.gCurrentChargeState.current_state = kChargeStateCharging ∧
    afterOverLimit.debounce_bad = 0 ∧ afterOverLimit.discharge_count = 0 ∧
    afterOverLimit.overcharge_count = 1 ∧
    (handle_charger_event 4 defaultConfig (hwCharging 1300) NYX_NO_NEW_EVENT
      afterOverLimit).isReturned = true ∧
    (handle_charger_event 4 defaultConfig (hwCharging 1300) NYX_NO_NEW_EVENT
      afterOverLimit).world.overcharge_count = 2 ∧
    afterOverLimitTicks.gCurrentChargeState.current_state = kChargeStateCharging ∧
    afterOverLimitTicks.debounce_bad = 0 ∧ afterOverLimitTicks.discharge_count = 0 ∧
    afterOverLimitTicks.overcharge_count = 3 ∧
    (handle_charger_event 4 defaultConfig (hwCharging 1300) NYX_NO_NEW_EVENT
      afterOverLimitTicks).isReturned = true ∧
    (handle_charger_event 4 defaultConfig (hwCharging 1300) NYX_NO_NEW_EVENT
      afterOverLimitTicks).world.gCurrentChargeState.current_state = kChargeStateFault := by
  refine ⟨?_, ?_, ?_, ?_, ?_, ?_, ?_, ?_, ?_, ?_, ?_, ?_, ?_⟩ <;> decide!

/-- C14 (amended): let a dispatch (any event, any configuration) on fixed hardware return,
from a world whose node matches.  Then the idle tick `NYX_NO_NEW_EVENT` on the same hardware
(same battery reading, charger status and enable result) returns and leaves `current_state`,
the presence state, `debounce_bad`, `discharge_count` and `overcharge_count` unchanged,
provided that, when the rest state is Charging, the reading is not above the overcharge
limit or the overcharge check is disabled. -/
theorem C14_idle_tick_keeps_rest_state (bd : Bool) (rd : Option nyx_battery_status_t)
    (g : nyx_battery_status_t) (a e : Bool) (c : Option nyx_battery_ctia_t)
    (cs : nyx_charger_status_t) (fpu : DoubleArith) (n : Nat) (cfg : chargeConfig_t)
    (ev : nyx_charger_event_t) (w₀ w₁ : World) (hn : nodeMatches w₀)
    (hfirst : handle_charger_event (n + 1) cfg (Hardware.fixed bd rd g a e c cs fpu) ev w₀ =
      .returned w₁)
    (hover : w₁.gCurrentChargeState.current_state = kChargeStateCharging →
      cfg.disable_overcharge_check = true ∨ ¬ over_limit fpu (fixedReading bd rd g)) :
    ∃ w₂, handle_charger_event (n + 1) cfg (Hardware.fixed bd rd g a e c cs fpu)
        NYX_NO_NEW_EVENT w₁ = .returned w₂ ∧
      w₂.gCurrentChargeState.current_state = w₁.gCurrentChargeState.current_state ∧
      w₂.state_node = w₁.state_node ∧ w₂.debounce_bad = w₁.debounce_bad ∧
      w₂.discharge_count = w₁.discharge_count ∧
      w₂.overcharge_count = w₁.overcharge_count := by
  by_cases hg : cfg.skip_battery_check = true ∨ cfg.disable_charging = true
  · have hr : handle_charger_event_rules (n + 1) cfg (Hardware.fixed bd rd g a e c cs fpu)
        NYX_NO_NEW_EVENT w₁ = .returned w₁ := by
      simp [handle_charger_event_rules, handle_charger_event_presence,
        handle_charger_event_voltage, handle_charger_event_temperature, NYX_NO_NEW_EVENT]
    rw [handle_charger_event_eq_rules, hr, Outcome.bind_returned,
      ChargingLogicUpdate_guarded _ _ _ _ _ hg]
    refine ⟨_, rfl, ?_, ?_, ?_, ?_, ?_⟩ <;> split <;> simp
  · have hs : cfg.skip_battery_check = false := by
      cases h : cfg.skip_battery_check
      · rfl
      · exact absurd (Or.inl h) hg
    have hd : cfg.disable_charging = false := by
      cases h : cfg.disable_charging
      · rfl
      · exact absurd (Or.inr h) hg
    obtain ⟨hR, hn₁, hp⟩ := handle_charger_event_restFacts bd rd g a e c cs fpu (n + 1) cfg ev
      w₀ w₁ hs hd hn hfirst
    exact handle_charger_event_at_rest bd rd g a e c cs fpu n cfg w₁ hs hd hn₁ hR hp hover

theorem C14_idle_tick_keeps_rest_state_witness :
    nodeMatches bootCharging ∧
    handle_charger_event (3 + 1) defaultConfig
      (Hardware.fixed true (some (sampleReading 1000)) (sampleReading 1000) true true none
        chargerOn exactArith) eventConnected bootCharging = .returned afterCharging ∧
    (afterCharging.gCurrentChargeState.current_state = kChargeStateCharging →
      defaultConfig.disable_overcharge_check = true ∨
        ¬ over_limit exactArith
          (fixedReading true (some (sampleReading 1000)) (sampleReading 1000))) ∧
    ∃ w₂, handle_charger_event (3 + 1) defaultConfig
        (Hardware.fixed true (some (sampleReading 1000)) (sampleReading 1000) true true none
          chargerOn exactArith) NYX_NO_NEW_EVENT afterCharging = .returned w₂ ∧
      w₂.gCurrentChargeState.current_state = afterCharging.gCurrentChargeState.current_state ∧
      w₂.state_node = afterCharging.state_node ∧
      w₂.debounce_bad = afterCharging.debounce_bad ∧
      w₂.discharge_count = afterCharging.discharge_count ∧
      w₂.overcharge_count = afterCharging.overcharge_count :=
  ⟨by decide!, by decide!, fun _ => Or.inr (by decide!),
    C14_idle_tick_keeps_rest_state true (some (sampleReading 1000)) (sampleReading 1000) true
      true none chargerOn exactArith 3 defaultConfig eventConnected bootCharging afterCharging
      (by decide!) (by decide!) (fun _ => Or.inr (by decide!))⟩

/-! ## Force-jumps and shutdown requests of a dispatch -/

@[simp] theorem shutdownTrace_nil : shutdownTrace [] = [] := rfl

@[simp] theorem shutdownTrace_append (l₁ l₂ : List Effect) :
    shutdownTrace (l₁ ++ l₂) = shutdownTrace l₁ ++ shutdownTrace l₂ := by
  simp [shutdownTrace]

theorem shutdownTrace_chargeLog (l : List Effect) :
    shutdownTrace (chargeLog l) = shutdownTrace l := by
  induction l with
  | nil => rfl
  | cons e l ih =>
    cases e <;> simp_all [chargeLog, shutdownTrace, List.filter_cons, Effect.isChargingLogic]

theorem jumpTrace_chargeLog (l : List Effect) : jumpTrace (chargeLog l) = jumpTrace l := by
  induction l with
  | nil => rfl
  | cons e l ih =>
    cases e <;> simp_all [chargeLog, jumpTrace, List.filter_cons, Effect.isChargingLogic]

theorem shutdownTrace_eq_of_chargeLog (l l' : List Effect) (h : chargeLog l' = chargeLog l) :
    shutdownTrace l' = shutdownTrace l := by
  rw [← shutdownTrace_chargeLog l', h, shutdownTrace_chargeLog]

theorem jumpTrace_eq_of_chargeLog (l l' : List Effect) (h : chargeLog l' = chargeLog l) :
    jumpTrace l' = jumpTrace l := by
  rw [← jumpTrace_chargeLog l', h, jumpTrace_chargeLog]

theorem TurnChargingOff_shutdownTrace (hw : Hardware) (r : String) (w : World) :
    shutdownTrace (TurnChargingOff hw r w).log = shutdownTrace w.log := by
  rw [← shutdownTrace_tableLog, TurnChargingOff_tableLog, shutdownTrace_tableLog]

theorem TurnChargingOff_jumpTrace (hw : Hardware) (r : String) (w : World) :
    jumpTrace (TurnChargingOff hw r w).log = jumpTrace w.log :=
  jumpTrace_eq_of_machineLog _ _ (TurnChargingOff_machineLog hw r w)

theorem TurnChargingON_shutdownTrace (hw : Hardware) (w : World) :
    shutdownTrace (TurnChargingON hw w).2.log = shutdownTrace w.log := by
  rw [← shutdownTrace_chargeLog, TurnChargingON_chargeLog, shutdownTrace_append,
    shutdownTrace_chargeLog]
  simp [shutdownTrace]

theorem chargeStateProc_shutdownTrace (s : ChargeState) (cfg : chargeConfig_t) (hw : Hardware)
    (ev : nyx_charger_event_t) (w : World) (hs : s ≠ kChargeStateShutdown) :
    shutdownTrace (chargeStateProc s cfg hw ev w).2.log = shutdownTrace w.log := by
  cases s <;> simp only [chargeStateProc]
  · rw [StateIdle_snd, TurnChargingOff_shutdownTrace]
  · simp only [StateCharging]
    repeat' split
    all_goals simp [TurnChargingON_shutdownTrace]
  · rw [StateFault_snd, TurnChargingOff_shutdownTrace]
  · rw [StateChargeComplete_snd, TurnChargingOff_shutdownTrace]
  · exact absurd rfl hs
  · rfl

theorem chargeStateProc_fst_not_inShutdown (s : ChargeState) (cfg : chargeConfig_t)
    (hw : Hardware) (ev : nyx_charger_event_t) (w : World) (hs : inShutdown s = false) :
    inShutdown (chargeStateProc s cfg hw ev w).1 = false := by
  cases s <;> simp only [chargeStateProc]
  · rw [StateIdle_fst]
    repeat' split
    all_goals rfl
  · rw [StateCharging_fst]
    repeat' split
    all_goals rfl
  · rw [StateFault_fst]
    repeat' split
    all_goals rfl
  · rw [StateChargeComplete_fst]
    repeat' split
    all_goals rfl
  · exact absurd hs (by decide)
  · exact absurd hs (by decide)
  · rfl

/-- Outside the shutdown chain the table loop makes no shutdown request and stays outside
the chain, whether or not it returns. -/
theorem ChargeStateIterate_loop_outside_shutdown (fuel : Nat) (cfg : chargeConfig_t)
    (hw : Hardware) (ev : nyx_charger_event_t) (w : World) (hn : nodeMatches w)
    (h : inShutdown w.gCurrentChargeState.current_state = false) :
    nodeMatches (ChargeStateIterate_loop fuel cfg hw ev w).world ∧
    inShutdown (ChargeStateIterate_loop fuel cfg hw ev
      w).world.gCurrentChargeState.current_state = false ∧
    shutdownTrace (ChargeStateIterate_loop fuel cfg hw ev w).world.log = shutdownTrace w.log := by
  induction fuel generalizing w with
  | zero => exact ⟨hn, h, rfl⟩
  | succ n ih =>
    have hnode : w.gCurrentChargeState.state_node = w.gCurrentChargeState.current_state := hn
    have hns : w.gCurrentChargeState.state_node ≠ kChargeStateShutdown := by
      intro hc
      rw [hnode] at hc
      rw [hc] at h
      exact absurd h (by decide)
    have hst := chargeStateProc_shutdownTrace w.gCurrentChargeState.state_node cfg hw ev
      (emit (.call_state w.gCurrentChargeState.state_node) w) hns
    have hst' : shutdownTrace (chargeStateProc w.gCurrentChargeState.state_node cfg hw ev
        (emit (.call_state w.gCurrentChargeState.state_node) w)).2.log = shutdownTrace w.log := by
      rw [hst]
      simp [shutdownTrace]
    rw [ChargeStateIterate_loop_succ]
    split
    · refine ⟨nodeMatches_chargeStateProc _ _ _ _ _ (by simpa [nodeMatches] using hn), ?_, ?_⟩
      · simpa using h
      · simpa using hst'
    · have hnx := chargeStateProc_fst_not_inShutdown w.gCurrentChargeState.state_node cfg hw ev
        (emit (.call_state w.gCurrentChargeState.state_node) w) (by rw [hnode]; exact h)
      obtain ⟨i1, i2, i3⟩ := ih (assignState
        (chargeStateProc w.gCurrentChargeState.state_node cfg hw ev
          (emit (.call_state w.gCurrentChargeState.state_node) w)).1
        (chargeStateProc w.gCurrentChargeState.state_node cfg hw ev
          (emit (.call_state w.gCurrentChargeState.state_node) w)).2)
        (nodeMatches_assignState _ _) (by simpa using hnx)
      refine ⟨i1, i2, ?_⟩
      rw [i3]
      simp only [assignState_log, shutdownTrace_append, hst']
      simp [shutdownTrace]

theorem jumpOrKeep_of_eq (w w' : World)
    (h1 : w'.gCurrentChargeState.current_state = w.gCurrentChargeState.current_state)
    (h2 : jumpTrace w'.log = jumpTrace w.log) : jumpOrKeep w w' :=
  Or.inl ⟨h1, h2⟩

theorem jumpOrKeep_trans (a b c : World) (h1 : jumpOrKeep a b) (h2 : jumpOrKeep b c) :
    jumpOrKeep a c := by
  rcases h1 with ⟨s1, t1⟩ | ⟨n1, s1, r1, t1⟩
  · rcases h2 with ⟨s2, t2⟩ | ⟨n2, s2, r2, t2⟩
    · exact Or.inl ⟨by rw [s2, s1], by rw [t2, t1]⟩
    · exact Or.inr ⟨by rw [← s1]; exact n2, s2, r2, by rw [t2, t1]⟩
  · rcases h2 with ⟨s2, t2⟩ | ⟨n2, s2, r2, t2⟩
    · exact Or.inr ⟨n1, by rw [s2, s1], r1, by rw [t2, t1]⟩
    · rw [s1] at n2
      exact absurd n2 (by decide)

theorem jumpOrKeep_JumpToShutdownState (r : String) (w : World) :
    jumpOrKeep w (_JumpToShutdownState r w) := by
  cases h : inShutdown w.gCurrentChargeState.current_state
  · right
    rw [JumpToShutdownState_of_not_inShutdown r w h]
    exact ⟨h, rfl, r, by simp [emit]⟩
  · left
    rw [JumpToShutdownState_of_inShutdown r w h]
    exact ⟨rfl, rfl⟩

theorem jumpOrKeep_handle_charger_event_voltage (hw : Hardware) (ev : nyx_charger_event_t)
    (w : World) : jumpOrKeep w (handle_charger_event_voltage hw ev w) := by
  unfold handle_charger_event_voltage
  repeat' split
  all_goals first
    | exact jumpOrKeep_JumpToShutdownState _ _
    | exact Or.inl ⟨rfl, rfl⟩

theorem jumpOrKeep_handle_charger_event_temperature (cfg : chargeConfig_t) (hw : Hardware)
    (ev : nyx_charger_event_t) (w : World) :
    jumpOrKeep w (handle_charger_event_temperature cfg hw ev w) := by
  have hr : jumpOrKeep w (battery_read hw (hw.uninitialized w.clock) w).2 :=
    jumpOrKeep_of_eq _ _ (by simp) (by simp)
  simp only [handle_charger_event_temperature]
  repeat' split
  · exact jumpOrKeep_trans _ _ _ hr (jumpOrKeep_JumpToShutdownState _ _)
  · exact jumpOrKeep_of_eq _ _ (by simp) (by rw [TurnChargingOff_jumpTrace]; simp)
  · exact hr
  · exact Or.inl ⟨rfl, rfl⟩

theorem handle_charger_event_presence_chargeLog (fuel : Nat) (hw : Hardware)
    (ev : nyx_charger_event_t) (w : World) :
    chargeLog (handle_charger_event_presence fuel hw ev w).world.log = chargeLog w.log := by
  have h := (battery_state_iterate_frame fuel hw w).2.2.2.2
  unfold handle_charger_event_presence
  split
  · cases hb : battery_state_iterate fuel hw w with
    | returned v =>
      rw [hb] at h
      simp only [Outcome.world_returned] at h
      simp only [Outcome.bind_returned]
      split <;> simp [h]
    | running v =>
      rw [hb] at h
      simpa using h
  · rfl

/-- The rules of `handle_charger_event` make no shutdown request, and either keep
`current_state` and make no force-jump, or make one force-jump from outside the shutdown
chain into Shutdown, in which case they have returned. -/
theorem handle_charger_event_rules_jumpOrKeep (fuel : Nat) (cfg : chargeConfig_t)
    (hw : Hardware) (ev : nyx_charger_event_t) (w : World) :
    shutdownTrace (handle_charger_event_rules fuel cfg hw ev w).world.log =
      shutdownTrace w.log ∧
    jumpOrKeep w (handle_charger_event_rules fuel cfg hw ev w).world ∧
    ((handle_charger_event_rules fuel cfg hw ev w).isReturned = false →
      (handle_charger_event_rules fuel cfg hw ev w).world.gCurrentChargeState.current_state =
        w.gCurrentChargeState.current_state ∧
      jumpTrace (handle_charger_event_rules fuel cfg hw ev w).world.log = jumpTrace w.log) := by
  have hg := handle_charger_event_presence_gCurrentChargeState fuel hw ev w
  have hc := handle_charger_event_presence_chargeLog fuel hw ev w
  refine ⟨?_, ?_, ?_⟩
  · rw [← shutdownTrace_tableLog, handle_charger_event_rules_tableLog, shutdownTrace_tableLog]
  · unfold handle_charger_event_rules
    cases hb : handle_charger_event_presence fuel hw ev w with
    | returned v =>
      rw [hb] at hg hc
      simp only [Outcome.world_returned] at hg hc
      simp only [Outcome.bind_returned, Outcome.world_returned]
      exact jumpOrKeep_trans _ _ _
        (jumpOrKeep_trans _ _ _
          (jumpOrKeep_of_eq w v (by rw [hg]) (jumpTrace_eq_of_chargeLog _ _ hc))
          (jumpOrKeep_handle_charger_event_voltage hw ev v))
        (jumpOrKeep_handle_charger_event_temperature cfg hw ev _)
    | running v =>
      rw [hb] at hg hc
      simp only [Outcome.world_running] at hg hc
      simp only [Outcome.bind_running, Outcome.world_running]
      exact jumpOrKeep_of_eq w v (by rw [hg]) (jumpTrace_eq_of_chargeLog _ _ hc)
  · unfold handle_charger_event_rules
    cases hb : handle_charger_event_presence fuel hw ev w with
    | returned v => simp [Outcome.isReturned]
    | running v =>
      rw [hb] at hg hc
      simp only [Outcome.world_running] at hg hc
      intro _
      simp only [Outcome.bind_running, Outcome.world_running]
      exact ⟨by rw [hg], jumpTrace_eq_of_chargeLog _ _ hc⟩

theorem ChargingLogicUpdate_from_ShutdownWait (n : Nat) (cfg : chargeConfig_t) (hw : Hardware)
    (ev : nyx_charger_event_t) (w : World)
    (hn : w.gCurrentChargeState.state_node = kChargeStateShutdownWait)
    (hc : w.gCurrentChargeState.current_state = kChargeStateShutdownWait)
    (h1 : cfg.skip_battery_check = false) (h2 : cfg.disable_charging = false) :
    ∃ w', ChargingLogicUpdate (n + 1) cfg hw ev w = .returned w' ∧
      w'.gCurrentChargeState.current_state = kChargeStateShutdownWait ∧
      w'.gCurrentChargeState.state_node = kChargeStateShutdownWait ∧
      jumpTrace w'.log = jumpTrace w.log ∧ shutdownTrace w'.log = shutdownTrace w.log := by
  simp only [ChargingLogicUpdate, h1, h2, Bool.false_eq_true, if_false, ChargeStateIterate]
  rw [ChargeStateIterate_loop_ShutdownWait _ _ _ _ _ (by simp [hn])]
  simp only [Outcome.bind_returned, CheckCriticalLevels, h1, Bool.false_eq_true, if_false]
  split
  · simp only [if_true]
    rw [JumpToShutdownState_of_inShutdown _ _ (by simp [hc, inShutdown])]
    rw [ChargeStateIterate_loop_ShutdownWait _ _ _ _ _ (by simp [hn])]
    exact ⟨_, rfl, by simp [hc], by simp [hn], by simp [jumpTrace], by simp [shutdownTrace]⟩
  · exact ⟨_, rfl, by simp [hc], by simp [hn], by simp [jumpTrace], by simp [shutdownTrace]⟩

theorem ChargingLogicUpdate_from_Shutdown_traces (n : Nat) (cfg : chargeConfig_t)
    (hw : Hardware) (ev : nyx_charger_event_t) (w : World)
    (hn : w.gCurrentChargeState.state_node = kChargeStateShutdown)
    (h1 : cfg.skip_battery_check = false) (h2 : cfg.disable_charging = false) :
    ∃ w', ChargingLogicUpdate (n + 2) cfg hw ev w = .returned w' ∧
      w'.gCurrentChargeState.current_state = kChargeStateShutdownWait ∧
      w'.gCurrentChargeState.state_node = kChargeStateShutdownWait ∧
      jumpTrace w'.log = jumpTrace w.log ∧
      shutdownTrace w'.log = shutdownTrace w.log ++ [w.gCurrentChargeState.shutdown_reason] := by
  obtain ⟨w', hw', c1, c2, _, _, _, c6, c7⟩ :=
    ChargingLogicUpdate_from_Shutdown n cfg hw ev w hn h1 h2
  refine ⟨w', hw', c1, c2, ?_, ?_⟩
  · rw [← jumpTrace_machineLog, c7, jumpTrace_append, jumpTrace_machineLog]
    split <;> simp [jumpTrace]
  · rw [← shutdownTrace_chargeLog, c6, shutdownTrace_append, shutdownTrace_chargeLog]
    split <;> simp [shutdownTrace]

/-- `ChargingLogicUpdate` from outside the shutdown chain, both guards off, budget at least
two: either it stays outside the chain with no force-jump and no shutdown request, or it has
returned in ShutdownWait after one force-jump (battery removed) and one shutdown request. -/
theorem ChargingLogicUpdate_outside_shutdown (n : Nat) (cfg : chargeConfig_t) (hw : Hardware)
    (ev : nyx_charger_event_t) (w : World) (hn : nodeMatches w)
    (h : inShutdown w.gCurrentChargeState.current_state = false)
    (h1 : cfg.skip_battery_check = false) (h2 : cfg.disable_charging = false) :
    (nodeMatches (ChargingLogicUpdate (n + 2) cfg hw ev w).world ∧
      inShutdown (ChargingLogicUpdate (n + 2) cfg hw ev
        w).world.gCurrentChargeState.current_state = false ∧
      jumpTrace (ChargingLogicUpdate (n + 2) cfg hw ev w).world.log = jumpTrace w.log ∧
      shutdownTrace (ChargingLogicUpdate (n + 2) cfg hw ev w).world.log = shutdownTrace w.log) ∨
    (∃ w' r, ChargingLogicUpdate (n + 2) cfg hw ev w = .returned w' ∧
      w'.gCurrentChargeState.current_state = kChargeStateShutdownWait ∧
      w'.gCurrentChargeState.state_node = kChargeStateShutdownWait ∧
      jumpTrace w'.log = jumpTrace w.log ++ ["battery removed."] ∧
      shutdownTrace w'.log = shutdownTrace w.log ++ [r]) := by
  simp only [ChargingLogicUpdate, h1, h2, Bool.false_eq_true, if_false, ChargeStateIterate]
  generalize hX : (battery_read hw (hw.uninitialized
      (battery_read hw (hw.uninitialized w.clock) w).2.clock)
      (battery_read hw (hw.uninitialized w.clock) w).2).2 = X
  have x1 : X.gCurrentChargeState = w.gCurrentChargeState := by rw [← hX]; simp
  have x2 : X.log = w.log := by rw [← hX]; simp
  obtain ⟨l1, l2, l3⟩ := ChargeStateIterate_loop_outside_shutdown (n + 2) cfg hw ev X
    (nodeMatches_of_eq w X x1 hn) (by rw [x1]; exact h)
  have l4 := ChargeStateIterate_loop_jumpTrace (n + 2) cfg hw ev X
  rw [x2] at l3 l4
  cases hl : ChargeStateIterate_loop (n + 2) cfg hw ev X with
  | running y =>
    rw [hl] at l1 l2 l3 l4
    left
    simpa using ⟨l1, l2, l4, l3⟩
  | returned y =>
    rw [hl] at l1 l2 l3 l4
    simp only [Outcome.world_returned] at l1 l2 l3 l4
    simp only [Outcome.bind_returned, CheckCriticalLevels, h1, Bool.false_eq_true, if_false]
    by_cases hp : BatteryIsPresent y = true
    · left
      simp only [hp, Bool.not_true, Bool.false_eq_true, if_false, Outcome.world_returned]
      exact ⟨l1, l2, l4, l3⟩
    · right
      simp only [hp, Bool.not_false, if_true]
      rw [JumpToShutdownState_of_not_inShutdown _ _ l2]
      rw [ChargeStateIterate_loop_Shutdown _ _ _ _ _ (by simp)]
      refine ⟨_, "battery removed.", rfl, by simp, by simp, ?_, ?_⟩
      · rw [← jumpTrace_machineLog]
        simp only [emit_log, assignState_log, machineLog_append, StateShutdown_machineLog,
          battery_read_frame_log]
        simp only [jumpTrace_append, jumpTrace_machineLog, l4]
        simp [machineLog, Effect.isMachineStep, jumpTrace]
      · rw [← shutdownTrace_chargeLog]
        simp only [emit_log, assignState_log, chargeLog_append, StateShutdown_chargeLog,
          battery_read_frame_log]
        simp only [shutdownTrace_append, shutdownTrace_chargeLog, l3]
        simp [chargeLog, Effect.isChargingLogic, shutdownTrace]

/-- A dispatch from ShutdownWait, both guards off, budget at least one: it stays in
ShutdownWait and makes no force-jump and no shutdown request, whether or not it returns. -/
theorem handle_charger_event_in_ShutdownWait (n : Nat) (cfg : chargeConfig_t) (hw : Hardware)
    (ev : nyx_charger_event_t) (w : World)
    (hs : cfg.skip_battery_check = false) (hd : cfg.disable_charging = false)
    (hn : nodeMatches w)
    (hc : w.gCurrentChargeState.current_state = kChargeStateShutdownWait) :
    (handle_charger_event (n + 1) cfg hw ev w).world.gCurrentChargeState.current_state =
      kChargeStateShutdownWait ∧
    nodeMatches (handle_charger_event (n + 1) cfg hw ev w).world ∧
    jumpTrace (handle_charger_event (n + 1) cfg hw ev w).world.log = jumpTrace w.log ∧
    shutdownTrace (handle_charger_event (n + 1) cfg hw ev w).world.log =
      shutdownTrace w.log := by
  obtain ⟨r1, r2, _⟩ := handle_charger_event_rules_jumpOrKeep (n + 1) cfg hw ev w
  have r3 := nodeMatches_handle_charger_event_rules (n + 1) cfg hw ev w hn
  have hkeep : (handle_charger_event_rules (n + 1) cfg hw ev
      w).world.gCurrentChargeState.current_state = kChargeStateShutdownWait ∧
      jumpTrace (handle_charger_event_rules (n + 1) cfg hw ev w).world.log =
        jumpTrace w.log := by
    rcases r2 with ⟨s, t⟩ | ⟨ns, _⟩
    · exact ⟨by rw [s, hc], t⟩
    · rw [hc] at ns
      exact absurd ns (by decide)
  rw [handle_charger_event_eq_rules]
  cases hb : handle_charger_event_rules (n + 1) cfg hw ev w with
  | running u =>
    rw [hb] at r1 r3 hkeep
    simpa using ⟨hkeep.1, r3, hkeep.2, r1⟩
  | returned u =>
    rw [hb] at r1 r3 hkeep
    simp only [Outcome.world_returned] at r1 r3 hkeep
    obtain ⟨w', hw', c1, c2, c3, c4⟩ := ChargingLogicUpdate_from_ShutdownWait n cfg hw ev u
      (by rw [r3]; exact hkeep.1) hkeep.1 hs hd
    simp only [Outcome.bind_returned, hw', Outcome.world_returned]
    exact ⟨c1, by unfold nodeMatches; rw [c1, c2], by rw [c3, hkeep.2], by rw [c4, r1]⟩

/-- A dispatch from outside the shutdown chain, both guards off, budget at least two: either
it stays outside the chain with no force-jump and no shutdown request, or it has returned in
ShutdownWait after exactly one force-jump and exactly one shutdown request. -/
theorem handle_charger_event_outside_shutdown (n : Nat) (cfg : chargeConfig_t) (hw : Hardware)
    (ev : nyx_charger_event_t) (w : World)
    (hs : cfg.skip_battery_check = false) (hd : cfg.disable_charging = false)
    (hn : nodeMatches w) (hc : inShutdown w.gCurrentChargeState.current_state = false) :
    (nodeMatches (handle_charger_event (n + 2) cfg hw ev w).world ∧
      inShutdown (handle_charger_event (n + 2) cfg hw ev
        w).world.gCurrentChargeState.current_state = false ∧
      jumpTrace (handle_charger_event (n + 2) cfg hw ev w).world.log = jumpTrace w.log ∧
      shutdownTrace (handle_charger_event (n + 2) cfg hw ev w).world.log =
        shutdownTrace w.log) ∨
    ((handle_charger_event (n + 2) cfg hw ev w).isReturned = true ∧
      (handle_charger_event (n + 2) cfg hw ev w).world.gCurrentChargeState.current_state =
        kChargeStateShutdownWait ∧
      nodeMatches (handle_charger_event (n + 2) cfg hw ev w).world ∧
      ∃ r r', jumpTrace (handle_charger_event (n + 2) cfg hw ev w).world.log =
          jumpTrace w.log ++ [r] ∧
        shutdownTrace (handle_charger_event (n + 2) cfg hw ev w).world.log =
          shutdownTrace w.log ++ [r']) := by
  obtain ⟨r1, r2, r4⟩ := handle_charger_event_rules_jumpOrKeep (n + 2) cfg hw ev w
  have r3 := nodeMatches_handle_charger_event_rules (n + 2) cfg hw ev w hn
  rw [handle_charger_event_eq_rules]
  cases hb : handle_charger_event_rules (n + 2) cfg hw ev w with
  | running u =>
    rw [hb] at r1 r3 r4
    simp only [Outcome.world_running, Outcome.isReturned, true_implies] at r1 r3 r4
    left
    simp only [Outcome.bind_running, Outcome.world_running]
    exact ⟨r3, by rw [r4.1]; exact hc, r4.2, r1⟩
  | returned u =>
    rw [hb] at r1 r2 r3
    simp only [Outcome.world_returned] at r1 r2 r3
    simp only [Outcome.bind_returned]
    rcases r2 with ⟨s, t⟩ | ⟨_, s, r, t⟩
    · rcases ChargingLogicUpdate_outside_shutdown n cfg hw ev u r3 (by rw [s]; exact hc) hs hd
        with ⟨c1, c2, c3, c4⟩ | ⟨w', r', hw', c1, c2, c3, c4⟩
      · left
        exact ⟨c1, c2, by rw [c3, t], by rw [c4, r1]⟩
      · right
        rw [hw']
        simp only [Outcome.world_returned, Outcome.isReturned]
        exact ⟨trivial, c1, by unfold nodeMatches; rw [c1, c2], "battery removed.", r',
          by rw [c3, t], by rw [c4, r1]⟩
    · obtain ⟨w', hw', c1, c2, c3, c4⟩ := ChargingLogicUpdate_from_Shutdown_traces n cfg hw ev u
        (by rw [r3]; exact s) hs hd
      right
      rw [hw']
      simp only [Outcome.world_returned, Outcome.isReturned]
      exact ⟨trivial, c1, by unfold nodeMatches; rw [c1, c2], r,
        u.gCurrentChargeState.shutdown_reason, by rw [c3, t], by rw [c4, r1]⟩

theorem shutdownSettled_handle_charger_event (n : Nat) (cfg : chargeConfig_t) (hw : Hardware)
    (ev : nyx_charger_event_t) (w : World)
    (hs : cfg.skip_battery_check = false) (hd : cfg.disable_charging = false)
    (h : shutdownSettled w) :
    shutdownSettled (handle_charger_event (n + 2) cfg hw ev w).world := by
  obtain ⟨hn, h | h⟩ := h
  · obtain ⟨h1, h2, h3⟩ := h
    rcases handle_charger_event_outside_shutdown n cfg hw ev w hs hd hn h1 with
      ⟨c1, c2, c3, c4⟩ | ⟨_, c1, c2, r, r', c3, c4⟩
    · exact ⟨c1, Or.inl ⟨c2, by rw [c3, h2], by rw [c4, h3]⟩⟩
    · exact ⟨c2, Or.inr ⟨c1, by rw [c3, h2]; rfl, by rw [c4, h3]; rfl⟩⟩
  · obtain ⟨h1, h2, h3⟩ := h
    obtain ⟨c1, c2, c3, c4⟩ := handle_charger_event_in_ShutdownWait (n + 1) cfg hw ev w hs hd
      hn h1
    exact ⟨c2, Or.inr ⟨c1, by rw [c3, h2], by rw [c4, h3]⟩⟩

theorem shutdownSettled_dispatch_all (n : Nat) (cfg : chargeConfig_t)
    (inputs : List (Hardware × nyx_charger_event_t)) (w : World)
    (hs : cfg.skip_battery_check = false) (hd : cfg.disable_charging = false)
    (h : shutdownSettled w) :
    shutdownSettled (dispatch_all (n + 2) cfg inputs w).world := by
  induction inputs generalizing w with
  | nil => exact h
  | cons x rest ih =>
    obtain ⟨hw, ev⟩ := x
    have h1 := shutdownSettled_handle_charger_event n cfg hw ev w hs hd h
    simp only [dispatch_all]
    cases hc : handle_charger_event (n + 2) cfg hw ev w with
    | running v =>
      rw [hc] at h1
      simpa using h1
    | returned v =>
      rw [hc] at h1
      simp only [Outcome.world_returned] at h1
      simpa using ih v h1

theorem dispatch_all_in_ShutdownWait (n : Nat) (cfg : chargeConfig_t)
    (inputs : List (Hardware × nyx_charger_event_t)) (w : World)
    (hs : cfg.skip_battery_check = false) (hd : cfg.disable_charging = false)
    (hn : nodeMatches w)
    (hc : w.gCurrentChargeState.current_state = kChargeStateShutdownWait) :
    jumpTrace (dispatch_all (n + 1) cfg inputs w).world.log = jumpTrace w.log ∧
    shutdownTrace (dispatch_all (n + 1) cfg inputs w).world.log = shutdownTrace w.log := by
  induction inputs generalizing w with
  | nil => exact ⟨rfl, rfl⟩
  | cons x rest ih =>
    obtain ⟨hw, ev⟩ := x
    obtain ⟨c1, c2, c3, c4⟩ := handle_charger_event_in_ShutdownWait n cfg hw ev w hs hd hn hc
    simp only [dispatch_all]
    cases hh : handle_charger_event (n + 1) cfg hw ev w with
    | running v =>
      rw [hh] at c3 c4
      simpa using ⟨c3, c4⟩
    | returned v =>
      rw [hh] at c1 c2 c3 c4
      simp only [Outcome.world_returned] at c1 c2 c3 c4
      obtain ⟨i1, i2⟩ := ih v c2 c1
      simp only [Outcome.bind_returned]
      exact ⟨by rw [i1, c3], by rw [i2, c4]⟩

theorem shutdownSettled_boot (fuel : Nat) (hw : Hardware) :
    shutdownSettled (boot fuel hw).world := by
  have hg := boot_gCurrentChargeState fuel hw
  have hc : chargeLog (boot fuel hw).world.log = [.current_state kChargeStateIdle] := by
    have h := (battery_state_iterate_frame fuel hw
      (battery_state_init (ChargeStateInit hw World.zero))).2.2.2.2
    unfold boot batterypoll_init
    cases hb : battery_state_iterate fuel hw
        (battery_state_init (ChargeStateInit hw World.zero)) with
    | returned v =>
      rw [hb] at h
      simp only [Outcome.world_returned] at h
      simp only [Outcome.bind_returned, Outcome.world_returned, h]
      simp only [battery_state_init, ChargeStateInit, battery_get_ctia_params_frame_log,
        ChargeStateReset_frame_log, emit_log]
      rfl
    | running v =>
      rw [hb] at h
      simp only [Outcome.world_running] at h
      simp only [Outcome.bind_running, Outcome.world_running, h]
      simp only [battery_state_init, ChargeStateInit, battery_get_ctia_params_frame_log,
        ChargeStateReset_frame_log, emit_log]
      rfl
  refine ⟨nodeMatches_boot fuel hw, Or.inl ⟨by rw [hg]; rfl, ?_, ?_⟩⟩
  · rw [← jumpTrace_chargeLog, hc]
    rfl
  · rw [← shutdownTrace_chargeLog, hc]
    rfl

/-! ## C18: the shutdown request is made once -/

/-- C18: with both global guards off and a step budget of at least two, take any run of
dispatches from boot that has returned with no force-jump made so far.  Then no shutdown
request has been issued so far; and if the next dispatch makes a force-jump, that dispatch
returns having made exactly one force-jump and issued exactly one shutdown request
(`MachineShutdown`), and over every further run of dispatches, whether or not they return,
no further force-jump is made and no further shutdown request is issued. -/
theorem C18_shutdown_requested_exactly_once (n : Nat) (cfg : chargeConfig_t) (hw₀ : Hardware)
    (before : List (Hardware × nyx_charger_event_t)) (hw : Hardware)
    (ev : nyx_charger_event_t) (w : World)
    (hs : cfg.skip_battery_check = false) (hd : cfg.disable_charging = false)
    (hrun : (boot (n + 2) hw₀).bind (dispatch_all (n + 2) cfg before) = .returned w)
    (hnone : jumpTrace w.log = [])
    (hjump : jumpTrace (handle_charger_event (n + 2) cfg hw ev w).world.log ≠ []) :
    shutdownTrace w.log = [] ∧
    (handle_charger_event (n + 2) cfg hw ev w).isReturned = true ∧
    (jumpTrace (handle_charger_event (n + 2) cfg hw ev w).world.log).length = 1 ∧
    (shutdownTrace (handle_charger_event (n + 2) cfg hw ev w).world.log).length = 1 ∧
    ∀ later : List (Hardware × nyx_charger_event_t),
      shutdownTrace (dispatch_all (n + 2) cfg later
          (handle_charger_event (n + 2) cfg hw ev w).world).world.log =
        shutdownTrace (handle_charger_event (n + 2) cfg hw ev w).world.log ∧
      jumpTrace (dispatch_all (n + 2) cfg later
          (handle_charger_event (n + 2) cfg hw ev w).world).world.log =
        jumpTrace (handle_charger_event (n + 2) cfg hw ev w).world.log := by
  have hset : shutdownSettled w := by
    have hb := shutdownSettled_boot (n + 2) hw₀
    cases hboot : boot (n + 2) hw₀ with
    | running b => simp [hboot] at hrun
    | returned b =>
      rw [hboot] at hb hrun
      simp only [Outcome.world_returned] at hb
      simp only [Outcome.bind_returned] at hrun
      have := shutdownSettled_dispatch_all n cfg before b hs hd hb
      rw [hrun] at this
      exact this
  obtain ⟨hn, h | h⟩ := hset
  · obtain ⟨h1, _, h3⟩ := h
    rcases handle_charger_event_outside_shutdown n cfg hw ev w hs hd hn h1 with
      ⟨_, _, c3, _⟩ | ⟨c0, c1, c2, r, r', c3, c4⟩
    · rw [c3] at hjump
      exact absurd hnone hjump
    · refine ⟨h3, c0, by rw [c3, hnone]; rfl, by rw [c4, h3]; rfl, fun later => ?_⟩
      obtain ⟨i1, i2⟩ := dispatch_all_in_ShutdownWait (n + 1) cfg later _ hs hd c2 c1
      exact ⟨i2, i1⟩
  · rw [hnone] at h
    exact absurd h.2.1 (by decide)

theorem C18_shutdown_requested_exactly_once_witness :
    defaultConfig.skip_battery_check = false ∧ defaultConfig.disable_charging = false ∧
    (boot (2 + 2) hwHot).bind (dispatch_all (2 + 2) defaultConfig [(hwHot, NYX_NO_NEW_EVENT)]) =
      .returned beforeJump ∧
    jumpTrace beforeJump.log = [] ∧
    jumpTrace (handle_charger_event (2 + 2) defaultConfig hwHot eventCriticalVoltage
      beforeJump).world.log ≠ [] ∧
    (shutdownTrace beforeJump.log = [] ∧
    (handle_charger_event (2 + 2) defaultConfig hwHot eventCriticalVoltage
      beforeJump).isReturned = true ∧
    (jumpTrace (handle_charger_event (2 + 2) defaultConfig hwHot eventCriticalVoltage
      beforeJump).world.log).length = 1 ∧
    (shutdownTrace (handle_charger_event (2 + 2) defaultConfig hwHot eventCriticalVoltage
      beforeJump).world.log).length = 1 ∧
    ∀ later : List (Hardware × nyx_charger_event_t),
      shutdownTrace (dispatch_all (2 + 2) defaultConfig later
          (handle_charger_event (2 + 2) defaultConfig hwHot eventCriticalVoltage
            beforeJump).world).world.log =
        shutdownTrace (handle_charger_event (2 + 2) defaultConfig hwHot eventCriticalVoltage
          beforeJump).world.log ∧
      jumpTrace (dispatch_all (2 + 2) defaultConfig later
          (handle_charger_event (2 + 2) defaultConfig hwHot eventCriticalVoltage
            beforeJump).world).world.log =
        jumpTrace (handle_charger_event (2 + 2) defaultConfig hwHot eventCriticalVoltage
          beforeJump).world.log) :=
  ⟨rfl, rfl, by decide!, by decide!, by decide!,
    C18_shutdown_requested_exactly_once 2 defaultConfig hwHot [(hwHot, NYX_NO_NEW_EVENT)] hwHot
      eventCriticalVoltage beforeJump rfl rfl (by decide!) (by decide!) (by decide!)⟩

/-! ## C21: the return value of the wait functions -/

/-- C21 (the code when the wait fails): in the wait-forever form (delta with tv_sec = -1, or
`WaitObjectWait` with negative `ms`) the function returns `ret != 0`: for every non-zero
code of `pthread_cond_wait`, for instance EINVAL = 22, the result is 1, the value that means
timed out, and `g_error` is not called.  The absolute wait, and the relative wait that
delegates to it, return 1 for ETIMEDOUT, 0 for 0 and -1 (after `g_error`) for every other
code. -/
theorem C21_wait_forever_reports_errors_as_timeout (os : WaitSystem) (t : timespec)
    (nsec : Int) :
    WaitObjectWaitTimeSpec os { tv_sec := -1, tv_nsec := nsec } =
      { ret := if os.pthread_cond_wait = 0 then 0 else 1, g_error := false } ∧
    WaitObjectWaitTimeSpec (waitFailing 22) { tv_sec := -1, tv_nsec := 0 } =
      { ret := 1, g_error := false } ∧
    WaitObjectWait (WaitObjectWaitTimeSpec (waitFailing 22)) (-1) =
      { ret := 1, g_error := false } ∧
    (22 : Int) ≠ 0 ∧ (22 : Int) ≠ ETIMEDOUT ∧
    WaitObjectWaitAbsTime (waitFailing 22) t = { ret := -1, g_error := true } ∧
    WaitObjectWaitAbsTime os t =
      (if os.pthread_cond_timedwait t = ETIMEDOUT then { ret := 1, g_error := false }
        else if os.pthread_cond_timedwait t = 0 then { ret := 0, g_error := false }
        else { ret := -1, g_error := true }) := by
  refine ⟨?_, by decide, by decide, by decide, by decide, rfl, ?_⟩
  · by_cases h : os.pthread_cond_wait = 0 <;> simp [WaitObjectWaitTimeSpec, h]
  · unfold WaitObjectWaitAbsTime
    by_cases h1 : os.pthread_cond_timedwait t = ETIMEDOUT
    · simp [h1]
    · by_cases h2 : os.pthread_cond_timedwait t = 0
      · simp [h2, ETIMEDOUT]
      · have h1' : ¬ ETIMEDOUT = os.pthread_cond_timedwait t := fun h => h1 h.symm
        have h2' : ¬ (0 : Int) = os.pthread_cond_timedwait t := fun h => h2 h.symm
        simp [h1, h2, h1', h2']

/-! ## C22: the battery percentage shown to the user -/

theorem getUiPercent_eq (p : Int) :
    getUiPercent p = Int.tdiv (min (max p 0) 95 * 100) 95 := by
  unfold getUiPercent
  simp only [sub_zero]
  by_cases h1 : p < 0
  · rw [if_pos h1, max_eq_right (le_of_lt h1)]
    rfl
  · rw [if_neg h1, max_eq_left (not_lt.mp h1)]
    by_cases h2 : p > 95
    · rw [if_pos h2, min_eq_right (le_of_lt h2)]
    · rw [if_neg h2, min_eq_left (not_lt.mp h2)]

theorem getUiPercent_of_range (p : Int) (h0 : 0 ≤ p) (h1 : p ≤ 95) :
    getUiPercent p = p * 100 / 95 := by
  rw [getUiPercent_eq, max_eq_left h0, min_eq_left h1, Int.tdiv_eq_ediv (by omega) (by decide)]

/-- C22: for every integer p, `getUiPercent p` is min(max(p, 0), 95) * 100 / 95 with
truncating division; the result lies in [0, 100]; every p >= 95 gives 100 and every p <= 0
gives 0; and for 0 <= p <= 100 the result is not below p. -/
theorem C22_ui_percent (p : Int) :
    getUiPercent p = Int.tdiv (min (max p 0) 95 * 100) 95 ∧
    0 ≤ getUiPercent p ∧ getUiPercent p ≤ 100 ∧
    (95 ≤ p → getUiPercent p = 100) ∧
    (p ≤ 0 → getUiPercent p = 0) ∧
    (0 ≤ p ∧ p ≤ 100 → p ≤ getUiPercent p) := by
  have hlow : p ≤ 0 → getUiPercent p = 0 := by
    intro h
    rw [getUiPercent_eq, max_eq_right h]
    rfl
  have hhigh : 95 ≤ p → getUiPercent p = 100 := by
    intro h
    rw [getUiPercent_eq, max_eq_left (by omega), min_eq_right h]
    rfl
  have hmid : 0 ≤ p → p ≤ 95 → p ≤ getUiPercent p ∧ getUiPercent p ≤ 100 := by
    intro h0 h1
    rw [getUiPercent_of_range p h0 h1]
    constructor <;> omega
  refine ⟨getUiPercent_eq p, ?_, ?_, hhigh, hlow, ?_⟩
  · rcases le_or_lt p 0 with h | h
    · rw [hlow h]
    · rcases le_or_lt 95 p with h' | h'
      · rw [hhigh h']
        decide
      · exact le_trans (le_of_lt h) (hmid (le_of_lt h) (le_of_lt h')).1
  · rcases le_or_lt p 0 with h | h
    · rw [hlow h]
      decide
    · rcases le_or_lt 95 p with h' | h'
      · rw [hhigh h']
      · exact (hmid (le_of_lt h) (le_of_lt h')).2
  · rintro ⟨h0, h100⟩
    rcases le_or_lt 95 p with h' | h'
    · rw [hhigh h']
      exact h100
    · exact (hmid h0 (le_of_lt h')).1

theorem C22_ui_percent_witness :
    (95 : Int) ≤ 97 ∧ getUiPercent 97 = 100 ∧ (-3 : Int) ≤ 0 ∧ getUiPercent (-3) = 0 ∧
    ((0 : Int) ≤ 50 ∧ (50 : Int) ≤ 100) ∧ (50 : Int) ≤ getUiPercent 50 :=
  ⟨by decide, (C22_ui_percent 97).2.2.2.1 (by decide), by decide,
    (C22_ui_percent (-3)).2.2.2.2.1 (by decide), ⟨by decide, by decide⟩,
    (C22_ui_percent 50).2.2.2.2.2 ⟨by decide, by decide⟩⟩

/-! ## C25: when a sample is reported -/

/-- C25: `sample_is_new s` returns true iff the percentage of `s` differs from that of the
last reported sample or the temperatures differ by more than 1; the last reported sample
becomes `s` exactly when it returns true and is otherwise unchanged, as is every other part
of the state; and a second call with the same sample right after a true result returns
false. -/
theorem C25_sample_is_new (s : nyx_battery_status_t) (w : World) :
    ((sample_is_new s w).1 = true ↔
      s.percentage ≠ w.last.percentage ∨ |s.temperature - w.last.temperature| > 1) ∧
    (sample_is_new s w).2 = (if (sample_is_new s w).1 then { w with last := s } else w) ∧
    ((sample_is_new s w).1 = true → (sample_is_new s (sample_is_new s w).2).1 = false) := by
  have key : (sample_is_new s w).1 = true ↔
      s.percentage ≠ w.last.percentage ∨ |s.temperature - w.last.temperature| > 1 := by
    simp only [sample_is_new]
    split
    · next h =>
      simp only [Bool.or_eq_true, decide_eq_true_eq] at h
      simp only [true_iff]
      rcases h with h | h
      · left
        intro he
        rw [he] at h
        simp at h
      · exact Or.inr h
    · next h =>
      simp only [Bool.or_eq_true, decide_eq_true_eq, not_or] at h
      simp only [Bool.false_eq_true, false_iff, not_or]
      refine ⟨?_, h.2⟩
      intro hne
      apply h.1
      exact abs_pos.mpr (sub_ne_zero.mpr (fun he => hne he))
  refine ⟨key, ?_, ?_⟩
  · simp only [sample_is_new]
    split <;> simp
  · intro h
    have h2 : (sample_is_new s w).2 = { w with last := s } := by
      simp only [sample_is_new] at h ⊢
      split
      · rfl
      · next hc =>
        rw [if_neg hc] at h
        exact absurd h (by simp)
    rw [h2]
    simp [sample_is_new]

theorem C25_sample_is_new_witness :
    (sample_is_new warmReading World.zero).1 = true ∧
    (sample_is_new warmReading (sample_is_new warmReading World.zero).2).1 = false :=
  ⟨by decide!, (C25_sample_is_new warmReading World.zero).2.2 (by decide!)⟩

/-! ## C26: the discharge-while-charging counter -/

theorem StateAuthenticOrNot_discharge_count (hw : Hardware) (w : World) :
    (StateAuthenticOrNot hw w).2.discharge_count =
      if ChargerIsCharging hw = true ∧
          (battery_read hw (hw.uninitialized w.clock) w).1.current ≤ 0 then
        (if w.discharge_count + 1 = MAX_DISCHARGE_COUNT then 0 else w.discharge_count + 1)
      else 0 := by
  simp only [StateAuthenticOrNot]
  by_cases hc : ChargerIsCharging hw = true ∧
      (battery_read hw (hw.uninitialized w.clock) w).1.current ≤ 0
  · simp only [hc, and_self, if_true, decide_True, Bool.and_self]
    simp only [battery_read_frame_discharge_count]
    by_cases h25 : w.discharge_count + 1 = MAX_DISCHARGE_COUNT
    · simp only [h25, if_true]
      repeat' split
      all_goals simp
    · simp only [h25, if_false]
      repeat' split
      all_goals simp
  · rw [if_neg hc]
    have hc' : (ChargerIsCharging hw &&
        decide ((battery_read hw (hw.uninitialized w.clock) w).1.current ≤ 0)) = false := by
      simpa using hc
    simp only [hc', Bool.false_eq_true, if_false]
    have h0 : ¬ (0 : Int) = MAX_DISCHARGE_COUNT := by decide
    simp only [h0, if_false]
    repeat' split
    all_goals simp

theorem battery_read_fst_clock (hw : Hardware) (s : nyx_battery_status_t) (w w' : World)
    (h : w.clock = w'.clock) : (battery_read hw s w).1 = (battery_read hw s w').1 := by
  unfold battery_read
  rw [h]
  repeat' split
  all_goals simp_all

theorem StateAuthenticOrNot_fst (hw : Hardware) (w : World) :
    (StateAuthenticOrNot hw w).1 =
      if (battery_read hw (hw.uninitialized w.clock) w).1.present then kBatteryLast
      else kBatteryDebounce := by
  simp only [StateAuthenticOrNot]
  cases (battery_read hw (hw.uninitialized w.clock) w).1.present <;> simp

theorem dischargeBounded_of_eq (w w' : World) (h : w'.discharge_count = w.discharge_count)
    (hb : dischargeBounded w) : dischargeBounded w' := by
  unfold dischargeBounded at *
  rw [h]
  exact hb

theorem dischargeBounded_StateAuthenticOrNot (hw : Hardware) (w : World)
    (hb : dischargeBounded w) : dischargeBounded (StateAuthenticOrNot hw w).2 := by
  unfold dischargeBounded at *
  rw [StateAuthenticOrNot_discharge_count]
  unfold MAX_DISCHARGE_COUNT at *
  split
  · split <;> omega
  · omega

theorem dischargeBounded_batteryStateProc (s : BatteryState) (hw : Hardware) (w : World)
    (hb : dischargeBounded w) : dischargeBounded (batteryStateProc s hw w).2 := by
  cases s <;> simp only [batteryStateProc]
  · exact dischargeBounded_of_eq w _ (by simp) hb
  · exact dischargeBounded_of_eq w _ (by simp) hb
  · exact dischargeBounded_of_eq w _ (by simp) hb
  · exact dischargeBounded_StateAuthenticOrNot hw w hb
  · simp only [StateNotAuthentic]
    split
    · exact dischargeBounded_of_eq w _ (by simp) hb
    · exact dischargeBounded_StateAuthenticOrNot hw _
        (dischargeBounded_of_eq w _ (by simp) hb)
  · exact hb

theorem dischargeBounded_battery_state_iterate (fuel : Nat) (hw : Hardware) (w : World)
    (hb : dischargeBounded w) : dischargeBounded (battery_state_iterate fuel hw w).world := by
  induction fuel generalizing w with
  | zero => exact hb
  | succ n ih =>
    have h1 := dischargeBounded_batteryStateProc w.state_node hw
      (emit (.call_battery_state w.state_node) w) (dischargeBounded_of_eq w _ rfl hb)
    simp only [battery_state_iterate]
    split
    · exact ih _ (dischargeBounded_of_eq _ _ rfl h1)
    · exact h1

theorem ChargingLogicUpdate_discharge_count (fuel : Nat) (cfg : chargeConfig_t) (hw : Hardware)
    (ev : nyx_charger_event_t) (w : World) :
    (ChargingLogicUpdate fuel cfg hw ev w).world.discharge_count = w.discharge_count := by
  simp only [ChargingLogicUpdate]
  split
  · rfl
  · split
    · simp
    · simp only [ChargeStateIterate]
      have h1 := (ChargeStateIterate_loop_presence fuel cfg hw ev
        (battery_read hw (hw.uninitialized
          (battery_read hw (hw.uninitialized w.clock) w).2.clock)
          (battery_read hw (hw.uninitialized w.clock) w).2).2).2.2
      cases hl : ChargeStateIterate_loop fuel cfg hw ev (battery_read hw (hw.uninitialized
          (battery_read hw (hw.uninitialized w.clock) w).2.clock)
          (battery_read hw (hw.uninitialized w.clock) w).2).2 with
      | running y =>
        rw [hl] at h1
        simpa using h1
      | returned y =>
        rw [hl] at h1
        simp only [Outcome.world_returned, battery_read_frame_discharge_count] at h1
        simp only [Outcome.bind_returned]
        split
        · rw [(ChargeStateIterate_loop_presence fuel cfg hw ev _).2.2]
          simp [h1]
        · simp [h1]

theorem handle_charger_event_voltage_discharge_count (hw : Hardware)
    (ev : nyx_charger_event_t) (w : World) :
    (handle_charger_event_voltage hw ev w).discharge_count = w.discharge_count := by
  unfold handle_charger_event_voltage
  repeat' split
  all_goals simp

theorem handle_charger_event_temperature_discharge_count (cfg : chargeConfig_t)
    (hw : Hardware) (ev : nyx_charger_event_t) (w : World) :
    (handle_charger_event_temperature cfg hw ev w).discharge_count = w.discharge_count := by
  simp only [handle_charger_event_temperature]
  repeat' split
  all_goals simp

theorem dischargeBounded_handle_charger_event (fuel : Nat) (cfg : chargeConfig_t)
    (hw : Hardware) (ev : nyx_charger_event_t) (w : World) (hb : dischargeBounded w) :
    dischargeBounded (handle_charger_event fuel cfg hw ev w).world := by
  have hrules : ∀ v : World, dischargeBounded v →
      dischargeBounded (handle_charger_event_temperature cfg hw ev
        (handle_charger_event_voltage hw ev v)) := fun v hv =>
    dischargeBounded_of_eq v _ (by
      rw [handle_charger_event_temperature_discharge_count,
        handle_charger_event_voltage_discharge_count]) hv
  have hp : dischargeBounded (handle_charger_event_rules fuel cfg hw ev w).world := by
    have h1 := dischargeBounded_battery_state_iterate fuel hw w hb
    unfold handle_charger_event_rules handle_charger_event_presence
    split
    · cases hi : battery_state_iterate fuel hw w with
      | running v =>
        rw [hi] at h1
        simpa using h1
      | returned v =>
        rw [hi] at h1
        simp only [Outcome.world_returned] at h1
        simp only [Outcome.bind_returned]
        split
        · exact hrules _ (dischargeBounded_of_eq v _ (by simp) h1)
        · exact hrules _ h1
    · exact hrules _ hb
  rw [handle_charger_event_eq_rules]
  cases hr : handle_charger_event_rules fuel cfg hw ev w with
  | running u =>
    rw [hr] at hp
    simpa using hp
  | returned u =>
    rw [hr] at hp
    simp only [Outcome.world_returned] at hp
    simp only [Outcome.bind_returned]
    exact dischargeBounded_of_eq u _ (ChargingLogicUpdate_discharge_count fuel cfg hw ev u) hp

theorem dischargeBounded_dispatch_all (fuel : Nat) (cfg : chargeConfig_t)
    (inputs : List (Hardware × nyx_charger_event_t)) (w : World) (hb : dischargeBounded w) :
    dischargeBounded (dispatch_all fuel cfg inputs w).world := by
  induction inputs generalizing w with
  | nil => exact hb
  | cons x rest ih =>
    obtain ⟨hw, ev⟩ := x
    have h1 := dischargeBounded_handle_charger_event fuel cfg hw ev w hb
    simp only [dispatch_all]
    cases hc : handle_charger_event fuel cfg hw ev w with
    | running v =>
      rw [hc] at h1
      simpa using h1
    | returned v =>
      rw [hc] at h1
      simp only [Outcome.world_returned] at h1
      simpa using ih v h1

theorem dischargeBounded_boot (fuel : Nat) (hw : Hardware) :
    dischargeBounded (boot fuel hw).world := by
  have h0 : dischargeBounded (battery_state_init (ChargeStateInit hw World.zero)) := by
    unfold dischargeBounded
    simp only [battery_state_init, ChargeStateInit_frame_discharge_count]
    decide
  have h1 := dischargeBounded_battery_state_iterate fuel hw _ h0
  unfold boot batterypoll_init
  cases hi : battery_state_iterate fuel hw (battery_state_init (ChargeStateInit hw World.zero)) with
  | running v =>
    rw [hi] at h1
    simpa using h1
  | returned v =>
    simp only [Outcome.bind_returned, Outcome.world_returned]
    exact ⟨le_refl _, by simp [MAX_DISCHARGE_COUNT]⟩

/-- C26: when the counter is within its bounds before an execution of `StateAuthenticOrNot`
(0 <= discharge_count < 25), it is within them after it; it is 0 after any sample where the
charger is not charging or the current is positive; on the sample that takes it to 25 it is
reset to 0; and the value returned (the next presence state) and the charge runtime,
`charging_enabled` included, are the same for every value of the counter.  The bounds hold
after boot and after every run of dispatches from boot. -/
theorem C26_discharge_counter_is_diagnostic (hw : Hardware) (w : World)
    (hb : dischargeBounded w) :
    (0 ≤ (StateAuthenticOrNot hw w).2.discharge_count ∧
      (StateAuthenticOrNot hw w).2.discharge_count < 25) ∧
    (ChargerIsCharging hw = false ∨
        0 < (battery_read hw (hw.uninitialized w.clock) w).1.current →
      (StateAuthenticOrNot hw w).2.discharge_count = 0) ∧
    (ChargerIsCharging hw = true →
      (battery_read hw (hw.uninitialized w.clock) w).1.current ≤ 0 →
      w.discharge_count + 1 = 25 → (StateAuthenticOrNot hw w).2.discharge_count = 0) ∧
    (∀ k : Int,
      (StateAuthenticOrNot hw { w with discharge_count := k }).1 =
        (StateAuthenticOrNot hw w).1 ∧
      (StateAuthenticOrNot hw { w with discharge_count := k }).2.gCurrentChargeState =
        w.gCurrentChargeState ∧
      (StateAuthenticOrNot hw w).2.gCurrentChargeState = w.gCurrentChargeState) ∧
    (∀ (fuel : Nat) (cfg : chargeConfig_t) (hw₀ : Hardware)
        (inputs : List (Hardware × nyx_charger_event_t)),
      dischargeBounded ((boot fuel hw₀).bind (dispatch_all fuel cfg inputs)).world) := by
  refine ⟨dischargeBounded_StateAuthenticOrNot hw w hb, ?_, ?_, ?_, ?_⟩
  · intro h
    rw [StateAuthenticOrNot_discharge_count, if_neg]
    rintro ⟨h1, h2⟩
    rcases h with h | h
    · rw [h1] at h
      exact absurd h (by decide)
    · omega
  · intro h1 h2 h3
    rw [StateAuthenticOrNot_discharge_count, if_pos ⟨h1, h2⟩, if_pos (by
      unfold MAX_DISCHARGE_COUNT
      exact h3)]
  · intro k
    refine ⟨?_, by simp, by simp⟩
    rw [StateAuthenticOrNot_fst, StateAuthenticOrNot_fst,
      battery_read_fst_clock hw _ { w with discharge_count := k } w rfl]
  · intro fuel cfg hw₀ inputs
    have hb0 := dischargeBounded_boot fuel hw₀
    cases hboot : boot fuel hw₀ with
    | running b =>
      rw [hboot] at hb0
      simpa using hb0
    | returned b =>
      rw [hboot] at hb0
      simp only [Outcome.world_returned] at hb0
      simpa using dischargeBounded_dispatch_all fuel cfg inputs b hb0

theorem C26_discharge_counter_is_diagnostic_witness :
    dischargeBounded bootCharging ∧
    (0 ≤ (StateAuthenticOrNot (hwCharging 1000) bootCharging).2.discharge_count ∧
      (StateAuthenticOrNot (hwCharging 1000) bootCharging).2.discharge_count < 25) ∧
    (StateAuthenticOrNot (hwCharging 1000) bootCharging).2.discharge_count = 0 :=
  ⟨by decide!,
    (C26_discharge_counter_is_diagnostic (hwCharging 1000) bootCharging (by decide!)).1,
    (C26_discharge_counter_is_diagnostic (hwCharging 1000) bootCharging (by decide!)).2.1
      (Or.inr (by decide!))⟩

/-! ## C24: the presence machine reaches its fixed point -/

@[simp] theorem presenceCallTrace_append (l₁ l₂ : List Effect) :
    presenceCallTrace (l₁ ++ l₂) = presenceCallTrace l₁ ++ presenceCallTrace l₂ := by
  simp [presenceCallTrace]

@[simp] theorem sendBatteryStatus_presenceCallTrace (hw : Hardware) (w : World) :
    presenceCallTrace (sendBatteryStatus hw w).log = presenceCallTrace w.log := by
  unfold sendBatteryStatus
  split
  · rfl
  · simp [emit, tick, presenceCallTrace]

@[simp] theorem battery_search_presenceCallTrace (b : Bool) (w : World) :
    presenceCallTrace (battery_search b w).log = presenceCallTrace w.log := by
  simp [battery_search, presenceCallTrace]

theorem batteryStateProc_presenceCallTrace (s : BatteryState) (hw : Hardware) (w : World) :
    presenceCallTrace (batteryStateProc s hw w).2.log = presenceCallTrace w.log := by
  cases s <;>
    simp only [batteryStateProc, StateRemoved, StateDebounce, StateInserted, StateAuthentic,
      StateNotAuthentic, StateAuthenticOrNot] <;>
    (repeat' split) <;> simp

/-- On fixed hardware the presence loop returns within the rank of its starting state; it
executes at least one and at most that many state functions, and the last one executed is
the function of the final node and returned `kBatteryLast`. -/
theorem battery_state_iterate_fixed_trace (bd : Bool) (rd : Option nyx_battery_status_t)
    (g : nyx_battery_status_t) (a e : Bool) (c : Option nyx_battery_ctia_t)
    (cs : nyx_charger_status_t) (fpu : DoubleArith) (fuel : Nat) (w : World)
    (hr : presenceRank (fixedReading bd rd g).present
      (w.battery_ctia_params.skip_battery_authentication || a) w.state_node ≤ fuel) :
    ∃ w' calls, battery_state_iterate fuel (Hardware.fixed bd rd g a e c cs fpu) w =
        .returned w' ∧
      presenceCallTrace w'.log = presenceCallTrace w.log ++ calls ∧
      1 ≤ calls.length ∧
      calls.length ≤ presenceRank (fixedReading bd rd g).present
        (w.battery_ctia_params.skip_battery_authentication || a) w.state_node ∧
      ∃ v, v.state_node = w'.state_node ∧
        batteryStateProc v.state_node (Hardware.fixed bd rd g a e c cs fpu)
          (emit (.call_battery_state v.state_node) v) = (kBatteryLast, w') := by
  induction fuel generalizing w with
  | zero =>
    have := presenceRank_pos (fixedReading bd rd g).present
      (w.battery_ctia_params.skip_battery_authentication || a) w.state_node
    omega
  | succ n ih =>
    have hf := batteryStateProc_fixed_fst bd rd g a e c cs fpu w.state_node
      (emit (.call_battery_state w.state_node) w)
    simp only [emit_frame_debounce_bad, emit_frame_battery_ctia_params] at hf
    have ht := batteryStateProc_presenceCallTrace w.state_node
      (Hardware.fixed bd rd g a e c cs fpu) (emit (.call_battery_state w.state_node) w)
    have ht' : presenceCallTrace (batteryStateProc w.state_node
        (Hardware.fixed bd rd g a e c cs fpu)
        (emit (.call_battery_state w.state_node) w)).2.log =
        presenceCallTrace w.log ++ [w.state_node] := by
      rw [ht]
      simp [presenceCallTrace]
    simp only [battery_state_iterate]
    split
    · rename_i hne
      rw [hf] at hne
      have hdec := presenceRank_decreases _ _ _ _ (by simpa using hne)
      obtain ⟨w', calls, h1, h2, h3, h4, h5⟩ := ih
        { (batteryStateProc w.state_node (Hardware.fixed bd rd g a e c cs fpu)
            (emit (.call_battery_state w.state_node) w)).2 with
          state_node := (batteryStateProc w.state_node (Hardware.fixed bd rd g a e c cs fpu)
            (emit (.call_battery_state w.state_node) w)).1 } (by
        simp only [batteryStateProc_frame_battery_ctia_params, emit_frame_battery_ctia_params]
        rw [hf]
        omega)
      simp only [batteryStateProc_frame_battery_ctia_params, emit_frame_battery_ctia_params,
        hf] at h4
      refine ⟨w', w.state_node :: calls, h1, ?_, by simp, ?_, h5⟩
      · rw [h2]
        simp only [ht']
        simp
      · simp only [List.length_cons]
        omega
    · rename_i hl
      have hl' : (batteryStateProc w.state_node (Hardware.fixed bd rd g a e c cs fpu)
          (emit (.call_battery_state w.state_node) w)).1 = kBatteryLast := by
        simpa using hl
      refine ⟨_, [w.state_node], rfl, ht', by simp, ?_, w, by simp, ?_⟩
      · have := presenceRank_pos (fixedReading bd rd g).present
          (w.battery_ctia_params.skip_battery_authentication || a) w.state_node
        simpa using this
      · exact Prod.ext hl' rfl

/-- C24: for every starting presence state, every value of the debounce counter (every
world `w`), and every battery reading and authentication result held fixed during the call,
`battery_state_iterate` returns within any budget of at least four state-function
executions; it executes at least one and at most four state functions (so at most three
transitions), and the last function executed is that of the final state and returned
`kBatteryLast`. -/
theorem C24_presence_machine_terminates (bd : Bool) (rd : Option nyx_battery_status_t)
    (g : nyx_battery_status_t) (a e : Bool) (c : Option nyx_battery_ctia_t)
    (cs : nyx_charger_status_t) (fpu : DoubleArith) (n : Nat) (w : World) :
    ∃ w' calls, battery_state_iterate (n + 4) (Hardware.fixed bd rd g a e c cs fpu) w =
        .returned w' ∧
      presenceCallTrace w'.log = presenceCallTrace w.log ++ calls ∧
      1 ≤ calls.length ∧ calls.length ≤ 4 ∧ calls.length - 1 ≤ 3 ∧
      ∃ v, v.state_node = w'.state_node ∧
        batteryStateProc v.state_node (Hardware.fixed bd rd g a e c cs fpu)
          (emit (.call_battery_state v.state_node) v) = (kBatteryLast, w') := by
  have h4 := presenceRank_le_four (fixedReading bd rd g).present
    (w.battery_ctia_params.skip_battery_authentication || a) w.state_node
  obtain ⟨w', calls, h1, h2, h3, h5, h6⟩ := battery_state_iterate_fixed_trace bd rd g a e c cs
    fpu (n + 4) w (by omega)
  exact ⟨w', calls, h1, h2, h3, by omega, by omega, h6⟩

/-! ## C28: the state tables -/

theorem ChargeStateIterate_node_ne_last (fuel : Nat) (cfg : chargeConfig_t)
    (inputs : List (Hardware × nyx_charger_event_t)) (w : World) (hn : nodeMatches w)
    (hl : w.gCurrentChargeState.current_state ≠ kChargeStateLast) :
    (dispatch_all fuel cfg inputs w).world.gCurrentChargeState.state_node ≠ kChargeStateLast := by
  have h := ViewStep_lift (fun v => v.2.1 = v.1 ∧ v.1 ≠ kChargeStateLast)
    (fun v v' hs hv => by
      cases hs with
      | jump c n t _ => exact ⟨rfl, by simp⟩
      | assign c n s t hne _ _ => exact ⟨rfl, hne⟩) _ _
    (steps_dispatch_all fuel cfg inputs w) ⟨hn, hl⟩
  simp only [mview] at h
  rw [h.1]
  exact h.2

theorem battery_state_iterate_node_ne_last (fuel : Nat) (hw : Hardware) (w : World)
    (h : w.state_node ≠ kBatteryLast) :
    (battery_state_iterate fuel hw w).world.state_node ≠ kBatteryLast := by
  induction fuel generalizing w with
  | zero => exact h
  | succ n ih =>
    simp only [battery_state_iterate]
    split
    · next hne => exact ih _ (by simpa using hne)
    · simpa using h

theorem ChargingLogicUpdate_state_node (fuel : Nat) (cfg : chargeConfig_t) (hw : Hardware)
    (ev : nyx_charger_event_t) (w : World) :
    (ChargingLogicUpdate fuel cfg hw ev w).world.state_node = w.state_node := by
  simp only [ChargingLogicUpdate]
  split
  · rfl
  · split
    · simp
    · simp only [ChargeStateIterate]
      have h1 := (ChargeStateIterate_loop_presence fuel cfg hw ev
        (battery_read hw (hw.uninitialized
          (battery_read hw (hw.uninitialized w.clock) w).2.clock)
          (battery_read hw (hw.uninitialized w.clock) w).2).2).1
      cases hl : ChargeStateIterate_loop fuel cfg hw ev (battery_read hw (hw.uninitialized
          (battery_read hw (hw.uninitialized w.clock) w).2.clock)
          (battery_read hw (hw.uninitialized w.clock) w).2).2 with
      | running y =>
        rw [hl] at h1
        simpa using h1
      | returned y =>
        rw [hl] at h1
        simp only [Outcome.world_returned, battery_read_frame_state_node] at h1
        simp only [Outcome.bind_returned]
        split
        · rw [(ChargeStateIterate_loop_presence fuel cfg hw ev _).1]
          simp [h1]
        · simp [h1]

theorem handle_charger_event_voltage_state_node (hw : Hardware)
    (ev : nyx_charger_event_t) (w : World) :
    (handle_charger_event_voltage hw ev w).state_node = w.state_node := by
  unfold handle_charger_event_voltage
  repeat' split
  all_goals simp

theorem handle_charger_event_temperature_state_node (cfg : chargeConfig_t)
    (hw : Hardware) (ev : nyx_charger_event_t) (w : World) :
    (handle_charger_event_temperature cfg hw ev w).state_node = w.state_node := by
  simp only [handle_charger_event_temperature]
  repeat' split
  all_goals simp

/-- A property of the presence node that the presence loop keeps is kept by a dispatch. -/
theorem presence_node_handle_charger_event (P : BatteryState → Prop)
    (hP : ∀ (fuel : Nat) (hw : Hardware) (w : World), P w.state_node →
      P (battery_state_iterate fuel hw w).world.state_node)
    (fuel : Nat) (cfg : chargeConfig_t) (hw : Hardware) (ev : nyx_charger_event_t) (w : World)
    (hb : P w.state_node) : P (handle_charger_event fuel cfg hw ev w).world.state_node := by
  have hrules : ∀ v : World, P v.state_node →
      P (handle_charger_event_temperature cfg hw ev
        (handle_charger_event_voltage hw ev v)).state_node := fun v hv => by
    rw [handle_charger_event_temperature_state_node, handle_charger_event_voltage_state_node]
    exact hv
  have hp : P (handle_charger_event_rules fuel cfg hw ev w).world.state_node := by
    have h1 := hP fuel hw w hb
    unfold handle_charger_event_rules handle_charger_event_presence
    split
    · cases hi : battery_state_iterate fuel hw w with
      | running v =>
        rw [hi] at h1
        simpa using h1
      | returned v =>
        rw [hi] at h1
        simp only [Outcome.world_returned] at h1
        simp only [Outcome.bind_returned]
        split
        · exact hrules _ (by simpa using h1)
        · exact hrules _ h1
    · exact hrules _ hb
  rw [handle_charger_event_eq_rules]
  cases hr : handle_charger_event_rules fuel cfg hw ev w with
  | running u =>
    rw [hr] at hp
    simpa using hp
  | returned u =>
    rw [hr] at hp
    simp only [Outcome.world_returned] at hp
    simp only [Outcome.bind_returned]
    rw [ChargingLogicUpdate_state_node]
    exact hp

theorem presence_node_dispatch_all (P : BatteryState → Prop)
    (hP : ∀ (fuel : Nat) (hw : Hardware) (w : World), P w.state_node →
      P (battery_state_iterate fuel hw w).world.state_node)
    (fuel : Nat) (cfg : chargeConfig_t)
    (inputs : List (Hardware × nyx_charger_event_t)) (w : World) (hb : P w.state_node) :
    P (dispatch_all fuel cfg inputs w).world.state_node := by
  induction inputs generalizing w with
  | nil => exact hb
  | cons x rest ih =>
    obtain ⟨hw, ev⟩ := x
    have h1 := presence_node_handle_charger_event P hP fuel cfg hw ev w hb
    simp only [dispatch_all]
    cases hc : handle_charger_event fuel cfg hw ev w with
    | running v =>
      rw [hc] at h1
      simpa using h1
    | returned v =>
      rw [hc] at h1
      simp only [Outcome.world_returned] at h1
      simpa using ih v h1

theorem presence_node_reachable (P : BatteryState → Prop)
    (hP : ∀ (fuel : Nat) (hw : Hardware) (w : World), P w.state_node →
      P (battery_state_iterate fuel hw w).world.state_node)
    (h0 : P kBatteryDebounce)
    (fuel : Nat) (cfg : chargeConfig_t) (hw₀ : Hardware)
    (inputs : List (Hardware × nyx_charger_event_t)) :
    P ((boot fuel hw₀).bind (dispatch_all fuel cfg inputs)).world.state_node := by
  have hb : P (boot fuel hw₀).world.state_node := by
    have h1 := hP fuel hw₀ (battery_state_init (ChargeStateInit hw₀ World.zero)) h0
    unfold boot batterypoll_init
    cases hi : battery_state_iterate fuel hw₀
        (battery_state_init (ChargeStateInit hw₀ World.zero)) with
    | running v =>
      rw [hi] at h1
      simpa using h1
    | returned v =>
      rw [hi] at h1
      simpa using h1
  cases hboot : boot fuel hw₀ with
  | running b =>
    rw [hboot] at hb
    simpa using hb
  | returned b =>
    rw [hboot] at hb
    simp only [Outcome.world_returned] at hb
    simpa using presence_node_dispatch_all P hP fuel cfg inputs b hb

/-- C28: in both tables entry i holds state i and the table has as many entries as the value
of the Last enumerator, so the lookup at every state other than Last is in bounds and yields
that state with its function; every value a state function returns is Last or an index
into the table; and after every run of dispatches from boot, returned or not, the stored
charge node equals `current_state` and both stored nodes index their tables. -/
theorem C28_state_tables_in_bounds (fuel : Nat) (cfg : chargeConfig_t) (hw₀ : Hardware)
    (inputs : List (Hardware × nyx_charger_event_t)) :
    charging_logic.kStateMachine.map (fun e => e.1.toNat) =
      List.range kChargeStateLast.toNat ∧
    batterypoll.kStateMachine.map (fun e => e.1.toNat) = List.range kBatteryLast.toNat ∧
    (∀ s : ChargeState, s = kChargeStateLast ∨
      charging_logic.kStateMachine[s.toNat]? = some (s, chargeStateProc s)) ∧
    (∀ s : BatteryState, s = kBatteryLast ∨
      batterypoll.kStateMachine[s.toNat]? = some (s, batteryStateProc s)) ∧
    (∀ (s : ChargeState) (c : chargeConfig_t) (hw : Hardware) (ev : nyx_charger_event_t)
        (w : World),
      (chargeStateProc s c hw ev w).1 = kChargeStateLast ∨
        (chargeStateProc s c hw ev w).1.toNat < charging_logic.kStateMachine.length) ∧
    (∀ (s : BatteryState) (hw : Hardware) (w : World),
      (batteryStateProc s hw w).1 = kBatteryLast ∨
        (batteryStateProc s hw w).1.toNat < batterypoll.kStateMachine.length) ∧
    nodeMatches ((boot fuel hw₀).bind (dispatch_all fuel cfg inputs)).world ∧
    ((boot fuel hw₀).bind (dispatch_all fuel cfg inputs)).world.gCurrentChargeState.state_node.toNat
      < charging_logic.kStateMachine.length ∧
    ((boot fuel hw₀).bind (dispatch_all fuel cfg inputs)).world.state_node.toNat
      < batterypoll.kStateMachine.length := by
  refine ⟨by decide, by decide, ?_, ?_, ?_, ?_, nodeMatches_reachable fuel cfg hw₀ inputs,
    ?_, ?_⟩
  · intro s
    cases s
    all_goals first | exact Or.inl rfl | exact Or.inr rfl
  · intro s
    cases s
    all_goals first | exact Or.inl rfl | exact Or.inr rfl
  · intro s c hw ev w
    cases (chargeStateProc s c hw ev w).1
    all_goals first | exact Or.inl rfl | exact Or.inr (by decide)
  · intro s hw w
    cases (batteryStateProc s hw w).1
    all_goals first | exact Or.inl rfl | exact Or.inr (by decide)
  · have hne : ((boot fuel hw₀).bind
        (dispatch_all fuel cfg inputs)).world.gCurrentChargeState.state_node ≠
        kChargeStateLast := by
      have hb := nodeMatches_boot fuel hw₀
      have hc := boot_gCurrentChargeState fuel hw₀
      cases hboot : boot fuel hw₀ with
      | running b =>
        rw [hboot] at hc
        simp only [Outcome.world_running] at hc
        simp [hc]
      | returned b =>
        rw [hboot] at hb hc
        simp only [Outcome.world_returned] at hb hc
        simpa using ChargeStateIterate_node_ne_last fuel cfg inputs b hb (by simp [hc])
    revert hne
    cases ((boot fuel hw₀).bind
      (dispatch_all fuel cfg inputs)).world.gCurrentChargeState.state_node
    all_goals first | (intro hne; exact absurd rfl hne) | (intro _; decide)
  · have hne := presence_node_reachable (fun s => s ≠ kBatteryLast)
      (fun f hw w h => battery_state_iterate_node_ne_last f hw w h) (by decide)
      fuel cfg hw₀ inputs
    revert hne
    cases ((boot fuel hw₀).bind (dispatch_all fuel cfg inputs)).world.state_node
    all_goals first | (intro hne; exact absurd rfl hne) | (intro _; decide)

/-! ## C27: the removed-battery check -/

/-- The world a run of the table loop returns in has a matching node that is not the
Shutdown entry. -/
theorem ChargeStateIterate_loop_returned_node (fuel : Nat) (cfg : chargeConfig_t)
    (hw : Hardware) (ev : nyx_charger_event_t) (w y : World) (hn : nodeMatches w)
    (h : ChargeStateIterate_loop fuel cfg hw ev w = .returned y) :
    y.gCurrentChargeState.state_node ≠ kChargeStateShutdown ∧ nodeMatches y :=
  ChargeStateIterate_loop_post
    (fun v => v.gCurrentChargeState.state_node ≠ kChargeStateShutdown) cfg hw ev
    (fun v _ hl => by
      intro hs
      simp only [chargeStateProc_frame_g_state_node, emit_frame_gCurrentChargeState] at hs
      rw [hs] at hl
      simp [chargeStateProc] at hl)
    fuel w y hn h

theorem ChargeStateIterate_from_Shutdown (n : Nat) (cfg : chargeConfig_t) (hw : Hardware)
    (ev : nyx_charger_event_t) (w : World)
    (hn : w.gCurrentChargeState.state_node = kChargeStateShutdown) :
    ∃ w', ChargeStateIterate (n + 2) cfg hw ev w = .returned w' ∧
      w'.gCurrentChargeState.current_state = kChargeStateShutdownWait ∧
      w'.gCurrentChargeState.state_node = kChargeStateShutdownWait ∧
      w'.gCurrentChargeState.shutdown_reason = w.gCurrentChargeState.shutdown_reason ∧
      w'.gCurrentChargeState.charging_enabled = w.gCurrentChargeState.charging_enabled ∧
      chargeLog w'.log = chargeLog w.log ++
        [.call_state kChargeStateShutdown, .write_console,
          .MachineShutdown w.gCurrentChargeState.shutdown_reason,
          .current_state kChargeStateShutdownWait, .call_state kChargeStateShutdownWait] := by
  simp only [ChargeStateIterate]
  rw [ChargeStateIterate_loop_Shutdown _ _ _ _ _ (by simp [hn])]
  refine ⟨_, rfl, ?_, ?_, ?_, ?_, ?_⟩ <;> simp

theorem ChargeStateIterate_from_ShutdownWait (n : Nat) (cfg : chargeConfig_t) (hw : Hardware)
    (ev : nyx_charger_event_t) (w : World)
    (hn : w.gCurrentChargeState.state_node = kChargeStateShutdownWait) :
    ∃ w', ChargeStateIterate (n + 1) cfg hw ev w = .returned w' ∧
      w'.gCurrentChargeState = w.gCurrentChargeState ∧
      chargeLog w'.log = chargeLog w.log ++ [.call_state kChargeStateShutdownWait] := by
  simp only [ChargeStateIterate]
  rw [ChargeStateIterate_loop_ShutdownWait _ _ _ _ _ (by simp [hn])]
  refine ⟨_, rfl, ?_, ?_⟩ <;> simp

/-- C27 (counterexample): in `removedAfterShutdown` the machine is in ShutdownWait with the
reason of the earlier critical-voltage jump and the presence machine is in Removed.  A
dispatch through `ChargingLogicUpdate` with both guards off finds the presence machine in
Removed after the table iteration, and makes no jump: the only jump on record is still the
earlier one and the stored reason is not "battery removed.". -/
theorem C27_no_jump_when_already_shut_down :
    defaultConfig.skip_battery_check = false ∧ defaultConfig.disable_charging = false ∧
    removedAfterShutdown.gCurrentChargeState.current_state = kChargeStateShutdownWait ∧
    BatteryIsPresent (ChargeStateIterate 4 defaultConfig hwAbsent NYX_NO_NEW_EVENT
      (battery_read hwAbsent (hwAbsent.uninitialized removedAfterShutdown.clock)
        removedAfterShutdown).2).world = false ∧
    (ChargingLogicUpdate 4 defaultConfig hwAbsent NYX_NO_NEW_EVENT
      removedAfterShutdown).isReturned = true ∧
    jumpTrace (ChargingLogicUpdate 4 defaultConfig hwAbsent NYX_NO_NEW_EVENT
      removedAfterShutdown).world.log = ["battery voltage below threshold"] ∧
    jumpTrace removedAfterShutdown.log = ["battery voltage below threshold"] ∧
    (ChargingLogicUpdate 4 defaultConfig hwAbsent NYX_NO_NEW_EVENT
      removedAfterShutdown).world.gCurrentChargeState.shutdown_reason =
        "battery voltage below threshold" ∧
    shutdownTrace (ChargingLogicUpdate 4 defaultConfig hwAbsent NYX_NO_NEW_EVENT
      removedAfterShutdown).world.log = ["battery voltage below threshold"] := by
  decide!

/-- C27 (amended): with both guards off, a matching node and a budget of at least two, let
the table iteration of `ChargingLogicUpdate` return in a world `y`.  If the presence machine
is not in Removed there, the check makes no jump and the dispatch returns in `y`.  If it is
in Removed and `y` is outside the shutdown chain, the dispatch force-jumps with reason
"battery removed.", re-iterates, issues the shutdown request with that reason and returns
in ShutdownWait.  If it is in Removed and `y` is already in the shutdown chain, `y` is in
ShutdownWait, no jump is made and no request is issued, the stored reason is kept, and the
dispatch returns in ShutdownWait after running `StateShutdownWait` once more. -/
theorem C27_removed_battery_check (n : Nat) (cfg : chargeConfig_t) (hw : Hardware)
    (ev : nyx_charger_event_t) (w y : World)
    (hs : cfg.skip_battery_check = false) (hd : cfg.disable_charging = false)
    (hn : nodeMatches w)
    (hy : ChargeStateIterate (n + 2) cfg hw ev
      (battery_read hw (hw.uninitialized w.clock) w).2 = .returned y) :
    (BatteryIsPresent y = true →
      ChargingLogicUpdate (n + 2) cfg hw ev w = .returned y) ∧
    (BatteryIsPresent y = false →
      ∃ w', ChargingLogicUpdate (n + 2) cfg hw ev w = .returned w' ∧
        w'.gCurrentChargeState.current_state = kChargeStateShutdownWait ∧
        (inShutdown y.gCurrentChargeState.current_state = false →
          w'.gCurrentChargeState.shutdown_reason = "battery removed." ∧
          chargeLog w'.log = chargeLog y.log ++
            [.jump "battery removed.", .current_state kChargeStateShutdown,
              .call_state kChargeStateShutdown, .write_console,
              .MachineShutdown "battery removed.",
              .current_state kChargeStateShutdownWait,
              .call_state kChargeStateShutdownWait]) ∧
        (inShutdown y.gCurrentChargeState.current_state = true →
          y.gCurrentChargeState.current_state = kChargeStateShutdownWait ∧
          w'.gCurrentChargeState = y.gCurrentChargeState ∧
          chargeLog w'.log = chargeLog y.log ++ [.call_state kChargeStateShutdownWait])) := by
  have hloop : ChargeStateIterate_loop (n + 2) cfg hw ev
      (battery_read hw (hw.uninitialized (battery_read hw (hw.uninitialized w.clock) w).2.clock)
        (battery_read hw (hw.uninitialized w.clock) w).2).2 = .returned y := hy
  obtain ⟨hne, hny⟩ := ChargeStateIterate_loop_returned_node _ cfg hw ev _ y
    (nodeMatches_of_eq w _ (by simp) hn) hloop
  have hclu : ChargingLogicUpdate (n + 2) cfg hw ev w =
      if !BatteryIsPresent y then
        ChargeStateIterate (n + 2) cfg hw ev (_JumpToShutdownState "battery removed." y)
      else .returned y := by
    simp only [ChargingLogicUpdate, hs, hd, Bool.false_eq_true, if_false, hy,
      Outcome.bind_returned, CheckCriticalLevels]
    split <;> rfl
  refine ⟨fun hp => by rw [hclu]; simp [hp], fun hp => ?_⟩
  rw [hclu]
  simp only [hp, Bool.not_false, if_true]
  by_cases hin : inShutdown y.gCurrentChargeState.current_state = true
  · have hsw : y.gCurrentChargeState.current_state = kChargeStateShutdownWait := by
      unfold nodeMatches at hny
      rw [hny] at hne
      revert hin hne
      cases y.gCurrentChargeState.current_state <;> simp [inShutdown]
    rw [JumpToShutdownState_of_inShutdown _ _ hin]
    obtain ⟨w', h1, h2, h3⟩ := ChargeStateIterate_from_ShutdownWait (n + 1) cfg hw ev y
      (by rw [hny]; exact hsw)
    refine ⟨w', h1, by rw [h2]; exact hsw, fun hf => ?_, fun _ => ⟨hsw, h2, h3⟩⟩
    rw [hin] at hf
    exact absurd hf (by decide)
  · have hout : inShutdown y.gCurrentChargeState.current_state = false := by simpa using hin
    rw [JumpToShutdownState_of_not_inShutdown _ _ hout]
    obtain ⟨w', h1, h2, _, h4, _, h6⟩ := ChargeStateIterate_from_Shutdown n cfg hw ev
      (emit (.current_state kChargeStateShutdown) (emit (.jump "battery removed.")
        { y with gCurrentChargeState :=
          { y.gCurrentChargeState with
            shutdown_reason := "battery removed.", current_state := kChargeStateShutdown,
            state_node := kChargeStateShutdown } })) rfl
    refine ⟨w', h1, h2, fun _ => ⟨by rw [h4]; rfl, ?_⟩, fun ht => ?_⟩
    · rw [h6]
      simp
    · rw [hout] at ht
      exact absurd ht (by decide)

theorem C27_removed_battery_check_witness :
    defaultConfig.skip_battery_check = false ∧ defaultConfig.disable_charging = false ∧
    nodeMatches removedInIdle ∧
    BatteryIsPresent (ChargeStateIterate (2 + 2) defaultConfig hwAbsent eventBatteryAbsent
      (battery_read hwAbsent (hwAbsent.uninitialized removedInIdle.clock)
        removedInIdle).2).world = false ∧
    inShutdown (ChargeStateIterate (2 + 2) defaultConfig hwAbsent eventBatteryAbsent
      (battery_read hwAbsent (hwAbsent.uninitialized removedInIdle.clock)
        removedInIdle).2).world.gCurrentChargeState.current_state = false ∧
    ∃ w', ChargingLogicUpdate (2 + 2) defaultConfig hwAbsent eventBatteryAbsent removedInIdle =
        .returned w' ∧
      w'.gCurrentChargeState.current_state = kChargeStateShutdownWait ∧
      w'.gCurrentChargeState.shutdown_reason = "battery removed." :=
  ⟨rfl, rfl, by decide!, by decide!, by decide!,
    match (C27_removed_battery_check 2 defaultConfig hwAbsent eventBatteryAbsent removedInIdle
      (ChargeStateIterate (2 + 2) defaultConfig hwAbsent eventBatteryAbsent
        (battery_read hwAbsent (hwAbsent.uninitialized removedInIdle.clock)
          removedInIdle).2).world
      rfl rfl (by decide!) (by decide!)).2 (by decide!) with
    | ⟨w', h1, h2, h3, _⟩ => ⟨w', h1, h2, (h3 (by decide!)).1⟩⟩

/-! ## C30: the forced shutdown leaves the charging flag alone -/

theorem battery_read_snd (hw : Hardware) (s : nyx_battery_status_t) (w : World) :
    (battery_read hw s w).2 = tick w := by
  unfold battery_read
  repeat' split
  all_goals rfl

/-- The voltage and temperature blocks when one of them force-jumps and the charge-bound
branch is not taken: the node is Shutdown, the charging flag is untouched, and the only
actions of the charging logic are the jump and its assignment. -/
theorem escalation_keeps_flag (bd : Bool) (rd : Option nyx_battery_status_t)
    (g : nyx_battery_status_t) (a e : Bool) (c : Option nyx_battery_ctia_t)
    (cs : nyx_charger_status_t) (fpu : DoubleArith) (cfg : chargeConfig_t)
    (ev : nyx_charger_event_t) (v : World)
    (hns : inShutdown v.gCurrentChargeState.current_state = false)
    (hj : (ev.NYX_BATTERY_TEMPERATURE_LIMIT = true ∧
        BatteryTemperatureCriticalShutdown cfg v (fixedReading bd rd g) = true) ∨
      (ev.NYX_BATTERY_CRITICAL_VOLTAGE = true ∧ cs.is_charging = false ∧
        (ev.NYX_BATTERY_TEMPERATURE_LIMIT = false ∨
          (BatteryTemperatureHigh v (fixedReading bd rd g) = false ∧
            BatteryTemperatureLow v (fixedReading bd rd g) = false)))) :
    (handle_charger_event_temperature cfg (Hardware.fixed bd rd g a e c cs fpu) ev
      (handle_charger_event_voltage (Hardware.fixed bd rd g a e c cs fpu) ev
        v)).gCurrentChargeState.state_node = kChargeStateShutdown ∧
    (handle_charger_event_temperature cfg (Hardware.fixed bd rd g a e c cs fpu) ev
      (handle_charger_event_voltage (Hardware.fixed bd rd g a e c cs fpu) ev
        v)).gCurrentChargeState.charging_enabled = v.gCurrentChargeState.charging_enabled ∧
    ∃ r, (handle_charger_event_temperature cfg (Hardware.fixed bd rd g a e c cs fpu) ev
      (handle_charger_event_voltage (Hardware.fixed bd rd g a e c cs fpu) ev
        v)).gCurrentChargeState.shutdown_reason = r ∧
      chargeLog (handle_charger_event_temperature cfg (Hardware.fixed bd rd g a e c cs fpu)
      ev (handle_charger_event_voltage (Hardware.fixed bd rd g a e c cs fpu) ev v)).log =
        chargeLog v.log ++ [.jump r, .current_state kChargeStateShutdown] := by
  by_cases hvj : ev.NYX_BATTERY_CRITICAL_VOLTAGE = true ∧ cs.is_charging = false
  · have hvolt : handle_charger_event_voltage (Hardware.fixed bd rd g a e c cs fpu) ev v =
        _JumpToShutdownState "battery voltage below threshold" v := by
      simp [handle_charger_event_voltage, hvj.1, ChargerIsCharging, hvj.2]
    rw [hvolt, JumpToShutdownState_of_not_inShutdown _ _ hns]
    generalize hX : (emit (.current_state kChargeStateShutdown)
      (emit (.jump "battery voltage below threshold")
        { v with gCurrentChargeState :=
          { v.gCurrentChargeState with
            shutdown_reason := "battery voltage below threshold",
            current_state := kChargeStateShutdown,
            state_node := kChargeStateShutdown } })) = X
    have hX1 : X.gCurrentChargeState.state_node = kChargeStateShutdown := by rw [← hX]; rfl
    have hX2 : X.gCurrentChargeState.charging_enabled =
        v.gCurrentChargeState.charging_enabled := by rw [← hX]; rfl
    have hX3 : chargeLog X.log = chargeLog v.log ++
        [.jump "battery voltage below threshold", .current_state kChargeStateShutdown] := by
      rw [← hX]; simp
    have hX4 : inShutdown X.gCurrentChargeState.current_state = true := by rw [← hX]; rfl
    have hX6 : X.gCurrentChargeState.shutdown_reason = "battery voltage below threshold" := by
      rw [← hX]; rfl
    have hX5 : X.battery_ctia_params = v.battery_ctia_params := by rw [← hX]; rfl
    by_cases hT : ev.NYX_BATTERY_TEMPERATURE_LIMIT = true
    · simp only [handle_charger_event_temperature, hT, if_true, fixed_uninitialized,
        battery_read_fixed]
      by_cases hc : BatteryTemperatureCriticalShutdown cfg v (fixedReading bd rd g) = true
      · rw [BatteryTemperatureCriticalShutdown_congr cfg v _ _ (by simp [hX5]), hc]
        simp only [if_true]
        rw [JumpToShutdownState_of_inShutdown _ _ (by simpa using hX4)]
        exact ⟨by simpa using hX1, by simpa using hX2, _, by simpa using hX6,
          by simpa using hX3⟩
      · have hhl : BatteryTemperatureHigh v (fixedReading bd rd g) = false ∧
            BatteryTemperatureLow v (fixedReading bd rd g) = false := by
          rcases hj with hj | hj
          · exact absurd hj.2 hc
          · rcases hj.2.2 with hj | hj
            · rw [hT] at hj
              exact absurd hj (by decide)
            · exact hj
        rw [BatteryTemperatureCriticalShutdown_congr cfg v _ _ (by simp [hX5]),
          BatteryTemperatureHigh_congr v _ _ (by simp [hX5]),
          BatteryTemperatureLow_congr v _ _ (by simp [hX5]), hhl.1, hhl.2]
        simp only [hc, Bool.false_eq_true, if_false, Bool.or_self]
        exact ⟨by simpa using hX1, by simpa using hX2, _, by simpa using hX6,
          by simpa using hX3⟩
    · rw [handle_charger_event_temperature_idle _ _ _ _ (by simpa using hT)]
      exact ⟨hX1, hX2, _, hX6, hX3⟩
  · have hvolt : handle_charger_event_voltage (Hardware.fixed bd rd g a e c cs fpu) ev v = v := by
      apply handle_charger_event_voltage_idle
      by_cases h1 : ev.NYX_BATTERY_CRITICAL_VOLTAGE = true
      · right
        have : cs.is_charging ≠ false := fun h => hvj ⟨h1, h⟩
        simpa [ChargerIsCharging] using this
      · left
        simpa using h1
    rw [hvolt]
    rcases hj with hj | hj
    · simp only [handle_charger_event_temperature, hj.1, if_true, fixed_uninitialized,
        battery_read_fixed]
      rw [BatteryTemperatureCriticalShutdown_congr cfg v _ _ (by simp), hj.2]
      simp only [if_true]
      rw [JumpToShutdownState_of_not_inShutdown _ _ (by simpa using hns)]
      exact ⟨rfl, by simp, "battery temperature above max allowed", rfl, by simp⟩
    · exact absurd ⟨hj.1, hj.2.1⟩ hvj

/-- C30: `_JumpToShutdownState` changes nothing but `current_state`, `state_node` and
`shutdown_reason` (and the record of actions); `StateShutdown` leaves the charge runtime as
it is and `StateShutdownWait` leaves everything as it is.  So, with both guards off and
fixed hardware, a dispatch from Charging with `charging_enabled` = CHARGING_ENABLED whose
event carries the temperature-limit bit at a critical temperature, or the critical-voltage
bit while the charger reports not charging and the temperature-limit rule does not find a
charge bound violated, returns in ShutdownWait with `charging_enabled` still
CHARGING_ENABLED, and what the charging logic did is exactly: the jump, the execution of
`StateShutdown` with its shutdown request, and `StateShutdownWait` (once more when the
battery is Removed); no hardware disable call is among it. -/
theorem C30_forced_shutdown_keeps_charging_flag (bd : Bool)
    (rd : Option nyx_battery_status_t) (g : nyx_battery_status_t) (a e : Bool)
    (c : Option nyx_battery_ctia_t) (cs : nyx_charger_status_t) (fpu : DoubleArith) (n : Nat)
    (cfg : chargeConfig_t) (ev : nyx_charger_event_t) (w : World)
    (hs : cfg.skip_battery_check = false) (hd : cfg.disable_charging = false)
    (hcur : w.gCurrentChargeState.current_state = kChargeStateCharging)
    (hen : w.gCurrentChargeState.charging_enabled = CHARGING_ENABLED)
    (hj : (ev.NYX_BATTERY_TEMPERATURE_LIMIT = true ∧
        BatteryTemperatureCriticalShutdown cfg w (fixedReading bd rd g) = true) ∨
      (ev.NYX_BATTERY_CRITICAL_VOLTAGE = true ∧ cs.is_charging = false ∧
        (ev.NYX_BATTERY_TEMPERATURE_LIMIT = false ∨
          (BatteryTemperatureHigh w (fixedReading bd rd g) = false ∧
            BatteryTemperatureLow w (fixedReading bd rd g) = false)))) :
    (∀ (r : String) (v : World),
      { _JumpToShutdownState r v with
        log := v.log
        gCurrentChargeState :=
          { (_JumpToShutdownState r v).gCurrentChargeState with
            current_state := v.gCurrentChargeState.current_state
            state_node := v.gCurrentChargeState.state_node
            shutdown_reason := v.gCurrentChargeState.shutdown_reason } } = v) ∧
    (∀ (hw : Hardware) (v : World),
      (StateShutdown hw v).2.gCurrentChargeState = v.gCurrentChargeState ∧
      (StateShutdownWait v).2 = v) ∧
    ∃ w' r,
      handle_charger_event (n + 4) cfg (Hardware.fixed bd rd g a e c cs fpu) ev w
        = .returned w' ∧
      w'.gCurrentChargeState.current_state = kChargeStateShutdownWait ∧
      w'.gCurrentChargeState.charging_enabled = CHARGING_ENABLED ∧
      w'.gCurrentChargeState.shutdown_reason = r ∧
      chargeLog w'.log = chargeLog w.log ++
        ([.jump r, .current_state kChargeStateShutdown, .call_state kChargeStateShutdown,
          .write_console, .MachineShutdown r, .current_state kChargeStateShutdownWait,
          .call_state kChargeStateShutdownWait] ++
          if BatteryIsPresent w' then [] else [.call_state kChargeStateShutdownWait]) ∧
      (chargeLog w'.log).count .nyx_charger_disable_charging =
        (chargeLog w.log).count .nyx_charger_disable_charging := by
  refine ⟨fun r v => ?_, fun hw v => ⟨by simp, rfl⟩, ?_⟩
  · unfold _JumpToShutdownState
    split <;> rfl
  · obtain ⟨v, hv1, hv2, hv3, hv4, _, _⟩ :=
      handle_charger_event_presence_fixed bd rd g a e c cs fpu n ev w
    have hj' : (ev.NYX_BATTERY_TEMPERATURE_LIMIT = true ∧
          BatteryTemperatureCriticalShutdown cfg v (fixedReading bd rd g) = true) ∨
        (ev.NYX_BATTERY_CRITICAL_VOLTAGE = true ∧ cs.is_charging = false ∧
          (ev.NYX_BATTERY_TEMPERATURE_LIMIT = false ∨
            (BatteryTemperatureHigh v (fixedReading bd rd g) = false ∧
              BatteryTemperatureLow v (fixedReading bd rd g) = false))) := by
      rw [BatteryTemperatureCriticalShutdown_congr cfg w v _ hv3,
        BatteryTemperatureHigh_congr w v _ hv3, BatteryTemperatureLow_congr w v _ hv3]
      exact hj
    obtain ⟨e1, e2, r, e3, e4⟩ := escalation_keeps_flag bd rd g a e c cs fpu cfg ev v
      (by rw [hv2, hcur]; rfl) hj'
    have hdis : handle_charger_event (n + 4) cfg (Hardware.fixed bd rd g a e c cs fpu) ev w =
        ChargingLogicUpdate (n + 4) cfg (Hardware.fixed bd rd g a e c cs fpu) ev
          (handle_charger_event_temperature cfg (Hardware.fixed bd rd g a e c cs fpu) ev
            (handle_charger_event_voltage (Hardware.fixed bd rd g a e c cs fpu) ev v)) := by
      unfold handle_charger_event
      rw [hv1]
      rfl
    rw [hdis]
    generalize handle_charger_event_temperature cfg (Hardware.fixed bd rd g a e c cs fpu) ev
      (handle_charger_event_voltage (Hardware.fixed bd rd g a e c cs fpu) ev v) = X
      at e1 e2 e3 e4
    obtain ⟨w', k1, k2, _, k4, k5, k6, k7, _⟩ := ChargingLogicUpdate_from_Shutdown (n + 2) cfg
      (Hardware.fixed bd rd g a e c cs fpu) ev X e1 hs hd
    have hp : BatteryIsPresent w' = BatteryIsPresent X := by
      unfold BatteryIsPresent
      rw [k6]
    have hlog : chargeLog w'.log = chargeLog w.log ++
        ([.jump r, .current_state kChargeStateShutdown, .call_state kChargeStateShutdown,
          .write_console, .MachineShutdown r, .current_state kChargeStateShutdownWait,
          .call_state kChargeStateShutdownWait] ++
          if BatteryIsPresent w' then [] else [.call_state kChargeStateShutdownWait]) := by
      rw [k7, e4, hv4, e3, hp]
      simp
    refine ⟨w', r, k1, k2, by rw [k4, e2, hv2, hen], by rw [k5, e3], hlog, ?_⟩
    rw [hlog]
    split <;> simp [List.count_cons]

theorem C30_forced_shutdown_keeps_charging_flag_witness :
    defaultConfig.skip_battery_check = false ∧ defaultConfig.disable_charging = false ∧
    chargingAt25.gCurrentChargeState.current_state = kChargeStateCharging ∧
    chargingAt25.gCurrentChargeState.charging_enabled = CHARGING_ENABLED ∧
    eventTemperatureLimit.NYX_BATTERY_TEMPERATURE_LIMIT = true ∧
    BatteryTemperatureCriticalShutdown defaultConfig chargingAt25
      (fixedReading true (some { sampleReading 500 with temperature := 65 })
        (sampleReading 500)) = true ∧
    ∃ w' r,
      handle_charger_event (0 + 4) defaultConfig (hwAtTemperature 65) eventTemperatureLimit
        chargingAt25 = .returned w' ∧
      w'.gCurrentChargeState.current_state = kChargeStateShutdownWait ∧
      w'.gCurrentChargeState.charging_enabled = CHARGING_ENABLED ∧
      w'.gCurrentChargeState.shutdown_reason = r ∧
      (chargeLog w'.log).count .nyx_charger_disable_charging =
        (chargeLog chargingAt25.log).count .nyx_charger_disable_charging :=
  ⟨rfl, rfl, by decide!, by decide!, rfl, by decide!,
    match (C30_forced_shutdown_keeps_charging_flag true
      (some { sampleReading 500 with temperature := 65 }) (sampleReading 500) true true
      (some hotCtia) chargerOn exactArith 0 defaultConfig eventTemperatureLimit chargingAt25
      rfl rfl (by decide!) (by decide!) (Or.inl ⟨rfl, by decide!⟩)).2.2 with
    | ⟨w', r, h1, h2, h3, h4, _, h6⟩ => ⟨w', r, h1, h2, h3, h4, h6⟩⟩

/-! ## C29: what holds in Charging -/

@[simp] theorem enableTrace_nil : enableTrace [] = [] := rfl

@[simp] theorem enableTrace_append (l₁ l₂ : List Effect) :
    enableTrace (l₁ ++ l₂) = enableTrace l₁ ++ enableTrace l₂ := by
  simp [enableTrace]

theorem enableTrace_chargeLog (l : List Effect) : enableTrace (chargeLog l) = enableTrace l := by
  induction l with
  | nil => rfl
  | cons e l ih =>
    cases e <;> simp_all [chargeLog, enableTrace, List.filter_cons, Effect.isChargingLogic]

theorem enableTrace_tableLog (l : List Effect) : enableTrace (tableLog l) = enableTrace l := by
  induction l with
  | nil => rfl
  | cons e l ih =>
    cases e <;> simp_all [tableLog, enableTrace, List.filter_cons, Effect.isTableAction]

theorem enableTrace_eq_of_tableLog (l l' : List Effect) (h : tableLog l' = tableLog l) :
    enableTrace l' = enableTrace l := by
  rw [← enableTrace_tableLog l', h, enableTrace_tableLog]

theorem TurnChargingOff_enableTrace (hw : Hardware) (r : String) (w : World) :
    enableTrace (TurnChargingOff hw r w).log = enableTrace w.log :=
  enableTrace_eq_of_tableLog _ _ (TurnChargingOff_tableLog hw r w)

theorem TurnChargingON_enableTrace (hw : Hardware) (w : World) :
    enableTrace (TurnChargingON hw w).2.log =
      enableTrace w.log ++ [hw.nyx_charger_enable_charging w.clock] := by
  rw [← enableTrace_chargeLog, TurnChargingON_chargeLog, enableTrace_append,
    enableTrace_chargeLog]
  rfl

theorem JumpToShutdownState_enableTrace (r : String) (w : World) :
    enableTrace (_JumpToShutdownState r w).log = enableTrace w.log :=
  enableTrace_eq_of_tableLog _ _ (JumpToShutdownState_tableLog r w)

theorem StateShutdown_enableTrace (hw : Hardware) (w : World) :
    enableTrace (StateShutdown hw w).2.log = enableTrace w.log := by
  rw [← enableTrace_chargeLog, StateShutdown_chargeLog, enableTrace_append,
    enableTrace_chargeLog]
  simp [enableTrace]

/-- The enable call is made by `StateCharging` only, and by it only past its guards. -/
theorem chargeStateProc_enableTrace (s : ChargeState) (cfg : chargeConfig_t) (hw : Hardware)
    (ev : nyx_charger_event_t) (w : World)
    (h : s ≠ kChargeStateCharging ∨ BatteryIsAuthentic w = false ∨ carriesStopBit ev = true) :
    enableTrace (chargeStateProc s cfg hw ev w).2.log = enableTrace w.log := by
  cases s
  case kChargeStateCharging =>
    have h' : BatteryIsAuthentic w = false ∨ carriesStopBit ev = true := by
      rcases h with h | h
      · exact absurd rfl h
      · exact h
    simp only [chargeStateProc, StateCharging]
    split
    · rfl
    · next hc =>
      split
      · rfl
      · next h1 =>
        split
        · rfl
        · next h2 =>
          exfalso
          rcases h' with h' | h'
          · simp [h'] at hc
          · simp only [carriesStopBit, Bool.or_eq_true] at h'
            simp only [Bool.or_eq_true, not_or] at h2
            rcases h' with ((h' | h') | h') | h'
            · exact h1 h'
            · exact h2.1.1 h'
            · exact h2.1.2 h'
            · exact h2.2 h'
  all_goals simp only [chargeStateProc]
  · rw [StateIdle_snd]
    exact TurnChargingOff_enableTrace _ _ _
  · rw [StateFault_snd]
    exact TurnChargingOff_enableTrace _ _ _
  · rw [StateChargeComplete_snd]
    exact TurnChargingOff_enableTrace _ _ _
  · exact StateShutdown_enableTrace hw w
  · rfl

theorem StateCharging_last_enableTrace (cfg : chargeConfig_t) (hw : Hardware)
    (ev : nyx_charger_event_t) (w : World)
    (h : (StateCharging cfg hw ev w).1 = kChargeStateLast) :
    enableTrace (StateCharging cfg hw ev w).2.log = enableTrace w.log ++ [true] := by
  have he := StateCharging_last_enable cfg hw ev w h
  simp only [StateCharging] at h ⊢
  repeat' split at h
  all_goals simp_all [TurnChargingON_enableTrace]

theorem ChargeStateIterate_loop_enableTrace (fuel : Nat) (cfg : chargeConfig_t)
    (hw : Hardware) (ev : nyx_charger_event_t) (w : World)
    (h : BatteryIsAuthentic w = false ∨ carriesStopBit ev = true) :
    enableTrace (ChargeStateIterate_loop fuel cfg hw ev w).world.log = enableTrace w.log := by
  induction fuel generalizing w with
  | zero => simp [ChargeStateIterate_loop]
  | succ n ih =>
    have h1 : enableTrace (chargeStateProc w.gCurrentChargeState.state_node cfg hw ev
        (emit (.call_state w.gCurrentChargeState.state_node) w)).2.log = enableTrace w.log := by
      rw [chargeStateProc_enableTrace _ _ _ _ _ (Or.inr (by simpa [BatteryIsAuthentic] using h))]
      simp [enableTrace]
    rw [ChargeStateIterate_loop_succ]
    split
    · simpa using h1
    · rw [ih _ (by simpa [BatteryIsAuthentic] using h)]
      simpa [enableTrace] using h1

theorem ChargingLogicUpdate_enableTrace (fuel : Nat) (cfg : chargeConfig_t) (hw : Hardware)
    (ev : nyx_charger_event_t) (w : World)
    (h : BatteryIsAuthentic w = false ∨ carriesStopBit ev = true) :
    enableTrace (ChargingLogicUpdate fuel cfg hw ev w).world.log = enableTrace w.log := by
  simp only [ChargingLogicUpdate]
  split
  · rfl
  · split
    · simp
    · simp only [ChargeStateIterate]
      have h1 := ChargeStateIterate_loop_enableTrace fuel cfg hw ev
        (battery_read hw (hw.uninitialized
          (battery_read hw (hw.uninitialized w.clock) w).2.clock)
          (battery_read hw (hw.uninitialized w.clock) w).2).2
        (by simpa [BatteryIsAuthentic] using h)
      have h2 := (ChargeStateIterate_loop_presence fuel cfg hw ev
        (battery_read hw (hw.uninitialized
          (battery_read hw (hw.uninitialized w.clock) w).2.clock)
          (battery_read hw (hw.uninitialized w.clock) w).2).2).1
      cases hl : ChargeStateIterate_loop fuel cfg hw ev (battery_read hw (hw.uninitialized
          (battery_read hw (hw.uninitialized w.clock) w).2.clock)
          (battery_read hw (hw.uninitialized w.clock) w).2).2 with
      | running y =>
        rw [hl] at h1
        simpa using h1
      | returned y =>
        rw [hl] at h1 h2
        simp only [Outcome.world_returned, battery_read_frame_log,
          battery_read_frame_state_node] at h1 h2
        simp only [Outcome.bind_returned, CheckCriticalLevels]
        have hy : BatteryIsAuthentic y = false ∨ carriesStopBit ev = true := by
          simpa [BatteryIsAuthentic, h2] using h
        have hsecond : ∀ j : World, enableTrace j.log = enableTrace w.log →
            j.state_node = w.state_node →
            enableTrace (ChargeStateIterate_loop fuel cfg hw ev
              (battery_read hw (hw.uninitialized j.clock) j).2).world.log =
              enableTrace w.log := fun j hj1 hj2 => by
          rw [ChargeStateIterate_loop_enableTrace _ _ _ _ _ (by
            simpa [BatteryIsAuthentic, hj2] using h)]
          simpa using hj1
        repeat' split
        all_goals first
          | exact h1
          | exact hsecond _ h1 h2
          | exact hsecond _ ((JumpToShutdownState_enableTrace _ _).trans h1) (by simp [h2])
          | exact (JumpToShutdownState_enableTrace _ _).trans h1

/-- A dispatch whose event carries a stop bit, or that ends with the presence machine
outside Authentic, makes no hardware enable call. -/
theorem handle_charger_event_enableTrace (fuel : Nat) (cfg : chargeConfig_t) (hw : Hardware)
    (ev : nyx_charger_event_t) (w : World)
    (h : BatteryIsAuthentic (handle_charger_event fuel cfg hw ev w).world = false ∨
      carriesStopBit ev = true) :
    enableTrace (handle_charger_event fuel cfg hw ev w).world.log = enableTrace w.log := by
  have hr := enableTrace_eq_of_tableLog _ _ (handle_charger_event_rules_tableLog fuel cfg hw ev w)
  rw [handle_charger_event_eq_rules] at h ⊢
  cases hb : handle_charger_event_rules fuel cfg hw ev w with
  | running u =>
    rw [hb] at hr
    simpa using hr
  | returned u =>
    rw [hb] at hr h
    simp only [Outcome.world_returned] at hr
    simp only [Outcome.bind_returned] at h ⊢
    rw [ChargingLogicUpdate_enableTrace _ _ _ _ _ (by
      simpa [BatteryIsAuthentic, ChargingLogicUpdate_state_node] using h)]
    exact hr

/-- With a guard set, a dispatch never puts the machine in Charging. -/
theorem handle_charger_event_guarded_not_charging (fuel : Nat) (cfg : chargeConfig_t)
    (hw : Hardware) (ev : nyx_charger_event_t) (w : World)
    (hg : cfg.skip_battery_check = true ∨ cfg.disable_charging = true)
    (h : w.gCurrentChargeState.current_state ≠ kChargeStateCharging) :
    (handle_charger_event fuel cfg hw ev w).world.gCurrentChargeState.current_state ≠
      kChargeStateCharging := by
  have hr : (handle_charger_event_rules fuel cfg hw ev w).world.gCurrentChargeState.current_state
      ≠ kChargeStateCharging := by
    rcases (handle_charger_event_rules_jumpOrKeep fuel cfg hw ev w).2.1 with hk | hk
    · rw [hk.1]
      exact h
    · rw [hk.2.1]
      decide
  rw [handle_charger_event_eq_rules]
  cases hb : handle_charger_event_rules fuel cfg hw ev w with
  | running u =>
    rw [hb] at hr
    simpa using hr
  | returned u =>
    rw [hb] at hr
    simp only [Outcome.world_returned] at hr
    simp only [Outcome.bind_returned, ChargingLogicUpdate_guarded fuel cfg hw ev u hg,
      Outcome.world_returned]
    split
    · exact hr
    · simpa using hr

theorem dispatch_all_guarded_not_charging (fuel : Nat) (cfg : chargeConfig_t)
    (inputs : List (Hardware × nyx_charger_event_t)) (w : World)
    (hg : cfg.skip_battery_check = true ∨ cfg.disable_charging = true)
    (h : w.gCurrentChargeState.current_state ≠ kChargeStateCharging) :
    (dispatch_all fuel cfg inputs w).world.gCurrentChargeState.current_state ≠
      kChargeStateCharging := by
  induction inputs generalizing w with
  | nil => exact h
  | cons x rest ih =>
    obtain ⟨hw, ev⟩ := x
    have h1 := handle_charger_event_guarded_not_charging fuel cfg hw ev w hg h
    simp only [dispatch_all]
    cases hc : handle_charger_event fuel cfg hw ev w with
    | running v =>
      rw [hc] at h1
      simpa using h1
    | returned v =>
      rw [hc] at h1
      simp only [Outcome.world_returned] at h1
      simpa using ih v h1

/-- A run of dispatches from boot that reaches Charging has both guards off. -/
theorem reachable_charging_guards_off (fuel : Nat) (cfg : chargeConfig_t) (hw₀ : Hardware)
    (inputs : List (Hardware × nyx_charger_event_t))
    (hc : ((boot fuel hw₀).bind
      (dispatch_all fuel cfg inputs)).world.gCurrentChargeState.current_state =
        kChargeStateCharging) :
    cfg.skip_battery_check = false ∧ cfg.disable_charging = false := by
  by_contra hcon
  have hg : cfg.skip_battery_check = true ∨ cfg.disable_charging = true := by
    cases h1 : cfg.skip_battery_check <;> cases h2 : cfg.disable_charging <;> simp_all
  have hb := boot_gCurrentChargeState fuel hw₀
  cases hboot : boot fuel hw₀ with
  | running b =>
    rw [hboot] at hb hc
    simp only [Outcome.world_running] at hb
    simp only [Outcome.bind_running, Outcome.world_running] at hc
    rw [hb] at hc
    exact absurd hc (by decide)
  | returned b =>
    rw [hboot] at hb hc
    simp only [Outcome.world_returned] at hb
    simp only [Outcome.bind_returned] at hc
    exact dispatch_all_guarded_not_charging fuel cfg inputs b hg (by rw [hb]; decide) hc

theorem chargeStateProc_last_enableTrace (cfg : chargeConfig_t) (hw : Hardware)
    (ev : nyx_charger_event_t) (v : World) (hn : nodeMatches v)
    (hl : (chargeStateProc v.gCurrentChargeState.state_node cfg hw ev
      (emit (.call_state v.gCurrentChargeState.state_node) v)).1 = kChargeStateLast) :
    (chargeStateProc v.gCurrentChargeState.state_node cfg hw ev
        (emit (.call_state v.gCurrentChargeState.state_node) v)).2.gCurrentChargeState.current_state
        = kChargeStateCharging →
      ∃ t, enableTrace (chargeStateProc v.gCurrentChargeState.state_node cfg hw ev
        (emit (.call_state v.gCurrentChargeState.state_node) v)).2.log = t ++ [true] := by
  have hc : (chargeStateProc v.gCurrentChargeState.state_node cfg hw ev
      (emit (.call_state v.gCurrentChargeState.state_node)
        v)).2.gCurrentChargeState.current_state = v.gCurrentChargeState.state_node := by
    simpa using hn.symm
  rw [hc]
  intro hsn
  rw [hsn] at hl ⊢
  simp only [chargeStateProc] at hl ⊢
  exact ⟨_, StateCharging_last_enableTrace _ _ _ _ hl⟩

/-- C29: take any configuration (fake-battery mode included), any run of dispatches from
boot that has returned, and a further dispatch that returns with `current_state` Charging.
Then both guards are off, the presence machine is in Authentic, the charger is connected,
`charging_enabled` is CHARGING_ENABLED, and the last hardware enable call made returned
success.  Moreover, for every world and every input: the only state function that makes the
enable call is `StateCharging`, and it makes none when the battery is not Authentic or the
event carries a charge-complete, disconnected, restart or temperature-limit bit; and a
dispatch whose event carries one of these bits, or that ends with the presence machine
outside Authentic, makes no enable call whether or not it returns. -/
theorem C29_charging_means_enabled_and_authentic (fuel : Nat) (cfg : chargeConfig_t)
    (hw₀ : Hardware) (before : List (Hardware × nyx_charger_event_t)) (hw : Hardware)
    (ev : nyx_charger_event_t) (w w' : World)
    (hrun : (boot fuel hw₀).bind (dispatch_all fuel cfg before) = .returned w)
    (hlast : handle_charger_event fuel cfg hw ev w = .returned w')
    (hc : w'.gCurrentChargeState.current_state = kChargeStateCharging) :
    (cfg.skip_battery_check = false ∧ cfg.disable_charging = false) ∧
    BatteryIsAuthentic w' = true ∧
    ChargerIsConnected hw = true ∧
    w'.gCurrentChargeState.charging_enabled = CHARGING_ENABLED ∧
    (∃ t, enableTrace w'.log = t ++ [true]) ∧
    (∀ (s : ChargeState) (c : chargeConfig_t) (h : Hardware) (e : nyx_charger_event_t)
        (v : World),
      s ≠ kChargeStateCharging ∨ BatteryIsAuthentic v = false ∨ carriesStopBit e = true →
      enableTrace (chargeStateProc s c h e v).2.log = enableTrace v.log) ∧
    (∀ (f : Nat) (c : chargeConfig_t) (h : Hardware) (e : nyx_charger_event_t) (v : World),
      BatteryIsAuthentic (handle_charger_event f c h e v).world = false ∨
        carriesStopBit e = true →
      enableTrace (handle_charger_event f c h e v).world.log = enableTrace v.log) := by
  have hn : nodeMatches w := by
    have := nodeMatches_reachable fuel cfg hw₀ before
    rw [hrun] at this
    exact this
  have hg : cfg.skip_battery_check = false ∧ cfg.disable_charging = false := by
    by_contra hcon
    have hg : cfg.skip_battery_check = true ∨ cfg.disable_charging = true := by
      cases h1 : cfg.skip_battery_check <;> cases h2 : cfg.disable_charging <;> simp_all
    have hwn : w.gCurrentChargeState.current_state ≠ kChargeStateCharging := fun h =>
      hcon (reachable_charging_guards_off fuel cfg hw₀ before (by rw [hrun]; exact h))
    have := handle_charger_event_guarded_not_charging fuel cfg hw ev w hg hwn
    rw [hlast] at this
    exact this hc
  obtain ⟨hs, hd⟩ := hg
  obtain ⟨hcon, hauth⟩ := handle_charger_event_charging_rest fuel cfg hw ev w w' hs hd hn hlast hc
  have hflag := (handle_charger_event_flag fuel cfg hw ev w w' hs hd hn hlast).2.1 hc
  obtain ⟨v, hv, hl, _⟩ := handle_charger_event_returned fuel cfg hw ev w w' hs hd hn hlast
  have hen := (ChargeStateIterate_loop_post
    (fun x => x.gCurrentChargeState.current_state = kChargeStateCharging →
      ∃ t, enableTrace x.log = t ++ [true]) cfg hw ev
    (fun u hu hl => chargeStateProc_last_enableTrace cfg hw ev u hu hl) fuel v w' hv hl).1 hc
  exact ⟨⟨hs, hd⟩, hauth, hcon, hflag, hen,
    fun s c h e v hh => chargeStateProc_enableTrace s c h e v hh,
    fun f c h e v hh => handle_charger_event_enableTrace f c h e v hh⟩

theorem C29_charging_means_enabled_and_authentic_witness :
    (boot 4 (hwAtTemperature 25)).bind (dispatch_all 4 fakeBatteryConfig []) =
      .returned (boot 4 (hwAtTemperature 25)).world ∧
    handle_charger_event 4 fakeBatteryConfig (hwAtTemperature 25) eventConnected
      (boot 4 (hwAtTemperature 25)).world =
      .returned (handle_charger_event 4 fakeBatteryConfig (hwAtTemperature 25) eventConnected
        (boot 4 (hwAtTemperature 25)).world).world ∧
    (handle_charger_event 4 fakeBatteryConfig (hwAtTemperature 25) eventConnected
      (boot 4 (hwAtTemperature 25)).world).world.gCurrentChargeState.current_state =
      kChargeStateCharging ∧
    BatteryIsAuthentic (handle_charger_event 4 fakeBatteryConfig (hwAtTemperature 25)
      eventConnected (boot 4 (hwAtTemperature 25)).world).world = true ∧
    ChargerIsConnected (hwAtTemperature 25) = true ∧
    (handle_charger_event 4 fakeBatteryConfig (hwAtTemperature 25) eventConnected
      (boot 4 (hwAtTemperature 25)).world).world.gCurrentChargeState.charging_enabled =
      CHARGING_ENABLED ∧
    (∃ t, enableTrace (handle_charger_event 4 fakeBatteryConfig (hwAtTemperature 25)
      eventConnected (boot 4 (hwAtTemperature 25)).world).world.log = t ++ [true]) ∧
    enableTrace (handle_charger_event 4 defaultConfig (hwAtTemperature 25)
      eventTemperatureLimit chargingAt25).world.log = enableTrace chargingAt25.log :=
  ⟨by decide!, by decide!, by decide!,
    (C29_charging_means_enabled_and_authentic 4 fakeBatteryConfig (hwAtTemperature 25) []
      (hwAtTemperature 25) eventConnected (boot 4 (hwAtTemperature 25)).world
      (handle_charger_event 4 fakeBatteryConfig (hwAtTemperature 25) eventConnected
        (boot 4 (hwAtTemperature 25)).world).world
      (by decide!) (by decide!) (by decide!)).2.1,
    (C29_charging_means_enabled_and_authentic 4 fakeBatteryConfig (hwAtTemperature 25) []
      (hwAtTemperature 25) eventConnected (boot 4 (hwAtTemperature 25)).world
      (handle_charger_event 4 fakeBatteryConfig (hwAtTemperature 25) eventConnected
        (boot 4 (hwAtTemperature 25)).world).world
      (by decide!) (by decide!) (by decide!)).2.2.1,
    (C29_charging_means_enabled_and_authentic 4 fakeBatteryConfig (hwAtTemperature 25) []
      (hwAtTemperature 25) eventConnected (boot 4 (hwAtTemperature 25)).world
      (handle_charger_event 4 fakeBatteryConfig (hwAtTemperature 25) eventConnected
        (boot 4 (hwAtTemperature 25)).world).world
      (by decide!) (by decide!) (by decide!)).2.2.2.1,
    (C29_charging_means_enabled_and_authentic 4 fakeBatteryConfig (hwAtTemperature 25) []
      (hwAtTemperature 25) eventConnected (boot 4 (hwAtTemperature 25)).world
      (handle_charger_event 4 fakeBatteryConfig (hwAtTemperature 25) eventConnected
        (boot 4 (hwAtTemperature 25)).world).world
      (by decide!) (by decide!) (by decide!)).2.2.2.2.1,
    (C29_charging_means_enabled_and_authentic 4 fakeBatteryConfig (hwAtTemperature 25) []
      (hwAtTemperature 25) eventConnected (boot 4 (hwAtTemperature 25)).world
      (handle_charger_event 4 fakeBatteryConfig (hwAtTemperature 25) eventConnected
        (boot 4 (hwAtTemperature 25)).world).world
      (by decide!) (by decide!) (by decide!)).2.2.2.2.2.2 4 defaultConfig (hwAtTemperature 25)
      eventTemperatureLimit chargingAt25 (Or.inr rfl)⟩

end Powerd
